import Mathlib

/-!
# nesrs_go: a verification development for the 6502 core, the cartridge and the PPU

A shallow embedding of `nesrs/cpu/cpu.go` and `nesrs/cpu/memory.go`, of the loading of a ROM
image and the memory access of `nesrs/cartridge/cartridge.go` and
`nesrs/cartridge/ntmirroring.go`, and of the package `nesrs/ppu`.

The Go type `int` is embedded as `Int`.  Addition and subtraction are the ones of `Int`: every
quantity the interpreter computes from byte-sized registers and byte-sized memory cells stays
far below `2^63`, so no machine overflow is involved.  The bit operators of Go act on the
twos-complement representation; they are embedded by `andInt`, `orInt`, `Int.xor`, `~~~`, `<<<`
and `>>>`, which act on the (unbounded) twos-complement representation of an `Int` and agree
with the Go operators on every value of the `int` range.

A Go panic (array index out of range) is embedded as `none`.

A conditional assignment `if c { cpu.P = cpu.P | f }` is embedded as the update of the field by
a conditional value, `{ cpu with P := if c then cpu.P ||| f else cpu.P }`.
-/

namespace Nesrs

/-! ## Go integer bit operators -/

/-- The Go operator `a & b` on twos-complement integers. -/
def andInt : Int → Int → Int
  | Int.ofNat m, Int.ofNat n => Int.ofNat (m &&& n)
  | Int.ofNat m, Int.negSucc n => Int.ofNat (m ^^^ (m &&& n))
  | Int.negSucc m, Int.ofNat n => Int.ofNat (n ^^^ (n &&& m))
  | Int.negSucc m, Int.negSucc n => Int.negSucc (m ||| n)

/-- The Go operator `a | b` on twos-complement integers. -/
def orInt : Int → Int → Int
  | Int.ofNat m, Int.ofNat n => Int.ofNat (m ||| n)
  | Int.ofNat m, Int.negSucc n => Int.negSucc (n ^^^ (n &&& m))
  | Int.negSucc m, Int.ofNat n => Int.negSucc (m ^^^ (m &&& n))
  | Int.negSucc m, Int.negSucc n => Int.negSucc (m &&& n)

instance : AndOp Int := ⟨andInt⟩

instance : OrOp Int := ⟨orInt⟩

instance : Xor Int := ⟨Int.xor⟩

/-- The Go operator `a &^ b` (bit clear), which the language defines as `a & (^b)`. -/
def andNot (a b : Int) : Int := a &&& ~~~b

/-- The Go operator `a << n` for a constant shift count. -/
def shl (a : Int) (n : Nat) : Int := a <<< (n : Int)

/-- The Go operator `a >> n` (arithmetic shift) for a constant shift count. -/
def shr (a : Int) (n : Nat) : Int := a >>> n

/-! ## Constants of `cpu.go` -/

/-- Carry flag. -/
def flagC : Int := 0x01
/-- Zero flag. -/
def flagZ : Int := 0x02
/-- Interrupt-disable flag. -/
def flagI : Int := 0x04
/-- Decimal mode flag. -/
def flagD : Int := 0x08
/-- Break flag. -/
def flagB : Int := 0x10
/-- Unused flag, always 1. -/
def flagR : Int := 0x20
/-- Overflow flag. -/
def flagV : Int := 0x40
/-- Negative flag. -/
def flagN : Int := 0x80

/-- Interrupt type `RESET = iota + 1`. -/
def RESET : Int := 1
/-- Interrupt type `NMI`. -/
def NMI : Int := 2
/-- Interrupt type `IRQ`. -/
def IRQ : Int := 3

/-- Addressing modes (the constants `ACC ... IND2` of `cpu.go`). -/
inductive AddrMode where
  | ACC | IMPL | IMM | ABS | ZP | ZPX | ZPY | ABSX | ABSX2 | ABSY | ABSY2
  | REL | INDX | INDY | INDY2 | IND | IND2
  deriving DecidableEq, Repr

open AddrMode

/-- Base cycle count of each of the 256 opcodes. -/
def opCyclesLength : List Int :=
  [ 7, 6, 2, 8, 3, 3, 5, 5, 3, 2, 2, 2, 4, 4, 6, 6,
    2, 5, 2, 8, 4, 4, 6, 6, 2, 4, 2, 7, 4, 4, 7, 7,
    6, 6, 2, 8, 3, 3, 5, 5, 4, 2, 2, 2, 4, 4, 6, 6,
    2, 5, 2, 8, 4, 4, 6, 6, 2, 4, 2, 7, 4, 4, 7, 7,
    6, 6, 2, 8, 3, 3, 5, 5, 3, 2, 2, 2, 3, 4, 6, 6,
    2, 5, 2, 8, 4, 4, 6, 6, 2, 4, 2, 7, 4, 4, 7, 7,
    6, 6, 2, 8, 3, 3, 5, 5, 4, 2, 2, 2, 5, 4, 6, 6,
    2, 5, 2, 8, 4, 4, 6, 6, 2, 4, 2, 7, 4, 4, 7, 7,
    2, 6, 2, 6, 3, 3, 3, 3, 2, 2, 2, 2, 4, 4, 4, 4,
    2, 6, 2, 6, 4, 4, 4, 4, 2, 5, 2, 5, 5, 5, 5, 5,
    2, 6, 2, 6, 3, 3, 3, 3, 2, 2, 2, 2, 4, 4, 4, 4,
    2, 5, 2, 5, 4, 4, 4, 4, 2, 4, 2, 4, 4, 4, 4, 4,
    2, 6, 2, 8, 3, 3, 5, 5, 2, 2, 2, 2, 4, 4, 6, 6,
    2, 5, 2, 8, 4, 4, 6, 6, 2, 4, 2, 7, 4, 4, 7, 7,
    2, 6, 3, 8, 3, 3, 5, 5, 2, 2, 2, 2, 4, 4, 6, 6,
    2, 5, 2, 8, 4, 4, 6, 6, 2, 4, 2, 7, 4, 4, 7, 7 ]

/-- The array access `opCyclesLength[opCode]`; an index outside `0..255` panics. -/
def opCyclesLengthAt (opCode : Int) : Option Int :=
  if opCode < 0 then none else opCyclesLength[opCode.toNat]?

/-! ## CPU memory (`memory.go`) -/

/-- The interface `CPUMemory`: `Read(address)` returns the value, `Write(address, value)` returns
the additional cycles of the write.  Both may change the state of the memory and both may panic. -/
class CPUMemory (σ : Type) where
  /-- `Read(address int) int`. -/
  Read : σ → Int → Option (Int × σ)
  /-- `Write(address int, value int) int`. -/
  Write : σ → Int → Int → Option (Int × σ)

/-- The plain memory `TestCPUMemory`: `mem [64 * 1024]int`, indexed by the address. -/
structure TestCPUMemory where
  /-- The cells; only the indices `0 .. 65535` exist. -/
  mem : Int → Int

/-- `TestCPUMemory.Read`. -/
def TestCPUMemory.Read (memory : TestCPUMemory) (address : Int) : Option (Int × TestCPUMemory) :=
  if 0 ≤ address ∧ address < 64 * 1024 then some (memory.mem address, memory) else none

/-- `TestCPUMemory.Write`. -/
def TestCPUMemory.Write (memory : TestCPUMemory) (address value : Int) :
    Option (Int × TestCPUMemory) :=
  if 0 ≤ address ∧ address < 64 * 1024 then
    some (0, { mem := fun a => if a = address then value else memory.mem a })
  else none

instance : CPUMemory TestCPUMemory := ⟨TestCPUMemory.Read, TestCPUMemory.Write⟩

/-- The part of `*cartridge.Cartridge` that the CPU memory uses. -/
class PrgDevice (κ : Type) where
  /-- `ReadPrgMemory(cpuAddress int) int`. -/
  ReadPrgMemory : κ → Int → Option Int
  /-- `WritePrgMemory(cpuAddress int, value int)`. -/
  WritePrgMemory : κ → Int → Int → Option κ

/-- The part of `*ppu.PPU` that the CPU memory uses.  The operations act on the PPU alone: the
call of `vblReceiver.ReceiveVBL()` that a write to the control register can make, which requests
an NMI from the CPU for a later `ExecuteOp`, is not part of this interface. -/
class RegisterDevice (π : Type) where
  /-- `ReadRegister(register int) int`. -/
  ReadRegister : π → Int → Option (Int × π)
  /-- `WriteRegister(register int, value int)`. -/
  WriteRegister : π → Int → Int → Option π

/-- Register index `ppu.SpriteRAMIORegID`. -/
def SpriteRAMIORegID : Int := 4

/-- The memory `NESCPUMemory`: `ram [0x800]int` and the two device pointers, each possibly nil. -/
structure NESCPUMemory (κ π : Type) where
  /-- The cells of the internal RAM; only the indices `0 .. 0x7FF` exist. -/
  ram : Int → Int
  /-- The cartridge pointer. -/
  cartridge : Option κ
  /-- The PPU pointer. -/
  ppu : Option π

/-- `NESCPUMemory.Read`. -/
def NESCPUMemory.Read {κ π : Type} [PrgDevice κ] [RegisterDevice π]
    (memory : NESCPUMemory κ π) (address : Int) : Option (Int × NESCPUMemory κ π) :=
  let page := address &&& 0xF000
  if page = 0x0000 ∨ page = 0x1000 then
    some (memory.ram (address &&& 0x07FF), memory)
  else if page = 0x2000 ∨ page = 0x3000 then
    match memory.ppu with
    | some p =>
      match RegisterDevice.ReadRegister p (address &&& 0x0007) with
      | some (v, p1) => some (v, { memory with ppu := some p1 })
      | none => none
    | none => some (0, memory)
  else if page = 0x4000 then
    if address = 0x4015 then some (0, memory)
    else if address = 0x4016 then some (0, memory)
    else if address = 0x4017 then some (0, memory)
    else if address ≥ 0x4020 then
      match memory.cartridge with
      | some c => (PrgDevice.ReadPrgMemory c address).map fun v => (v, memory)
      | none => some (0, memory)
    else some (0, memory)
  else
    match memory.cartridge with
    | some c => (PrgDevice.ReadPrgMemory c address).map fun v => (v, memory)
    | none => some (0, memory)

/-- The loop of the OAM DMA in `NESCPUMemory.Write`: `n` iterations are left, each reads one byte
at `memAddress` and writes it to the sprite RAM register of the PPU. -/
def NESCPUMemory.dmaLoop {κ π : Type} [PrgDevice κ] [RegisterDevice π] :
    Nat → NESCPUMemory κ π → Int → Option (NESCPUMemory κ π)
  | 0, memory, _ => some memory
  | n + 1, memory, memAddress =>
    match NESCPUMemory.Read memory memAddress with
    | none => none
    | some (memValue, memory) =>
      match memory.ppu with
      | none => none
      | some p =>
        match RegisterDevice.WriteRegister p SpriteRAMIORegID memValue with
        | none => none
        | some p1 => NESCPUMemory.dmaLoop n { memory with ppu := some p1 } (memAddress + 1)

/-- `NESCPUMemory.Write`. -/
def NESCPUMemory.Write {κ π : Type} [PrgDevice κ] [RegisterDevice π]
    (memory : NESCPUMemory κ π) (address value : Int) : Option (Int × NESCPUMemory κ π) :=
  let page := address &&& 0xF000
  if page = 0x0000 ∨ page = 0x1000 then
    some (0, { memory with
      ram := fun a => if a = (address &&& 0x07FF) then value else memory.ram a })
  else if page = 0x2000 ∨ page = 0x3000 then
    match memory.ppu with
    | some p =>
      match RegisterDevice.WriteRegister p (address &&& 0x0007) value with
      | some p1 => some (0, { memory with ppu := some p1 })
      | none => none
    | none => some (0, memory)
  else if page = 0x4000 then
    if address ≤ 0x4013 ∨ address = 0x4015 ∨ address = 0x4017 then some (0, memory)
    else if address = 0x4014 then
      match memory.ppu with
      | some _ =>
        match NESCPUMemory.dmaLoop 256 memory (shl value 8) with
        | some memory1 => some (513, memory1)
        | none => none
      | none => some (513, memory)
    else if address = 0x4016 then some (0, memory)
    else if address ≥ 0x4020 then
      match memory.cartridge with
      | some c =>
        match PrgDevice.WritePrgMemory c address value with
        | some c1 => some (0, { memory with cartridge := some c1 })
        | none => none
      | none => some (0, memory)
    else some (0, memory)
  else
    match memory.cartridge with
    | some c =>
      match PrgDevice.WritePrgMemory c address value with
      | some c1 => some (0, { memory with cartridge := some c1 })
      | none => none
    | none => some (0, memory)

instance {κ π : Type} [PrgDevice κ] [RegisterDevice π] : CPUMemory (NESCPUMemory κ π) :=
  ⟨NESCPUMemory.Read, NESCPUMemory.Write⟩

/-- A device that is never there: the type of a nil `cartridge` or `ppu` pointer. -/
instance : PrgDevice Empty := ⟨(fun c _ => nomatch c), (fun c _ _ => nomatch c)⟩

/-- A device that is never there, for the PPU pointer. -/
instance : RegisterDevice Empty := ⟨(fun p _ => nomatch p), (fun p _ _ => nomatch p)⟩

/-! ## The CPU (`cpu.go`) -/

/-- The struct `CPU`. -/
structure CPU (σ : Type) where
  /-- Accumulator. -/
  A : Int
  /-- Index register X. -/
  X : Int
  /-- Index register Y. -/
  Y : Int
  /-- Stack pointer. -/
  S : Int
  /-- Status register. -/
  P : Int
  /-- Program counter. -/
  PC : Int
  /-- Number of cycles of the last executed op. -/
  OpCycles : Int
  /-- Pending interrupt, `0` when there is none. -/
  pendingInterrupt : Int
  /-- The addressable memory. -/
  memory : σ
  /-- Whether decimal mode is supported. -/
  decimalModeSupported : Bool

/-- `New`: every field but `memory` has the zero value of its type. -/
def New {σ : Type} (memory : σ) : CPU σ :=
  { A := 0, X := 0, Y := 0, S := 0, P := 0, PC := 0, OpCycles := 0, pendingInterrupt := 0,
    memory := memory, decimalModeSupported := false }

section
variable {σ : Type} [CPUMemory σ]

/-- `readMemory`. -/
def readMemory (cpu : CPU σ) (address : Int) : Option (Int × CPU σ) :=
  match CPUMemory.Read cpu.memory address with
  | some (value, memory) => some (value, { cpu with memory := memory })
  | none => none

/-- `writeMemory`. -/
def writeMemory (cpu : CPU σ) (address value : Int) : Option (CPU σ) :=
  match CPUMemory.Write cpu.memory address value with
  | some (additionalWriteCycles, memory) =>
    some { cpu with
      memory := memory
      OpCycles :=
        if additionalWriteCycles > 0 then cpu.OpCycles + additionalWriteCycles
        else cpu.OpCycles }
  | none => none

/-- `isPageBoundaryCrossed`. -/
def isPageBoundaryCrossed (address1 address2 : Int) : Bool :=
  shr address1 8 != shr address2 8

/-- `Init`. -/
def Init (cpu : CPU σ) : Option (Int × CPU σ) := do
  let cpu := { cpu with A := 0x00, X := 0x00, Y := 0x00, S := 0xFF,
                        P := flagB ||| flagR ||| flagI, OpCycles := 7 }
  let (high, cpu) ← readMemory cpu 0xFFFD
  let (low, cpu) ← readMemory cpu 0xFFFC
  let cpu := { cpu with PC := shl high 8 ||| low }
  some (cpu.OpCycles, cpu)

/-- `requestInterrupt`. -/
def requestInterrupt (cpu : CPU σ) (interruptType : Int) : CPU σ :=
  if cpu.pendingInterrupt = 0 then { cpu with pendingInterrupt := interruptType }
  else if cpu.pendingInterrupt = IRQ then { cpu with pendingInterrupt := interruptType }
  else if cpu.pendingInterrupt = NMI then
    if interruptType = RESET then { cpu with pendingInterrupt := interruptType } else cpu
  else if cpu.pendingInterrupt = RESET then cpu
  else cpu

/-- `Reset`. -/
def Reset (cpu : CPU σ) : CPU σ := requestInterrupt cpu RESET

/-- `NMI` (the method). -/
def CPU.NMI (cpu : CPU σ) : CPU σ := requestInterrupt cpu Nesrs.NMI

/-- `IRQ` (the method). -/
def CPU.IRQ (cpu : CPU σ) : CPU σ := requestInterrupt cpu Nesrs.IRQ

/-! ### Stack manipulation -/

/-- `push`. -/
def push (cpu : CPU σ) (value : Int) : Option (CPU σ) := do
  let cpu ← writeMemory cpu (0x0100 ||| cpu.S) value
  some { cpu with S := if cpu.S = 0x00 then 0xFF else cpu.S - 1 }

/-- `pop`. -/
def pop (cpu : CPU σ) : Option (Int × CPU σ) :=
  let cpu := { cpu with S := if cpu.S = 0xFF then 0x00 else cpu.S + 1 }
  readMemory cpu (0x0100 ||| cpu.S)

/-- `executePendingInterruptOp`. -/
def executePendingInterruptOp (cpu : CPU σ) : Option (CPU σ) := do
  let cpu := { cpu with OpCycles := 0 }
  let cpu ←
    if cpu.pendingInterrupt = RESET then do
      let cpu := { cpu with OpCycles := 7, A := 0x00, X := 0x00, Y := 0x00, S := 0xFF,
                            P := flagZ ||| flagR }
      let (high, cpu) ← readMemory cpu 0xFFFD
      let (low, cpu) ← readMemory cpu 0xFFFC
      some { cpu with PC := shl high 8 ||| low }
    else if cpu.pendingInterrupt = NMI then do
      let cpu := { cpu with OpCycles := 7 }
      let cpu ← push cpu (shr cpu.PC 8 &&& 0xFF)
      let cpu ← push cpu (andNot cpu.PC 0x00FF)
      let cpu ← push cpu (andNot cpu.P flagB)
      let cpu := { cpu with P := andNot cpu.P flagD }
      let (high, cpu) ← readMemory cpu 0xFFFB
      let (low, cpu) ← readMemory cpu 0xFFFA
      some { cpu with PC := shl high 8 ||| low }
    else if cpu.pendingInterrupt = IRQ ∧ (cpu.P &&& flagI) = 0 then do
      let cpu := { cpu with OpCycles := 7 }
      let cpu ← push cpu (shr cpu.PC 8 &&& 0xFF)
      let cpu ← push cpu (cpu.PC &&& 0x00FF)
      let cpu ← push cpu (andNot cpu.P flagB)
      let cpu := { cpu with P := andNot cpu.P flagD }
      let cpu := { cpu with P := andNot cpu.P flagI }
      let (high, cpu) ← readMemory cpu 0xFFFF
      let (low, cpu) ← readMemory cpu 0xFFFE
      some { cpu with PC := shl high 8 ||| low }
    else some cpu
  some { cpu with pendingInterrupt := 0 }

/-! ### Addressing modes -/

/-- Immediate addressing `calculateMemoryAddressIMM`. -/
def calculateMemoryAddressIMM (cpu : CPU σ) : Option (Int × CPU σ) :=
  let res := cpu.PC
  some (res, { cpu with PC := cpu.PC + 1 })

/-- Absolute addressing `calculateMemoryAddressABS`. -/
def calculateMemoryAddressABS (cpu : CPU σ) : Option (Int × CPU σ) := do
  let (low, cpu) ← readMemory cpu cpu.PC
  let cpu := { cpu with PC := cpu.PC + 1 }
  let (high, cpu) ← readMemory cpu cpu.PC
  let cpu := { cpu with PC := cpu.PC + 1 }
  some (0xFFFF &&& (shl high 8 ||| low), cpu)

/-- Zero page addressing `calculateMemoryAddressZP`. -/
def calculateMemoryAddressZP (cpu : CPU σ) : Option (Int × CPU σ) := do
  let (low, cpu) ← readMemory cpu cpu.PC
  let cpu := { cpu with PC := cpu.PC + 1 }
  some (low, cpu)

/-- Indexed zero page addressing with X `calculateMemoryAddressZPX`. -/
def calculateMemoryAddressZPX (cpu : CPU σ) : Option (Int × CPU σ) := do
  let (low, cpu) ← readMemory cpu cpu.PC
  let cpu := { cpu with PC := cpu.PC + 1 }
  some (0x00FF &&& (cpu.X + low), cpu)

/-- Indexed zero page addressing with Y `calculateMemoryAddressZPY`. -/
def calculateMemoryAddressZPY (cpu : CPU σ) : Option (Int × CPU σ) := do
  let (low, cpu) ← readMemory cpu cpu.PC
  let cpu := { cpu with PC := cpu.PC + 1 }
  some (0x00FF &&& (cpu.Y + low), cpu)

/-- Indexed absolute addressing with X `calculateMemoryAddressABSX`. -/
def calculateMemoryAddressABSX (cpu : CPU σ) (countAdditionalCycleOnPageBoundaryCrossed : Bool) :
    Option (Int × CPU σ) := do
  let (low, cpu) ← readMemory cpu cpu.PC
  let cpu := { cpu with PC := cpu.PC + 1 }
  let (high, cpu) ← readMemory cpu cpu.PC
  let cpu := { cpu with PC := cpu.PC + 1 }
  let address := 0xFFFF &&& (shl high 8 ||| low)
  let resultAddress := 0xFFFF &&& (address + cpu.X)
  let cpu := { cpu with OpCycles :=
    if countAdditionalCycleOnPageBoundaryCrossed && isPageBoundaryCrossed address resultAddress
    then cpu.OpCycles + 1 else cpu.OpCycles }
  some (resultAddress, cpu)

/-- Indexed absolute addressing with Y `calculateMemoryAddressABSY`. -/
def calculateMemoryAddressABSY (cpu : CPU σ) (countAdditionalCycleOnPageBoundaryCrossed : Bool) :
    Option (Int × CPU σ) := do
  let (low, cpu) ← readMemory cpu cpu.PC
  let cpu := { cpu with PC := cpu.PC + 1 }
  let (high, cpu) ← readMemory cpu cpu.PC
  let cpu := { cpu with PC := cpu.PC + 1 }
  let address := 0xFFFF &&& (shl high 8 ||| low)
  let resultAddress := 0xFFFF &&& (address + cpu.Y)
  let cpu := { cpu with OpCycles :=
    if countAdditionalCycleOnPageBoundaryCrossed && isPageBoundaryCrossed address resultAddress
    then cpu.OpCycles + 1 else cpu.OpCycles }
  some (resultAddress, cpu)

/-- Relative addressing `calculateMemoryAddressREL`. -/
def calculateMemoryAddressREL (cpu : CPU σ) : Option (Int × CPU σ) := do
  let (inc, cpu) ← readMemory cpu cpu.PC
  let cpu := { cpu with PC := cpu.PC + 1 }
  let (offset, isPositive) :=
    if (inc &&& 0x80) = 0 then (inc &&& 0x7F, true)
    else (0x7F + 1 - (inc &&& 0x7F), false)
  let address := if isPositive then cpu.PC + offset else cpu.PC - offset
  some (0xFFFF &&& address, cpu)

/-- Indexed indirect addressing `calculateMemoryAddressINDX`. -/
def calculateMemoryAddressINDX (cpu : CPU σ) : Option (Int × CPU σ) := do
  let (low, cpu) ← readMemory cpu cpu.PC
  let cpu := { cpu with PC := cpu.PC + 1 }
  let address := 0x00FF &&& (low + cpu.X)
  let nextAddress := 0x00FF &&& (address + 1)
  let (high1, cpu) ← readMemory cpu nextAddress
  let (low1, cpu) ← readMemory cpu address
  some (0xFFFF &&& (shl high1 8 ||| low1), cpu)

/-- Indirect indexed addressing `calculateMemoryAddressINDY`. -/
def calculateMemoryAddressINDY (cpu : CPU σ) (countAdditionalCycleOnPageBoundaryCrossed : Bool) :
    Option (Int × CPU σ) := do
  let (low, cpu) ← readMemory cpu cpu.PC
  let cpu := { cpu with PC := cpu.PC + 1 }
  let (lowAddress, cpu) ← readMemory cpu low
  let (highAddress, cpu) ← readMemory cpu (0x00FF &&& (low + 1))
  let address := 0xFFFF &&& (shl highAddress 8 ||| lowAddress)
  let resultAddress := 0xFFFF &&& (address + cpu.Y)
  let cpu := { cpu with OpCycles :=
    if countAdditionalCycleOnPageBoundaryCrossed && isPageBoundaryCrossed address resultAddress
    then cpu.OpCycles + 1 else cpu.OpCycles }
  some (resultAddress, cpu)

/-- Absolute indirect addressing `calculateMemoryAddressIND`. -/
def calculateMemoryAddressIND (cpu : CPU σ) (isPageWrappingNotAllowed : Bool) :
    Option (Int × CPU σ) := do
  let (low, cpu) ← readMemory cpu cpu.PC
  let cpu := { cpu with PC := cpu.PC + 1 }
  let (high, cpu) ← readMemory cpu cpu.PC
  let cpu := { cpu with PC := cpu.PC + 1 }
  let address := 0xFFFF &&& (shl high 8 ||| low)
  let nextAddress :=
    if (address &&& 0xFF) = 0xFF ∧ isPageWrappingNotAllowed = true then address &&& 0xFF00
    else address + 1
  let (high1, cpu) ← readMemory cpu nextAddress
  let (low1, cpu) ← readMemory cpu address
  some (0xFFFF &&& (shl high1 8 ||| low1), cpu)

/-- The dispatch `calculateMemoryAddress`. -/
def calculateMemoryAddress (cpu : CPU σ) (mode : AddrMode) : Option (Int × CPU σ) :=
  match mode with
  | ACC => some (0, cpu)
  | IMPL => some (0, cpu)
  | IMM => calculateMemoryAddressIMM cpu
  | ABS => calculateMemoryAddressABS cpu
  | ZP => calculateMemoryAddressZP cpu
  | ZPX => calculateMemoryAddressZPX cpu
  | ZPY => calculateMemoryAddressZPY cpu
  | ABSX => calculateMemoryAddressABSX cpu false
  | ABSX2 => calculateMemoryAddressABSX cpu true
  | ABSY => calculateMemoryAddressABSY cpu false
  | ABSY2 => calculateMemoryAddressABSY cpu true
  | REL => calculateMemoryAddressREL cpu
  | INDX => calculateMemoryAddressINDX cpu
  | INDY => calculateMemoryAddressINDY cpu false
  | INDY2 => calculateMemoryAddressINDY cpu true
  | IND => calculateMemoryAddressIND cpu false
  | IND2 => calculateMemoryAddressIND cpu true

/-! ### Instructions -/

/-- `opADC`. -/
def opADC (cpu : CPU σ) (mode : AddrMode) : Option (CPU σ) := do
  let (address, cpu) ← calculateMemoryAddress cpu mode
  let (value, cpu) ← readMemory cpu address
  if (cpu.P &&& flagD) = 0 ∨ cpu.decimalModeSupported = false then
    let res := cpu.A + value
    let res := if (cpu.P &&& flagC) ≠ 0 then res + 1 else res
    let cpu := { cpu with P := andNot cpu.P (flagN ||| flagV ||| flagZ ||| flagC) }
    let cpu := { cpu with P := cpu.P ||| (res &&& flagN) }
    let cpu := { cpu with P :=
      if (andNot (cpu.A ^^^ (res &&& 0xFF)) (cpu.A ^^^ value) &&& 0x80) ≠ 0
      then cpu.P ||| flagV else cpu.P }
    let cpu := { cpu with P := if (res &&& 0xFF) = 0 then cpu.P ||| flagZ else cpu.P }
    let cpu := { cpu with P := if res > 0xFF then cpu.P ||| flagC else cpu.P }
    some { cpu with A := res &&& 0xFF }
  else
    let carry : Int := if (cpu.P &&& flagC) ≠ 0 then 1 else 0
    let AL := (cpu.A &&& 15) + (value &&& 15) + carry
    let AH := shr cpu.A 4 + shr value 4
    let AH := if AL > 15 then AH + 1 else AH
    let AL := if AL > 9 then AL + 6 else AL
    let cpu := { cpu with P := if (AH &&& 8) ≠ 0 then cpu.P ||| flagN else cpu.P }
    let cpu := { cpu with P :=
      if ((shl AH 4 ^^^ cpu.A) &&& 128) ≠ 0 ∧ ((cpu.A ^^^ value) &&& 128) = 0
      then cpu.P ||| flagV else cpu.P }
    let cpu := { cpu with P := if cpu.A + value + carry ≠ 0 then cpu.P ||| flagZ else cpu.P }
    let AH := if AH > 9 then AH + 6 else AH
    let cpu := { cpu with P := if AH > 15 then cpu.P ||| flagC else cpu.P }
    some { cpu with A := (shl AH 4 ||| (AL &&& 15)) &&& 255 }

/-- `opAND`. -/
def opAND (cpu : CPU σ) (mode : AddrMode) : Option (CPU σ) := do
  let (address, cpu) ← calculateMemoryAddress cpu mode
  let (value, cpu) ← readMemory cpu address
  let cpu := { cpu with A := cpu.A &&& value }
  let cpu := { cpu with P := andNot cpu.P (flagN ||| flagZ) }
  let cpu := { cpu with P := if (cpu.A &&& 0x80) ≠ 0 then cpu.P ||| flagN else cpu.P }
  let cpu := { cpu with P := if cpu.A = 0 then cpu.P ||| flagZ else cpu.P }
  some cpu

/-- `opASLInt`. -/
def opASLInt (cpu : CPU σ) (value : Int) : Int × CPU σ :=
  let res := shl value 1 &&& 0xFF
  let cpu := { cpu with P := andNot cpu.P (flagN ||| flagZ ||| flagC) }
  let cpu := { cpu with P := if (res &&& 0x80) > 0 then cpu.P ||| flagN else cpu.P }
  let cpu := { cpu with P := if res = 0 then cpu.P ||| flagZ else cpu.P }
  let cpu := { cpu with P := if (value &&& 0x80) > 0 then cpu.P ||| flagC else cpu.P }
  (res, cpu)

/-- `opASL`. -/
def opASL (cpu : CPU σ) (mode : AddrMode) : Option (CPU σ) :=
  if mode = ACC then
    let (res, cpu) := opASLInt cpu cpu.A
    some { cpu with A := res }
  else do
    let (address, cpu) ← calculateMemoryAddress cpu mode
    let (value, cpu) ← readMemory cpu address
    let (newValue, cpu) := opASLInt cpu value
    writeMemory cpu address newValue

/-- `opBranch`. -/
def opBranch (cpu : CPU σ) (condition : Bool) (jumpAddress : Int) : CPU σ :=
  if condition then
    let cpu := { cpu with OpCycles :=
      if isPageBoundaryCrossed cpu.PC jumpAddress then cpu.OpCycles + 2 else cpu.OpCycles + 1 }
    { cpu with PC := jumpAddress }
  else cpu

/-- `opBCC`. -/
def opBCC (cpu : CPU σ) (mode : AddrMode) : Option (CPU σ) := do
  let condition := decide ((cpu.P &&& flagC) = 0)
  let (jumpAddress, cpu) ← calculateMemoryAddress cpu mode
  some (opBranch cpu condition jumpAddress)

/-- `opBCS`. -/
def opBCS (cpu : CPU σ) (mode : AddrMode) : Option (CPU σ) := do
  let condition := decide ((cpu.P &&& flagC) ≠ 0)
  let (jumpAddress, cpu) ← calculateMemoryAddress cpu mode
  some (opBranch cpu condition jumpAddress)

/-- `opBEQ`. -/
def opBEQ (cpu : CPU σ) (mode : AddrMode) : Option (CPU σ) := do
  let condition := decide ((cpu.P &&& flagZ) ≠ 0)
  let (jumpAddress, cpu) ← calculateMemoryAddress cpu mode
  some (opBranch cpu condition jumpAddress)

/-- `opBMI`. -/
def opBMI (cpu : CPU σ) (mode : AddrMode) : Option (CPU σ) := do
  let condition := decide ((cpu.P &&& flagN) ≠ 0)
  let (jumpAddress, cpu) ← calculateMemoryAddress cpu mode
  some (opBranch cpu condition jumpAddress)

/-- `opBNE`. -/
def opBNE (cpu : CPU σ) (mode : AddrMode) : Option (CPU σ) := do
  let condition := decide ((cpu.P &&& flagZ) = 0)
  let (jumpAddress, cpu) ← calculateMemoryAddress cpu mode
  some (opBranch cpu condition jumpAddress)

/-- `opBPL`. -/
def opBPL (cpu : CPU σ) (mode : AddrMode) : Option (CPU σ) := do
  let condition := decide ((cpu.P &&& flagN) = 0)
  let (jumpAddress, cpu) ← calculateMemoryAddress cpu mode
  some (opBranch cpu condition jumpAddress)

/-- `opBVC`. -/
def opBVC (cpu : CPU σ) (mode : AddrMode) : Option (CPU σ) := do
  let condition := decide ((cpu.P &&& flagV) = 0)
  let (jumpAddress, cpu) ← calculateMemoryAddress cpu mode
  some (opBranch cpu condition jumpAddress)

/-- `opBVS`. -/
def opBVS (cpu : CPU σ) (mode : AddrMode) : Option (CPU σ) := do
  let condition := decide ((cpu.P &&& flagV) ≠ 0)
  let (jumpAddress, cpu) ← calculateMemoryAddress cpu mode
  some (opBranch cpu condition jumpAddress)

/-- `opBIT`. -/
def opBIT (cpu : CPU σ) (mode : AddrMode) : Option (CPU σ) := do
  let (address, cpu) ← calculateMemoryAddress cpu mode
  let (value, cpu) ← readMemory cpu address
  let cpu := { cpu with P := andNot cpu.P (flagN ||| flagV ||| flagZ) }
  let cpu := { cpu with P := if (value &&& 0x80) ≠ 0 then cpu.P ||| flagN else cpu.P }
  let cpu := { cpu with P := if (value &&& 0x40) ≠ 0 then cpu.P ||| flagV else cpu.P }
  let cpu := { cpu with P := if (cpu.A &&& value) = 0 then cpu.P ||| flagZ else cpu.P }
  some cpu

/-- `opBRK`. -/
def opBRK (cpu : CPU σ) : Option (CPU σ) := do
  let cpu := { cpu with PC := cpu.PC + 1 }
  let cpu ← push cpu (shr cpu.PC 8)
  let cpu ← push cpu (cpu.PC &&& 0xFF)
  let cpu := { cpu with P := cpu.P ||| flagB }
  let cpu ← push cpu cpu.P
  let (high, cpu) ← readMemory cpu 0xFFFF
  let (low, cpu) ← readMemory cpu 0xFFFE
  some { cpu with PC := shl high 8 ||| low }

/-- `opCompare`. -/
def opCompare (cpu : CPU σ) (register value : Int) : CPU σ :=
  let res := (register - value) &&& 0xFF
  let cpu := { cpu with P := andNot cpu.P (flagN ||| flagZ ||| flagC) }
  let cpu := { cpu with P := if (res &&& 0x80) ≠ 0 then cpu.P ||| flagN else cpu.P }
  let cpu := { cpu with P := if res = 0 then cpu.P ||| flagZ else cpu.P }
  let cpu := { cpu with P := if register ≥ value then cpu.P ||| flagC else cpu.P }
  cpu

/-- `opCMP`. -/
def opCMP (cpu : CPU σ) (mode : AddrMode) : Option (CPU σ) := do
  let (address, cpu) ← calculateMemoryAddress cpu mode
  let (value, cpu) ← readMemory cpu address
  some (opCompare cpu cpu.A value)

/-- `opCPX`. -/
def opCPX (cpu : CPU σ) (mode : AddrMode) : Option (CPU σ) := do
  let (address, cpu) ← calculateMemoryAddress cpu mode
  let (value, cpu) ← readMemory cpu address
  some (opCompare cpu cpu.X value)

/-- `opCPY`. -/
def opCPY (cpu : CPU σ) (mode : AddrMode) : Option (CPU σ) := do
  let (address, cpu) ← calculateMemoryAddress cpu mode
  let (value, cpu) ← readMemory cpu address
  some (opCompare cpu cpu.Y value)

/-- `opDecrease`. -/
def opDecrease (cpu : CPU σ) (value : Int) : Int × CPU σ :=
  let res := (value - 1) &&& 0xFF
  let cpu := { cpu with P := andNot cpu.P (flagN ||| flagZ) }
  let cpu := { cpu with P := if (res &&& 0x80) ≠ 0 then cpu.P ||| flagN else cpu.P }
  let cpu := { cpu with P := if res = 0 then cpu.P ||| flagZ else cpu.P }
  (res, cpu)

/-- `opDEC`. -/
def opDEC (cpu : CPU σ) (mode : AddrMode) : Option (CPU σ) := do
  let (address, cpu) ← calculateMemoryAddress cpu mode
  let (value, cpu) ← readMemory cpu address
  let (res, cpu) := opDecrease cpu value
  writeMemory cpu address res

/-- `opEORInt`. -/
def opEORInt (cpu : CPU σ) (value : Int) : CPU σ :=
  let cpu := { cpu with A := cpu.A ^^^ value }
  let cpu := { cpu with P := andNot cpu.P (flagN ||| flagZ) }
  let cpu := { cpu with P := if (cpu.A &&& 0x80) ≠ 0 then cpu.P ||| flagN else cpu.P }
  let cpu := { cpu with P := if cpu.A = 0 then cpu.P ||| flagZ else cpu.P }
  cpu

/-- `opEOR`. -/
def opEOR (cpu : CPU σ) (mode : AddrMode) : Option (CPU σ) := do
  let (address, cpu) ← calculateMemoryAddress cpu mode
  let (value, cpu) ← readMemory cpu address
  some (opEORInt cpu value)

/-- `opIncrease`. -/
def opIncrease (cpu : CPU σ) (value : Int) : Int × CPU σ :=
  let res := (value + 1) &&& 0xFF
  let cpu := { cpu with P := andNot cpu.P (flagN ||| flagZ) }
  let cpu := { cpu with P := if (res &&& 0x80) ≠ 0 then cpu.P ||| flagN else cpu.P }
  let cpu := { cpu with P := if res = 0 then cpu.P ||| flagZ else cpu.P }
  (res, cpu)

/-- `opINC`. -/
def opINC (cpu : CPU σ) (mode : AddrMode) : Option (CPU σ) := do
  let (address, cpu) ← calculateMemoryAddress cpu mode
  let (value, cpu) ← readMemory cpu address
  let (res, cpu) := opIncrease cpu value
  writeMemory cpu address res

/-- `opJMP`. -/
def opJMP (cpu : CPU σ) (mode : AddrMode) : Option (CPU σ) := do
  let (address, cpu) ← calculateMemoryAddress cpu mode
  some { cpu with PC := address }

/-- `opJSR`. -/
def opJSR (cpu : CPU σ) (mode : AddrMode) : Option (CPU σ) := do
  let (address, cpu) ← calculateMemoryAddress cpu mode
  let cpu := { cpu with PC := cpu.PC - 1 }
  let cpu ← push cpu (shr cpu.PC 8)
  let cpu ← push cpu (cpu.PC &&& 0xFF)
  some { cpu with PC := address }

/-- `opLoad`. -/
def opLoad (cpu : CPU σ) (value : Int) : Int × CPU σ :=
  let cpu := { cpu with P := andNot cpu.P (flagN ||| flagZ) }
  let cpu := { cpu with P := if (value &&& 0x80) ≠ 0 then cpu.P ||| flagN else cpu.P }
  let cpu := { cpu with P := if value = 0 then cpu.P ||| flagZ else cpu.P }
  (value, cpu)

/-- `opLDA`. -/
def opLDA (cpu : CPU σ) (mode : AddrMode) : Option (CPU σ) := do
  let (address, cpu) ← calculateMemoryAddress cpu mode
  let (value, cpu) ← readMemory cpu address
  let (res, cpu) := opLoad cpu value
  some { cpu with A := res }

/-- `opLDX`. -/
def opLDX (cpu : CPU σ) (mode : AddrMode) : Option (CPU σ) := do
  let (address, cpu) ← calculateMemoryAddress cpu mode
  let (value, cpu) ← readMemory cpu address
  let (res, cpu) := opLoad cpu value
  some { cpu with X := res }

/-- `opLDY`. -/
def opLDY (cpu : CPU σ) (mode : AddrMode) : Option (CPU σ) := do
  let (address, cpu) ← calculateMemoryAddress cpu mode
  let (value, cpu) ← readMemory cpu address
  let (res, cpu) := opLoad cpu value
  some { cpu with Y := res }

/-- `opLSRInt`. -/
def opLSRInt (cpu : CPU σ) (value : Int) : Int × CPU σ :=
  let res := 0x7F &&& shr value 1
  let cpu := { cpu with P := andNot cpu.P (flagN ||| flagZ ||| flagC) }
  let cpu := { cpu with P := if res = 0 then cpu.P ||| flagZ else cpu.P }
  let cpu := { cpu with P := if (value &&& 0x01) ≠ 0 then cpu.P ||| flagC else cpu.P }
  (res, cpu)

/-- `opLSR`. -/
def opLSR (cpu : CPU σ) (mode : AddrMode) : Option (CPU σ) :=
  if mode = ACC then
    let (res, cpu) := opLSRInt cpu cpu.A
    some { cpu with A := res }
  else do
    let (address, cpu) ← calculateMemoryAddress cpu mode
    let (value, cpu) ← readMemory cpu address
    let (newValue, cpu) := opLSRInt cpu value
    writeMemory cpu address newValue

/-- `opORAInt`. -/
def opORAInt (cpu : CPU σ) (value : Int) : CPU σ :=
  let cpu := { cpu with A := cpu.A ||| value }
  let cpu := { cpu with P := andNot cpu.P (flagN ||| flagZ) }
  let cpu := { cpu with P := if (cpu.A &&& 0x80) ≠ 0 then cpu.P ||| flagN else cpu.P }
  let cpu := { cpu with P := if cpu.A = 0 then cpu.P ||| flagZ else cpu.P }
  cpu

/-- `opORA`. -/
def opORA (cpu : CPU σ) (mode : AddrMode) : Option (CPU σ) := do
  let (address, cpu) ← calculateMemoryAddress cpu mode
  let (value, cpu) ← readMemory cpu address
  some (opORAInt cpu value)

/-- `opPHA`. -/
def opPHA (cpu : CPU σ) : Option (CPU σ) := push cpu cpu.A

/-- `opPHP`. -/
def opPHP (cpu : CPU σ) : Option (CPU σ) := push cpu (cpu.P ||| flagB)

/-- `opPLA`. -/
def opPLA (cpu : CPU σ) : Option (CPU σ) := do
  let (value, cpu) ← pop cpu
  let cpu := { cpu with A := value }
  let cpu := { cpu with P := andNot cpu.P (flagN ||| flagZ) }
  let cpu := { cpu with P := cpu.P ||| (cpu.A &&& flagN) }
  let cpu := { cpu with P := if cpu.A = 0 then cpu.P ||| flagZ else cpu.P }
  some cpu

/-- `opPLP`. -/
def opPLP (cpu : CPU σ) : Option (CPU σ) := do
  let (value, cpu) ← pop cpu
  some { cpu with P := andNot value flagB ||| flagR }

/-- `opROLInt`. -/
def opROLInt (cpu : CPU σ) (value : Int) : Int × CPU σ :=
  let res := shl value 1 &&& 0xFF
  let res := if (cpu.P &&& flagC) ≠ 0 then res ||| 1 else res
  let cpu := { cpu with P := andNot cpu.P (flagN ||| flagZ ||| flagC) }
  let cpu := { cpu with P := if (res &&& 0x80) ≠ 0 then cpu.P ||| flagN else cpu.P }
  let cpu := { cpu with P := if res = 0 then cpu.P ||| flagZ else cpu.P }
  let cpu := { cpu with P := if (value &&& 0x80) ≠ 0 then cpu.P ||| flagC else cpu.P }
  (res, cpu)

/-- `opROL`. -/
def opROL (cpu : CPU σ) (mode : AddrMode) : Option (CPU σ) :=
  if mode = ACC then
    let (res, cpu) := opROLInt cpu cpu.A
    some { cpu with A := res }
  else do
    let (address, cpu) ← calculateMemoryAddress cpu mode
    let (value, cpu) ← readMemory cpu address
    let (newValue, cpu) := opROLInt cpu value
    writeMemory cpu address newValue

/-- `opRORInt`. -/
def opRORInt (cpu : CPU σ) (value : Int) : Int × CPU σ :=
  let res := shr value 1 &&& 0xFF
  let res := if (cpu.P &&& flagC) ≠ 0 then res ||| 0x80 else res
  let cpu := { cpu with P := andNot cpu.P (flagN ||| flagZ ||| flagC) }
  let cpu := { cpu with P := if (res &&& 0x80) ≠ 0 then cpu.P ||| flagN else cpu.P }
  let cpu := { cpu with P := if res = 0 then cpu.P ||| flagZ else cpu.P }
  let cpu := { cpu with P := if (value &&& 0x01) ≠ 0 then cpu.P ||| flagC else cpu.P }
  (res, cpu)

/-- `opROR`. -/
def opROR (cpu : CPU σ) (mode : AddrMode) : Option (CPU σ) :=
  if mode = ACC then
    let (res, cpu) := opRORInt cpu cpu.A
    some { cpu with A := res }
  else do
    let (address, cpu) ← calculateMemoryAddress cpu mode
    let (value, cpu) ← readMemory cpu address
    let (newValue, cpu) := opRORInt cpu value
    writeMemory cpu address newValue

/-- `opRTI`. -/
def opRTI (cpu : CPU σ) : Option (CPU σ) := do
  let (value, cpu) ← pop cpu
  let cpu := { cpu with P := andNot value flagB }
  let cpu := { cpu with P := cpu.P ||| flagR }
  let (PCL, cpu) ← pop cpu
  let (PCH, cpu) ← pop cpu
  some { cpu with PC := shl PCH 8 ||| PCL }

/-- `opRTS`. -/
def opRTS (cpu : CPU σ) : Option (CPU σ) := do
  let (PCL, cpu) ← pop cpu
  let (PCH, cpu) ← pop cpu
  let cpu := { cpu with PC := shl PCH 8 ||| PCL }
  some { cpu with PC := cpu.PC + 1 }

/-- `opSBC`. -/
def opSBC (cpu : CPU σ) (mode : AddrMode) : Option (CPU σ) := do
  let (address, cpu) ← calculateMemoryAddress cpu mode
  let (value, cpu) ← readMemory cpu address
  if (cpu.P &&& flagD) = 0 ∨ cpu.decimalModeSupported = false then
    let res := cpu.A - value
    let res := if (cpu.P &&& flagC) = 0 then res - 1 else res
    let cpu := { cpu with P := andNot cpu.P (flagN ||| flagV ||| flagZ ||| flagC) }
    let cpu := { cpu with P := cpu.P ||| (res &&& flagN) }
    let cpu := { cpu with P :=
      if ((cpu.A ^^^ value) &&& (cpu.A ^^^ (0xFF &&& res)) &&& 0x80) ≠ 0
      then cpu.P ||| flagV else cpu.P }
    let cpu := { cpu with P := if (res &&& 0xFF) = 0 then cpu.P ||| flagZ else cpu.P }
    let cpu := { cpu with P := if (res &&& 0x100) = 0 then cpu.P ||| flagC else cpu.P }
    some { cpu with A := 0xFF &&& res }
  else
    let borrow : Int := if (cpu.P &&& flagC) = 0 then 1 else 0
    let AL := (cpu.A &&& 15) - (value &&& 15) - borrow
    let AL := if (AL &&& 16) ≠ 0 then AL - 6 else AL
    let AH := shr cpu.A 4 - shr value 4 - (AL &&& 16)
    let AH := if (AH &&& 16) ≠ 0 then AH - 6 else AH
    let cpu := { cpu with P :=
      if ((cpu.A - value - borrow) &&& 128) ≠ 0 then cpu.P ||| flagN else cpu.P }
    let cpu := { cpu with P :=
      if (((cpu.A - value - borrow) ^^^ value) &&& 128) ≠ 0 ∧ ((cpu.A ^^^ value) &&& 128) ≠ 0
      then cpu.P ||| flagV else cpu.P }
    let cpu := { cpu with P :=
      if ((cpu.A - value - borrow) &&& 255) ≠ 0 then cpu.P ||| flagZ else cpu.P }
    let cpu := { cpu with P :=
      if ((cpu.A - value - borrow) &&& 256) ≠ 0 then cpu.P ||| flagC else cpu.P }
    some { cpu with A := (shl AH 4 ||| (AL &&& 15)) &&& 255 }

/-- `opSTA`. -/
def opSTA (cpu : CPU σ) (mode : AddrMode) : Option (CPU σ) := do
  let (address, cpu) ← calculateMemoryAddress cpu mode
  writeMemory cpu address cpu.A

/-- `opSTX`. -/
def opSTX (cpu : CPU σ) (mode : AddrMode) : Option (CPU σ) := do
  let (address, cpu) ← calculateMemoryAddress cpu mode
  writeMemory cpu address cpu.X

/-- `opSTY`. -/
def opSTY (cpu : CPU σ) (mode : AddrMode) : Option (CPU σ) := do
  let (address, cpu) ← calculateMemoryAddress cpu mode
  writeMemory cpu address cpu.Y

/-- `transfer`. -/
def transfer (cpu : CPU σ) (toRegister : Int) : CPU σ :=
  let cpu := { cpu with P := andNot cpu.P (flagN ||| flagZ) }
  let cpu := { cpu with P := if (toRegister &&& 0x80) ≠ 0 then cpu.P ||| flagN else cpu.P }
  let cpu := { cpu with P := if toRegister = 0 then cpu.P ||| flagZ else cpu.P }
  cpu

/-- `opTAX`. -/
def opTAX (cpu : CPU σ) : CPU σ :=
  let cpu := { cpu with X := cpu.A }
  transfer cpu cpu.X

/-- `opTAY`. -/
def opTAY (cpu : CPU σ) : CPU σ :=
  let cpu := { cpu with Y := cpu.A }
  transfer cpu cpu.Y

/-- `opTSX`. -/
def opTSX (cpu : CPU σ) : CPU σ :=
  let cpu := { cpu with X := cpu.S }
  transfer cpu cpu.X

/-- `opTXA`. -/
def opTXA (cpu : CPU σ) : CPU σ :=
  let cpu := { cpu with A := cpu.X }
  transfer cpu cpu.A

/-- `opTXS`. -/
def opTXS (cpu : CPU σ) : CPU σ := { cpu with S := cpu.X }

/-- `opTYA`. -/
def opTYA (cpu : CPU σ) : CPU σ :=
  let cpu := { cpu with A := cpu.Y }
  transfer cpu cpu.A

/-- `opDOP` (double NOP). -/
def opDOP (cpu : CPU σ) (mode : AddrMode) : Option (CPU σ) := do
  let (address, cpu) ← calculateMemoryAddress cpu mode
  let (_, cpu) ← readMemory cpu address
  some cpu

/-- `opTOP` (triple NOP). -/
def opTOP (cpu : CPU σ) (mode : AddrMode) : Option (CPU σ) := do
  let (address, cpu) ← calculateMemoryAddress cpu mode
  let (_, cpu) ← readMemory cpu address
  some cpu

/-- `opLAX`. -/
def opLAX (cpu : CPU σ) (mode : AddrMode) : Option (CPU σ) := do
  let (address, cpu) ← calculateMemoryAddress cpu mode
  let (value, cpu) ← readMemory cpu address
  let (res, cpu) := opLoad cpu value
  let cpu := { cpu with A := res }
  some { cpu with X := cpu.A }

/-- `opAAX`. -/
def opAAX (cpu : CPU σ) (mode : AddrMode) : Option (CPU σ) := do
  let (address, cpu) ← calculateMemoryAddress cpu mode
  let result := cpu.A &&& cpu.X
  writeMemory cpu address result

/-- `opDCP`. -/
def opDCP (cpu : CPU σ) (mode : AddrMode) : Option (CPU σ) := do
  let (address, cpu) ← calculateMemoryAddress cpu mode
  let (value, cpu) ← readMemory cpu address
  let value := 0xFF &&& (value - 1)
  let valueToTest := cpu.A - value
  let cpu := { cpu with P := andNot cpu.P (flagN ||| flagZ ||| flagC) }
  let cpu := { cpu with P := if (valueToTest &&& 0x80) ≠ 0 then cpu.P ||| flagN else cpu.P }
  let cpu := { cpu with P := if valueToTest = 0 then cpu.P ||| flagZ else cpu.P }
  let cpu := { cpu with P := if (valueToTest &&& 0x100) = 0 then cpu.P ||| flagC else cpu.P }
  writeMemory cpu address value

/-- `opISC`. -/
def opISC (cpu : CPU σ) (mode : AddrMode) : Option (CPU σ) := do
  let (address, cpu) ← calculateMemoryAddress cpu mode
  let (value, cpu) ← readMemory cpu address
  let value := 0xFF &&& (value + 1)
  let result := cpu.A - value
  let result := if (cpu.P &&& flagC) = 0 then result - 1 else result
  let cpu := { cpu with P := andNot cpu.P (flagN ||| flagV ||| flagZ ||| flagC) }
  let cpu := { cpu with P :=
    if ((cpu.A ^^^ value) &&& (cpu.A ^^^ (result &&& 0xFF)) &&& 0x80) ≠ 0
    then cpu.P ||| flagV else cpu.P }
  let cpu := { cpu with P := if (result &&& 0x100) = 0 then cpu.P ||| flagC else cpu.P }
  let cpu := { cpu with A := result &&& 0xFF }
  let cpu := { cpu with P := if (cpu.A &&& (0xFF : Int)) = 0 then cpu.P ||| flagZ else cpu.P }
  let cpu := { cpu with P := cpu.P ||| (cpu.A &&& flagN) }
  writeMemory cpu address value

/-- `opSLO`. -/
def opSLO (cpu : CPU σ) (mode : AddrMode) : Option (CPU σ) := do
  let (address, cpu) ← calculateMemoryAddress cpu mode
  let (value, cpu) ← readMemory cpu address
  let result := shl value 1 &&& 0xFF
  let cpu := { cpu with A := cpu.A ||| result }
  let cpu := { cpu with P := andNot cpu.P (flagN ||| flagZ ||| flagC) }
  let cpu := { cpu with P := cpu.P ||| (cpu.A &&& flagN) }
  let cpu := { cpu with P := if cpu.A = 0 then cpu.P ||| flagZ else cpu.P }
  let cpu := { cpu with P := if (value &&& 0x80) ≠ 0 then cpu.P ||| flagC else cpu.P }
  writeMemory cpu address result

/-- `opRLA`. -/
def opRLA (cpu : CPU σ) (mode : AddrMode) : Option (CPU σ) := do
  let (address, cpu) ← calculateMemoryAddress cpu mode
  let (value, cpu) ← readMemory cpu address
  let res := shl value 1 &&& 0xFF
  let res := if (cpu.P &&& flagC) ≠ 0 then res ||| 1 else res
  let cpu := { cpu with A := cpu.A &&& res }
  let cpu := { cpu with P := andNot cpu.P (flagN ||| flagZ ||| flagC) }
  let cpu := { cpu with P := if (cpu.A &&& 0x80) ≠ 0 then cpu.P ||| flagN else cpu.P }
  let cpu := { cpu with P := if cpu.A = 0 then cpu.P ||| flagZ else cpu.P }
  let cpu := { cpu with P := if (value &&& 0x80) ≠ 0 then cpu.P ||| flagC else cpu.P }
  writeMemory cpu address res

/-- `opSRE`. -/
def opSRE (cpu : CPU σ) (mode : AddrMode) : Option (CPU σ) := do
  let (address, cpu) ← calculateMemoryAddress cpu mode
  let (value, cpu) ← readMemory cpu address
  let res := 0x7F &&& shr value 1
  let cpu := { cpu with A := cpu.A ^^^ res }
  let cpu := { cpu with P := andNot cpu.P (flagN ||| flagZ ||| flagC) }
  let cpu := { cpu with P := if (cpu.A &&& 0x80) ≠ 0 then cpu.P ||| flagN else cpu.P }
  let cpu := { cpu with P := if res = 0 then cpu.P ||| flagZ else cpu.P }
  let cpu := { cpu with P := if (value &&& 0x01) ≠ 0 then cpu.P ||| flagC else cpu.P }
  writeMemory cpu address res

/-- `opRRA`. -/
def opRRA (cpu : CPU σ) (mode : AddrMode) : Option (CPU σ) := do
  let (address, cpu) ← calculateMemoryAddress cpu mode
  let (value1, cpu) ← readMemory cpu address
  let value := shr value1 1 &&& 0xFF
  let value := if (cpu.P &&& flagC) ≠ 0 then value ||| 0x80 else value
  let res := cpu.A + value
  let res := if (value1 &&& 0x01) ≠ 0 then res + 1 else res
  let cpu := { cpu with P := andNot cpu.P (flagN ||| flagV ||| flagZ ||| flagC) }
  let cpu := { cpu with P := cpu.P ||| (res &&& flagN) }
  let cpu := { cpu with P :=
    if (andNot (cpu.A ^^^ (res &&& 0xFF)) (cpu.A ^^^ value) &&& 0x80) ≠ 0
    then cpu.P ||| flagV else cpu.P }
  let cpu := { cpu with P := if (res &&& 0xFF) = 0 then cpu.P ||| flagZ else cpu.P }
  let cpu := { cpu with P := if res > 0xFF then cpu.P ||| flagC else cpu.P }
  let cpu := { cpu with A := res &&& 0xFF }
  writeMemory cpu address value


set_option maxRecDepth 100000 in
/-- The dispatch `executeOp`: the cases of the `switch` in source order; an opcode without a
case leaves the CPU as it is. -/
def executeOp (cpu : CPU σ) (opCode : Int) : Option (CPU σ) :=
  if opCode = 0x69 then opADC cpu IMM
  else if opCode = 0x65 then opADC cpu ZP
  else if opCode = 0x75 then opADC cpu ZPX
  else if opCode = 0x6D then opADC cpu ABS
  else if opCode = 0x7D then opADC cpu ABSX2
  else if opCode = 0x79 then opADC cpu ABSY2
  else if opCode = 0x61 then opADC cpu INDX
  else if opCode = 0x71 then opADC cpu INDY2
  else if opCode = 0x29 then opAND cpu IMM
  else if opCode = 0x25 then opAND cpu ZP
  else if opCode = 0x35 then opAND cpu ZPX
  else if opCode = 0x2D then opAND cpu ABS
  else if opCode = 0x3D then opAND cpu ABSX2
  else if opCode = 0x39 then opAND cpu ABSY2
  else if opCode = 0x21 then opAND cpu INDX
  else if opCode = 0x31 then opAND cpu INDY2
  else if opCode = 0x0A then opASL cpu ACC
  else if opCode = 0x06 then opASL cpu ZP
  else if opCode = 0x16 then opASL cpu ZPX
  else if opCode = 0x0E then opASL cpu ABS
  else if opCode = 0x1E then opASL cpu ABSX
  else if opCode = 0x90 then opBCC cpu REL
  else if opCode = 0xB0 then opBCS cpu REL
  else if opCode = 0xF0 then opBEQ cpu REL
  else if opCode = 0x24 then opBIT cpu ZP
  else if opCode = 0x2C then opBIT cpu ABS
  else if opCode = 0x30 then opBMI cpu REL
  else if opCode = 0xD0 then opBNE cpu REL
  else if opCode = 0x10 then opBPL cpu REL
  else if opCode = 0x00 then opBRK cpu
  else if opCode = 0x50 then opBVC cpu REL
  else if opCode = 0x70 then opBVS cpu REL
  else if opCode = 0x18 then some { cpu with P := andNot cpu.P flagC }
  else if opCode = 0xD8 then some { cpu with P := andNot cpu.P flagD }
  else if opCode = 0x58 then some { cpu with P := andNot cpu.P flagI }
  else if opCode = 0xB8 then some { cpu with P := andNot cpu.P flagV }
  else if opCode = 0xC9 then opCMP cpu IMM
  else if opCode = 0xC5 then opCMP cpu ZP
  else if opCode = 0xD5 then opCMP cpu ZPX
  else if opCode = 0xCD then opCMP cpu ABS
  else if opCode = 0xDD then opCMP cpu ABSX2
  else if opCode = 0xD9 then opCMP cpu ABSY2
  else if opCode = 0xC1 then opCMP cpu INDX
  else if opCode = 0xD1 then opCMP cpu INDY2
  else if opCode = 0xE0 then opCPX cpu IMM
  else if opCode = 0xE4 then opCPX cpu ZP
  else if opCode = 0xEC then opCPX cpu ABS
  else if opCode = 0xC0 then opCPY cpu IMM
  else if opCode = 0xC4 then opCPY cpu ZP
  else if opCode = 0xCC then opCPY cpu ABS
  else if opCode = 0xC6 then opDEC cpu ZP
  else if opCode = 0xD6 then opDEC cpu ZPX
  else if opCode = 0xCE then opDEC cpu ABS
  else if opCode = 0xDE then opDEC cpu ABSX
  else if opCode = 0xCA then let (res, cpu) := opDecrease cpu cpu.X; some { cpu with X := res }
  else if opCode = 0x88 then let (res, cpu) := opDecrease cpu cpu.Y; some { cpu with Y := res }
  else if opCode = 0x49 then opEOR cpu IMM
  else if opCode = 0x45 then opEOR cpu ZP
  else if opCode = 0x55 then opEOR cpu ZPX
  else if opCode = 0x4D then opEOR cpu ABS
  else if opCode = 0x5D then opEOR cpu ABSX2
  else if opCode = 0x59 then opEOR cpu ABSY2
  else if opCode = 0x41 then opEOR cpu INDX
  else if opCode = 0x51 then opEOR cpu INDY2
  else if opCode = 0xE6 then opINC cpu ZP
  else if opCode = 0xF6 then opINC cpu ZPX
  else if opCode = 0xEE then opINC cpu ABS
  else if opCode = 0xFE then opINC cpu ABSX
  else if opCode = 0xE8 then let (res, cpu) := opIncrease cpu cpu.X; some { cpu with X := res }
  else if opCode = 0xC8 then let (res, cpu) := opIncrease cpu cpu.Y; some { cpu with Y := res }
  else if opCode = 0x4C then opJMP cpu ABS
  else if opCode = 0x6C then opJMP cpu IND2
  else if opCode = 0x20 then opJSR cpu ABS
  else if opCode = 0xA9 then opLDA cpu IMM
  else if opCode = 0xA5 then opLDA cpu ZP
  else if opCode = 0xB5 then opLDA cpu ZPX
  else if opCode = 0xAD then opLDA cpu ABS
  else if opCode = 0xBD then opLDA cpu ABSX2
  else if opCode = 0xB9 then opLDA cpu ABSY2
  else if opCode = 0xA1 then opLDA cpu INDX
  else if opCode = 0xB1 then opLDA cpu INDY2
  else if opCode = 0xA2 then opLDX cpu IMM
  else if opCode = 0xA6 then opLDX cpu ZP
  else if opCode = 0xB6 then opLDX cpu ZPY
  else if opCode = 0xAE then opLDX cpu ABS
  else if opCode = 0xBE then opLDX cpu ABSY2
  else if opCode = 0xA0 then opLDY cpu IMM
  else if opCode = 0xA4 then opLDY cpu ZP
  else if opCode = 0xB4 then opLDY cpu ZPX
  else if opCode = 0xAC then opLDY cpu ABS
  else if opCode = 0xBC then opLDY cpu ABSX2
  else if opCode = 0x4A then opLSR cpu ACC
  else if opCode = 0x46 then opLSR cpu ZP
  else if opCode = 0x56 then opLSR cpu ZPX
  else if opCode = 0x4E then opLSR cpu ABS
  else if opCode = 0x5E then opLSR cpu ABSX
  else if opCode = 0xEA then some cpu
  else if opCode = 0x09 then opORA cpu IMM
  else if opCode = 0x05 then opORA cpu ZP
  else if opCode = 0x15 then opORA cpu ZPX
  else if opCode = 0x0D then opORA cpu ABS
  else if opCode = 0x1D then opORA cpu ABSX2
  else if opCode = 0x19 then opORA cpu ABSY2
  else if opCode = 0x01 then opORA cpu INDX
  else if opCode = 0x11 then opORA cpu INDY2
  else if opCode = 0x48 then opPHA cpu
  else if opCode = 0x08 then opPHP cpu
  else if opCode = 0x68 then opPLA cpu
  else if opCode = 0x28 then opPLP cpu
  else if opCode = 0x2A then opROL cpu ACC
  else if opCode = 0x26 then opROL cpu ZP
  else if opCode = 0x36 then opROL cpu ZPX
  else if opCode = 0x2E then opROL cpu ABS
  else if opCode = 0x3E then opROL cpu ABSX
  else if opCode = 0x6A then opROR cpu ACC
  else if opCode = 0x66 then opROR cpu ZP
  else if opCode = 0x76 then opROR cpu ZPX
  else if opCode = 0x6E then opROR cpu ABS
  else if opCode = 0x7E then opROR cpu ABSX
  else if opCode = 0x40 then opRTI cpu
  else if opCode = 0x60 then opRTS cpu
  else if opCode = 0xE9 then opSBC cpu IMM
  else if opCode = 0xE5 then opSBC cpu ZP
  else if opCode = 0xF5 then opSBC cpu ZPX
  else if opCode = 0xED then opSBC cpu ABS
  else if opCode = 0xFD then opSBC cpu ABSX2
  else if opCode = 0xF9 then opSBC cpu ABSY2
  else if opCode = 0xE1 then opSBC cpu INDX
  else if opCode = 0xF1 then opSBC cpu INDY2
  else if opCode = 0x38 then some { cpu with P := cpu.P ||| flagC }
  else if opCode = 0xF8 then some { cpu with P := cpu.P ||| flagD }
  else if opCode = 0x78 then some { cpu with P := cpu.P ||| flagI }
  else if opCode = 0x85 then opSTA cpu ZP
  else if opCode = 0x95 then opSTA cpu ZPX
  else if opCode = 0x8D then opSTA cpu ABS
  else if opCode = 0x9D then opSTA cpu ABSX
  else if opCode = 0x99 then opSTA cpu ABSY
  else if opCode = 0x81 then opSTA cpu INDX
  else if opCode = 0x91 then opSTA cpu INDY
  else if opCode = 0x86 then opSTX cpu ZP
  else if opCode = 0x96 then opSTX cpu ZPY
  else if opCode = 0x8E then opSTX cpu ABS
  else if opCode = 0x84 then opSTY cpu ZP
  else if opCode = 0x94 then opSTY cpu ZPX
  else if opCode = 0x8C then opSTY cpu ABS
  else if opCode = 0xAA then some (opTAX cpu)
  else if opCode = 0xA8 then some (opTAY cpu)
  else if opCode = 0xBA then some (opTSX cpu)
  else if opCode = 0x8A then some (opTXA cpu)
  else if opCode = 0x9A then some (opTXS cpu)
  else if opCode = 0x98 then some (opTYA cpu)
  else if opCode = 0x04 then opDOP cpu ZP
  else if opCode = 0x14 then opDOP cpu ZPX
  else if opCode = 0x34 then opDOP cpu ZPX
  else if opCode = 0x44 then opDOP cpu ZP
  else if opCode = 0x54 then opDOP cpu ZPX
  else if opCode = 0x64 then opDOP cpu ZP
  else if opCode = 0x74 then opDOP cpu ZPX
  else if opCode = 0x80 then opDOP cpu IMM
  else if opCode = 0x82 then opDOP cpu IMM
  else if opCode = 0x89 then opDOP cpu IMM
  else if opCode = 0xC2 then opDOP cpu IMM
  else if opCode = 0xD4 then opDOP cpu ZPX
  else if opCode = 0xE2 then opDOP cpu IMM
  else if opCode = 0xF4 then opDOP cpu ZPX
  else if opCode = 0x0C then opTOP cpu ABS
  else if opCode = 0x1C then opTOP cpu ABSX2
  else if opCode = 0x3C then opTOP cpu ABSX2
  else if opCode = 0x5C then opTOP cpu ABSX2
  else if opCode = 0x7C then opTOP cpu ABSX2
  else if opCode = 0xDC then opTOP cpu ABSX2
  else if opCode = 0xFC then opTOP cpu ABSX2
  else if opCode = 0xA7 then opLAX cpu ZP
  else if opCode = 0xB7 then opLAX cpu ZPY
  else if opCode = 0xAF then opLAX cpu ABS
  else if opCode = 0xBF then opLAX cpu ABSY
  else if opCode = 0xA3 then opLAX cpu INDX
  else if opCode = 0xB3 then opLAX cpu INDY2
  else if opCode = 0x87 then opAAX cpu ZP
  else if opCode = 0x97 then opAAX cpu ZPY
  else if opCode = 0x83 then opAAX cpu INDX
  else if opCode = 0x8F then opAAX cpu ABS
  else if opCode = 0xEB then opSBC cpu IMM
  else if opCode = 0xC7 then opDCP cpu ZP
  else if opCode = 0xD7 then opDCP cpu ZPX
  else if opCode = 0xCF then opDCP cpu ABS
  else if opCode = 0xDF then opDCP cpu ABSX
  else if opCode = 0xDB then opDCP cpu ABSY
  else if opCode = 0xC3 then opDCP cpu INDX
  else if opCode = 0xD3 then opDCP cpu INDY
  else if opCode = 0xE7 then opISC cpu ZP
  else if opCode = 0xF7 then opISC cpu ZPX
  else if opCode = 0xEF then opISC cpu ABS
  else if opCode = 0xFF then opISC cpu ABSX
  else if opCode = 0xFB then opISC cpu ABSY
  else if opCode = 0xE3 then opISC cpu INDX
  else if opCode = 0xF3 then opISC cpu INDY
  else if opCode = 0x07 then opSLO cpu ZP
  else if opCode = 0x17 then opSLO cpu ZPX
  else if opCode = 0x0F then opSLO cpu ABS
  else if opCode = 0x1F then opSLO cpu ABSX
  else if opCode = 0x1B then opSLO cpu ABSY
  else if opCode = 0x03 then opSLO cpu INDX
  else if opCode = 0x13 then opSLO cpu INDY
  else if opCode = 0x27 then opRLA cpu ZP
  else if opCode = 0x37 then opRLA cpu ZPX
  else if opCode = 0x2F then opRLA cpu ABS
  else if opCode = 0x3F then opRLA cpu ABSX
  else if opCode = 0x3B then opRLA cpu ABSY
  else if opCode = 0x23 then opRLA cpu INDX
  else if opCode = 0x33 then opRLA cpu INDY
  else if opCode = 0x47 then opSRE cpu ZP
  else if opCode = 0x57 then opSRE cpu ZPX
  else if opCode = 0x4F then opSRE cpu ABS
  else if opCode = 0x5F then opSRE cpu ABSX
  else if opCode = 0x5B then opSRE cpu ABSY
  else if opCode = 0x43 then opSRE cpu INDX
  else if opCode = 0x53 then opSRE cpu INDY
  else if opCode = 0x67 then opRRA cpu ZP
  else if opCode = 0x77 then opRRA cpu ZPX
  else if opCode = 0x6F then opRRA cpu ABS
  else if opCode = 0x7F then opRRA cpu ABSX
  else if opCode = 0x7B then opRRA cpu ABSY
  else if opCode = 0x63 then opRRA cpu INDX
  else if opCode = 0x73 then opRRA cpu INDY
  else some cpu

/-- `ExecuteOp`: the cycles returned and the CPU afterwards. -/
def ExecuteOp (cpu : CPU σ) : Option (Int × CPU σ) :=
  if cpu.pendingInterrupt ≠ 0 then do
    let cpu ← executePendingInterruptOp cpu
    some (cpu.OpCycles, cpu)
  else do
    let (opCode, cpu) ← readMemory cpu cpu.PC
    let cpu := { cpu with PC := cpu.PC + 1 }
    let cycles ← opCyclesLengthAt opCode
    let cpu := { cpu with OpCycles := cycles }
    let cpu ← executeOp cpu opCode
    some (cpu.OpCycles, cpu)

end

/-! ## The cartridge (`cartridge.go`, `ntmirroring.go`) -/

/-- The Go index expression `s[i]` on a slice or an array: an index outside the bounds panics. -/
def index? {α : Type} (s : List α) (i : Int) : Option α :=
  if i < 0 then none else s[i.toNat]?

/-- The Go assignment `s[i] = v` on a slice or an array: an index outside the bounds panics. -/
def setIndex? {α : Type} (s : List α) (i : Int) (v : α) : Option (List α) :=
  if 0 ≤ i ∧ i < s.length then some (s.set i.toNat v) else none

namespace cartridge

/-- Nametable page A. -/
def ntIndexA : Int := 0
/-- Nametable page B. -/
def ntIndexB : Int := 1
/-- Nametable page C. -/
def ntIndexC : Int := 2
/-- Nametable page D. -/
def ntIndexD : Int := 3

/-- Horizontal mirroring. -/
def ntMirroringHorizontal : Int := 0
/-- Vertical mirroring. -/
def ntMirroringVertical : Int := 1
/-- One-screen mirroring, page A. -/
def ntMirroringOneScreenA : Int := 2
/-- One-screen mirroring, page B. -/
def ntMirroringOneScreenB : Int := 3
/-- Four-screen mirroring. -/
def ntMirroringFourScreen : Int := 4

/-- `getNameTableOffset`. -/
def getNameTableOffset (address : Int) : Int := address &&& 0x03FF

/-- `getNameTableIndex`: the cases of the `switch` in source order; a mirroring type without a
case falls through to the final `return ntIndexA`. -/
def getNameTableIndex (ppuAddress ntMirroringType : Int) : Int :=
  if ntMirroringType = ntMirroringHorizontal then
    if (ppuAddress &&& 0x0800) = 0 then ntIndexA else ntIndexB
  else if ntMirroringType = ntMirroringVertical then
    if (ppuAddress &&& 0x0400) = 0 then ntIndexA else ntIndexB
  else if ntMirroringType = ntMirroringOneScreenA then ntIndexA
  else if ntMirroringType = ntMirroringOneScreenB then ntIndexB
  else if ntMirroringType = ntMirroringFourScreen then
    let bucket := ppuAddress &&& 0x0C00
    if bucket = 0x0000 then ntIndexA
    else if bucket = 0x0300 then ntIndexB
    else if bucket = 0x0800 then ntIndexC
    else ntIndexD
  else ntIndexA

/-- The struct `memory`: PRG and CHR banks are slices of 1 KiB slices. -/
structure memory where
  /-- PRG ROM banks. -/
  prgROM : List (List Int)
  /-- PRG RAM. -/
  prgRAM : List Int
  /-- Whether the PRG RAM is battery backed. -/
  isPrgRAMBatteryBacked : Bool
  /-- CHR banks. -/
  chrMem : List (List Int)
  /-- Whether the CHR memory is RAM. -/
  isChrMemRAM : Bool
  /-- Nametable mirroring type. -/
  ntMirroringType : Int

/-- The struct `Cartridge`; its `memory` pointer is set by `createCartridge` and never nil. -/
structure Cartridge where
  /-- The memory of the cartridge. -/
  memory : memory
  /-- The mapper number. -/
  mapperNumber : Int
  /-- `prgROMMap [32]int`. -/
  prgROMMap : List Int
  /-- `chrMemMap [8]int`. -/
  chrMemMap : List Int

/-- `ReadNameTable`: the nametable RAM `ppuNTRAM` belongs to the caller. -/
def Cartridge.ReadNameTable (cartridge : Cartridge) (ppuAddress : Int)
    (ppuNTRAM : List (List Int)) : Option Int :=
  let ntIndex := getNameTableIndex ppuAddress cartridge.memory.ntMirroringType
  let nameTableOffset := getNameTableOffset ppuAddress
  if ntIndex = ntIndexA then (index? ppuNTRAM 0).bind fun page => index? page nameTableOffset
  else if ntIndex = ntIndexB then (index? ppuNTRAM 1).bind fun page => index? page nameTableOffset
  else if ntIndex = ntIndexC then some 0
  else if ntIndex = ntIndexD then some 0
  else some 0

/-- `WriteNameTable`: the result is the nametable RAM of the caller after the call. -/
def Cartridge.WriteNameTable (cartridge : Cartridge) (ppuAddress value : Int)
    (ppuNTRAM : List (List Int)) : Option (List (List Int)) :=
  let ntIndex := getNameTableIndex ppuAddress cartridge.memory.ntMirroringType
  let nameTableOffset := getNameTableOffset ppuAddress
  if ntIndex = ntIndexA then
    (index? ppuNTRAM 0).bind fun page =>
      (setIndex? page nameTableOffset value).bind fun page => setIndex? ppuNTRAM 0 page
  else if ntIndex = ntIndexB then
    (index? ppuNTRAM 1).bind fun page =>
      (setIndex? page nameTableOffset value).bind fun page => setIndex? ppuNTRAM 1 page
  else some ppuNTRAM

end cartridge

namespace cartridge

/-- `byteToInt`. -/
def byteToInt (b : List (Fin 256)) : List Int := b.map fun x => (x.val : Int)

/-- The call `reader.Read(p)` on the `bytes.Reader` that `nes.New` passes, for a fresh buffer `p`
of `n` zero bytes: the buffer receives the next bytes of the stream and keeps its zeros where
the stream ends early.  The second component is the rest of the stream. -/
def readBuffer (reader : List (Fin 256)) (n : Nat) : List (Fin 256) × List (Fin 256) :=
  (reader.take n ++ List.replicate (n - (reader.take n).length) 0, reader.drop n)

/-- The loops `for i := range prgROM` and `for i := range chrROM` of `New`: `n` banks of 1024
bytes are read from the stream. -/
def readBanks : Nat → List (Fin 256) → List (List Int) × List (Fin 256)
  | 0, reader => ([], reader)
  | n + 1, reader =>
    let bank := readBuffer reader 1024
    let banks := readBanks n bank.2
    (byteToInt bank.1 :: banks.1, banks.2)

/-- The byte `headers[i]` of the 16-byte header buffer, as an `int`. -/
def headerAt (headers : List (Fin 256)) (i : Nat) : Int := ((headers.getD i 0).val : Int)

/-- `createCartridge`.  The slices of `memory` are made by `make` with a length only, so their
capacity is their length. -/
def createCartridge (memory : memory) (mapperNumber : Int) : Cartridge :=
  { memory := memory
    mapperNumber := mapperNumber
    prgROMMap :=
      (List.range 32).map fun (i : Nat) => (i : Int) &&& ((memory.prgROM.length : Int) - 1)
    chrMemMap :=
      (List.range 8).map fun (i : Nat) => (i : Int) &&& ((memory.chrMem.length : Int) - 1) }

/-- `New`: the cartridge read from the bytes of a ROM image. -/
def New (reader : List (Fin 256)) : Cartridge :=
  -- Headers
  let header := readBuffer reader 16
  let headers := header.1
  let reader := header.2
  -- Read trainer
  let reader := if (headerAt headers 6 &&& 0x04) ≠ 0 then (readBuffer reader 512).2 else reader
  -- Read PRG ROM
  let prg := readBanks (headerAt headers 4 * 16).toNat reader
  let prgROM := prg.1
  let reader := prg.2
  -- Read CHR ROM
  let chrMem :=
    if headerAt headers 5 > 0 then (readBanks (headerAt headers 5 * 8).toNat reader).1
    else List.replicate 8 (List.replicate 1024 0)
  let isChrMemRAM := decide (¬ headerAt headers 5 > 0)
  -- PRG RAM
  let prgRAMSize := if headerAt headers 8 = 0 then 1 else headerAt headers 8
  let prgRAM := List.replicate (prgRAMSize * 8 * 1024).toNat (0 : Int)
  -- Mirror type
  let ntMirroringType :=
    if (headerAt headers 6 &&& 0x8) ≠ 0 then ntMirroringFourScreen
    else if (headerAt headers 6 &&& 0x1) = 0 then ntMirroringHorizontal
    else ntMirroringVertical
  -- Mapper number
  let isMapperNumberUpperNibbleSupported := (headers.drop 11).all fun b => b = 0
  let mapperNumber := shr (headerAt headers 6 &&& 0xF0) 4 &&& 0x0F
  let mapperNumber :=
    if isMapperNumberUpperNibbleSupported then mapperNumber + (headerAt headers 7 &&& 0xF0)
    else mapperNumber
  createCartridge
    { prgROM := prgROM, prgRAM := prgRAM, isPrgRAMBatteryBacked := false, chrMem := chrMem,
      isChrMemRAM := isChrMemRAM, ntMirroringType := ntMirroringType }
    mapperNumber

/-- `readExpansionRom`. -/
def Cartridge.readExpansionRom (_cartridge : Cartridge) (_cpuAddress : Int) : Int := 0

/-- `ReadPrgMemory`. -/
def Cartridge.ReadPrgMemory (cartridge : Cartridge) (cpuAddress : Int) : Option Int :=
  let page := cpuAddress &&& 0xF000
  if page = 0x4000 ∨ page = 0x5000 then
    some (cartridge.readExpansionRom cpuAddress)
  else if page = 0x6000 ∨ page = 0x7000 then
    index? cartridge.memory.prgRAM (cpuAddress &&& 0x1FFF)
  else
    (index? cartridge.prgROMMap (shr (cpuAddress &&& 0x7FFF) 10)).bind fun bank =>
      (index? cartridge.memory.prgROM bank).bind fun cells =>
        index? cells (cpuAddress &&& 0x03FF)

/-- `WritePrgMemory`. -/
def Cartridge.WritePrgMemory (cartridge : Cartridge) (cpuAddress value : Int) :
    Option Cartridge :=
  let page := cpuAddress &&& 0xF000
  if page = 0x6000 ∨ page = 0x7000 then
    (setIndex? cartridge.memory.prgRAM (cpuAddress &&& 0x1FFF) value).map fun prgRAM =>
      { cartridge with memory := { cartridge.memory with prgRAM := prgRAM } }
  else some cartridge

/-- `ReadChrMemory`. -/
def Cartridge.ReadChrMemory (cartridge : Cartridge) (ppuAddress : Int) : Option Int :=
  if 0x0000 ≤ ppuAddress ∧ ppuAddress ≤ 0x1FFF then
    (index? cartridge.chrMemMap (shr (ppuAddress &&& 0x1FFF) 10)).bind fun bank =>
      (index? cartridge.memory.chrMem bank).bind fun cells =>
        index? cells (ppuAddress &&& 0x03FF)
  else some 0

/-- `WriteChrMemory`. -/
def Cartridge.WriteChrMemory (cartridge : Cartridge) (ppuAddress value : Int) :
    Option Cartridge :=
  if 0x0000 ≤ ppuAddress ∧ ppuAddress ≤ 0x1FFF then
    if cartridge.memory.isChrMemRAM then
      (index? cartridge.chrMemMap (shr (ppuAddress &&& 0x1FFF) 10)).bind fun bank =>
        (index? cartridge.memory.chrMem bank).bind fun cells =>
          (setIndex? cells (ppuAddress &&& 0x03FF) value).bind fun cells =>
            (setIndex? cartridge.memory.chrMem bank cells).map fun chrMem =>
              { cartridge with memory := { cartridge.memory with chrMem := chrMem } }
    else some cartridge
  else some cartridge

end cartridge

/-! ## The PPU (`ppu.go`, `registers.go`, `scanline.go`, `memory.go`, `background.go`, `sprite.go`)

An array of a fixed size, such as `ram [0x100]int`, is embedded as a function on `Int` of which
only the values at the indices of the array are meant; an access whose index the source does not
keep inside the array by a mask or a guard checks it and panics outside.  A `for` loop over the
indices of an array is a recursion over the list of these indices.

The registers, the memories and the scanline buffer that the PPU shares with its two renderers
through pointers are the components of the one record `PPU`; the methods of the renderers act on
that record.

The cartridge is shared with the CPU memory.  The PPU reads and writes its CHR memory and
reads its mirroring type, the CPU memory reads and writes its PRG memory; neither changes what
the other reads.

The table `paletteRGB` is declared outside the files named above.  It is a parameter of the
functions that use it, and every index `colorIndex & 0x3F` is taken to be inside it. -/

namespace ppu

/-- The list of the indices `0, 1, .., n - 1` that a `for` loop runs through. -/
def indices (n : Nat) : List Int := (List.range n).map fun (i : Nat) => (i : Int)

/-- The value that a mathematical integer has as a 64-bit `int`. -/
def wrap64 (a : Int) : Int := (a + 2 ^ 63) % 2 ^ 64 - 2 ^ 63

/-- NES height. -/
def NESHeight : Int := 240
/-- NES width. -/
def NESWidth : Int := 256

/-- The interface `VideoReceiver`. -/
class VideoReceiver (ν : Type) where
  /-- `ReceiveFrame(frame []int)`. -/
  ReceiveFrame : ν → (Int → Int) → ν

/-- The interface `VBLReceiver`. -/
class VBLReceiver (ρ : Type) where
  /-- `ReceiveVBL()`. -/
  ReceiveVBL : ρ → ρ

/-! ### Registers (`registers.go`)

The register index `SpriteRAMIORegID` is declared with the CPU memory, which uses it for the
OAM DMA. -/

/-- PPU Control Register (W). -/
def CtrlRegID : Int := 0
/-- PPU Mask Register (W). -/
def MaskRegID : Int := 1
/-- PPU Status Register (R). -/
def StatusRegID : Int := 2
/-- SPR-RAM Address Register (W). -/
def SpriteRAMAddressRegID : Int := 3
/-- Scroll Register (W2). -/
def ScrollRegID : Int := 5
/-- VRAM Address Register (W2). -/
def VRAMAddressRegID : Int := 6
/-- VRAM I/O Register (RW). -/
def VRAMIORegID : Int := 7

/-- Control bit 7. -/
def ctrlExecNMIOnVblank : Int := 0x80
/-- Control bit 6. -/
def ctrlMasterSlaveSelection : Int := 0x40
/-- Control bit 5. -/
def ctrlSpriteSize : Int := 0x20
/-- Control bit 4. -/
def ctrlBackgrounPatternTableAddr : Int := 0x10
/-- Control bit 3. -/
def ctrlSpritePatternTableAddr : Int := 0x08
/-- Control bit 2. -/
def ctrlAddrInc : Int := 0x04
/-- Control bits 1 and 0. -/
def ctrlNametableAddr : Int := 0x03

/-- Mask bits 5, 6 and 7. -/
def maskColorIntensity : Int := 0xE0
/-- Mask bit 4. -/
def maskSpriteVisibility : Int := 0x10
/-- Mask bit 3. -/
def maskBackgroundVisibility : Int := 0x08
/-- Mask bit 2. -/
def maskSpriteClipping : Int := 0x04
/-- Mask bit 1. -/
def maskBackgroundClipping : Int := 0x02
/-- Mask bit 0. -/
def maskDisableColorburst : Int := 0x01

/-- Status bit 7. -/
def statusVblankOccurrence : Int := 0x80
/-- Status bit 6. -/
def statusSpriteZeroOccurrence : Int := 0x40
/-- Status bit 5. -/
def statusScanlineSpriteCount : Int := 0x20
/-- Status bit 4. -/
def statusVRAMWriteFlag : Int := 0x10

/-- The struct `ctrlRegister`. -/
structure ctrlRegister where
  /-- The value of the register. -/
  value : Int

/-- The struct `maskRegister`. -/
structure maskRegister where
  /-- The value of the register. -/
  value : Int

/-- The struct `spriteRAMAddressRegister`. -/
structure spriteRAMAddressRegister where
  /-- The value of the register. -/
  value : Int

/-- The struct `statusRegister`. -/
structure statusRegister where
  /-- The value of the register. -/
  value : Int

/-- The struct `vramAddressScrollRegister`. -/
structure vramAddressScrollRegister where
  /-- VRAM address entered. -/
  address : Int
  /-- Stores the last read VRAM value. -/
  lastValue : Int
  /-- VRAM temp address. -/
  tempAddress : Int
  /-- VRAM address step toggle. -/
  toggle : Bool
  /-- Background fineX. -/
  bgFineX : Int

/-- `execNMIOnVblEnabled`. -/
def ctrlRegister.execNMIOnVblEnabled (ctrl : ctrlRegister) : Bool :=
  decide ((ctrl.value &&& ctrlExecNMIOnVblank) ≠ 0)

/-- `setExecNMIOnVblEnabled`. -/
def ctrlRegister.setExecNMIOnVblEnabled (ctrl : ctrlRegister) (enabled : Bool) : ctrlRegister :=
  if enabled then { value := ctrl.value ||| ctrlExecNMIOnVblank }
  else { value := andNot ctrl.value ctrlExecNMIOnVblank }

/-- `getBackgroundPatternTableAddress`. -/
def ctrlRegister.getBackgroundPatternTableAddress (ctrl : ctrlRegister) : Int :=
  if (ctrl.value &&& ctrlBackgrounPatternTableAddr) ≠ 0 then 0x1000 else 0x0000

/-- `is16PixelsSprite`. -/
def ctrlRegister.is16PixelsSprite (ctrl : ctrlRegister) : Bool :=
  decide ((ctrl.value &&& ctrlSpriteSize) ≠ 0)

/-- `isBackgroundVisibilityEnabled`. -/
def maskRegister.isBackgroundVisibilityEnabled (mask : maskRegister) : Bool :=
  decide ((mask.value &&& maskBackgroundVisibility) ≠ 0)

/-- `isSpriteVisibilityEnabled`. -/
def maskRegister.isSpriteVisibilityEnabled (mask : maskRegister) : Bool :=
  decide ((mask.value &&& maskSpriteVisibility) ≠ 0)

/-- `isBackgroundClippingEnabled`. -/
def maskRegister.isBackgroundClippingEnabled (mask : maskRegister) : Bool :=
  decide ((mask.value &&& maskBackgroundClipping) = 0)

/-- `isSpriteClippingEnabled`. -/
def maskRegister.isSpriteClippingEnabled (mask : maskRegister) : Bool :=
  decide ((mask.value &&& maskSpriteClipping) = 0)

/-- `isInVblank`. -/
def statusRegister.isInVblank (status : statusRegister) : Bool :=
  decide ((status.value &&& statusVblankOccurrence) ≠ 0)

/-- `setInVblank`. -/
def statusRegister.setInVblank (status : statusRegister) (hasOccurred : Bool) : statusRegister :=
  if hasOccurred then { value := status.value ||| statusVblankOccurrence }
  else { value := andNot status.value statusVblankOccurrence }

/-- `backgroundFineY`. -/
def vramAddressScrollRegister.backgroundFineY (vram : vramAddressScrollRegister) : Int :=
  shr vram.address 12 &&& 0x7

/-- `setBackgroundFineY`. -/
def vramAddressScrollRegister.setBackgroundFineY (vram : vramAddressScrollRegister)
    (fineY : Int) : vramAddressScrollRegister :=
  { vram with address := (vram.address &&& 0x8FFF) ||| shl fineY 12 }

/-- `backgroundTileX`. -/
def vramAddressScrollRegister.backgroundTileX (vram : vramAddressScrollRegister) : Int :=
  vram.address &&& 0x1F

/-- `setBackgroundTileX`. -/
def vramAddressScrollRegister.setBackgroundTileX (vram : vramAddressScrollRegister)
    (tileX : Int) : vramAddressScrollRegister :=
  { vram with address := (vram.address &&& 0xFFE0) ||| tileX }

/-- `backgroundTileY`. -/
def vramAddressScrollRegister.backgroundTileY (vram : vramAddressScrollRegister) : Int :=
  shr vram.address 5 &&& 0x1F

/-- `setBackgroundTileY`. -/
def vramAddressScrollRegister.setBackgroundTileY (vram : vramAddressScrollRegister)
    (tileY : Int) : vramAddressScrollRegister :=
  { vram with address := (vram.address &&& 0xFC1F) ||| shl tileY 5 }

/-- `nameTableIndex`. -/
def vramAddressScrollRegister.nameTableIndex (vram : vramAddressScrollRegister) : Int :=
  shr vram.address 10 &&& 0x3

/-- `setNameTableIndex`. -/
def vramAddressScrollRegister.setNameTableIndex (vram : vramAddressScrollRegister)
    (nameTableIndex : Int) : vramAddressScrollRegister :=
  { vram with address := (vram.address &&& 0xF3FF) ||| shl nameTableIndex 10 }

/-! ### Scanlines (`scanline.go`) -/

/-- Scanlines of a frame. -/
def ScanlineCountInFrame : Int := 262
/-- Dots of a scanline. -/
def CyclesCountInScanline : Int := 341
/-- Scanlines of the vertical blank. -/
def VblankScanlinesInFrame : Int := 20
/-- First scanline of the vertical blank. -/
def VblankStartScanline : Int := 0
/-- Last scanline of the vertical blank. -/
def VblankEndScanline : Int := VblankStartScanline + VblankScanlinesInFrame - 1
/-- The dummy (pre-render) scanline. -/
def DummyRenderScanline : Int := VblankEndScanline + 1
/-- First rendered scanline. -/
def FirstRenderScanline : Int := (DummyRenderScanline + 1) % ScanlineCountInFrame
/-- Last rendered scanline. -/
def LastRenderScanline : Int := FirstRenderScanline + 239
/-- The waste scanline. -/
def WasteScanline : Int := LastRenderScanline + 1

/-! ### Memory (`memory.go`) -/

/-- The struct `vramMemory`. -/
structure vramMemory where
  /-- Name table VRAM (A + B), a slice of two slices of 1024 cells. -/
  ntVRAM : List (List Int)
  /-- Background palette RAM, `[16]int`. -/
  backgroundPaletteRAM : Int → Int
  /-- Sprite palette RAM, `[16]int`. -/
  spritePaletteRAM : Int → Int
  /-- The cartridge pointer, possibly nil. -/
  cartridge : Option cartridge.Cartridge

/-- The struct `spriteMemory`. -/
structure spriteMemory where
  /-- Sprite RAM, `[0x100]int`. -/
  ram : Int → Int
  /-- Sprite temporary memory, `[0x20]int`. -/
  tempMemory : Int → Int

/-- `newVRAMMemory`. -/
def newVRAMMemory (cartridge : Option cartridge.Cartridge) : vramMemory :=
  { ntVRAM := List.replicate 2 (List.replicate 1024 0)
    backgroundPaletteRAM := fun _ => 0
    spritePaletteRAM := fun _ => 0
    cartridge := cartridge }

/-- `decodePPUAddress`. -/
def decodePPUAddress (address : Int) : Int :=
  -- Size mirroring
  let address := address &&& 0x3FFF
  -- Name tables and palette size mirroring
  let address :=
    if 0x3000 ≤ address ∧ address ≤ 0x3EFF then 0x2000 ||| (address &&& 0x0FFF)
    else if 0x3F20 ≤ address ∧ address ≤ 0x3FFF then 0x3F00 ||| (address % 0x20)
    else address
  if 0x3F00 ≤ address ∧ address ≤ 0x3F1F then
    if address = 0x3F10 then 0x3F00
    else if address = 0x3F14 then 0x3F04
    else if address = 0x3F18 then 0x3F08
    else if address = 0x3F1C then 0x3F0C
    else address
  else address

/-- `vramMemory.read`.  A call through a nil cartridge pointer panics. -/
def vramMemory.read (vram : vramMemory) (address : Int) : Option Int :=
  let decodedAddress := decodePPUAddress address
  if 0 ≤ decodedAddress ∧ decodedAddress ≤ 0x1FFF then
    vram.cartridge.bind fun c => c.ReadChrMemory decodedAddress
  else if 0x2000 ≤ decodedAddress ∧ decodedAddress < 0x3000 then
    vram.cartridge.bind fun c => c.ReadNameTable decodedAddress vram.ntVRAM
  else if 0x3F00 ≤ decodedAddress ∧ decodedAddress ≤ 0x3F0F then
    some (vram.backgroundPaletteRAM (decodedAddress &&& 0x000F))
  else if 0x3F10 ≤ decodedAddress ∧ decodedAddress ≤ 0x3F1F then
    some (vram.spritePaletteRAM (decodedAddress &&& 0x000F))
  else some 0

/-- `vramMemory.write`. -/
def vramMemory.write (vram : vramMemory) (address value : Int) : Option vramMemory :=
  let decodedAddress := decodePPUAddress address
  if 0 ≤ decodedAddress ∧ decodedAddress ≤ 0x1FFF then
    vram.cartridge.bind fun c =>
      (c.WriteChrMemory decodedAddress value).map fun c1 =>
        { vram with cartridge := some c1 }
  else if 0x2000 ≤ decodedAddress ∧ decodedAddress ≤ 0x2FFF then
    vram.cartridge.bind fun c =>
      (c.WriteNameTable decodedAddress value vram.ntVRAM).map fun ntVRAM =>
        { vram with ntVRAM := ntVRAM }
  else if 0x3F00 ≤ decodedAddress ∧ decodedAddress ≤ 0x3F0F then
    some { vram with
      backgroundPaletteRAM := fun i =>
        if i = (decodedAddress &&& 0x000F) then value else vram.backgroundPaletteRAM i }
  else if 0x3F10 ≤ decodedAddress ∧ decodedAddress ≤ 0x3F1F then
    some { vram with
      spritePaletteRAM := fun i =>
        if i = (decodedAddress &&& 0x000F) then value else vram.spritePaletteRAM i }
  else some vram

/-- `spriteMemory.read`. -/
def spriteMemory.read (spr : spriteMemory) (offset : Int) : Option Int :=
  if 0 ≤ offset ∧ offset < 0x100 then some (spr.ram offset) else none

/-- `spriteMemory.write`. -/
def spriteMemory.write (spr : spriteMemory) (offset value : Int) :
    Option spriteMemory :=
  if 0 ≤ offset ∧ offset < 0x100 then
    some { spr with ram := fun i => if i = offset then value else spr.ram i }
  else none

/-- `spriteMemory.readTemp`. -/
def spriteMemory.readTemp (spr : spriteMemory) (address : Int) : Option Int :=
  if 0 ≤ address ∧ address < 0x20 then some (spr.tempMemory address) else none

/-- `spriteMemory.writeTemp`. -/
def spriteMemory.writeTemp (spr : spriteMemory) (address value : Int) :
    Option spriteMemory :=
  if 0 ≤ address ∧ address < 0x20 then
    some { spr with
      tempMemory := fun i => if i = address then value else spr.tempMemory i }
  else none

/-! ### The state of the renderers and of the PPU -/

/-- The struct `backgroundTileLatch`. -/
structure backgroundTileLatch where
  /-- Tile index, 8 bits. -/
  tileIndex : Int
  /-- Low plane of the tile row, 8 bits. -/
  tileDataLow : Int
  /-- High plane of the tile row, 8 bits. -/
  tileDataHigh : Int
  /-- Palette select, 2 bits. -/
  attributePaletteData : Int

/-- The struct `backgroundRenderPipeline`. -/
structure backgroundRenderPipeline where
  /-- Low plane, 16 bits. -/
  tileDataLow : Int
  /-- High plane, 16 bits. -/
  tileDataHigh : Int
  /-- Low palette bit. -/
  attributePalleteDataLow : Int
  /-- High palette bit. -/
  attributePalleteDataHigh : Int

/-- The struct `backgroundRenderer` without its pointers to the registers and to the memory of
the PPU. -/
structure backgroundRenderer where
  /-- The tile latch. -/
  tileLatch : backgroundTileLatch
  /-- The shift registers. -/
  pipeline : backgroundRenderPipeline

/-- The struct `spriteRenderPipeline`. -/
structure spriteRenderPipeline where
  /-- Low plane of the tile row, 8 bits. -/
  tileDataLow : Int
  /-- High plane of the tile row, 8 bits. -/
  tileDataHigh : Int
  /-- Palette select, 2 bits. -/
  attributePaletteData : Int
  /-- Whether the sprite is in front of the background. -/
  isHighPriority : Bool
  /-- X position on the screen. -/
  xPosition : Int
  /-- Whether the entry holds sprite zero. -/
  isSpriteZero : Bool

/-- The zero value `spriteRenderPipeline{}`. -/
def noSpriteRenderData : spriteRenderPipeline :=
  { tileDataLow := 0, tileDataHigh := 0, attributePaletteData := 0, isHighPriority := false,
    xPosition := 0, isSpriteZero := false }

/-- The struct `spriteRenderer` without its pointers to the registers and to the memories of the
PPU. -/
structure spriteRenderer where
  /-- The pipeline, `[8]spriteRenderPipeline`. -/
  pipelineMemory : Int → spriteRenderPipeline
  /-- Whether sprite zero is in range. -/
  isSpriteZeroInRange : Bool

/-- The struct `PPU`, with a receiver of the VBL signal of the type `ρ` and a receiver of the
frames of the type `ν`. -/
structure PPU (ρ ν : Type) where
  /-- Control register. -/
  ctrlReg : ctrlRegister
  /-- Mask register. -/
  maskReg : maskRegister
  /-- Status register. -/
  statusReg : statusRegister
  /-- Sprite RAM address register. -/
  sprRAMAddressReg : spriteRAMAddressRegister
  /-- VRAM address and scroll register. -/
  vramAddressScrollReg : vramAddressScrollRegister
  /-- VRAM. -/
  vramMemory : vramMemory
  /-- Sprite memory. -/
  sprMemory : spriteMemory
  /-- Background renderer. -/
  backgroundRenderer : backgroundRenderer
  /-- Sprite renderer. -/
  spriteRenderer : spriteRenderer
  /-- Pixel buffer of the scanline, `[NESWidth]int`. -/
  scanlineOffscreenBuffer : Int → Int
  /-- Pixel buffer of the frame, `[NESHeight * NESWidth]int`. -/
  frameBuffer : Int → Int
  /-- Dot counter. -/
  currentCycle : Int
  /-- Scanline counter. -/
  currentScanline : Int
  /-- Number of dots of the current scanline. -/
  currentScanlineCyclesCount : Int
  /-- Whether the frame is odd. -/
  isOddFrame : Bool
  /-- Whether the VBL flag may be set in this frame. -/
  canSetVblForFrame : Bool
  /-- Receiver of the VBL signal. -/
  vblReceiver : ρ
  /-- Receiver of the frames. -/
  videoReceiver : ν

section
variable {ρ ν : Type}

/-- `New`: every register, memory cell and counter has its zero value. -/
def New (cartridge : Option cartridge.Cartridge) (vblReceiver : ρ) (videoReceiver : ν) :
    PPU ρ ν :=
  { ctrlReg := { value := 0 }
    maskReg := { value := 0 }
    statusReg := { value := 0 }
    sprRAMAddressReg := { value := 0 }
    vramAddressScrollReg :=
      { address := 0, lastValue := 0, tempAddress := 0, toggle := false, bgFineX := 0 }
    vramMemory := newVRAMMemory cartridge
    sprMemory := { ram := fun _ => 0, tempMemory := fun _ => 0 }
    backgroundRenderer :=
      { tileLatch := { tileIndex := 0, tileDataLow := 0, tileDataHigh := 0,
                       attributePaletteData := 0 }
        pipeline := { tileDataLow := 0, tileDataHigh := 0, attributePalleteDataLow := 0,
                      attributePalleteDataHigh := 0 } }
    spriteRenderer := { pipelineMemory := fun _ => noSpriteRenderData,
                        isSpriteZeroInRange := false }
    scanlineOffscreenBuffer := fun _ => 0
    frameBuffer := fun _ => 0
    currentCycle := 0
    currentScanline := 0
    currentScanlineCyclesCount := 0
    isOddFrame := false
    canSetVblForFrame := false
    vblReceiver := vblReceiver
    videoReceiver := videoReceiver }

/-- `Init`. -/
def PPU.Init (ppu : PPU ρ ν) : PPU ρ ν :=
  { ppu with
    currentCycle := -1
    currentScanline := 0
    currentScanlineCyclesCount := CyclesCountInScanline
    isOddFrame := true
    canSetVblForFrame := true
    ctrlReg := { value := 0x00 }
    maskReg := { value := 0x06 }
    statusReg := { value := 0x00 }
    sprRAMAddressReg := { value := 0x00 }
    vramAddressScrollReg :=
      { tempAddress := 0x0, bgFineX := 0, toggle := false, address := 0x0, lastValue := 0x0 } }

/-- `Reset`. -/
def PPU.Reset (ppu : PPU ρ ν) : PPU ρ ν :=
  { ppu with
    currentCycle := -1
    currentScanline := 0
    currentScanlineCyclesCount := CyclesCountInScanline
    isOddFrame := true
    canSetVblForFrame := true
    ctrlReg := { value := 0x00 }
    maskReg := { value := 0x06 }
    statusReg := { value := ppu.statusReg.value &&& 0x80 }
    vramAddressScrollReg :=
      { ppu.vramAddressScrollReg with
        tempAddress := 0x0, bgFineX := 0, toggle := false, lastValue := 0x0 } }

/-- `isRenderingEnabled`. -/
def PPU.isRenderingEnabled (ppu : PPU ρ ν) : Bool :=
  ppu.maskReg.isBackgroundVisibilityEnabled || ppu.maskReg.isSpriteVisibilityEnabled

/-- `getVramAddressInc`. -/
def PPU.getVramAddressInc (ppu : PPU ρ ν) : Int :=
  if (ppu.ctrlReg.value &&& ctrlAddrInc) ≠ 0 then 32 else 1

/-- The access `scanlineOffscreenBuffer[i]`. -/
def PPU.readScanlineBuffer (ppu : PPU ρ ν) (i : Int) : Option Int :=
  if 0 ≤ i ∧ i < NESWidth then some (ppu.scanlineOffscreenBuffer i) else none

/-- The assignment `scanlineOffscreenBuffer[i] = value`. -/
def PPU.writeScanlineBuffer (ppu : PPU ρ ν) (i value : Int) : Option (PPU ρ ν) :=
  if 0 ≤ i ∧ i < NESWidth then
    some { ppu with
      scanlineOffscreenBuffer := fun j => if j = i then value else ppu.scanlineOffscreenBuffer j }
  else none

/-! ### The background renderer (`background.go`) -/

/-- The table `nametableIndexToAddress`. -/
def nametableIndexToAddress : List Int := [0x2000, 0x2400, 0x2800, 0x2C00]

/-- The table `nametableIndexToHorizontalIndex`. -/
def nametableIndexToHorizontalIndex : List Int := [0x1, 0x0, 0x3, 0x2]

/-- The table `nametableIndexToVerticalndex`. -/
def nametableIndexToVerticalndex : List Int := [0x2, 0x3, 0x0, 0x1]

/-- `reverseByte`: `bits.Reverse32(uint32(b))` shifted right by 24 and masked with 0xFF, which is
the low byte of `b` with its eight bits in the opposite order. -/
def reverseByte (b : Int) : Int :=
  let b := b % 256
  128 * (b % 2) + 64 * (b / 2 % 2) + 32 * (b / 4 % 2) + 16 * (b / 8 % 2) + 8 * (b / 16 % 2)
    + 4 * (b / 32 % 2) + 2 * (b / 64 % 2) + b / 128 % 2

/-- `backgroundRenderer.loadPipeline`. -/
def loadPipeline (ppu : PPU ρ ν) : PPU ρ ν :=
  let latch := ppu.backgroundRenderer.tileLatch
  let pipeline := ppu.backgroundRenderer.pipeline
  let attributePalleteDataLow : Int :=
    if (latch.attributePaletteData &&& 0x01) ≠ 0 then 0xFF else 0x00
  let attributePalleteDataHigh : Int :=
    if (latch.attributePaletteData &&& 0x02) ≠ 0 then 0xFF else 0x00
  { ppu with
    backgroundRenderer :=
      { ppu.backgroundRenderer with
        pipeline :=
          { tileDataLow := shl (reverseByte latch.tileDataLow) 8 ||| (pipeline.tileDataLow &&& 0x00FF)
            tileDataHigh :=
              shl (reverseByte latch.tileDataHigh) 8 ||| (pipeline.tileDataHigh &&& 0x00FF)
            attributePalleteDataLow :=
              shl attributePalleteDataLow 8 ||| (pipeline.attributePalleteDataLow &&& 0x00FF)
            attributePalleteDataHigh :=
              shl attributePalleteDataHigh 8 ||| (pipeline.attributePalleteDataHigh &&& 0xFF) } } }

/-- `backgroundRenderer.renderBackgroundPixel`.  The shift count `uint8(fineX)` is the low byte
of `fineX`, and the shifted value is a 64-bit `int`. -/
def renderBackgroundPixel (ppu : PPU ρ ν) (currentCycle : Int) : Option (PPU ρ ν) :=
  let fineX := ppu.vramAddressScrollReg.bgFineX
  let bitPosition := wrap64 (shl 1 (fineX % 256).toNat)
  let pipeline := ppu.backgroundRenderer.pipeline
  let tilePaletteDataLowBit : Int := if (pipeline.tileDataLow &&& bitPosition) ≠ 0 then 1 else 0
  let tilePaletteDataHighBit : Int :=
    if (pipeline.tileDataHigh &&& bitPosition) ≠ 0 then 2 else 0
  let attributePaletteDataLowBit : Int :=
    if (pipeline.attributePalleteDataLow &&& bitPosition) ≠ 0 then 4 else 0
  let attributePaletteDataHighBit : Int :=
    if (pipeline.attributePalleteDataHigh &&& bitPosition) ≠ 0 then 8 else 0
  let paletteIndex := attributePaletteDataHighBit ||| attributePaletteDataLowBit |||
    tilePaletteDataHighBit ||| tilePaletteDataLowBit
  -- Palette mirroring
  let paletteIndex :=
    if paletteIndex = 0x04 ∨ paletteIndex = 0x08 ∨ paletteIndex = 0x0C then 0x00
    else paletteIndex
  ppu.writeScanlineBuffer currentCycle paletteIndex

/-- `backgroundRenderer.renderTileData`. -/
def renderTileData (ppu : PPU ρ ν) (currentCycle : Int) (drawPixel : Bool) :
    Option (PPU ρ ν) :=
  (if drawPixel then
    if currentCycle > 7 ∨ !ppu.maskReg.isBackgroundClippingEnabled then
      renderBackgroundPixel ppu currentCycle
    else some ppu
  else some ppu).bind fun ppu =>
    -- Shift pipeline
    let pipeline := ppu.backgroundRenderer.pipeline
    some { ppu with
      backgroundRenderer :=
        { ppu.backgroundRenderer with
          pipeline :=
            { tileDataLow := shr pipeline.tileDataLow 1
              tileDataHigh := shr pipeline.tileDataHigh 1
              attributePalleteDataLow := shr pipeline.attributePalleteDataLow 1
              attributePalleteDataHigh := shr pipeline.attributePalleteDataHigh 1 } } }

/-- `backgroundRenderer.incrementBackgroundTileX`. -/
def incrementBackgroundTileX (ppu : PPU ρ ν) : Option (PPU ρ ν) :=
  let tileX := ppu.vramAddressScrollReg.backgroundTileX
  let nameTableIndex := ppu.vramAddressScrollReg.nameTableIndex
  let tileX := tileX + 1
  (if tileX > 31 then
    (index? nametableIndexToHorizontalIndex nameTableIndex).map fun n => ((0 : Int), n)
  else some (tileX, nameTableIndex)).map fun r =>
    { ppu with
      vramAddressScrollReg :=
        (ppu.vramAddressScrollReg.setBackgroundTileX r.1).setNameTableIndex r.2 }

/-- `backgroundRenderer.incrementBackgroundFineY`. -/
def incrementBackgroundFineY (ppu : PPU ρ ν) : Option (PPU ρ ν) :=
  let fineY := ppu.vramAddressScrollReg.backgroundFineY
  let nameTableIndex := ppu.vramAddressScrollReg.nameTableIndex
  let tileY := ppu.vramAddressScrollReg.backgroundTileY
  let fineY := fineY + 1
  (if fineY > 7 then
    let tileY := tileY + 1
    if tileY = 31 then some ((0 : Int), (0 : Int), nameTableIndex)
    else if tileY = 30 then
      (index? nametableIndexToVerticalndex nameTableIndex).map fun n => ((0 : Int), (0 : Int), n)
    else some (0, tileY, nameTableIndex)
  else some (fineY, tileY, nameTableIndex)).map fun r =>
    { ppu with
      vramAddressScrollReg :=
        ((ppu.vramAddressScrollReg.setBackgroundFineY r.1).setBackgroundTileY
          r.2.1).setNameTableIndex r.2.2 }

/-- `backgroundRenderer.fetchTileData`. -/
def fetchTileData (ppu : PPU ρ ν) : Option (PPU ρ ν) :=
  -- Name table read
  let nameTableIndex := ppu.vramAddressScrollReg.nameTableIndex
  (index? nametableIndexToAddress nameTableIndex).bind fun nameTableAddress =>
  let tileX := ppu.vramAddressScrollReg.backgroundTileX
  let tileY := ppu.vramAddressScrollReg.backgroundTileY
  let tileAddress := nameTableAddress + 32 * tileY + tileX
  (ppu.vramMemory.read tileAddress).bind fun tileIndex =>
  -- Attribute table read
  let attributeTableX := tileX / 4
  let attributeTableY := tileY / 4
  let attributeAddress := nameTableAddress + 960 + 8 * attributeTableY + attributeTableX
  (ppu.vramMemory.read attributeAddress).bind fun attributeByte =>
  let attributeFineX := tileX % 4
  let attributeFineY := tileY % 4
  let attributePaletteData :=
    if attributeFineY < 2 then
      if attributeFineX < 2 then attributeByte &&& 0x03
      else shr (attributeByte &&& 0x0C) 2
    else
      if attributeFineX < 2 then shr (attributeByte &&& 0x30) 4
      else shr (attributeByte &&& 0xC0) 6
  -- tileX is calculated and stored. Increment for next fetch.
  (incrementBackgroundTileX ppu).bind fun ppu =>
  -- Pattern table bitmap #0 read
  let fineY := ppu.vramAddressScrollReg.backgroundFineY
  let backgroundPatternTableAddress := ppu.ctrlReg.getBackgroundPatternTableAddress
  let tileDataLowAddress := backgroundPatternTableAddress + tileIndex * 16 + fineY
  (ppu.vramMemory.read tileDataLowAddress).bind fun tileDataLow =>
  -- Pattern table bitmap #1 read
  let tileDataHighAddress := tileDataLowAddress + 8
  (ppu.vramMemory.read tileDataHighAddress).bind fun tileDataHigh =>
  some { ppu with
    backgroundRenderer :=
      { ppu.backgroundRenderer with
        tileLatch :=
          { tileIndex := tileIndex, tileDataLow := tileDataLow, tileDataHigh := tileDataHigh,
            attributePaletteData := attributePaletteData } } }

/-- `backgroundRenderer.executeScanlineBackgroundCycle`; the scanline buffer it is given is the
one of the PPU. -/
def executeScanlineBackgroundCycle (ppu : PPU ρ ν) (currentCycle : Int) (shouldRender : Bool) :
    Option (PPU ρ ν) :=
  if 0 ≤ currentCycle ∧ currentCycle ≤ 255 then
    let fetchTilePhaseCycle := currentCycle &&& 0x07
    (if shouldRender then
      renderTileData (if fetchTilePhaseCycle = 0 then loadPipeline ppu else ppu) currentCycle
        true
    else some ppu).bind fun ppu =>
      if fetchTilePhaseCycle = 7 then fetchTileData ppu else some ppu
  else if 256 ≤ currentCycle ∧ currentCycle ≤ 319 then
    if currentCycle = 256 then incrementBackgroundFineY ppu else some ppu
  else if 320 ≤ currentCycle ∧ currentCycle ≤ 335 then
    let fetchTilePhaseCycle := currentCycle &&& 0x07
    (renderTileData (if fetchTilePhaseCycle = 0 then loadPipeline ppu else ppu) currentCycle
        false).bind fun ppu =>
      if fetchTilePhaseCycle = 7 then fetchTileData ppu else some ppu
  else some ppu

/-! ### The sprite renderer (`sprite.go`) -/

/-- Sprite attribute bit 7. -/
def sprAttrRevertVertically : Int := 0x80
/-- Sprite attribute bit 6. -/
def sprAttrRevertHorizontally : Int := 0x40
/-- Sprite attribute bit 5. -/
def sprAttrPriority : Int := 0x20
/-- Sprite attribute bits 0 and 1. -/
def sprAttrPalette : Int := 0x3

/-- `spriteRenderer.reset`. -/
def spriteRendererReset (ppu : PPU ρ ν) : PPU ρ ν :=
  { ppu with
    spriteRenderer := { ppu.spriteRenderer with pipelineMemory := fun _ => noSpriteRenderData } }

/-- `spriteRenderer.clearSpriteZeroInRangeFlag`. -/
def clearSpriteZeroInRangeFlag (ppu : PPU ρ ν) : PPU ρ ν :=
  { ppu with spriteRenderer := { ppu.spriteRenderer with isSpriteZeroInRange := false } }

/-- The loop of `spriteRenderer.renderSpritePixel` over the entries of the pipeline whose
indices are listed; the `break` ends it at the first entry with a pixel that is not
transparent. -/
def renderSpritePixelFrom (ppu : PPU ρ ν) (currentCycle : Int) : List Int → Option (PPU ρ ν)
  | [] => some ppu
  | i :: rest =>
    let pipeline := ppu.spriteRenderer.pipelineMemory i
    let fineX := currentCycle - pipeline.xPosition
    if 0 ≤ fineX ∧ fineX ≤ 7 then
      let bitPosition := shl 1 (7 - fineX).toNat
      let tilePaletteDataLowBit : Int :=
        if (pipeline.tileDataLow &&& bitPosition) ≠ 0 then 1 else 0
      let tilePaletteDataHighBit : Int :=
        if (pipeline.tileDataHigh &&& bitPosition) ≠ 0 then 1 else 0
      if tilePaletteDataLowBit ≠ 0 ∨ tilePaletteDataHighBit ≠ 0 then
        -- First non transparent sprite. We stop here!
        (ppu.readScanlineBuffer currentCycle).bind fun bgPixel =>
        -- Determine pixels to draw
        (if (bgPixel &&& 0x3) = 0 ∨ pipeline.isHighPriority ∨
            !ppu.maskReg.isBackgroundVisibilityEnabled then
          let paletteIndex := (shl pipeline.attributePaletteData 2 |||
            shl tilePaletteDataHighBit 1 ||| tilePaletteDataLowBit) &&& 0xF
          ppu.writeScanlineBuffer currentCycle (0x10 ||| paletteIndex)
        else some ppu).bind fun ppu =>
        -- Sprite zero hit test
        some { ppu with
          statusReg :=
            { value :=
                if ppu.maskReg.isBackgroundVisibilityEnabled ∧
                    ppu.maskReg.isSpriteVisibilityEnabled ∧ currentCycle ≤ 254 ∧
                    (bgPixel &&& 0x3) ≠ 0 ∧ pipeline.isSpriteZero then
                  ppu.statusReg.value ||| statusSpriteZeroOccurrence
                else ppu.statusReg.value } }
      else renderSpritePixelFrom ppu currentCycle rest
    else renderSpritePixelFrom ppu currentCycle rest

/-- `spriteRenderer.renderSpritePixel`. -/
def renderSpritePixel (ppu : PPU ρ ν) (currentCycle : Int) : Option (PPU ρ ν) :=
  renderSpritePixelFrom ppu currentCycle (indices 8)

/-- `spriteRenderer.isSpriteInRangeForNextScanline`. -/
def isSpriteInRangeForNextScanline (ppu : PPU ρ ν) (sprYPosition currentScanline : Int) :
    Bool :=
  let spriteFineY := (currentScanline + 1) - FirstRenderScanline - (sprYPosition + 1)
  if 0 ≤ spriteFineY ∧ spriteFineY ≤ 7 then true
  else if ppu.ctrlReg.is16PixelsSprite then
    if 0 ≤ spriteFineY ∧ spriteFineY ≤ 15 then true else false
  else false

/-- The loop of `spriteRenderer.evaluateSprites` over the sprites whose indices are listed, with
`spriteIndexForNextScanline` sprites found so far; the `break` ends it at the ninth sprite in
range. -/
def evaluateSpritesFrom (currentScanline : Int) :
    List Int → Int → PPU ρ ν → Option (PPU ρ ν)
  | [], _, ppu => some ppu
  | i :: rest, spriteIndexForNextScanline, ppu =>
    let spriteMemoryIndex := i * 4
    (ppu.sprMemory.read spriteMemoryIndex).bind fun yPosition =>
    if isSpriteInRangeForNextScanline ppu yPosition currentScanline then
      if spriteIndexForNextScanline < 8 then
        -- 8 sprites are only visible for scanline.
        (ppu.sprMemory.read (spriteMemoryIndex + 1)).bind fun tileIndex =>
        (ppu.sprMemory.read (spriteMemoryIndex + 2)).bind fun attributes =>
        (ppu.sprMemory.read (spriteMemoryIndex + 3)).bind fun xPosition =>
        let spriteTempMemoryIndex := spriteIndexForNextScanline * 4
        (ppu.sprMemory.writeTemp spriteTempMemoryIndex yPosition).bind fun m =>
        (m.writeTemp (spriteTempMemoryIndex + 1) tileIndex).bind fun m =>
        (m.writeTemp (spriteTempMemoryIndex + 2) attributes).bind fun m =>
        (m.writeTemp (spriteTempMemoryIndex + 3) xPosition).bind fun m =>
        evaluateSpritesFrom currentScanline rest (spriteIndexForNextScanline + 1)
          { ppu with
            sprMemory := m
            spriteRenderer :=
              { ppu.spriteRenderer with
                isSpriteZeroInRange :=
                  if i = 0 then true else ppu.spriteRenderer.isSpriteZeroInRange } }
      else
        -- More than 8 sprites suitable for next scanline.
        some { ppu with
          statusReg := { value := ppu.statusReg.value ||| statusScanlineSpriteCount } }
    else evaluateSpritesFrom currentScanline rest spriteIndexForNextScanline ppu

/-- `spriteRenderer.evaluateSprites`. -/
def evaluateSprites (ppu : PPU ρ ν) (currentScanline : Int) : Option (PPU ρ ν) :=
  evaluateSpritesFrom currentScanline (indices 64) 0 ppu

/-- The loop of `spriteRenderer.fetchSpriteTileData` over the slots of the temporary memory
whose indices are listed. -/
def fetchSpriteTileDataFrom (currentScanline : Int) : List Int → PPU ρ ν → Option (PPU ρ ν)
  | [], ppu => some ppu
  | spriteIndex :: rest, ppu =>
    let spriteAddress := spriteIndex * 4
    (ppu.sprMemory.readTemp spriteAddress).bind fun yPosition =>
    (ppu.sprMemory.readTemp (spriteAddress + 1)).bind fun tileIndex =>
    (ppu.sprMemory.readTemp (spriteAddress + 2)).bind fun attributes =>
    (ppu.sprMemory.readTemp (spriteAddress + 3)).bind fun xPosition =>
    let fineY := currentScanline - FirstRenderScanline - yPosition
    let is16 := ppu.ctrlReg.is16PixelsSprite
    let fineY :=
      if !is16 then
        if (attributes &&& sprAttrRevertVertically) ≠ 0 then 7 - fineY else fineY
      else
        if (attributes &&& sprAttrRevertVertically) ≠ 0 then 15 - fineY else fineY
    let spritePatternTableAddress : Int :=
      if !is16 then
        if (ppu.ctrlReg.value &&& ctrlSpritePatternTableAddr) ≠ 0 then 0x1000 else 0x0000
      else
        if (tileIndex &&& 0x1) ≠ 0 then 0x1000 else 0x0000
    let tileIndex :=
      if !is16 then tileIndex
      else if fineY > 7 then (tileIndex &&& 0xFE) + 1 else tileIndex &&& 0xFE
    let fineY := if !is16 then fineY else if fineY > 7 then fineY - 8 else fineY
    (if yPosition = 0xFF ∧ (tileIndex = 0xFE ∨ tileIndex = 0xFF) ∧ attributes = 0xFF ∧
        xPosition = 0xFF then
      -- Dummy fetch
      let tileDataLowAddress := spritePatternTableAddress + tileIndex * 16 + 0
      (ppu.vramMemory.read tileDataLowAddress).map fun _ => noSpriteRenderData
    else
      let tileDataLowAddress := spritePatternTableAddress + tileIndex * 16 + fineY
      (ppu.vramMemory.read tileDataLowAddress).bind fun tileDataLow =>
      (ppu.vramMemory.read (tileDataLowAddress + 8)).bind fun tileDataHigh =>
      let revert := (attributes &&& sprAttrRevertHorizontally) ≠ 0
      some
        { tileDataLow := if revert then reverseByte tileDataLow else tileDataLow
          tileDataHigh := if revert then reverseByte tileDataHigh else tileDataHigh
          attributePaletteData := attributes &&& sprAttrPalette
          isHighPriority := decide ((attributes &&& sprAttrPriority) = 0)
          xPosition := xPosition
          isSpriteZero := ppu.spriteRenderer.isSpriteZeroInRange && decide (spriteIndex = 0) }
      ).bind fun spriteRenderData =>
    fetchSpriteTileDataFrom currentScanline rest
      { ppu with
        spriteRenderer :=
          { ppu.spriteRenderer with
            pipelineMemory := fun j =>
              if j = spriteIndex then spriteRenderData
              else ppu.spriteRenderer.pipelineMemory j } }

/-- `spriteRenderer.fetchSpriteTileData`. -/
def fetchSpriteTileData (ppu : PPU ρ ν) (currentScanline : Int) : Option (PPU ρ ν) :=
  fetchSpriteTileDataFrom currentScanline (indices 8) ppu

/-- `spriteRenderer.executeScanlineSpriteCycle`; the scanline buffer it is given is the one of
the PPU.  The loop that clears the temporary memory is embedded by its result. -/
def executeScanlineSpriteCycle (ppu : PPU ρ ν) (currentCycle currentScanline : Int) :
    Option (PPU ρ ν) :=
  -- Render sprite pixel for current scanline
  (if 0 ≤ currentCycle ∧ currentCycle ≤ 255 then
    if currentScanline > FirstRenderScanline then
      if currentCycle > 7 ∨ !ppu.maskReg.isSpriteClippingEnabled then
        renderSpritePixel ppu currentCycle
      else some ppu
    else some ppu
  else some ppu).bind fun ppu =>
  -- Evaluate/Fetch sprites for next scanline
  if 0 ≤ currentCycle ∧ currentCycle ≤ 63 then
    if currentCycle = 0 then
      some { ppu with sprMemory := { ppu.sprMemory with tempMemory := fun _ => 0xFF } }
    else some ppu
  else if 64 ≤ currentCycle ∧ currentCycle ≤ 255 then
    if currentCycle = 64 then evaluateSprites ppu currentScanline else some ppu
  else if 256 ≤ currentCycle ∧ currentCycle ≤ 319 then
    if currentCycle = 260 then fetchSpriteTileData ppu currentScanline else some ppu
  else some ppu

/-! ### The PPU (`ppu.go`) -/

/-- The loop of `getScanlineVideo` over the pixels whose indices are listed. -/
def getScanlineVideoFrom (paletteRGB : Int → Int) (ppu : PPU ρ ν) :
    List Int → (Int → Int) → Option (Int → Int)
  | [], scanlineVideoBuffer => some scanlineVideoBuffer
  | i :: rest, scanlineVideoBuffer =>
    let paletteAddress := 0x3F00 ||| (ppu.scanlineOffscreenBuffer i &&& 0x1F)
    (ppu.vramMemory.read paletteAddress).bind fun colorIndex =>
    let rgb := paletteRGB (colorIndex &&& 0x3F)
    getScanlineVideoFrom paletteRGB ppu rest
      fun j => if j = i then rgb else scanlineVideoBuffer j

/-- `getScanlineVideo`. -/
def getScanlineVideo (paletteRGB : Int → Int) (ppu : PPU ρ ν) : Option (Int → Int) :=
  getScanlineVideoFrom paletteRGB ppu (indices 256) fun _ => 0

/-- The part "Determine scanline & frame" of the body of the loop of `ExecuteCycles`.  The loop
that clears the frame buffer is embedded by its result. -/
def determineScanlineAndFrame (ppu : PPU ρ ν) : PPU ρ ν :=
  let ppu := { ppu with currentCycle := ppu.currentCycle + 1 }
  if ppu.currentCycle = ppu.currentScanlineCyclesCount then
    -- New scanline
    let ppu :=
      { ppu with
        currentCycle := 0
        currentScanline := ppu.currentScanline + 1
        currentScanlineCyclesCount := CyclesCountInScanline }
    if ppu.currentScanline = ScanlineCountInFrame then
      -- New frame
      { ppu with currentScanline := 0, isOddFrame := !ppu.isOddFrame, frameBuffer := fun _ => 0 }
    else ppu
  else ppu

/-- The calls of the two renderers in the body of the loop of `ExecuteCycles`. -/
def render (ppu : PPU ρ ν) (shouldRender : Bool) : Option (PPU ρ ν) :=
  if ppu.isRenderingEnabled then
    (executeScanlineBackgroundCycle ppu ppu.currentCycle shouldRender).bind fun ppu =>
      executeScanlineSpriteCycle ppu ppu.currentCycle ppu.currentScanline
  else some ppu

/-- The reload `v:0000010000011111=t:0000010000011111` in the body of the loop of
`ExecuteCycles`. -/
def reloadHorizontal (ppu : PPU ρ ν) : PPU ρ ν :=
  { ppu with
    vramAddressScrollReg :=
      { ppu.vramAddressScrollReg with
        address :=
          if ppu.isRenderingEnabled then
            (ppu.vramAddressScrollReg.address &&& 0xFBE0) |||
              (ppu.vramAddressScrollReg.tempAddress &&& 0x041F)
          else ppu.vramAddressScrollReg.address } }

/-- The assignments that the body of the loop of `ExecuteCycles` makes on the dummy scanline
before it calls the renderers. -/
def dummyScanlineCycle (ppu : PPU ρ ν) : PPU ρ ν :=
  if ppu.currentCycle = 0 then
    -- Clear VBlank flag, fix flags, clear sprite zero flag
    clearSpriteZeroInRangeFlag
      { ppu with
        statusReg :=
          { value :=
              andNot (andNot (ppu.statusReg.setInVblank false).value
                statusScanlineSpriteCount) statusSpriteZeroOccurrence }
        currentScanlineCyclesCount :=
          if ppu.isOddFrame ∧ ppu.maskReg.isBackgroundVisibilityEnabled then
            CyclesCountInScanline - 1
          else ppu.currentScanlineCyclesCount }
  else if ppu.currentCycle = 256 then reloadHorizontal ppu
  else if ppu.currentCycle = 303 then
    -- Frame start
    { ppu with
      vramAddressScrollReg :=
        { ppu.vramAddressScrollReg with
          address :=
            if ppu.isRenderingEnabled then ppu.vramAddressScrollReg.tempAddress
            else ppu.vramAddressScrollReg.address } }
  else ppu

/-- The assignments that the body of the loop of `ExecuteCycles` makes on a rendered scanline
before it calls the renderers.  The loop that clears the scanline buffer is embedded by its
result. -/
def renderScanlineCycle (ppu : PPU ρ ν) : PPU ρ ν :=
  if ppu.currentCycle = 0 then
    -- Clear offscreen buffers
    { ppu with scanlineOffscreenBuffer := fun _ => 0x00 }
  else if ppu.currentCycle = 256 then reloadHorizontal ppu
  else ppu

variable [VBLReceiver ρ] [VideoReceiver ν]

/-- The part "Scanline rendering" of the body of the loop of `ExecuteCycles`.  The loop that
copies the scanline into the frame buffer is embedded by its result. -/
def scanlineRendering (paletteRGB : Int → Int) (ppu : PPU ρ ν) : Option (PPU ρ ν) :=
  if VblankStartScanline = ppu.currentScanline then
    if ppu.currentCycle = 0 then
      -- Set VBlank flag, clear spr ram address, clear sprite renderer pipeline
      some (spriteRendererReset
        { ppu with
          statusReg :=
            if ppu.canSetVblForFrame then ppu.statusReg.setInVblank true else ppu.statusReg
          sprRAMAddressReg := { value := 0 } })
    else if ppu.currentCycle = 2 then
      some { ppu with
        vblReceiver :=
          if ppu.ctrlReg.execNMIOnVblEnabled then VBLReceiver.ReceiveVBL ppu.vblReceiver
          else ppu.vblReceiver
        -- Clear VBL lock
        canSetVblForFrame := true }
    else some ppu
  else if DummyRenderScanline = ppu.currentScanline then
    render (dummyScanlineCycle ppu) false
  else if FirstRenderScanline ≤ ppu.currentScanline ∧
      ppu.currentScanline ≤ LastRenderScanline then
    (render (renderScanlineCycle ppu) true).bind fun ppu =>
    -- Send to video
    if ppu.currentCycle = ppu.currentScanlineCyclesCount - 1 then
      (getScanlineVideo paletteRGB ppu).bind fun scanlineBuffer =>
      let offset := (ppu.currentScanline - FirstRenderScanline) * NESWidth
      let frameBuffer := fun j =>
        if offset ≤ j ∧ j < offset + NESWidth then scanlineBuffer (j - offset)
        else ppu.frameBuffer j
      some { ppu with
        frameBuffer := frameBuffer
        videoReceiver :=
          if ppu.currentScanline = LastRenderScanline then
            VideoReceiver.ReceiveFrame ppu.videoReceiver frameBuffer
          else ppu.videoReceiver }
    else some ppu
  else some ppu

/-- The body of the loop of `ExecuteCycles`: one dot. -/
def executeCycle (paletteRGB : Int → Int) (ppu : PPU ρ ν) : Option (PPU ρ ν) :=
  scanlineRendering paletteRGB (determineScanlineAndFrame ppu)

/-- The loop of `ExecuteCycles` with `n` iterations left. -/
def executeCyclesLoop (paletteRGB : Int → Int) : Nat → PPU ρ ν → Option (PPU ρ ν)
  | 0, ppu => some ppu
  | n + 1, ppu => (executeCycle paletteRGB ppu).bind (executeCyclesLoop paletteRGB n)

/-- `ExecuteCycles`. -/
def PPU.ExecuteCycles (paletteRGB : Int → Int) (ppu : PPU ρ ν) (ppuCycles : Int) :
    Option (PPU ρ ν) :=
  executeCyclesLoop paletteRGB ppuCycles.toNat ppu

/-- `ReadRegister`. -/
def PPU.ReadRegister (ppu : PPU ρ ν) (register : Int) : Option (Int × PPU ρ ν) :=
  if register = StatusRegID then
    -- $2002 R toggle = 0
    let status := ppu.statusReg.value
    let ppu :=
      { ppu with
        statusReg := ppu.statusReg.setInVblank false
        vramAddressScrollReg := { ppu.vramAddressScrollReg with toggle := false } }
    -- Reading one PPU cycle before VBL unsets it
    if WasteScanline = ppu.currentScanline ∧
        ppu.currentCycle = ppu.currentScanlineCyclesCount - 1 then
      some (status,
        { ppu with
          canSetVblForFrame := false
          ctrlReg := ppu.ctrlReg.setExecNMIOnVblEnabled false })
    else if VblankStartScanline = ppu.currentScanline ∧ ppu.currentCycle ≤ 1 then
      some (status, { ppu with ctrlReg := ppu.ctrlReg.setExecNMIOnVblEnabled false })
    else some (status, ppu)
  else if register = SpriteRAMIORegID then
    (ppu.sprMemory.read ppu.sprRAMAddressReg.value).map fun v => (v, ppu)
  else if register = VRAMIORegID then
    let vramAddress := ppu.vramAddressScrollReg.address &&& 0x3FFF
    (if 0 ≤ vramAddress ∧ vramAddress < 0x3F00 then
      (ppu.vramMemory.read vramAddress).map fun lastValue =>
        (ppu.vramAddressScrollReg.lastValue, lastValue)
    else
      -- Background palette
      (ppu.vramMemory.read vramAddress).bind fun result =>
        -- $2000-$2fff are mirrored at $3000-$3fff
        (ppu.vramMemory.read (vramAddress - 0x1000)).map fun lastValue => (result, lastValue)
      ).map fun r =>
      (r.1,
        { ppu with
          vramAddressScrollReg :=
            { ppu.vramAddressScrollReg with
              lastValue := r.2
              address :=
                (ppu.vramAddressScrollReg.address + ppu.getVramAddressInc) &&& 0x7FFF } })
  else some (0, ppu)

/-- `WriteRegister`. -/
def PPU.WriteRegister (ppu : PPU ρ ν) (register value : Int) : Option (PPU ρ ν) :=
  if register = CtrlRegID then
    -- t:0000|1100|0000|0000=d:0000|0011
    some { ppu with
      vramAddressScrollReg :=
        { ppu.vramAddressScrollReg with
          tempAddress :=
            (ppu.vramAddressScrollReg.tempAddress &&& 0x73FF) ||| (shl value 10 &&& 0x0C00) }
      vblReceiver :=
        if ppu.statusReg.isInVblank ∧ !ppu.ctrlReg.execNMIOnVblEnabled ∧
            (value &&& ctrlExecNMIOnVblank) ≠ 0 then
          VBLReceiver.ReceiveVBL ppu.vblReceiver
        else ppu.vblReceiver
      ctrlReg := { value := value } }
  else if register = MaskRegID then
    some { ppu with maskReg := { value := value } }
  else if register = SpriteRAMAddressRegID then
    some { ppu with sprRAMAddressReg := { value := value &&& 0xFF } }
  else if register = SpriteRAMIORegID then
    (ppu.sprMemory.write ppu.sprRAMAddressReg.value value).map fun m =>
      { ppu with
        sprMemory := m
        sprRAMAddressReg := { value := (ppu.sprRAMAddressReg.value + 1) &&& 0xFF } }
  else if register = ScrollRegID then
    let r := ppu.vramAddressScrollReg
    some { ppu with
      vramAddressScrollReg :=
        if !r.toggle then
          -- First write
          { r with
            tempAddress := (r.tempAddress &&& 0x7FE0) ||| (shr value 3 &&& 0x1F)
            bgFineX := value &&& 0x07
            toggle := !r.toggle }
        else
          -- Second write
          { r with
            tempAddress :=
              (r.tempAddress &&& 0x0C1F) ||| (shl value 2 &&& 0x03E0) |||
                (shl value 12 &&& 0x7000)
            toggle := !r.toggle } }
  else if register = VRAMAddressRegID then
    let r := ppu.vramAddressScrollReg
    some { ppu with
      vramAddressScrollReg :=
        if !r.toggle then
          -- Upper address byte (first write)
          { r with
            tempAddress := (r.tempAddress &&& 0x00FF) ||| (shl value 8 &&& 0x3F00)
            toggle := !r.toggle }
        else
          -- Lower address byte (second write)
          { r with
            tempAddress := (r.tempAddress &&& 0x7F00) ||| (value &&& 0x00FF)
            address := (r.tempAddress &&& 0x7F00) ||| (value &&& 0x00FF)
            toggle := !r.toggle } }
  else if register = VRAMIORegID then
    (if (ppu.statusReg.value &&& statusVRAMWriteFlag) = 0 then
      ppu.vramMemory.write (ppu.vramAddressScrollReg.address &&& 0x3FFF) value
    else some ppu.vramMemory).map fun m =>
      { ppu with
        vramMemory := m
        vramAddressScrollReg :=
          { ppu.vramAddressScrollReg with
            address :=
              (ppu.vramAddressScrollReg.address + ppu.getVramAddressInc) &&& 0x7FFF } }
  else some ppu

end

end ppu

/-- The PPU as the device behind the pointer `memory.ppu` of the CPU memory. -/
instance {ρ ν : Type} [ppu.VBLReceiver ρ] [ppu.VideoReceiver ν] :
    RegisterDevice (ppu.PPU ρ ν) :=
  ⟨ppu.PPU.ReadRegister, ppu.PPU.WriteRegister⟩

/-- The cartridge as the device behind the pointer `memory.cartridge` of the CPU memory. -/
instance : PrgDevice cartridge.Cartridge :=
  ⟨cartridge.Cartridge.ReadPrgMemory, cartridge.Cartridge.WritePrgMemory⟩

/-! ## Vocabulary of the statements -/

/-- The flag `f` (one of `flagC ... flagN`) is set in the status byte `p`. -/
def flagSet (p f : Int) : Prop := (p &&& f) ≠ 0

instance (p f : Int) : Decidable (flagSet p f) := by unfold flagSet; infer_instance

/-- The carry flag of the status byte `p` as a number, `1` when set and `0` when clear. -/
def carryIn (p : Int) : Int := if (p &&& flagC) ≠ 0 then 1 else 0

/-- The byte `x` of `0..255` read as a signed twos-complement number of `-128..127`. -/
def signed8 (x : Int) : Int := if x < 128 then x else x - 256

/-- Reading the address `a` of the memory `m` returns `v` and leaves the memory as it is. -/
def readsAs {σ : Type} [CPUMemory σ] (m : σ) (a v : Int) : Prop :=
  CPUMemory.Read m a = some (v, m)

/-- The condition under which the branch opcode `op` is taken with the status byte `p`:
BPL 0x10 (N clear), BMI 0x30 (N set), BVC 0x50 (V clear), BVS 0x70 (V set), BCC 0x90 (C clear),
BCS 0xB0 (C set), BNE 0xD0 (Z clear), BEQ 0xF0 (Z set). -/
def branchCondition (op p : Int) : Bool :=
  if op = 0x10 then !decide (flagSet p flagN)
  else if op = 0x30 then decide (flagSet p flagN)
  else if op = 0x50 then !decide (flagSet p flagV)
  else if op = 0x70 then decide (flagSet p flagV)
  else if op = 0x90 then !decide (flagSet p flagC)
  else if op = 0xB0 then decide (flagSet p flagC)
  else if op = 0xD0 then !decide (flagSet p flagZ)
  else if op = 0xF0 then decide (flagSet p flagZ)
  else false

/-- The eight branch opcodes. -/
def branchOpcodes : List Int := [0x10, 0x30, 0x50, 0x70, 0x90, 0xB0, 0xD0, 0xF0]

/-- The value `x` is a byte. -/
def IsByte (x : Int) : Prop := 0 ≤ x ∧ x ≤ 255

instance (x : Int) : Decidable (IsByte x) := by unfold IsByte; infer_instance

/-- The operand bytes at `pc` of an instruction in the indexed mode `mode` (ABS,X, ABS,Y or
(IND),Y) designate the un-indexed base address `base` and the index register value `index`:
for ABS,X and ABS,Y the base is the word at `pc`, `pc + 1`; for (IND),Y it is the word of the
zero page at `d`, `(d + 1) mod 256`, where `d` is the byte at `pc`. -/
def indexedBase {σ : Type} [CPUMemory σ] (m : σ) (pc X Y : Int) (mode : AddrMode)
    (base index : Int) : Prop :=
  match mode with
  | ABSX => ∃ lo hi, IsByte lo ∧ IsByte hi ∧ readsAs m pc lo ∧ readsAs m (pc + 1) hi ∧
      base = lo + 256 * hi ∧ index = X
  | ABSY => ∃ lo hi, IsByte lo ∧ IsByte hi ∧ readsAs m pc lo ∧ readsAs m (pc + 1) hi ∧
      base = lo + 256 * hi ∧ index = Y
  | INDY => ∃ d lo hi, IsByte lo ∧ IsByte hi ∧ readsAs m pc d ∧ readsAs m d lo ∧
      readsAs m ((d + 1) % 256) hi ∧ base = lo + 256 * hi ∧ index = Y
  | _ => False

/-- The official read instructions in the modes ABS,X, ABS,Y and (IND),Y: LDA, LDX, LDY, ADC,
SBC, AND, ORA, EOR, CMP. -/
def readIndexedOps : List (Int × AddrMode) :=
  [(0xBD, ABSX), (0xB9, ABSY), (0xB1, INDY), (0xBE, ABSY), (0xBC, ABSX),
   (0x7D, ABSX), (0x79, ABSY), (0x71, INDY), (0xFD, ABSX), (0xF9, ABSY), (0xF1, INDY),
   (0x3D, ABSX), (0x39, ABSY), (0x31, INDY), (0x1D, ABSX), (0x19, ABSY), (0x11, INDY),
   (0x5D, ABSX), (0x59, ABSY), (0x51, INDY), (0xDD, ABSX), (0xD9, ABSY), (0xD1, INDY)]

/-- STA in the modes ABS,X, ABS,Y and (IND),Y. -/
def storeIndexedOps : List (Int × AddrMode) := [(0x9D, ABSX), (0x99, ABSY), (0x91, INDY)]

/-- The read-modify-write instructions ASL, LSR, ROL, ROR, INC, DEC in the mode ABS,X. -/
def rmwIndexedOps : List (Int × AddrMode) :=
  [(0x1E, ABSX), (0x5E, ABSX), (0x3E, ABSX), (0x7E, ABSX), (0xFE, ABSX), (0xDE, ABSX)]

/-- The constant of `cpu.go` for the indexed mode `mode`, with (`ABSX2`, `ABSY2`, `INDY2`) or
without (`ABSX`, `ABSY`, `INDY`) the additional cycle on a page crossing. -/
def codeMode (mode : AddrMode) (count : Bool) : AddrMode :=
  match mode, count with
  | ABSX, true => ABSX2
  | ABSY, true => ABSY2
  | INDY, true => INDY2
  | m, _ => m

/-- Every write at the address `a` of the memory `m` succeeds and reports `extra` additional
cycles. -/
@[reducible] def writeReports {σ : Type} [CPUMemory σ] (m : σ) (a extra : Int) : Prop :=
  ∀ w, ∃ m1, CPUMemory.Write m a w = some (extra, m1)

/-- A read instruction: it computes its effective address, reads it, and leaves the cycle count
as the address calculation left it.  The read may change the memory, as a read of a PPU
register does: `m1` is the memory after it. -/
def ReadType {σ : Type} [CPUMemory σ] (f : CPU σ → AddrMode → Option (CPU σ)) : Prop :=
  ∀ (cpu : CPU σ) (mode : AddrMode) (ea : Int) (cpu2 : CPU σ) (v : Int) (m1 : σ),
    calculateMemoryAddress cpu mode = some (ea, cpu2) →
    CPUMemory.Read cpu2.memory ea = some (v, m1) →
    ∃ cpu3, f cpu mode = some cpu3 ∧ cpu3.OpCycles = cpu2.OpCycles

/-- A store or read-modify-write instruction: after the address calculation it adds to the cycle
count only what the memory reports for the write.  The memory `m1` that is written is the one
the read of a read-modify-write instruction leaves, which may differ from the memory read, and
the memory after the address calculation for a store. -/
def WriteType {σ : Type} [CPUMemory σ] (f : CPU σ → AddrMode → Option (CPU σ))
    (reads : Bool) : Prop :=
  ∀ (cpu : CPU σ) (mode : AddrMode) (ea : Int) (cpu2 : CPU σ) (v : Int) (m1 : σ) (extra : Int),
    mode ≠ ACC →
    calculateMemoryAddress cpu mode = some (ea, cpu2) →
    (reads = true → CPUMemory.Read cpu2.memory ea = some (v, m1)) →
    (reads = false → m1 = cpu2.memory) →
    writeReports m1 ea extra →
    ∃ cpu3, f cpu mode = some cpu3 ∧ cpu3.OpCycles = cpu2.OpCycles + max extra 0

/-- The unofficial read instructions in an indexed mode for which `cpu.go` counts the page
crossing: LAX (IND),Y and the six TOP ABS,X. -/
def unofficialReadIndexedOps : List (Int × AddrMode) :=
  [(0xB3, INDY), (0x1C, ABSX), (0x3C, ABSX), (0x5C, ABSX), (0x7C, ABSX), (0xDC, ABSX),
   (0xFC, ABSX)]

/-- The public operations of the CPU that are called after `Init`. -/
inductive Call where
  | step | nmi | irq | reset
  deriving DecidableEq, Repr

/-- A sequence of calls run from the state `cpu`: `step` is `ExecuteOp` (its cycle count is
dropped), the others are the interrupt requests `NMI`, `IRQ` and `Reset`. -/
def runCalls {σ : Type} [CPUMemory σ] (cpu : CPU σ) : List Call → Option (CPU σ)
  | [] => some cpu
  | Call.step :: rest => (ExecuteOp cpu).bind fun r => runCalls r.2 rest
  | Call.nmi :: rest => runCalls (CPU.NMI cpu) rest
  | Call.irq :: rest => runCalls (CPU.IRQ cpu) rest
  | Call.reset :: rest => runCalls (Reset cpu) rest

section
variable {σ : Type} [CPUMemory σ]

/-- The instruction handlers of `cpu.go` that take an addressing mode. -/
def modeOps : List (CPU σ → AddrMode → Option (CPU σ)) :=
  [opADC, opAND, opASL, opBCC, opBCS, opBEQ, opBIT, opBMI, opBNE, opBPL, opBVC, opBVS, opCMP,
   opCPX, opCPY, opDEC, opEOR, opINC, opJMP, opJSR, opLDA, opLDX, opLDY, opLSR, opORA, opROL,
   opROR, opSBC, opSTA, opSTX, opSTY, opDOP, opTOP, opLAX, opAAX, opDCP, opISC, opSLO, opRLA,
   opSRE, opRRA]

/-- The instruction handlers of `cpu.go` that take no addressing mode and access the memory. -/
def stackOps : List (CPU σ → Option (CPU σ)) :=
  [opBRK, opPHA, opPHP, opPLA, opPLP, opRTI, opRTS]

/-- The register transfers of `cpu.go`. -/
def transferOps : List (CPU σ → CPU σ) := [opTAX, opTAY, opTSX, opTXA, opTXS, opTYA]

end

/-- The property `Q` holds of the result of a computation that may panic, whenever there is a
result. -/
def After {α : Type} (x : Option α) (Q : α → Prop) : Prop := ∀ a, x = some a → Q a

/-- The computation does not panic. -/
def Returns {α : Type} (x : Option α) : Prop := ∃ a, x = some a

/-- Bit 5 of the status byte `p` is 1. -/
def Bit5 (p : Int) : Prop := p.testBit 5 = true

section
variable {σ : Type} [CPUMemory σ]

/-- Bit 5 of the status byte survives the computation `x` started in the state `cpu`: when
there is a result and the bit was set before, it is set afterwards. -/
def KeepsBit5 (cpu : CPU σ) (x : Option (CPU σ)) : Prop :=
  After x fun cpu1 => Bit5 cpu.P → Bit5 cpu1.P

end

/-- No access to a memory of the type `σ` panics. -/
def MemoryTotal (σ : Type) [CPUMemory σ] : Prop :=
  (∀ (m : σ) (a : Int), Returns (CPUMemory.Read m a)) ∧
    ∀ (m : σ) (a w : Int), Returns (CPUMemory.Write m a w)

/-- No operation of the cartridge `κ` and of the PPU `π` that the CPU memory calls panics. -/
def NeverPanics (κ π : Type) [PrgDevice κ] [RegisterDevice π] : Prop :=
  (∀ (c : κ) (a : Int), Returns (PrgDevice.ReadPrgMemory c a)) ∧
    (∀ (c : κ) (a v : Int), Returns (PrgDevice.WritePrgMemory c a v)) ∧
    (∀ (p : π) (r : Int), Returns (RegisterDevice.ReadRegister p r)) ∧
    ∀ (p : π) (r v : Int), Returns (RegisterDevice.WriteRegister p r v)

/-- The store instructions STA, STX, STY and the unofficial AAX: each opcode with the addressing
mode of its case in `executeOp`. -/
def storeOps : List (Int × AddrMode) :=
  [(0x85, ZP), (0x95, ZPX), (0x8D, ABS), (0x9D, ABSX), (0x99, ABSY), (0x81, INDX), (0x91, INDY),
   (0x86, ZP), (0x96, ZPY), (0x8E, ABS), (0x84, ZP), (0x94, ZPX), (0x8C, ABS),
   (0x87, ZP), (0x97, ZPY), (0x83, INDX), (0x8F, ABS)]

/-- A receiver that counts the calls it gets. -/
structure CountingReceiver where
  /-- The number of calls so far. -/
  count : Nat
  deriving DecidableEq, Repr

instance : ppu.VBLReceiver CountingReceiver := ⟨fun r => { count := r.count + 1 }⟩

instance : ppu.VideoReceiver CountingReceiver := ⟨fun r _ => { count := r.count + 1 }⟩

section
open ppu
variable {ρ ν : Type}

/-- The sprites of the primary OAM that are in range for the scanline after `currentScanline`,
in increasing order of their index. -/
def spritesInRange (ppu : PPU ρ ν) (currentScanline : Int) : List Int :=
  (indices 64).filter fun i =>
    isSpriteInRangeForNextScanline ppu (ppu.sprMemory.ram (i * 4)) currentScanline

/-- The secondary OAM `temp` after the four bytes of each sprite of the list are copied from the
primary OAM `ram` into the slots `slot`, `slot + 1`, and so on. -/
def copySprites (ram : Int → Int) : List Int → Int → (Int → Int) → (Int → Int)
  | [], _, temp => temp
  | i :: rest, slot, temp =>
    copySprites ram rest (slot + 1) fun a =>
      if a = slot * 4 + 3 then ram (i * 4 + 3)
      else if a = slot * 4 + 2 then ram (i * 4 + 2)
      else if a = slot * 4 + 1 then ram (i * 4 + 1)
      else if a = slot * 4 then ram (i * 4)
      else temp a

end

section
open ppu

/-- The components of a PPU that its two renderers never assign, and bit 7 (VBL) of Status, of
which they assign the bits 5 and 6 only. -/
structure Unrendered (ρ ν : Type) where
  /-- Control register. -/
  ctrlReg : ctrlRegister
  /-- Mask register. -/
  maskReg : maskRegister
  /-- Sprite RAM address register. -/
  sprRAMAddressReg : spriteRAMAddressRegister
  /-- VRAM. -/
  vramMemory : vramMemory
  /-- Primary OAM. -/
  ram : Int → Int
  /-- Frame buffer. -/
  frameBuffer : Int → Int
  /-- Dot counter. -/
  currentCycle : Int
  /-- Scanline counter. -/
  currentScanline : Int
  /-- Number of dots of the current scanline. -/
  currentScanlineCyclesCount : Int
  /-- Whether the frame is odd. -/
  isOddFrame : Bool
  /-- Whether the VBL flag may be set in this frame. -/
  canSetVblForFrame : Bool
  /-- Receiver of the VBL signal. -/
  vblReceiver : ρ
  /-- Receiver of the frames. -/
  videoReceiver : ν
  /-- Bit 7 of Status. -/
  inVblank : Bool

variable {ρ ν : Type}

/-- The components of `ppu` that the renderers never assign. -/
def ppu.PPU.unrendered (ppu : PPU ρ ν) : Unrendered ρ ν :=
  { ctrlReg := ppu.ctrlReg
    maskReg := ppu.maskReg
    sprRAMAddressReg := ppu.sprRAMAddressReg
    vramMemory := ppu.vramMemory
    ram := ppu.sprMemory.ram
    frameBuffer := ppu.frameBuffer
    currentCycle := ppu.currentCycle
    currentScanline := ppu.currentScanline
    currentScanlineCyclesCount := ppu.currentScanlineCyclesCount
    isOddFrame := ppu.isOddFrame
    canSetVblForFrame := ppu.canSetVblForFrame
    vblReceiver := ppu.vblReceiver
    videoReceiver := ppu.videoReceiver
    inVblank := ppu.statusReg.value.testBit 7 }

/-- The computation returns a PPU whose components outside the renderers are `F`. -/
def Keeps (F : Unrendered ρ ν) (x : Option (PPU ρ ν)) : Prop :=
  ∃ a, x = some a ∧ a.unrendered = F

/-- Every read of the PPU memory returns. -/
def ReadsReturn (m : vramMemory) : Prop := ∀ a, Returns (m.read a)

end

section
variable {σ : Type} [CPUMemory σ]

/-! ### The instruction handlers after the address calculation

Each definition is the part of the handler of `cpu.go` that follows the call of
`calculateMemoryAddress`, with the address it works on as a parameter. -/

/-- The part of `opDEC` after the address calculation. -/
def decAt (cpu : CPU σ) (address : Int) : Option (CPU σ) := do
  let (value, cpu) ← readMemory cpu address
  let (res, cpu) := opDecrease cpu value
  writeMemory cpu address res

/-- The part of `opINC` after the address calculation. -/
def incAt (cpu : CPU σ) (address : Int) : Option (CPU σ) := do
  let (value, cpu) ← readMemory cpu address
  let (res, cpu) := opIncrease cpu value
  writeMemory cpu address res

/-- The part of `opASL` after the address calculation, for a mode other than ACC. -/
def aslAt (cpu : CPU σ) (address : Int) : Option (CPU σ) := do
  let (value, cpu) ← readMemory cpu address
  let (newValue, cpu) := opASLInt cpu value
  writeMemory cpu address newValue

/-- The part of `opLSR` after the address calculation, for a mode other than ACC. -/
def lsrAt (cpu : CPU σ) (address : Int) : Option (CPU σ) := do
  let (value, cpu) ← readMemory cpu address
  let (newValue, cpu) := opLSRInt cpu value
  writeMemory cpu address newValue

/-- The part of `opROL` after the address calculation, for a mode other than ACC. -/
def rolAt (cpu : CPU σ) (address : Int) : Option (CPU σ) := do
  let (value, cpu) ← readMemory cpu address
  let (newValue, cpu) := opROLInt cpu value
  writeMemory cpu address newValue

/-- The part of `opROR` after the address calculation, for a mode other than ACC. -/
def rorAt (cpu : CPU σ) (address : Int) : Option (CPU σ) := do
  let (value, cpu) ← readMemory cpu address
  let (newValue, cpu) := opRORInt cpu value
  writeMemory cpu address newValue

/-- The part of `opCMP` after the address calculation. -/
def cmpAt (cpu : CPU σ) (address : Int) : Option (CPU σ) := do
  let (value, cpu) ← readMemory cpu address
  some (opCompare cpu cpu.A value)

/-- The part of `opORA` after the address calculation. -/
def oraAt (cpu : CPU σ) (address : Int) : Option (CPU σ) := do
  let (value, cpu) ← readMemory cpu address
  some (opORAInt cpu value)

/-- The part of `opEOR` after the address calculation. -/
def eorAt (cpu : CPU σ) (address : Int) : Option (CPU σ) := do
  let (value, cpu) ← readMemory cpu address
  some (opEORInt cpu value)

/-- The part of `opAND` after the address calculation. -/
def andAt (cpu : CPU σ) (address : Int) : Option (CPU σ) := do
  let (value, cpu) ← readMemory cpu address
  let cpu := { cpu with A := cpu.A &&& value }
  let cpu := { cpu with P := andNot cpu.P (flagN ||| flagZ) }
  let cpu := { cpu with P := if (cpu.A &&& 0x80) ≠ 0 then cpu.P ||| flagN else cpu.P }
  let cpu := { cpu with P := if cpu.A = 0 then cpu.P ||| flagZ else cpu.P }
  some cpu

/-- The part of `opADC` after the address calculation, in binary mode. -/
def adcAt (cpu : CPU σ) (address : Int) : Option (CPU σ) := do
  let (value, cpu) ← readMemory cpu address
  let res := cpu.A + value
  let res := if (cpu.P &&& flagC) ≠ 0 then res + 1 else res
  let cpu := { cpu with P := andNot cpu.P (flagN ||| flagV ||| flagZ ||| flagC) }
  let cpu := { cpu with P := cpu.P ||| (res &&& flagN) }
  let cpu := { cpu with P :=
    if (andNot (cpu.A ^^^ (res &&& 0xFF)) (cpu.A ^^^ value) &&& 0x80) ≠ 0
    then cpu.P ||| flagV else cpu.P }
  let cpu := { cpu with P := if (res &&& 0xFF) = 0 then cpu.P ||| flagZ else cpu.P }
  let cpu := { cpu with P := if res > 0xFF then cpu.P ||| flagC else cpu.P }
  some { cpu with A := res &&& 0xFF }

/-- The part of `opSBC` after the address calculation, in binary mode. -/
def sbcAt (cpu : CPU σ) (address : Int) : Option (CPU σ) := do
  let (value, cpu) ← readMemory cpu address
  let res := cpu.A - value
  let res := if (cpu.P &&& flagC) = 0 then res - 1 else res
  let cpu := { cpu with P := andNot cpu.P (flagN ||| flagV ||| flagZ ||| flagC) }
  let cpu := { cpu with P := cpu.P ||| (res &&& flagN) }
  let cpu := { cpu with P :=
    if ((cpu.A ^^^ value) &&& (cpu.A ^^^ (0xFF &&& res)) &&& 0x80) ≠ 0
    then cpu.P ||| flagV else cpu.P }
  let cpu := { cpu with P := if (res &&& 0xFF) = 0 then cpu.P ||| flagZ else cpu.P }
  let cpu := { cpu with P := if (res &&& 0x100) = 0 then cpu.P ||| flagC else cpu.P }
  some { cpu with A := 0xFF &&& res }

/-- The part of `opDCP` after the address calculation. -/
def dcpAt (cpu : CPU σ) (address : Int) : Option (CPU σ) := do
  let (value, cpu) ← readMemory cpu address
  let value := 0xFF &&& (value - 1)
  let valueToTest := cpu.A - value
  let cpu := { cpu with P := andNot cpu.P (flagN ||| flagZ ||| flagC) }
  let cpu := { cpu with P := if (valueToTest &&& 0x80) ≠ 0 then cpu.P ||| flagN else cpu.P }
  let cpu := { cpu with P := if valueToTest = 0 then cpu.P ||| flagZ else cpu.P }
  let cpu := { cpu with P := if (valueToTest &&& 0x100) = 0 then cpu.P ||| flagC else cpu.P }
  writeMemory cpu address value

/-- The part of `opISC` after the address calculation. -/
def iscAt (cpu : CPU σ) (address : Int) : Option (CPU σ) := do
  let (value, cpu) ← readMemory cpu address
  let value := 0xFF &&& (value + 1)
  let result := cpu.A - value
  let result := if (cpu.P &&& flagC) = 0 then result - 1 else result
  let cpu := { cpu with P := andNot cpu.P (flagN ||| flagV ||| flagZ ||| flagC) }
  let cpu := { cpu with P :=
    if ((cpu.A ^^^ value) &&& (cpu.A ^^^ (result &&& 0xFF)) &&& 0x80) ≠ 0
    then cpu.P ||| flagV else cpu.P }
  let cpu := { cpu with P := if (result &&& 0x100) = 0 then cpu.P ||| flagC else cpu.P }
  let cpu := { cpu with A := result &&& 0xFF }
  let cpu := { cpu with P := if (cpu.A &&& (0xFF : Int)) = 0 then cpu.P ||| flagZ else cpu.P }
  let cpu := { cpu with P := cpu.P ||| (cpu.A &&& flagN) }
  writeMemory cpu address value

/-- The part of `opSLO` after the address calculation. -/
def sloAt (cpu : CPU σ) (address : Int) : Option (CPU σ) := do
  let (value, cpu) ← readMemory cpu address
  let result := shl value 1 &&& 0xFF
  let cpu := { cpu with A := cpu.A ||| result }
  let cpu := { cpu with P := andNot cpu.P (flagN ||| flagZ ||| flagC) }
  let cpu := { cpu with P := cpu.P ||| (cpu.A &&& flagN) }
  let cpu := { cpu with P := if cpu.A = 0 then cpu.P ||| flagZ else cpu.P }
  let cpu := { cpu with P := if (value &&& 0x80) ≠ 0 then cpu.P ||| flagC else cpu.P }
  writeMemory cpu address result

/-- The part of `opRLA` after the address calculation. -/
def rlaAt (cpu : CPU σ) (address : Int) : Option (CPU σ) := do
  let (value, cpu) ← readMemory cpu address
  let res := shl value 1 &&& 0xFF
  let res := if (cpu.P &&& flagC) ≠ 0 then res ||| 1 else res
  let cpu := { cpu with A := cpu.A &&& res }
  let cpu := { cpu with P := andNot cpu.P (flagN ||| flagZ ||| flagC) }
  let cpu := { cpu with P := if (cpu.A &&& 0x80) ≠ 0 then cpu.P ||| flagN else cpu.P }
  let cpu := { cpu with P := if cpu.A = 0 then cpu.P ||| flagZ else cpu.P }
  let cpu := { cpu with P := if (value &&& 0x80) ≠ 0 then cpu.P ||| flagC else cpu.P }
  writeMemory cpu address res

/-- The part of `opSRE` after the address calculation. -/
def sreAt (cpu : CPU σ) (address : Int) : Option (CPU σ) := do
  let (value, cpu) ← readMemory cpu address
  let res := 0x7F &&& shr value 1
  let cpu := { cpu with A := cpu.A ^^^ res }
  let cpu := { cpu with P := andNot cpu.P (flagN ||| flagZ ||| flagC) }
  let cpu := { cpu with P := if (cpu.A &&& 0x80) ≠ 0 then cpu.P ||| flagN else cpu.P }
  let cpu := { cpu with P := if res = 0 then cpu.P ||| flagZ else cpu.P }
  let cpu := { cpu with P := if (value &&& 0x01) ≠ 0 then cpu.P ||| flagC else cpu.P }
  writeMemory cpu address res

/-- The part of `opRRA` after the address calculation. -/
def rraAt (cpu : CPU σ) (address : Int) : Option (CPU σ) := do
  let (value1, cpu) ← readMemory cpu address
  let value := shr value1 1 &&& 0xFF
  let value := if (cpu.P &&& flagC) ≠ 0 then value ||| 0x80 else value
  let res := cpu.A + value
  let res := if (value1 &&& 0x01) ≠ 0 then res + 1 else res
  let cpu := { cpu with P := andNot cpu.P (flagN ||| flagV ||| flagZ ||| flagC) }
  let cpu := { cpu with P := cpu.P ||| (res &&& flagN) }
  let cpu := { cpu with P :=
    if (andNot (cpu.A ^^^ (res &&& 0xFF)) (cpu.A ^^^ value) &&& 0x80) ≠ 0
    then cpu.P ||| flagV else cpu.P }
  let cpu := { cpu with P := if (res &&& 0xFF) = 0 then cpu.P ||| flagZ else cpu.P }
  let cpu := { cpu with P := if res > 0xFF then cpu.P ||| flagC else cpu.P }
  let cpu := { cpu with A := res &&& 0xFF }
  writeMemory cpu address value

end

section
variable {σ : Type} [CPUMemory σ]

/-- The computation `x` started in the state `cpu` does not lower the cycle count: when there is
a result, its cycle count is at least the one of `cpu`. -/
def CyclesGrow (cpu : CPU σ) (x : Option (CPU σ)) : Prop :=
  After x fun cpu1 => cpu.OpCycles ≤ cpu1.OpCycles

end

/-- The memories that satisfy `I` serve every access at an address of 0..0xFFFF: a read, and a
write of any value, returns and leaves a memory that satisfies `I`. -/
def MemoryClosed {σ : Type} [CPUMemory σ] (I : σ → Prop) : Prop :=
  (∀ m a, I m → 0 ≤ a → a ≤ 0xFFFF → ∃ v m1, CPUMemory.Read m a = some (v, m1) ∧ I m1) ∧
  (∀ m a w, I m → 0 ≤ a → a ≤ 0xFFFF → ∃ e m1, CPUMemory.Write m a w = some (e, m1) ∧ I m1)

/-- The cartridges that satisfy `K` and the PPUs that satisfy `R` serve every call that the CPU
memory makes: the call returns and leaves a device that satisfies the same condition. -/
def DevicesClosed {κ π : Type} [PrgDevice κ] [RegisterDevice π] (K : κ → Prop) (R : π → Prop) :
    Prop :=
  (∀ c a, K c → ∃ v, PrgDevice.ReadPrgMemory c a = some v) ∧
  (∀ c a w, K c → ∃ c1, PrgDevice.WritePrgMemory c a w = some c1 ∧ K c1) ∧
  (∀ p r, R p → ∃ v p1, RegisterDevice.ReadRegister p r = some (v, p1) ∧ R p1) ∧
  (∀ p r w, R p → ∃ p1, RegisterDevice.WriteRegister p r w = some p1 ∧ R p1)

/-- The cartridge of the NES memory `m`, when the pointer is not nil, satisfies `K`, and its
PPU, when the pointer is not nil, satisfies `R`. -/
def NESCPUMemory.Within {κ π : Type} (K : κ → Prop) (R : π → Prop) (m : NESCPUMemory κ π) :
    Prop :=
  (∀ c, m.cartridge = some c → K c) ∧ (∀ p, m.ppu = some p → R p)

/-- The shape of a cartridge that its memory accesses rely on: the PRG RAM has at least 8 KiB,
and every entry of the two bank maps is the index of a bank of 1024 cells. -/
def cartridge.Cartridge.Valid (c : cartridge.Cartridge) : Prop :=
  (8192 : Int) ≤ c.memory.prgRAM.length ∧
  (∀ i, 0 ≤ i ∧ i ≤ 31 → ∃ e cells, index? c.prgROMMap i = some e ∧
    index? c.memory.prgROM e = some cells ∧ cells.length = 1024) ∧
  (∀ j, 0 ≤ j ∧ j ≤ 7 → ∃ e cells, index? c.chrMemMap j = some e ∧
    index? c.memory.chrMem e = some cells ∧ cells.length = 1024)

/-- The shape of the PPU memory that its accesses rely on: the cartridge pointer is not nil, the
cartridge has the shape above, and the nametable RAM has its two pages of 1024 cells. -/
def ppu.vramMemory.Valid (m : ppu.vramMemory) : Prop :=
  (∃ c, m.cartridge = some c ∧ c.Valid) ∧
  ∃ pA pB, m.ntVRAM = [pA, pB] ∧ pA.length = 1024 ∧ pB.length = 1024

/-- The shape of a PPU that its register accesses rely on: the sprite RAM address is a byte and
the PPU memory has the shape above. -/
def ppu.PPU.Valid {ρ ν : Type} (p : ppu.PPU ρ ν) : Prop :=
  (0 ≤ p.sprRAMAddressReg.value ∧ p.sprRAMAddressReg.value ≤ 255) ∧ p.vramMemory.Valid

/-- What the memory accesses of an instruction rely on in the state `cpu`: the memory satisfies
`I` and the stack pointer is a byte. -/
def CPU.Sound {σ : Type} (I : σ → Prop) (cpu : CPU σ) : Prop :=
  I cpu.memory ∧ 0 ≤ cpu.S ∧ cpu.S ≤ 0xFF

/-- The address calculation `x` returns an address of 0..0xFFFF and a state whose accesses are
served. -/
def AddressSound {σ : Type} (I : σ → Prop) (x : Option (Int × CPU σ)) : Prop :=
  ∃ ea cpu1, x = some (ea, cpu1) ∧ CPU.Sound I cpu1 ∧ 0 ≤ ea ∧ ea ≤ 0xFFFF

/-- The operand bytes at `pc` of an instruction in the indexed mode `mode` (ABS,X, ABS,Y or
(IND),Y), read from the memory `m` in the order of `cpu.go`, designate the un-indexed base
address `base` and the index register value `index`, and the reads leave the memory `m1`: for
ABS,X and ABS,Y the base is the word at `pc`, `pc + 1`; for (IND),Y it is the word of the zero
page at `d`, `(d + 1) mod 256`, where `d` is the byte at `pc`.  Each read may change the
memory. -/
def indexedOperands {σ : Type} [CPUMemory σ] (m : σ) (pc X Y : Int) (mode : AddrMode)
    (base index : Int) (m1 : σ) : Prop :=
  match mode with
  | ABSX => ∃ lo hi ma, IsByte lo ∧ IsByte hi ∧ CPUMemory.Read m pc = some (lo, ma) ∧
      CPUMemory.Read ma (pc + 1) = some (hi, m1) ∧ base = lo + 256 * hi ∧ index = X
  | ABSY => ∃ lo hi ma, IsByte lo ∧ IsByte hi ∧ CPUMemory.Read m pc = some (lo, ma) ∧
      CPUMemory.Read ma (pc + 1) = some (hi, m1) ∧ base = lo + 256 * hi ∧ index = Y
  | INDY => ∃ d lo hi ma mb, IsByte lo ∧ IsByte hi ∧ CPUMemory.Read m pc = some (d, ma) ∧
      CPUMemory.Read ma d = some (lo, mb) ∧
      CPUMemory.Read mb ((d + 1) % 256) = some (hi, m1) ∧ base = lo + 256 * hi ∧ index = Y
  | _ => False

/-- The memories that satisfy `I` serve every access, at whatever address: a read, and a write
of any value, returns and leaves a memory that satisfies `I`. -/
def MemoryServes {σ : Type} [CPUMemory σ] (I : σ → Prop) : Prop :=
  (∀ m a, I m → ∃ v m1, CPUMemory.Read m a = some (v, m1) ∧ I m1) ∧
  (∀ m a w, I m → ∃ e m1, CPUMemory.Write m a w = some (e, m1) ∧ I m1)

/-- The address calculation `x` returns and leaves a memory that satisfies `I`. -/
def AddressServes {σ : Type} (I : σ → Prop) (x : Option (Int × CPU σ)) : Prop :=
  ∃ ea cpu1, x = some (ea, cpu1) ∧ I cpu1.memory

/-! ## Example states -/

/-- A state about to execute `ADC #$50` with `A = 0x50` and the carry clear. -/
def adcExample : CPU TestCPUMemory :=
  { New ⟨fun a => if a = 0x8000 then 0x69 else if a = 0x8001 then 0x50 else 0⟩ with
    A := 0x50, P := flagR, PC := 0x8000 }

/-- A state about to execute the alias `SBC #$50` (opcode 0xEB) with `A = 0x10`, carry clear. -/
def sbcExample : CPU TestCPUMemory :=
  { New ⟨fun a => if a = 0x8000 then 0xEB else if a = 0x8001 then 0x50 else 0⟩ with
    A := 0x10, P := flagR, PC := 0x8000 }

/-- A state about to execute `JMP ($30FF)` with 0x40 at 0x30FF, 0x80 at 0x3000 and 0x11 at
0x3100. -/
def jmpExample : CPU TestCPUMemory :=
  { New ⟨fun a => if a = 0x8000 then 0x6C else if a = 0x8001 then 0xFF else
      if a = 0x8002 then 0x30 else if a = 0x30FF then 0x40 else if a = 0x3000 then 0x80 else
      if a = 0x3100 then 0x11 else 0⟩ with PC := 0x8000 }

/-- A state whose PC points at the operand byte 0xFF, with `X = 2` and `Y = 0x10`; the zero page
holds the pointer 0x1234 at 0x01/0x02 and the pointer 0x20F8 at 0xFF/0x00. -/
def zeroPageExample : CPU TestCPUMemory :=
  { New ⟨fun a => if a = 0x8000 then 0xFF else if a = 0x01 then 0x34 else
      if a = 0x02 then 0x12 else if a = 0xFF then 0xF8 else if a = 0x00 then 0x20 else 0⟩ with
    X := 2, Y := 0x10, PC := 0x8000 }

/-- A state whose PC points at the displacement byte 0xFD (that is -3), at 0x8001. -/
def relExample : CPU TestCPUMemory :=
  { New ⟨fun a => if a = 0x8001 then 0xFD else 0⟩ with PC := 0x8001 }

/-- A state about to execute `BNE +3` at 0x80FD with Z clear: the operand ends at 0x80FF and
the target 0x8102 is on the next page. -/
def branchExample : CPU TestCPUMemory :=
  { New ⟨fun a => if a = 0x80FD then 0xD0 else if a = 0x80FE then 0x03 else 0⟩ with
    P := flagR, PC := 0x80FD }

/-- A state about to execute `LDA $10FF,Y` with `Y = 1`: the effective address 0x1100 is on
the page after the base 0x10FF. -/
def ldaCrossExample : CPU TestCPUMemory :=
  { New ⟨fun a => if a = 0x8000 then 0xB9 else if a = 0x8001 then 0xFF else
      if a = 0x8002 then 0x10 else 0⟩ with Y := 1, PC := 0x8000 }

/-- A state over the NES memory without cartridge and PPU, about to execute `STA $4000,X` from
RAM with `X = 0x14`: the store goes to the OAM DMA register 0x4014. -/
def staDmaExample : CPU (NESCPUMemory Empty Empty) :=
  { New ⟨fun a => if a = 0 then 0x9D else if a = 1 then 0x00 else if a = 2 then 0x40 else 0,
        none, none⟩ with X := 0x14, PC := 0 }

/-- A state about to execute the unofficial `LAX $10FF,Y` (opcode 0xBF) with `Y = 1`: the
effective address 0x1100 is on the page after the base 0x10FF. -/
def laxCrossExample : CPU TestCPUMemory :=
  { New ⟨fun a => if a = 0x8000 then 0xBF else if a = 0x8001 then 0xFF else
      if a = 0x8002 then 0x10 else 0⟩ with Y := 1, PC := 0x8000 }

/-- A state with a pending NMI. -/
def nmiPendingExample : CPU TestCPUMemory :=
  { New ⟨fun _ => 0⟩ with pendingInterrupt := NMI }

/-- A state with the stack pointer at 0x00. -/
def stackExample : CPU TestCPUMemory :=
  { New ⟨fun _ => 0⟩ with S := 0x00 }

/-- A state with a pending NMI, `PC = 0x8034`, `S = 0x01`, the flags B and D set, and the NMI
vector 0x9000 at 0xFFFA/0xFFFB. -/
def nmiExample : CPU TestCPUMemory :=
  { New ⟨fun a => if a = 0xFFFB then 0x90 else 0⟩ with
    S := 0x01, P := flagR ||| flagB ||| flagD, PC := 0x8034, pendingInterrupt := NMI }

/-- A state with a pending IRQ and the I flag clear, `PC = 0x8034`, `S = 0xFF`, the flags B and D
set, and the IRQ vector 0x9000 at 0xFFFE/0xFFFF. -/
def irqExample : CPU TestCPUMemory :=
  { New ⟨fun a => if a = 0xFFFF then 0x90 else 0⟩ with
    S := 0xFF, P := flagR ||| flagB ||| flagD, PC := 0x8034, pendingInterrupt := IRQ }

/-- A state about to execute BRK at 0x80FE with `S = 0xFF`, the I flag clear, and the vector
0x9000 at 0xFFFE/0xFFFF. -/
def brkExample : CPU TestCPUMemory :=
  { New ⟨fun a => if a = 0xFFFF then 0x90 else 0⟩ with S := 0xFF, P := flagR, PC := 0x80FE }

/-- A state about to execute NOP (opcode 0xEA) at the last address 0xFFFF. -/
def nopTopExample : CPU TestCPUMemory :=
  { New ⟨fun a => if a = 0xFFFF then 0xEA else 0⟩ with P := flagR, PC := 0xFFFF }

/-- A state about to execute RTS (opcode 0x60) at 0x8000 with the return address 0xFFFF on the
stack (`S = 0xFD`, 0xFF at 0x01FE and at 0x01FF). -/
def rtsTopExample : CPU TestCPUMemory :=
  { New ⟨fun a => if a = 0x8000 then 0x60 else if a = 0x01FE then 0xFF else
      if a = 0x01FF then 0xFF else 0⟩ with S := 0xFD, P := flagR, PC := 0x8000 }

/-- A memory of bytes with the reset vector 0x8000, the NMI vector 0x9000 and two PLA
(opcode 0x68) at 0x9000 and 0x9001. -/
def plaExample : TestCPUMemory :=
  ⟨fun a => if a = 0xFFFD then 0x80 else if a = 0xFFFB then 0x90 else
    if a = 0x9000 then 0x68 else if a = 0x9001 then 0x68 else 0⟩

/-- The NES memory without cartridge and PPU, all of its RAM zero. -/
def emptyNesMemory : NESCPUMemory Empty Empty := ⟨fun _ => 0, none, none⟩

/-- A cartridge without banks and with the mirroring type `t`. -/
def mirroringExample (t : Int) : cartridge.Cartridge :=
  { memory := { prgROM := [], prgRAM := [], isPrgRAMBatteryBacked := false, chrMem := [],
                isChrMemRAM := false, ntMirroringType := t },
    mapperNumber := 0, prgROMMap := [], chrMemMap := [] }

/-- A nametable RAM of two pages of 1024 cells: every cell of page A holds 0xAA and every cell
of page B holds 0xBB. -/
def ntExample : List (List Int) := [List.replicate 1024 0xAA, List.replicate 1024 0xBB]

/-- A state over the NES memory without cartridge and PPU, about to execute PLP (opcode 0x28)
from RAM with every bit of P clear, `S = 0xFE` and 0x00 on the stack at 0x01FF. -/
def plpExample : CPU (NESCPUMemory Empty Empty) :=
  { New ⟨fun a => if a = 0 then 0x28 else 0, none, none⟩ with S := 0xFE, P := 0, PC := 0 }

/-- A ROM image that is only a header: three PRG units of 16 KiB and one CHR unit of 8 KiB
announced, no data behind the header. -/
def threeUnitRom : List (Fin 256) := [0x4E, 0x45, 0x53, 0x1A, 3, 1, 0, 0, 0, 0, 0, 0, 0, 0, 0, 0]

/-- A ROM image that is only a header and announces no PRG ROM. -/
def noPrgRom : List (Fin 256) := [0x4E, 0x45, 0x53, 0x1A, 0, 1, 0, 0, 0, 0, 0, 0, 0, 0, 0, 0]

/-- A ROM image that is only a header: one PRG unit and no CHR ROM announced. -/
def onePrgRom : List (Fin 256) := [0x4E, 0x45, 0x53, 0x1A, 1, 0, 0, 0, 0, 0, 0, 0, 0, 0, 0, 0]

/-- The PPU that `ppu.New` builds over the cartridge of `onePrgRom`, after `Init`. -/
def ppuExample : ppu.PPU CountingReceiver CountingReceiver :=
  (ppu.New (some (cartridge.New onePrgRom)) { count := 0 } { count := 0 }).Init

/-- The example PPU with the VRAM address 0x2005, the read buffer 0x77, the increment of 32
selected and the cell 5 of the nametable page A holding 0x5A. -/
def vramReadExample : ppu.PPU CountingReceiver CountingReceiver :=
  { ppuExample with
    ctrlReg := { value := 0x04 }
    vramAddressScrollReg := { ppuExample.vramAddressScrollReg with
      address := 0x2005, lastValue := 0x77 }
    vramMemory := { ppuExample.vramMemory with
      ntVRAM := [(List.replicate 1024 0).set 5 0x5A, List.replicate 1024 0] } }

/-- The example PPU with the VRAM address 0x3F01, the read buffer 0x77 and the background
palette entry 1 holding 0x2C. -/
def paletteReadExample : ppu.PPU CountingReceiver CountingReceiver :=
  { ppuExample with
    vramAddressScrollReg := { ppuExample.vramAddressScrollReg with
      address := 0x3F01, lastValue := 0x77 }
    vramMemory := { ppuExample.vramMemory with
      backgroundPaletteRAM := fun i => if i = 1 then 0x2C else 0 } }

/-- The example PPU on the scanline 30 with 8x8 sprites: the sprites 3, 5, 6, 7, 8, 9, 10, 11,
12 and 40 of the OAM have the Y position 9, which is in range for the next scanline, the others
the Y position 200; the byte 1 of the sprite `i` is `i`.  The secondary OAM is cleared. -/
def spriteExample : ppu.PPU CountingReceiver CountingReceiver :=
  { ppuExample with
    sprMemory :=
      { ram := fun a =>
          if a % 4 = 0 then
            if a / 4 = 3 ∨ (5 ≤ a / 4 ∧ a / 4 ≤ 12) ∨ a / 4 = 40 then 9 else 200
          else if a % 4 = 1 then a / 4 else 0
        tempMemory := fun _ => 0xFF } }

/-- The example PPU on the last dot of the scanline 261 with NMI on VBL enabled. -/
def beforeVblExample : ppu.PPU CountingReceiver CountingReceiver :=
  { ppuExample with
    ctrlReg := { value := 0x80 }
    currentScanline := 261
    currentCycle := 340 }

/-- The example PPU on the dot 1 of the scanline 0 with the VBL flag set and NMI on VBL
enabled. -/
def vblStartExample : ppu.PPU CountingReceiver CountingReceiver :=
  { ppuExample with
    ctrlReg := { value := 0x80 }
    statusReg := { value := 0x80 }
    currentScanline := 0
    currentCycle := 1 }

/-- The example PPU with the VRAM address 0x73A5: fine-Y 7, nametable 0, coarse-Y 29 and
coarse-X 5. -/
def fineYExample : ppu.PPU CountingReceiver CountingReceiver :=
  { ppuExample with
    vramAddressScrollReg := { ppuExample.vramAddressScrollReg with address := 0x73A5 } }

/-- The example PPU with the background enabled and the clip-BG bit of Mask set (Mask = 0x0A),
and a background pipeline whose next pixel has the palette index 1. -/
def clipExample : ppu.PPU CountingReceiver CountingReceiver :=
  { ppuExample with
    maskReg := { value := 0x0A }
    backgroundRenderer := { ppuExample.backgroundRenderer with
      pipeline := { ppuExample.backgroundRenderer.pipeline with tileDataLow := 0x01 } } }

/-- The example PPU before the dot 303 of the scanline 20, with the rendering disabled
(Mask = 0x06, as `Init` leaves it), `v = 0x2001` and `t = 0x2000`. -/
def dot302Example : ppu.PPU CountingReceiver CountingReceiver :=
  { ppuExample with
    currentScanline := 20
    currentCycle := 302
    currentScanlineCyclesCount := 341
    vramAddressScrollReg := { ppuExample.vramAddressScrollReg with
      address := 0x2001, tempAddress := 0x2000 } }

/-- The example PPU at the sprite evaluation of the scanline 28: the sprite 0 of the OAM has the
Y position 0 and the X position 0x20, the sprite 1 the Y position 8 and the X position 0x40, the
other sprites are off screen; the secondary OAM and the flag `isSpriteZeroInRange` are clear. -/
def spriteZeroExample : ppu.PPU CountingReceiver CountingReceiver :=
  { ppuExample with
    sprMemory :=
      { ram := fun a =>
          if a = 0 then 0 else if a = 1 then 1 else if a = 3 then 0x20
          else if a = 4 then 8 else if a = 5 then 2 else if a = 7 then 0x40
          else if a % 4 = 0 then 0xF0 else 0
        tempMemory := fun _ => 0xFF } }

/-- The state that the sprite renderer leaves from `spriteZeroExample` after the dots 64 and 260
of the scanline 28, where the sprite 0 is in range, and the dot 0 of the scanline 29. -/
def spriteZeroStale : ppu.PPU CountingReceiver CountingReceiver :=
  ((((ppu.executeScanlineSpriteCycle spriteZeroExample 64 28).bind
      fun p => ppu.executeScanlineSpriteCycle p 260 28).bind
      fun p => ppu.executeScanlineSpriteCycle p 0 29).getD spriteZeroExample)

/-- The example PPU before the dot 32 of the scanline 30, with the background enabled, the
sprites disabled and no clipping (Mask = 0x0E), and a sprite in the entry 0 of the pipeline at
the X position 0x20 whose leftmost pixel has the colour 1. -/
def spriteOffExample : ppu.PPU CountingReceiver CountingReceiver :=
  { ppuExample with
    maskReg := { value := 0x0E }
    currentScanline := 30
    currentCycle := 31
    currentScanlineCyclesCount := 341
    spriteRenderer := { ppuExample.spriteRenderer with
      pipelineMemory := fun j =>
        if j = 0 then
          { tileDataLow := 0x80, tileDataHigh := 0x00, attributePaletteData := 0,
            isHighPriority := true, xPosition := 0x20, isSpriteZero := true }
        else ppu.noSpriteRenderData } }

/-- A state about to execute `JSR $9000` at 0x80FE with `S = 0x00`, so that the two pushes wrap
the stack pointer, and an RTS at 0x9000. -/
def jsrExample : CPU TestCPUMemory :=
  { New ⟨fun a => if a = 0x80FE then 0x20 else if a = 0x80FF then 0x00
      else if a = 0x8100 then 0x90 else if a = 0x9000 then 0x60 else 0⟩ with
    A := 0x11, X := 0x22, Y := 0x33, S := 0x00, P := flagR ||| flagC, PC := 0x80FE }

/-- A state inside a zero-page read-modify-write instruction: the operand byte at 0x8001 names the
cell 0x10, which holds 0x7F, and the carry is set. -/
def rmwExample : CPU TestCPUMemory :=
  { New ⟨fun a => if a = 0x8001 then 0x10 else if a = 0x10 then 0x7F else 0⟩ with
    A := 0x80, S := 0xFF, P := flagR ||| flagC, PC := 0x8001 }

/-- A state about to execute `SRE $10` (opcode 0x47) with `A = 0x01` and the cell 0x10 holding
0x00. -/
def sreExample : CPU TestCPUMemory :=
  { New ⟨fun a => if a = 0x8000 then 0x47 else if a = 0x8001 then 0x10 else 0⟩ with
    A := 0x01, S := 0xFF, P := flagR, PC := 0x8000 }

/-- A CPU memory whose RAM cell `a` holds `a mod 251`, with a PPU whose OAM address is 0xF0. -/
def dmaExample : NESCPUMemory Empty (ppu.PPU CountingReceiver CountingReceiver) :=
  { ram := fun a => a % 251
    cartridge := none
    ppu := some { ppuExample with sprRAMAddressReg := { value := 0xF0 } } }

/-- A state with a pending IRQ and the I flag set, `PC = 0x8034`, `S = 0xFF`. -/
def maskedIrqExample : CPU TestCPUMemory :=
  { New ⟨fun _ => 0xEA⟩ with
    S := 0xFF, P := flagR ||| flagI, PC := 0x8034, pendingInterrupt := IRQ }

/-- The NES memory with both devices: the internal RAM `ram`, the cartridge read from
`onePrgRom` and the PPU `p`. -/
def nesExample (ram : Int → Int) (p : ppu.PPU CountingReceiver CountingReceiver) :
    NESCPUMemory cartridge.Cartridge (ppu.PPU CountingReceiver CountingReceiver) :=
  { ram := ram, cartridge := some (cartridge.New onePrgRom), ppu := some p }

/-- A state over the NES memory with cartridge and PPU, about to execute `STA $4014` from RAM
with `A = 0x02`: the store goes to the OAM DMA register. -/
def staOamExample :
    CPU (NESCPUMemory cartridge.Cartridge (ppu.PPU CountingReceiver CountingReceiver)) :=
  { New (nesExample
      (fun a => if a = 0 then 0x8D else if a = 1 then 0x14 else if a = 2 then 0x40 else 0)
      ppuExample) with A := 0x02, S := 0xFF, PC := 0 }

/-- A state over the NES memory with cartridge and PPU, about to execute `STA $4013` from
RAM. -/
def staSoundExample :
    CPU (NESCPUMemory cartridge.Cartridge (ppu.PPU CountingReceiver CountingReceiver)) :=
  { New (nesExample
      (fun a => if a = 0 then 0x8D else if a = 1 then 0x13 else if a = 2 then 0x40 else 0)
      ppuExample) with A := 0x02, S := 0xFF, PC := 0 }

/-- A state over the NES memory with cartridge and PPU, about to execute `LDA $2000,X` from RAM
with `X = 2`: the read goes to the status register of the PPU, whose VBL flag is set, and
clears the flag. -/
def ldaStatusExample :
    CPU (NESCPUMemory cartridge.Cartridge (ppu.PPU CountingReceiver CountingReceiver)) :=
  { New (nesExample
      (fun a => if a = 0 then 0xBD else if a = 1 then 0x00 else if a = 2 then 0x20 else 0)
      { ppuExample with statusReg := { value := 0x80 } }) with X := 2, S := 0xFF, PC := 0 }

/-- A state over the plain memory without a pending interrupt, about to execute NOP (opcode
0xEA) at 0x8034: the state of `maskedIrqExample` without its interrupt. -/
def unmaskedExample : CPU TestCPUMemory := { maskedIrqExample with pendingInterrupt := 0 }

/-! ## Lemmas on the bit operators -/

theorem nat_ldiff_eq (m n : Nat) : Nat.ldiff m n = m ^^^ (m &&& n) := by
  apply Nat.eq_of_testBit_eq
  intro i
  rw [Nat.testBit_ldiff, Nat.testBit_xor, Nat.testBit_and]
  cases m.testBit i <;> cases n.testBit i <;> rfl

theorem and_eq_land (a b : Int) : a &&& b = Int.land a b := by
  cases a <;> cases b <;> simp [HAnd.hAnd, AndOp.and, andInt, Int.land, nat_ldiff_eq]

theorem or_eq_lor (a b : Int) : a ||| b = Int.lor a b := by
  cases a <;> cases b <;> simp [HOr.hOr, OrOp.or, orInt, Int.lor, nat_ldiff_eq]

theorem xor_eq_xor (a b : Int) : a ^^^ b = Int.xor a b := rfl

theorem not_eq_lnot (a : Int) : ~~~a = Int.lnot a := by cases a <;> rfl

@[simp] theorem testBit_and (a b : Int) (k : Nat) :
    (a &&& b).testBit k = (a.testBit k && b.testBit k) := by
  rw [and_eq_land, Int.testBit_land]

@[simp] theorem testBit_or (a b : Int) (k : Nat) :
    (a ||| b).testBit k = (a.testBit k || b.testBit k) := by
  rw [or_eq_lor, Int.testBit_lor]

@[simp] theorem testBit_xor (a b : Int) (k : Nat) :
    (a ^^^ b).testBit k = xor (a.testBit k) (b.testBit k) := by
  rw [xor_eq_xor, Int.testBit_lxor]

@[simp] theorem testBit_not (a : Int) (k : Nat) : (~~~a).testBit k = !a.testBit k := by
  rw [not_eq_lnot, Int.testBit_lnot]

@[simp] theorem testBit_andNot (a b : Int) (k : Nat) :
    (andNot a b).testBit k = (a.testBit k && !b.testBit k) := by
  simp [andNot]

/-- Two integers with the same bits are equal. -/
theorem eq_of_testBit_eq {a b : Int} (h : ∀ k, a.testBit k = b.testBit k) : a = b := by
  cases a with
  | ofNat m =>
    cases b with
    | ofNat n =>
      congr 1
      exact Nat.eq_of_testBit_eq h
    | negSucc n =>
      exfalso
      obtain ⟨k, hk1, hk2⟩ : ∃ k, m < 2 ^ k ∧ n < 2 ^ k :=
        ⟨max m n, lt_of_le_of_lt (le_max_left m n) (Nat.lt_two_pow _),
          lt_of_le_of_lt (le_max_right m n) (Nat.lt_two_pow _)⟩
      have := h k
      simp [Int.testBit, Nat.testBit_lt_two_pow hk1, Nat.testBit_lt_two_pow hk2] at this
  | negSucc m =>
    cases b with
    | ofNat n =>
      exfalso
      obtain ⟨k, hk1, hk2⟩ : ∃ k, m < 2 ^ k ∧ n < 2 ^ k :=
        ⟨max m n, lt_of_le_of_lt (le_max_left m n) (Nat.lt_two_pow _),
          lt_of_le_of_lt (le_max_right m n) (Nat.lt_two_pow _)⟩
      have := h k
      simp [Int.testBit, Nat.testBit_lt_two_pow hk1, Nat.testBit_lt_two_pow hk2] at this
    | negSucc n =>
      congr 1
      apply Nat.eq_of_testBit_eq
      intro k
      have := h k
      simpa [Int.testBit] using this

theorem testBit_eq_decide (a : Int) (k : Nat) :
    a.testBit k = decide (a / 2 ^ k % 2 = 1) := by
  cases a with
  | ofNat m =>
    simp only [Int.testBit, Int.ofNat_eq_coe]
    rw [Nat.testBit_to_div_mod]
    congr 1
    norm_cast
  | negSucc m =>
    simp only [Int.testBit]
    rw [Nat.testBit_to_div_mod]
    have h1 : (Int.negSucc m) / 2 ^ k = Int.negSucc (m / 2 ^ k) := by
      have : ((2:Int) ^ k) = ((2 ^ k : Nat) : Int) := by norm_cast
      rw [this]
      rw [Int.negSucc_ediv _ (by positivity)]
      simp [Int.negSucc_eq]
      norm_cast
    rw [h1]
    have h2 : Int.negSucc (m / 2 ^ k) % 2 = 1 - ((m / 2 ^ k % 2 : Nat) : Int) := by
      rw [Int.negSucc_eq]; omega
    rw [h2]
    have : m / 2 ^ k % 2 < 2 := Nat.mod_lt _ (by norm_num)
    by_cases h : m / 2 ^ k % 2 = 1
    · simp [h]
    · have h0 : m / 2 ^ k % 2 = 0 := by omega
      simp [h0]


theorem and_comm_int (a b : Int) : a &&& b = b &&& a :=
  eq_of_testBit_eq fun k => by simp [Bool.and_comm]

theorem nat_mask_xor (k x : Nat) (hx : x < 2 ^ k) : (2 ^ k - 1) ^^^ x = 2 ^ k - 1 - x := by
  apply Nat.eq_of_testBit_eq
  intro i
  have h : 2 ^ k - 1 - x = 2 ^ k - (x + 1) := by omega
  rw [h, Nat.testBit_two_pow_sub_succ hx, Nat.testBit_xor, Nat.testBit_two_pow_sub_one]
  by_cases hi : i < k
  · simp [hi]
  · have : x.testBit i = false :=
      Nat.testBit_lt_two_pow (lt_of_lt_of_le hx (Nat.pow_le_pow_right (by norm_num) (by omega)))
    simp [hi, this]

/-- Masking with `2^k - 1` is the remainder modulo `2^k`, also for a negative operand. -/
theorem and_mask (a : Int) (k : Nat) :
    a &&& ((2 ^ k - 1 : Nat) : Int) = a % ((2 ^ k : Nat) : Int) := by
  cases a with
  | ofNat m =>
    show Int.ofNat (m &&& (2 ^ k - 1)) = _
    rw [Nat.and_pow_two_sub_one_eq_mod]
    simp
  | negSucc m =>
    show Int.ofNat ((2 ^ k - 1) ^^^ ((2 ^ k - 1) &&& m)) = _
    have hpos : 0 < 2 ^ k := Nat.two_pow_pos k
    have hlt : m % 2 ^ k < 2 ^ k := Nat.mod_lt _ hpos
    rw [Nat.and_comm, Nat.and_pow_two_sub_one_eq_mod, nat_mask_xor k _ hlt]
    rw [Int.negSucc_emod _ (by exact_mod_cast hpos)]
    have e : ((m : Int) % ((2 ^ k : Nat) : Int)) = ((m % 2 ^ k : Nat) : Int) := by norm_cast
    rw [e]
    simp only [Int.ofNat_eq_coe]
    generalize 2 ^ k = q at *
    generalize m % q = r at *
    omega

theorem testBit_two_pow_int (k i : Nat) : ((2 : Int) ^ k).testBit i = decide (k = i) := by
  have h : ((2 : Int) ^ k) = ((2 ^ k : Nat) : Int) := by norm_cast
  rw [h]
  show Nat.testBit (2 ^ k) i = _
  exact Nat.testBit_two_pow

theorem testBit_zero_int (i : Nat) : (0 : Int).testBit i = false := by
  show Nat.testBit 0 i = false
  simp

/-- Masking with a single bit `2^k` tests that bit. -/
theorem and_two_pow (a : Int) (k : Nat) :
    a &&& (2 : Int) ^ k = if a.testBit k then (2 : Int) ^ k else 0 := by
  apply eq_of_testBit_eq
  intro i
  rw [testBit_and, testBit_two_pow_int]
  by_cases hk : k = i
  · subst hk
    cases h : a.testBit k <;> simp [testBit_two_pow_int, testBit_zero_int]
  · cases h : a.testBit k <;> simp [hk, testBit_two_pow_int, testBit_zero_int]

theorem shl_eq_mul (a : Int) (n : Nat) : shl a n = a * 2 ^ n := by
  simp [shl, Int.shiftLeft_eq_mul_pow]

theorem shr_eq_div (a : Int) (n : Nat) : shr a n = a / 2 ^ n := by
  simp [shr, Int.shiftRight_eq_div_pow]

theorem or_disjoint (h l : Int) (k : Nat) (hh : 0 ≤ h) (hl : 0 ≤ l) (hlt : l < 2 ^ k) :
    (h * 2 ^ k) ||| l = h * 2 ^ k + l := by
  obtain ⟨hn, rfl⟩ := Int.eq_ofNat_of_zero_le hh
  obtain ⟨ln, rfl⟩ := Int.eq_ofNat_of_zero_le hl
  have hlt2 : ln < 2 ^ k := by exact_mod_cast hlt
  have : ((hn : Int) * 2 ^ k) = ((hn * 2 ^ k : Nat) : Int) := by push_cast; rfl
  rw [this]
  show Int.ofNat (hn * 2 ^ k ||| ln) = _
  rw [Nat.mul_comm hn, ← Nat.mul_add_lt_is_or hlt2]
  simp only [Int.ofNat_eq_coe]
  push_cast
  ring

/-! Instances at the literals of the source. -/

theorem and_0xFF (a : Int) : a &&& 0xFF = a % 256 := by
  simpa using and_mask a 8

theorem and_0xFF_left (a : Int) : 0xFF &&& a = a % 256 := by
  rw [and_comm_int, and_0xFF]

theorem and_0xFFFF_left (a : Int) : 0xFFFF &&& a = a % 65536 := by
  rw [and_comm_int]; simpa using and_mask a 16

theorem and_0x7F (a : Int) : a &&& 0x7F = a % 128 := by
  simpa using and_mask a 7

theorem and_0x80 (a : Int) : a &&& 0x80 = if a.testBit 7 then 0x80 else 0 := by
  simpa using and_two_pow a 7

theorem and_0x01 (a : Int) : a &&& 0x01 = if a.testBit 0 then 0x01 else 0 := by
  simpa using and_two_pow a 0

theorem testBit7_byte (a : Int) (h0 : 0 ≤ a) (h1 : a ≤ 255) :
    a.testBit 7 = decide (128 ≤ a) := by
  rw [testBit_eq_decide]
  congr 1
  apply propext
  constructor <;> intro h <;> omega


theorem testBit_lit (n k i : Nat) (h : n = 2 ^ k) :
    (OfNat.ofNat n : Int).testBit i = decide (i = k) := by
  have e : (OfNat.ofNat n : Int) = (2 : Int) ^ k := by
    subst h
    show ((2 ^ k : Nat) : Int) = _
    norm_cast
  rw [e, testBit_two_pow_int]
  by_cases hik : i = k
  · simp [hik]
  · have : ¬ k = i := fun h => hik h.symm
    simp [hik, this]

@[simp] theorem testBit_1 (i : Nat) : (1 : Int).testBit i = decide (i = 0) :=
  testBit_lit 1 0 i rfl
@[simp] theorem testBit_2 (i : Nat) : (2 : Int).testBit i = decide (i = 1) :=
  testBit_lit 2 1 i rfl
@[simp] theorem testBit_4 (i : Nat) : (4 : Int).testBit i = decide (i = 2) :=
  testBit_lit 4 2 i rfl
@[simp] theorem testBit_8 (i : Nat) : (8 : Int).testBit i = decide (i = 3) :=
  testBit_lit 8 3 i rfl
@[simp] theorem testBit_16 (i : Nat) : (16 : Int).testBit i = decide (i = 4) :=
  testBit_lit 16 4 i rfl
@[simp] theorem testBit_32 (i : Nat) : (32 : Int).testBit i = decide (i = 5) :=
  testBit_lit 32 5 i rfl
@[simp] theorem testBit_64 (i : Nat) : (64 : Int).testBit i = decide (i = 6) :=
  testBit_lit 64 6 i rfl
@[simp] theorem testBit_128 (i : Nat) : (128 : Int).testBit i = decide (i = 7) :=
  testBit_lit 128 7 i rfl
@[simp] theorem testBit_256 (i : Nat) : (256 : Int).testBit i = decide (i = 8) :=
  testBit_lit 256 8 i rfl

@[simp] theorem flagC_testBit (i : Nat) : flagC.testBit i = decide (i = 0) := testBit_1 i
@[simp] theorem flagZ_testBit (i : Nat) : flagZ.testBit i = decide (i = 1) := testBit_2 i
@[simp] theorem flagI_testBit (i : Nat) : flagI.testBit i = decide (i = 2) := testBit_4 i
@[simp] theorem flagD_testBit (i : Nat) : flagD.testBit i = decide (i = 3) := testBit_8 i
@[simp] theorem flagB_testBit (i : Nat) : flagB.testBit i = decide (i = 4) := testBit_16 i
@[simp] theorem flagR_testBit (i : Nat) : flagR.testBit i = decide (i = 5) := testBit_32 i
@[simp] theorem flagV_testBit (i : Nat) : flagV.testBit i = decide (i = 6) := testBit_64 i
@[simp] theorem flagN_testBit (i : Nat) : flagN.testBit i = decide (i = 7) := testBit_128 i

/-- A single-bit mask is nonzero exactly when the bit is set. -/
theorem and_bit_ne_zero (a f : Int) (k : Nat) (hf : ∀ i, f.testBit i = decide (i = k)) :
    (a &&& f) ≠ 0 ↔ a.testBit k = true := by
  constructor
  · intro h
    by_contra hk
    apply h
    apply eq_of_testBit_eq
    intro i
    rw [testBit_and, hf, testBit_zero_int]
    by_cases hik : i = k
    · subst hik; simp [hk]
    · simp [hik]
  · intro h h0
    have := congrArg (fun x => Int.testBit x k) h0
    simp [hf, h, testBit_zero_int] at this

theorem and_bit_eq_zero (a f : Int) (k : Nat) (hf : ∀ i, f.testBit i = decide (i = k)) :
    (a &&& f) = 0 ↔ a.testBit k = false := by
  have := and_bit_ne_zero a f k hf
  constructor
  · intro h
    by_contra hk
    exact (this.mpr (by simpa using hk)) h
  · intro h
    by_contra hk
    have := this.mp hk
    simp [h] at this


theorem nat_and_0xFF00 (h l : Nat) (hh : h < 256) (hl : l < 256) :
    (2 ^ 8 * h + l) &&& (2 ^ 8 * 255 + 0) = 2 ^ 8 * h + 0 := by
  apply Nat.eq_of_testBit_eq
  intro j
  rw [Nat.testBit_and, Nat.testBit_mul_pow_two_add h (by omega : l < 2 ^ 8),
    Nat.testBit_mul_pow_two_add 255 (by norm_num : 0 < 2 ^ 8),
    Nat.testBit_mul_pow_two_add h (by norm_num : 0 < 2 ^ 8)]
  by_cases hj : j < 8
  · simp [hj]
  · simp only [hj, if_false]
    have e : (255 : Nat) = 2 ^ 8 - 1 := by norm_num
    rw [e, Nat.testBit_two_pow_sub_one]
    by_cases hj2 : j - 8 < 8
    · simp [hj2]
    · have : h.testBit (j - 8) = false :=
        Nat.testBit_lt_two_pow (lt_of_lt_of_le (by omega : h < 2 ^ 8)
          (Nat.pow_le_pow_right (by norm_num) (by omega)))
      simp [this]

/-- Masking a 16-bit address with `0xFF00` clears its low byte. -/
theorem and_0xFF00 (p : Int) (h0 : 0 ≤ p) (h1 : p ≤ 0xFFFF) : p &&& 0xFF00 = p - p % 256 := by
  obtain ⟨n, rfl⟩ := Int.eq_ofNat_of_zero_le h0
  have hn : n ≤ 0xFFFF := by exact_mod_cast h1
  have hdecomp : n = 2 ^ 8 * (n / 256) + n % 256 := by omega
  have key := nat_and_0xFF00 (n / 256) (n % 256) (by omega) (by omega)
  rw [← hdecomp] at key
  show Int.ofNat (n &&& 0xFF00) = _
  have k2 : n &&& 0xFF00 = 2 ^ 8 * (n / 256) := by simpa using key
  rw [k2]
  simp only [Int.ofNat_eq_coe]
  push_cast
  omega

/-- Two bytes assembled into a 16-bit word, as every address fetch of the source does. -/
theorem word_of_bytes (h l : Int) (hh : 0 ≤ h ∧ h ≤ 255) (hl : 0 ≤ l ∧ l ≤ 255) :
    0xFFFF &&& (shl h 8 ||| l) = h * 256 + l := by
  rw [and_0xFFFF_left, shl_eq_mul]
  have : (h * 2 ^ 8) ||| l = h * 2 ^ 8 + l := or_disjoint h l 8 hh.1 hl.1 (by norm_num; omega)
  rw [this]
  norm_num
  omega

/-- Masking a natural number with the field of `i` bits that starts at bit `j`. -/
theorem nat_and_field (n j i : Nat) : n &&& (2 ^ j * (2 ^ i - 1)) = 2 ^ j * (n / 2 ^ j % 2 ^ i) := by
  apply Nat.eq_of_testBit_eq
  intro k
  rw [Nat.testBit_and, Nat.testBit_mul_pow_two, Nat.testBit_mul_pow_two,
    Nat.testBit_two_pow_sub_one, Nat.testBit_mod_two_pow, ← Nat.shiftRight_eq_div_pow,
    Nat.testBit_shiftRight]
  by_cases hk : k ≥ j
  · have e : j + (k - j) = k := by omega
    simp only [hk, decide_True, Bool.true_and, e]
    cases n.testBit k <;> simp
  · simp [hk]

/-- Masking a non-negative integer with the field of `i` bits that starts at bit `j`. -/
theorem and_field (a : Int) (h : 0 ≤ a) (j i : Nat) :
    a &&& ((2 ^ j * (2 ^ i - 1) : Nat) : Int) = 2 ^ j * (a / 2 ^ j % 2 ^ i) := by
  obtain ⟨n, rfl⟩ := Int.eq_ofNat_of_zero_le h
  show Int.ofNat (n &&& (2 ^ j * (2 ^ i - 1))) = _
  rw [nat_and_field]
  simp only [Int.ofNat_eq_coe]
  push_cast
  rfl

theorem and_0xF000 (a : Int) (h : 0 ≤ a) : a &&& 0xF000 = 4096 * (a / 4096 % 16) := by
  simpa using and_field a h 12 4

theorem and_0x0C00 (a : Int) (h : 0 ≤ a) : a &&& 0x0C00 = 1024 * (a / 1024 % 4) := by
  simpa using and_field a h 10 2

theorem and_0x0800 (a : Int) (h : 0 ≤ a) : a &&& 0x0800 = 2048 * (a / 2048 % 2) := by
  simpa using and_field a h 11 1

theorem and_0x0400 (a : Int) (h : 0 ≤ a) : a &&& 0x0400 = 1024 * (a / 1024 % 2) := by
  simpa using and_field a h 10 1

theorem and_0x07FF (a : Int) : a &&& 0x07FF = a % 2048 := by
  simpa using and_mask a 11

theorem and_0x03FF (a : Int) : a &&& 0x03FF = a % 1024 := by
  simpa using and_mask a 10

/-- Go's `a &^ 0x00FF` on a non-negative value clears the low byte. -/
theorem andNot_0xFF (a : Int) (h : 0 ≤ a) : andNot a 0x00FF = a - a % 256 := by
  obtain ⟨n, rfl⟩ := Int.eq_ofNat_of_zero_le h
  show Int.ofNat (n ^^^ (n &&& 255)) = _
  have e : n ^^^ (n &&& 255) = 2 ^ 8 * (n / 2 ^ 8) := by
    apply Nat.eq_of_testBit_eq
    intro k
    have h255 : (255 : Nat) = 2 ^ 8 - 1 := by norm_num
    rw [Nat.testBit_xor, Nat.testBit_and, h255, Nat.testBit_two_pow_sub_one,
      Nat.testBit_mul_pow_two, ← Nat.shiftRight_eq_div_pow, Nat.testBit_shiftRight]
    by_cases hk : k ≥ 8
    · have e : 8 + (k - 8) = k := by omega
      have hk2 : ¬ k < 8 := by omega
      simp [hk, hk2, e]
    · have hk2 : k < 8 := by omega
      simp [hk, hk2]
  rw [e]
  simp only [Int.ofNat_eq_coe]
  push_cast
  omega

theorem testBit_andNot_flagB (p : Int) (k : Nat) :
    (andNot p flagB).testBit k = (p.testBit k && decide (k ≠ 4)) := by
  by_cases h : k = 4 <;> simp [h]

theorem testBit_andNot_flagD (p : Int) (k : Nat) :
    (andNot p flagD).testBit k = (p.testBit k && decide (k ≠ 3)) := by
  by_cases h : k = 3 <;> simp [h]

@[simp] theorem testBit_1024 (i : Nat) : (1024 : Int).testBit i = decide (i = 10) :=
  testBit_lit 1024 10 i rfl

/-- The conjunction of two integers that are not negative lies between 0 and the second. -/
theorem and_nonneg_le (a b : Int) (ha : 0 ≤ a) (hb : 0 ≤ b) : 0 ≤ a &&& b ∧ a &&& b ≤ b := by
  obtain ⟨m, rfl⟩ := Int.eq_ofNat_of_zero_le ha
  obtain ⟨n, rfl⟩ := Int.eq_ofNat_of_zero_le hb
  have h : ((m : Int) &&& (n : Int)) = ((m &&& n : Nat) : Int) := rfl
  rw [h]
  exact ⟨Int.ofNat_nonneg _, by exact_mod_cast Nat.and_le_right⟩

theorem and_0x1FFF (a : Int) : a &&& 0x1FFF = a % 8192 := by
  simpa using and_mask a 13

theorem and_0x7FFF (a : Int) : a &&& 0x7FFF = a % 32768 := by
  simpa using and_mask a 15

theorem and_0x0F_left (a : Int) : a &&& 0x0F = a % 16 := by
  simpa using and_mask a 4

theorem and_0x07 (a : Int) : a &&& 0x07 = a % 8 := by
  simpa using and_mask a 3

theorem or_comm_int (a b : Int) : a ||| b = b ||| a :=
  eq_of_testBit_eq fun k => by simp [Bool.or_comm]

theorem and_0x3FFF (a : Int) : a &&& 0x3FFF = a % 16384 := by
  simpa using and_mask a 14

theorem and_0x3F (a : Int) : a &&& 0x3F = a % 64 := by
  simpa using and_mask a 6

theorem and_0x3F00 (a : Int) (h : 0 ≤ a) : a &&& 0x3F00 = 256 * (a / 256 % 64) := by
  simpa using and_field a h 8 6

theorem and_0x7F00 (a : Int) (h : 0 ≤ a) : a &&& 0x7F00 = 256 * (a / 256 % 128) := by
  simpa using and_field a h 8 7

/-- The two writes of the VRAM address register: the first keeps the low byte of `t` and sets
the bits 8..13 from the value, the second sets the low byte. -/
theorem address_writes (t hi lo : Int) (hhi : IsByte hi) (hlo : IsByte lo) :
    (((t &&& 0x00FF) ||| (shl hi 8 &&& 0x3F00)) &&& 0xFF = t &&& 0xFF) ∧
    ((((t &&& 0x00FF) ||| (shl hi 8 &&& 0x3F00)) &&& 0x7F00) ||| (lo &&& 0x00FF)
      = (hi &&& 0x3F) * 256 + lo) := by
  have h1 : shl hi 8 &&& 0x3F00 = (hi % 64) * 2 ^ 8 := by
    rw [shl_eq_mul, and_0x3F00 _ (by have := hhi.1; positivity)]
    have : hi * 2 ^ 8 / 256 = hi := by norm_num
    rw [this]; ring
  have h2 : (t &&& 0x00FF) ||| (shl hi 8 &&& 0x3F00) = (hi % 64) * 2 ^ 8 + t % 256 := by
    rw [h1, or_comm_int, and_0xFF]
    exact or_disjoint _ _ 8 (by omega) (by omega) (by norm_num; omega)
  rw [h2]
  constructor
  · rw [and_0xFF, and_0xFF]; omega
  · rw [and_0x7F00 _ (by omega), and_0xFF, and_0x3F]
    have e1 : ((hi % 64) * 2 ^ 8 + t % 256) / 256 % 128 = hi % 64 := by omega
    have e2 : lo % 256 = lo := by have := hlo.1; have := hlo.2; omega
    rw [e1, e2]
    have := or_disjoint (hi % 64) lo 8 (by omega) hlo.1 (by have := hlo.2; norm_num; omega)
    have e3 : (256 : Int) * (hi % 64) = hi % 64 * 2 ^ 8 := by ring
    rw [e3, this]; ring

/-- The remainder of a number that is a multiple of `P` plus a remainder. -/
theorem emod_of_decomp (x j t P : Int) (h : x = j * P + t) (h0 : 0 ≤ t) (h1 : t < P) :
    x % P = t := by
  rw [h, add_comm, Int.add_mul_emod_self]
  exact Int.emod_eq_of_lt h0 h1

theorem and_or_left (x a b : Int) : x &&& (a ||| b) = (x &&& a) ||| (x &&& b) :=
  eq_of_testBit_eq fun k => by simp [Bool.and_or_distrib_left]

theorem or_and_right (x y m : Int) : (x ||| y) &&& m = (x &&& m) ||| (y &&& m) :=
  eq_of_testBit_eq fun k => by simp [Bool.and_or_distrib_right]

theorem or_assoc_int (a b c : Int) : (a ||| b) ||| c = a ||| (b ||| c) :=
  eq_of_testBit_eq fun k => by simp [Bool.or_assoc]

/-- A field of `i` bits at bit `j` that is set in a number whose field is 0. -/
theorem or_add_field (q l f : Int) (i j : Nat) (hq : 0 ≤ q) (hl : 0 ≤ l ∧ l < 2 ^ j)
    (hf : 0 ≤ f ∧ f < 2 ^ i) :
    (q * 2 ^ (i + j) + l) ||| (f * 2 ^ j) = q * 2 ^ (i + j) + f * 2 ^ j + l := by
  have hj : (0 : Int) < 2 ^ j := by positivity
  have hl2 : l < 2 ^ (i + j) := by
    have : (2 : Int) ^ j ≤ 2 ^ (i + j) := by
      apply pow_le_pow_right₀ (by norm_num); omega
    omega
  have hf2 : f * 2 ^ j < 2 ^ (i + j) := by
    rw [pow_add]
    exact mul_lt_mul_of_pos_right hf.2 hj
  have hf0 : 0 ≤ f * 2 ^ j := mul_nonneg hf.1 (le_of_lt hj)
  rw [← or_disjoint q l (i + j) hq hl.1 hl2, or_assoc_int, or_comm_int l, ← or_assoc_int,
    or_disjoint q (f * 2 ^ j) (i + j) hq hf0 hf2]
  have e : q * 2 ^ (i + j) + f * 2 ^ j = (q * 2 ^ i + f) * 2 ^ j := by
    rw [pow_add]; ring
  rw [e, or_disjoint (q * 2 ^ i + f) l j (add_nonneg (mul_nonneg hq (by positivity)) hf.1)
    hl.1 hl.2]

/-- The assignment of `setBackgroundFineY` as arithmetic. -/
theorem setBackgroundFineY_eq (x f : Int) (hx : 0 ≤ x ∧ x < 65536) (hf : 0 ≤ f ∧ f < 8) :
    (x &&& 0x8FFF) ||| shl f 12 = x - 4096 * (x / 4096 % 8) + 4096 * f := by
  have m : (0x8FFF : Int) = 0x8000 ||| 0x0FFF := by decide
  have a1 : x &&& 0x8000 = 32768 * (x / 32768 % 2) := by simpa using and_field x hx.1 15 1
  have a2 : x &&& 0x0FFF = x % 4096 := by simpa using and_mask x 12
  have o1 := or_disjoint (x / 32768 % 2) (x % 4096) 15 (by omega) (by omega)
    (by norm_num; omega)
  have o2 := or_add_field (x / 32768 % 2) (x % 4096) f 3 12 (by omega)
    (by norm_num; omega) (by norm_num; omega)
  norm_num at o1 o2
  rw [m, and_or_left, a1, a2, shl_eq_mul]
  norm_num
  rw [mul_comm 32768, o1, o2]
  omega

/-- The assignment of `setBackgroundTileY` as arithmetic. -/
theorem setBackgroundTileY_eq (x t : Int) (hx : 0 ≤ x ∧ x < 65536) (ht : 0 ≤ t ∧ t < 32) :
    (x &&& 0xFC1F) ||| shl t 5 = x - 32 * (x / 32 % 32) + 32 * t := by
  have m : (0xFC1F : Int) = 0xFC00 ||| 0x001F := by decide
  have a1 : x &&& 0xFC00 = 1024 * (x / 1024 % 64) := by simpa using and_field x hx.1 10 6
  have a2 : x &&& 0x001F = x % 32 := by simpa using and_mask x 5
  have o1 := or_disjoint (x / 1024 % 64) (x % 32) 10 (by omega) (by omega)
    (by norm_num; omega)
  have o2 := or_add_field (x / 1024 % 64) (x % 32) t 5 5 (by omega)
    (by norm_num; omega) (by norm_num; omega)
  norm_num at o1 o2
  rw [m, and_or_left, a1, a2, shl_eq_mul]
  norm_num
  rw [mul_comm 1024, o1, o2]
  omega

/-- The assignment of `setNameTableIndex` as arithmetic. -/
theorem setNameTableIndex_eq (x n : Int) (hx : 0 ≤ x ∧ x < 65536) (hn : 0 ≤ n ∧ n < 4) :
    (x &&& 0xF3FF) ||| shl n 10 = x - 1024 * (x / 1024 % 4) + 1024 * n := by
  have m : (0xF3FF : Int) = 0xF000 ||| 0x03FF := by decide
  have a1 : x &&& 0xF000 = 4096 * (x / 4096 % 16) := and_0xF000 x hx.1
  have a2 : x &&& 0x03FF = x % 1024 := by simpa using and_mask x 10
  have o1 := or_disjoint (x / 4096 % 16) (x % 1024) 12 (by omega) (by omega)
    (by norm_num; omega)
  have o2 := or_add_field (x / 4096 % 16) (x % 1024) n 2 10 (by omega)
    (by norm_num; omega) (by norm_num; omega)
  norm_num at o1 o2
  rw [m, and_or_left, a1, a2, shl_eq_mul]
  norm_num
  rw [mul_comm 4096, o1, o2]
  omega

/-- The coarse-Y 32 that `setBackgroundTileY` receives after the coarse-Y 31 sets only bit 10,
which `setNameTableIndex` clears. -/
theorem setBackgroundTileY_32 (x n : Int) :
    (((x &&& 0xFC1F) ||| shl 32 5) &&& 0xF3FF) ||| shl n 10
      = (((x &&& 0xFC1F) ||| shl 0 5) &&& 0xF3FF) ||| shl n 10 := by
  have e1 : shl 32 5 &&& (0xF3FF : Int) = 0 := by decide
  have e2 : shl 0 5 &&& (0xF3FF : Int) = 0 := by decide
  rw [or_and_right, or_and_right, e1, e2]

/-! ## Lemmas on the interpreter -/

section
variable {σ : Type} [CPUMemory σ]

theorem flagSet_C (p : Int) : flagSet p flagC ↔ p.testBit 0 = true :=
  and_bit_ne_zero p _ 0 flagC_testBit
theorem flagSet_Z (p : Int) : flagSet p flagZ ↔ p.testBit 1 = true :=
  and_bit_ne_zero p _ 1 flagZ_testBit
theorem flagSet_V (p : Int) : flagSet p flagV ↔ p.testBit 6 = true :=
  and_bit_ne_zero p _ 6 flagV_testBit
theorem flagSet_N (p : Int) : flagSet p flagN ↔ p.testBit 7 = true :=
  and_bit_ne_zero p _ 7 flagN_testBit

set_option maxRecDepth 100000 in
theorem executeOp_0x69 (cpu : CPU σ) : executeOp cpu 0x69 = opADC cpu IMM := rfl

set_option maxRecDepth 100000 in
theorem opCyclesLengthAt_0x69 : opCyclesLengthAt 0x69 = some 2 := by decide

theorem ExecuteOp_fetch (cpu : CPU σ) (opCode cycles : Int) (hint : cpu.pendingInterrupt = 0)
    (hop : readsAs cpu.memory cpu.PC opCode) (hc : opCyclesLengthAt opCode = some cycles) :
    ExecuteOp cpu =
      (executeOp { cpu with PC := cpu.PC + 1, OpCycles := cycles } opCode).bind
        fun c => some (c.OpCycles, c) := by
  unfold readsAs at hop
  simp [ExecuteOp, hint, readMemory, hop, hc]

theorem testBit7_eq (a : Int) : a.testBit 7 = decide (128 ≤ a % 256) := by
  rw [testBit_eq_decide]
  congr 1
  apply propext
  constructor <;> intro h <;> omega

theorem adc_flags (A M c P : Int) (hA : 0 ≤ A ∧ A ≤ 255) (hM : 0 ≤ M ∧ M ≤ 255)
    (hc : c = 0 ∨ c = 1) :
    let res := A + M + c
    let P1 := andNot P (flagN ||| flagV ||| flagZ ||| flagC) ||| (res &&& flagN)
    let P2 := if (andNot (A ^^^ (res &&& 0xFF)) (A ^^^ M) &&& 0x80) ≠ 0 then P1 ||| flagV else P1
    let P3 := if (res &&& 0xFF) = 0 then P2 ||| flagZ else P2
    let P4 := if res > 0xFF then P3 ||| flagC else P3
    (flagSet P4 flagC ↔ A + M + c > 255) ∧
    (flagSet P4 flagZ ↔ (A + M + c) % 256 = 0) ∧
    (flagSet P4 flagN ↔ 128 ≤ (A + M + c) % 256) ∧
    (flagSet P4 flagV ↔
      ¬ (-128 ≤ signed8 A + signed8 M + c ∧ signed8 A + signed8 M + c ≤ 127)) := by
  intro res P1 P2 P3 P4
  have hV : (andNot (A ^^^ (res &&& 0xFF)) (A ^^^ M) &&& 0x80) ≠ 0 ↔
      ¬ (-128 ≤ signed8 A + signed8 M + c ∧ signed8 A + signed8 M + c ≤ 127) := by
    rw [and_bit_ne_zero _ _ 7 testBit_128]
    simp only [testBit_andNot, testBit_xor, and_0xFF]
    rw [testBit7_eq A, testBit7_eq M, testBit7_eq (res % 256)]
    simp only [signed8, res]
    have e1 : A % 256 = A := by omega
    have e2 : M % 256 = M := by omega
    rw [e1, e2]
    by_cases h1 : 128 ≤ A <;> by_cases h2 : 128 ≤ M <;>
      by_cases h3 : 128 ≤ (A + M + c) % 256 % 256 <;>
      simp [h1, h2, h3] <;> omega
  have hZ : (res &&& 0xFF) = 0 ↔ (A + M + c) % 256 = 0 := by rw [and_0xFF]
  refine ⟨?_, ?_, ?_, ?_⟩
  · rw [flagSet_C]
    simp only [P4, P3, P2, P1]
    split_ifs <;> simp <;> omega
  · rw [flagSet_Z]
    simp only [P4, P3, P2, P1]
    split_ifs <;> simp <;> omega
  · rw [flagSet_N]
    simp only [P4, P3, P2, P1]
    split_ifs <;> simp [testBit7_eq res]
  · rw [flagSet_V, ← hV]
    simp only [P4, P3, P2, P1]
    split_ifs <;> simp_all

theorem carryIn_cases (p : Int) : carryIn p = 0 ∨ carryIn p = 1 := by
  unfold carryIn; split_ifs <;> simp


set_option maxRecDepth 100000 in
theorem executeOp_0xE9 (cpu : CPU σ) : executeOp cpu 0xE9 = opSBC cpu IMM := rfl

set_option maxRecDepth 100000 in
theorem executeOp_0xEB (cpu : CPU σ) : executeOp cpu 0xEB = opSBC cpu IMM := rfl

set_option maxRecDepth 100000 in
theorem opCyclesLengthAt_0xE9 : opCyclesLengthAt 0xE9 = some 2 := by decide

set_option maxRecDepth 100000 in
theorem opCyclesLengthAt_0xEB : opCyclesLengthAt 0xEB = some 2 := by decide

theorem testBit8_eq (a : Int) : a.testBit 8 = decide (256 ≤ a % 512) := by
  rw [testBit_eq_decide]
  congr 1
  apply propext
  constructor <;> intro h <;> omega

theorem sbc_flags (A M c P : Int) (hA : 0 ≤ A ∧ A ≤ 255) (hM : 0 ≤ M ∧ M ≤ 255)
    (hc : c = 0 ∨ c = 1) :
    let res := A - M - (1 - c)
    let P1 := andNot P (flagN ||| flagV ||| flagZ ||| flagC) ||| (res &&& flagN)
    let P2 := if ((A ^^^ M) &&& (A ^^^ (0xFF &&& res)) &&& 0x80) ≠ 0 then P1 ||| flagV else P1
    let P3 := if (res &&& 0xFF) = 0 then P2 ||| flagZ else P2
    let P4 := if (res &&& 0x100) = 0 then P3 ||| flagC else P3
    (flagSet P4 flagC ↔ A ≥ M + (1 - c)) ∧
    (flagSet P4 flagZ ↔ res % 256 = 0) ∧
    (flagSet P4 flagN ↔ 128 ≤ res % 256) ∧
    (flagSet P4 flagV ↔ ((A ^^^ M) &&& (A ^^^ (res % 256)) &&& 0x80) ≠ 0) ∧
    (flagSet P4 flagV ↔
      ¬ (-128 ≤ signed8 A - signed8 M - (1 - c) ∧
          signed8 A - signed8 M - (1 - c) ≤ 127)) := by
  intro res P1 P2 P3 P4
  have hC : (res &&& 0x100) = 0 ↔ A ≥ M + (1 - c) := by
    rw [and_bit_eq_zero _ _ 8 testBit_256, testBit8_eq]
    simp only [decide_eq_false_iff_not, res]
    constructor <;> intro h <;> omega
  have hV : ((A ^^^ M) &&& (A ^^^ (0xFF &&& res)) &&& 0x80) ≠ 0 ↔
      ¬ (-128 ≤ signed8 A - signed8 M - (1 - c) ∧
          signed8 A - signed8 M - (1 - c) ≤ 127) := by
    rw [and_bit_ne_zero _ _ 7 testBit_128]
    simp only [testBit_and, testBit_xor, and_0xFF_left]
    rw [testBit7_eq A, testBit7_eq M, testBit7_eq (res % 256)]
    simp only [signed8, res]
    have e1 : A % 256 = A := by omega
    have e2 : M % 256 = M := by omega
    rw [e1, e2]
    by_cases h1 : 128 ≤ A <;> by_cases h2 : 128 ≤ M <;>
      by_cases h3 : 128 ≤ (A - M - (1 - c)) % 256 % 256 <;>
      simp [h1, h2, h3] <;> omega
  have hZ : (res &&& 0xFF) = 0 ↔ res % 256 = 0 := by rw [and_0xFF]
  have hV2 : flagSet P4 flagV ↔ ((A ^^^ M) &&& (A ^^^ (0xFF &&& res)) &&& 0x80) ≠ 0 := by
    rw [flagSet_V]
    simp only [P4, P3, P2, P1]
    split_ifs <;> simp_all
  refine ⟨?_, ?_, ?_, ?_, ?_⟩
  · rw [flagSet_C, ← hC]
    simp only [P4, P3, P2, P1]
    split_ifs <;> simp_all
  · rw [flagSet_Z, ← hZ]
    simp only [P4, P3, P2, P1]
    split_ifs <;> simp_all
  · rw [flagSet_N]
    simp only [P4, P3, P2, P1]
    split_ifs <;> simp [testBit7_eq res]
  · rw [hV2, and_0xFF_left]
  · rw [hV2, hV]


set_option maxRecDepth 100000 in
theorem executeOp_0x6C (cpu : CPU σ) : executeOp cpu 0x6C = opJMP cpu IND2 := rfl

set_option maxRecDepth 100000 in
theorem opCyclesLengthAt_0x6C : opCyclesLengthAt 0x6C = some 5 := by decide

/-- The branch of `calculateMemoryAddressREL` on the sign bit, in arithmetic. -/
theorem rel_offset (d pc : Int) (hdb : 0 ≤ d ∧ d ≤ 255) :
    0xFFFF &&& (if
        (if (d &&& 0x80) = 0 then (d &&& 0x7F, true) else (0x7F + 1 - (d &&& 0x7F), false)).2
          = true
      then pc +
        (if (d &&& 0x80) = 0 then (d &&& 0x7F, true) else (0x7F + 1 - (d &&& 0x7F), false)).1
      else pc -
        (if (d &&& 0x80) = 0 then (d &&& 0x7F, true) else (0x7F + 1 - (d &&& 0x7F), false)).1)
      = (pc + signed8 d) % 65536 := by
  have h80 : (d &&& 0x80) = 0 ↔ d < 128 := by
    rw [and_bit_eq_zero _ _ 7 testBit_128, testBit7_eq]
    simp only [decide_eq_false_iff_not]
    constructor <;> intro h <;> omega
  rw [and_0xFFFF_left, and_0x7F]
  unfold signed8
  by_cases h : d < 128
  · have h2 := h80.mpr h
    simp only [h2, h, if_true]
    congr 1
    omega
  · have h2 : ¬ (d &&& 0x80) = 0 := fun hh => h (h80.mp hh)
    simp only [h2, h, if_false]
    rw [if_neg (by decide)]
    congr 1
    omega

/-- Relative addressing through the dispatch `calculateMemoryAddress`. -/
theorem calculateMemoryAddress_REL (cpu : CPU σ) (d : Int)
    (hd : readsAs cpu.memory cpu.PC d) (hdb : 0 ≤ d ∧ d ≤ 255) :
    calculateMemoryAddress cpu REL
      = some ((cpu.PC + 1 + signed8 d) % 65536, { cpu with PC := cpu.PC + 1 }) := by
  unfold readsAs at hd
  simp only [calculateMemoryAddress, calculateMemoryAddressREL, readMemory, hd,
    Option.bind_eq_bind, Option.some_bind]
  rw [rel_offset d (cpu.PC + 1) hdb]

/-- What every branch instruction does once its condition is known. -/
theorem branch_core (cpu : CPU σ) (condition : Bool) (d : Int)
    (hd : readsAs cpu.memory cpu.PC d) (hdb : 0 ≤ d ∧ d ≤ 255) :
    ((calculateMemoryAddress cpu REL).bind fun r => some (opBranch r.2 condition r.1))
      = some (if condition = true then
          { cpu with
            PC := (cpu.PC + 1 + signed8 d) % 65536
            OpCycles :=
              if (cpu.PC + 1 + signed8 d) % 65536 / 256 = (cpu.PC + 1) / 256
              then cpu.OpCycles + 1 else cpu.OpCycles + 2 }
        else { cpu with PC := cpu.PC + 1 }) := by
  simp only [calculateMemoryAddress_REL cpu d hd hdb, Option.bind_eq_bind,
    Option.some_bind, opBranch, isPageBoundaryCrossed, shr_eq_div]
  cases condition
  · simp
  · simp only [if_true]
    norm_num
    by_cases h : (cpu.PC + 1) / 256 = (cpu.PC + 1 + signed8 d) % 65536 / 256
    · simp [h]
    · have h2 : ¬ (cpu.PC + 1 + signed8 d) % 65536 / 256 = (cpu.PC + 1) / 256 :=
        fun hh => h hh.symm
      simp [h, h2]

set_option maxRecDepth 100000 in
theorem executeOp_0x10 (cpu : CPU σ) : executeOp cpu 0x10 = opBPL cpu REL := rfl

set_option maxRecDepth 100000 in
theorem opCyclesLengthAt_0x10 : opCyclesLengthAt 0x10 = some 2 := by decide

set_option maxRecDepth 100000 in
theorem executeOp_0x30 (cpu : CPU σ) : executeOp cpu 0x30 = opBMI cpu REL := rfl

set_option maxRecDepth 100000 in
theorem opCyclesLengthAt_0x30 : opCyclesLengthAt 0x30 = some 2 := by decide

set_option maxRecDepth 100000 in
theorem executeOp_0x50 (cpu : CPU σ) : executeOp cpu 0x50 = opBVC cpu REL := rfl

set_option maxRecDepth 100000 in
theorem opCyclesLengthAt_0x50 : opCyclesLengthAt 0x50 = some 2 := by decide

set_option maxRecDepth 100000 in
theorem executeOp_0x70 (cpu : CPU σ) : executeOp cpu 0x70 = opBVS cpu REL := rfl

set_option maxRecDepth 100000 in
theorem opCyclesLengthAt_0x70 : opCyclesLengthAt 0x70 = some 2 := by decide

set_option maxRecDepth 100000 in
theorem executeOp_0x90 (cpu : CPU σ) : executeOp cpu 0x90 = opBCC cpu REL := rfl

set_option maxRecDepth 100000 in
theorem opCyclesLengthAt_0x90 : opCyclesLengthAt 0x90 = some 2 := by decide

set_option maxRecDepth 100000 in
theorem executeOp_0xB0 (cpu : CPU σ) : executeOp cpu 0xB0 = opBCS cpu REL := rfl

set_option maxRecDepth 100000 in
theorem opCyclesLengthAt_0xB0 : opCyclesLengthAt 0xB0 = some 2 := by decide

set_option maxRecDepth 100000 in
theorem executeOp_0xD0 (cpu : CPU σ) : executeOp cpu 0xD0 = opBNE cpu REL := rfl

set_option maxRecDepth 100000 in
theorem opCyclesLengthAt_0xD0 : opCyclesLengthAt 0xD0 = some 2 := by decide

set_option maxRecDepth 100000 in
theorem executeOp_0xF0 (cpu : CPU σ) : executeOp cpu 0xF0 = opBEQ cpu REL := rfl

set_option maxRecDepth 100000 in
theorem opCyclesLengthAt_0xF0 : opCyclesLengthAt 0xF0 = some 2 := by decide


theorem decide_not_flagSet (p f : Int) : decide ((p &&& f) = 0) = !decide (flagSet p f) := by
  unfold flagSet
  by_cases h : (p &&& f) = 0 <;> simp [h]

/-- Each branch instruction is `branch_core` at its own condition. -/
theorem executeOp_branch (cpu : CPU σ) (op : Int) (hop : op ∈ branchOpcodes) :
    executeOp cpu op
      = (calculateMemoryAddress cpu REL).bind fun r =>
          some (opBranch r.2 (branchCondition op cpu.P) r.1) := by
  simp only [branchOpcodes, List.mem_cons, List.mem_singleton, List.not_mem_nil, or_false] at hop
  rcases hop with h | h | h | h | h | h | h | h <;> subst h
  · rw [executeOp_0x10]; simp [opBPL, branchCondition, decide_not_flagSet]
  · rw [executeOp_0x30]; simp [opBMI, branchCondition, decide_not_flagSet]
  · rw [executeOp_0x50]; simp [opBVC, branchCondition, decide_not_flagSet]
  · rw [executeOp_0x70]; simp [opBVS, branchCondition, decide_not_flagSet]
  · rw [executeOp_0x90]; simp [opBCC, branchCondition, decide_not_flagSet]
  · rw [executeOp_0xB0]; simp [opBCS, branchCondition, decide_not_flagSet]
  · rw [executeOp_0xD0]; simp [opBNE, branchCondition, decide_not_flagSet]
  · rw [executeOp_0xF0]; simp [opBEQ, branchCondition, decide_not_flagSet]

theorem opCyclesLengthAt_branch (op : Int) (hop : op ∈ branchOpcodes) :
    opCyclesLengthAt op = some 2 := by
  simp only [branchOpcodes, List.mem_cons, List.mem_singleton, List.not_mem_nil, or_false] at hop
  rcases hop with h | h | h | h | h | h | h | h <;> subst h
  · exact opCyclesLengthAt_0x10
  · exact opCyclesLengthAt_0x30
  · exact opCyclesLengthAt_0x50
  · exact opCyclesLengthAt_0x70
  · exact opCyclesLengthAt_0x90
  · exact opCyclesLengthAt_0xB0
  · exact opCyclesLengthAt_0xD0
  · exact opCyclesLengthAt_0xF0

/-- The three indexed address calculators: the effective address is (base + index) mod 65536,
and one cycle is added exactly when the calculator counts page crossings and the effective
address is on another page than the base. -/
theorem calculateMemoryAddress_indexed (cpu : CPU σ) (mode : AddrMode) (count : Bool)
    (base index : Int) (hb : indexedBase cpu.memory cpu.PC cpu.X cpu.Y mode base index) :
    ∃ n, calculateMemoryAddress cpu (codeMode mode count)
      = some ((base + index) % 65536,
          { cpu with
            PC := cpu.PC + n
            OpCycles :=
              if count = true ∧ (base + index) % 65536 / 256 ≠ base / 256
              then cpu.OpCycles + 1 else cpu.OpCycles }) := by
  have hw : ∀ lo hi : Int, IsByte lo → IsByte hi →
      (shl hi 8 ||| lo) % 65536 = lo + 256 * hi := by
    intro lo hi hlo hhi
    rw [← and_0xFFFF_left, word_of_bytes hi lo hhi hlo]; ring
  have hpage : ∀ a b : Int, isPageBoundaryCrossed a b = decide (b / 256 ≠ a / 256) := by
    intro a b
    simp only [isPageBoundaryCrossed, shr_eq_div]
    by_cases h : b / 256 = a / 256
    · simp [h]
    · have h2 : ¬ a / 256 = b / 256 := fun hh => h hh.symm
      norm_num
      simp [h, h2]
  cases mode
  case ABSX =>
    obtain ⟨lo, hi, hlo, hhi, h1, h2, rfl, rfl⟩ := hb
    unfold readsAs at h1 h2
    refine ⟨2, ?_⟩
    cases count <;>
      simp only [codeMode, calculateMemoryAddress, calculateMemoryAddressABSX, readMemory, h1, h2,
        Option.bind_eq_bind, Option.some_bind, and_0xFFFF_left, hw lo hi hlo hhi, hpage,
        Bool.false_and, Bool.true_and] <;> simp <;> ring
  case ABSY =>
    obtain ⟨lo, hi, hlo, hhi, h1, h2, rfl, rfl⟩ := hb
    unfold readsAs at h1 h2
    refine ⟨2, ?_⟩
    cases count <;>
      simp only [codeMode, calculateMemoryAddress, calculateMemoryAddressABSY, readMemory, h1, h2,
        Option.bind_eq_bind, Option.some_bind, and_0xFFFF_left, hw lo hi hlo hhi, hpage,
        Bool.false_and, Bool.true_and] <;> simp <;> ring
  case INDY =>
    obtain ⟨d, lo, hi, hlo, hhi, h0, h1, h2, rfl, rfl⟩ := hb
    unfold readsAs at h0 h1 h2
    refine ⟨1, ?_⟩
    cases count <;>
      simp only [codeMode, calculateMemoryAddress, calculateMemoryAddressINDY, readMemory, h0, h1,
        h2, Option.bind_eq_bind, Option.some_bind, and_0xFFFF_left, and_0xFF_left,
        hw lo hi hlo hhi, hpage, Bool.false_and, Bool.true_and] <;> simp
  all_goals exact False.elim hb

set_option maxRecDepth 100000 in
theorem executeOp_0xBD (cpu : CPU σ) : executeOp cpu 0xBD = opLDA cpu ABSX2 := rfl

set_option maxRecDepth 100000 in
theorem executeOp_0xB9 (cpu : CPU σ) : executeOp cpu 0xB9 = opLDA cpu ABSY2 := rfl

set_option maxRecDepth 100000 in
theorem executeOp_0xB1 (cpu : CPU σ) : executeOp cpu 0xB1 = opLDA cpu INDY2 := rfl

set_option maxRecDepth 100000 in
theorem executeOp_0xBE (cpu : CPU σ) : executeOp cpu 0xBE = opLDX cpu ABSY2 := rfl

set_option maxRecDepth 100000 in
theorem executeOp_0xBC (cpu : CPU σ) : executeOp cpu 0xBC = opLDY cpu ABSX2 := rfl

set_option maxRecDepth 100000 in
theorem executeOp_0x7D (cpu : CPU σ) : executeOp cpu 0x7D = opADC cpu ABSX2 := rfl

set_option maxRecDepth 100000 in
theorem executeOp_0x79 (cpu : CPU σ) : executeOp cpu 0x79 = opADC cpu ABSY2 := rfl

set_option maxRecDepth 100000 in
theorem executeOp_0x71 (cpu : CPU σ) : executeOp cpu 0x71 = opADC cpu INDY2 := rfl

set_option maxRecDepth 100000 in
theorem executeOp_0xFD (cpu : CPU σ) : executeOp cpu 0xFD = opSBC cpu ABSX2 := rfl

set_option maxRecDepth 100000 in
theorem executeOp_0xF9 (cpu : CPU σ) : executeOp cpu 0xF9 = opSBC cpu ABSY2 := rfl

set_option maxRecDepth 100000 in
theorem executeOp_0xF1 (cpu : CPU σ) : executeOp cpu 0xF1 = opSBC cpu INDY2 := rfl

set_option maxRecDepth 100000 in
theorem executeOp_0x3D (cpu : CPU σ) : executeOp cpu 0x3D = opAND cpu ABSX2 := rfl

set_option maxRecDepth 100000 in
theorem executeOp_0x39 (cpu : CPU σ) : executeOp cpu 0x39 = opAND cpu ABSY2 := rfl

set_option maxRecDepth 100000 in
theorem executeOp_0x31 (cpu : CPU σ) : executeOp cpu 0x31 = opAND cpu INDY2 := rfl

set_option maxRecDepth 100000 in
theorem executeOp_0x1D (cpu : CPU σ) : executeOp cpu 0x1D = opORA cpu ABSX2 := rfl

set_option maxRecDepth 100000 in
theorem executeOp_0x19 (cpu : CPU σ) : executeOp cpu 0x19 = opORA cpu ABSY2 := rfl

set_option maxRecDepth 100000 in
theorem executeOp_0x11 (cpu : CPU σ) : executeOp cpu 0x11 = opORA cpu INDY2 := rfl

set_option maxRecDepth 100000 in
theorem executeOp_0x5D (cpu : CPU σ) : executeOp cpu 0x5D = opEOR cpu ABSX2 := rfl

set_option maxRecDepth 100000 in
theorem executeOp_0x59 (cpu : CPU σ) : executeOp cpu 0x59 = opEOR cpu ABSY2 := rfl

set_option maxRecDepth 100000 in
theorem executeOp_0x51 (cpu : CPU σ) : executeOp cpu 0x51 = opEOR cpu INDY2 := rfl

set_option maxRecDepth 100000 in
theorem executeOp_0xDD (cpu : CPU σ) : executeOp cpu 0xDD = opCMP cpu ABSX2 := rfl

set_option maxRecDepth 100000 in
theorem executeOp_0xD9 (cpu : CPU σ) : executeOp cpu 0xD9 = opCMP cpu ABSY2 := rfl

set_option maxRecDepth 100000 in
theorem executeOp_0xD1 (cpu : CPU σ) : executeOp cpu 0xD1 = opCMP cpu INDY2 := rfl

set_option maxRecDepth 100000 in
theorem executeOp_0x9D (cpu : CPU σ) : executeOp cpu 0x9D = opSTA cpu ABSX := rfl

set_option maxRecDepth 100000 in
theorem executeOp_0x99 (cpu : CPU σ) : executeOp cpu 0x99 = opSTA cpu ABSY := rfl

set_option maxRecDepth 100000 in
theorem executeOp_0x91 (cpu : CPU σ) : executeOp cpu 0x91 = opSTA cpu INDY := rfl

set_option maxRecDepth 100000 in
theorem executeOp_0x1E (cpu : CPU σ) : executeOp cpu 0x1E = opASL cpu ABSX := rfl

set_option maxRecDepth 100000 in
theorem executeOp_0x5E (cpu : CPU σ) : executeOp cpu 0x5E = opLSR cpu ABSX := rfl

set_option maxRecDepth 100000 in
theorem executeOp_0x3E (cpu : CPU σ) : executeOp cpu 0x3E = opROL cpu ABSX := rfl

set_option maxRecDepth 100000 in
theorem executeOp_0x7E (cpu : CPU σ) : executeOp cpu 0x7E = opROR cpu ABSX := rfl

set_option maxRecDepth 100000 in
theorem executeOp_0xFE (cpu : CPU σ) : executeOp cpu 0xFE = opINC cpu ABSX := rfl

set_option maxRecDepth 100000 in
theorem executeOp_0xDE (cpu : CPU σ) : executeOp cpu 0xDE = opDEC cpu ABSX := rfl


theorem readType_opLDA : ReadType (opLDA : CPU σ → AddrMode → Option (CPU σ)) := by
  intro cpu mode ea cpu2 v m1 hcalc hv
  simp only [opLDA, opLoad, hcalc, readMemory, hv, Option.bind_eq_bind, Option.some_bind]
  exact ⟨_, rfl, rfl⟩

theorem readType_opLDX : ReadType (opLDX : CPU σ → AddrMode → Option (CPU σ)) := by
  intro cpu mode ea cpu2 v m1 hcalc hv
  simp only [opLDX, opLoad, hcalc, readMemory, hv, Option.bind_eq_bind, Option.some_bind]
  exact ⟨_, rfl, rfl⟩

theorem readType_opLDY : ReadType (opLDY : CPU σ → AddrMode → Option (CPU σ)) := by
  intro cpu mode ea cpu2 v m1 hcalc hv
  simp only [opLDY, opLoad, hcalc, readMemory, hv, Option.bind_eq_bind, Option.some_bind]
  exact ⟨_, rfl, rfl⟩

theorem readType_opAND : ReadType (opAND : CPU σ → AddrMode → Option (CPU σ)) := by
  intro cpu mode ea cpu2 v m1 hcalc hv
  simp only [opAND, hcalc, readMemory, hv, Option.bind_eq_bind, Option.some_bind]
  exact ⟨_, rfl, rfl⟩

theorem readType_opORA : ReadType (opORA : CPU σ → AddrMode → Option (CPU σ)) := by
  intro cpu mode ea cpu2 v m1 hcalc hv
  simp only [opORA, opORAInt, hcalc, readMemory, hv, Option.bind_eq_bind, Option.some_bind]
  exact ⟨_, rfl, rfl⟩

theorem readType_opEOR : ReadType (opEOR : CPU σ → AddrMode → Option (CPU σ)) := by
  intro cpu mode ea cpu2 v m1 hcalc hv
  simp only [opEOR, opEORInt, hcalc, readMemory, hv, Option.bind_eq_bind, Option.some_bind]
  exact ⟨_, rfl, rfl⟩

theorem readType_opCMP : ReadType (opCMP : CPU σ → AddrMode → Option (CPU σ)) := by
  intro cpu mode ea cpu2 v m1 hcalc hv
  simp only [opCMP, opCompare, hcalc, readMemory, hv, Option.bind_eq_bind, Option.some_bind]
  exact ⟨_, rfl, rfl⟩

theorem readType_opADC : ReadType (opADC : CPU σ → AddrMode → Option (CPU σ)) := by
  intro cpu mode ea cpu2 v m1 hcalc hv
  simp only [opADC, hcalc, readMemory, hv, Option.bind_eq_bind, Option.some_bind]
  by_cases hdec : (cpu2.P &&& flagD) = 0 ∨ cpu2.decimalModeSupported = false
  · rw [if_pos hdec]
    exact ⟨_, rfl, rfl⟩
  · rw [if_neg hdec]
    exact ⟨_, rfl, rfl⟩

theorem readType_opSBC : ReadType (opSBC : CPU σ → AddrMode → Option (CPU σ)) := by
  intro cpu mode ea cpu2 v m1 hcalc hv
  simp only [opSBC, hcalc, readMemory, hv, Option.bind_eq_bind, Option.some_bind]
  by_cases hdec : (cpu2.P &&& flagD) = 0 ∨ cpu2.decimalModeSupported = false
  · rw [if_pos hdec]
    exact ⟨_, rfl, rfl⟩
  · rw [if_neg hdec]
    exact ⟨_, rfl, rfl⟩

theorem writeMemory_cycles (cpu : CPU σ) (ea w extra : Int)
    (hw : writeReports cpu.memory ea extra) :
    ∃ cpu3, writeMemory cpu ea w = some cpu3 ∧ cpu3.OpCycles = cpu.OpCycles + max extra 0 := by
  obtain ⟨m1, h⟩ := hw w
  simp only [writeMemory, h]
  refine ⟨_, rfl, ?_⟩
  by_cases he : extra > 0
  · simp only [he, if_true]
    rw [max_eq_left (le_of_lt he)]
  · simp only [he, if_false]
    rw [max_eq_right (not_lt.mp he)]
    ring

theorem writeType_opSTA : WriteType (opSTA : CPU σ → AddrMode → Option (CPU σ)) false := by
  intro cpu mode ea cpu2 v m1 extra _ hcalc _ hm hw
  rw [hm rfl] at hw
  simp only [opSTA, hcalc, Option.bind_eq_bind, Option.some_bind]
  exact writeMemory_cycles cpu2 ea _ extra hw

theorem writeType_opINC : WriteType (opINC : CPU σ → AddrMode → Option (CPU σ)) true := by
  intro cpu mode ea cpu2 v m1 extra _ hcalc hv _ hw
  have hv2 := hv rfl
  simp only [opINC, opIncrease, hcalc, readMemory, hv2, Option.bind_eq_bind, Option.some_bind]
  exact writeMemory_cycles _ ea _ extra hw

theorem writeType_opDEC : WriteType (opDEC : CPU σ → AddrMode → Option (CPU σ)) true := by
  intro cpu mode ea cpu2 v m1 extra _ hcalc hv _ hw
  have hv2 := hv rfl
  simp only [opDEC, opDecrease, hcalc, readMemory, hv2, Option.bind_eq_bind, Option.some_bind]
  exact writeMemory_cycles _ ea _ extra hw

theorem writeType_opASL : WriteType (opASL : CPU σ → AddrMode → Option (CPU σ)) true := by
  intro cpu mode ea cpu2 v m1 extra hacc hcalc hv _ hw
  have hv2 := hv rfl
  simp only [opASL, opASLInt, hacc, if_false, hcalc, readMemory, hv2, Option.bind_eq_bind,
    Option.some_bind]
  exact writeMemory_cycles _ ea _ extra hw

theorem writeType_opLSR : WriteType (opLSR : CPU σ → AddrMode → Option (CPU σ)) true := by
  intro cpu mode ea cpu2 v m1 extra hacc hcalc hv _ hw
  have hv2 := hv rfl
  simp only [opLSR, opLSRInt, hacc, if_false, hcalc, readMemory, hv2, Option.bind_eq_bind,
    Option.some_bind]
  exact writeMemory_cycles _ ea _ extra hw

theorem writeType_opROL : WriteType (opROL : CPU σ → AddrMode → Option (CPU σ)) true := by
  intro cpu mode ea cpu2 v m1 extra hacc hcalc hv _ hw
  have hv2 := hv rfl
  simp only [opROL, opROLInt, hacc, if_false, hcalc, readMemory, hv2, Option.bind_eq_bind,
    Option.some_bind]
  exact writeMemory_cycles _ ea _ extra hw

theorem writeType_opROR : WriteType (opROR : CPU σ → AddrMode → Option (CPU σ)) true := by
  intro cpu mode ea cpu2 v m1 extra hacc hcalc hv _ hw
  have hv2 := hv rfl
  simp only [opROR, opRORInt, hacc, if_false, hcalc, readMemory, hv2, Option.bind_eq_bind,
    Option.some_bind]
  exact writeMemory_cycles _ ea _ extra hw

/-- ExecuteOp on a read instruction in an indexed mode that counts page crossings. -/
theorem read_case (cpu : CPU σ) (op c base index v : Int) (m1 : σ) (mode : AddrMode)
    (f : CPU σ → AddrMode → Option (CPU σ)) (hf : ReadType f)
    (hdisp : ∀ cpu1 : CPU σ, executeOp cpu1 op = f cpu1 (codeMode mode true))
    (hint : cpu.pendingInterrupt = 0) (hop : readsAs cpu.memory cpu.PC op)
    (hc : opCyclesLengthAt op = some c)
    (hb : indexedBase cpu.memory (cpu.PC + 1) cpu.X cpu.Y mode base index)
    (hv : CPUMemory.Read cpu.memory ((base + index) % 65536) = some (v, m1)) :
    ∃ cpu1, ExecuteOp cpu
      = some (if (base + index) % 65536 / 256 ≠ base / 256 then c + 1 else c, cpu1) := by
  rw [ExecuteOp_fetch cpu op c hint hop hc, hdisp]
  obtain ⟨n, hcalc⟩ :=
    calculateMemoryAddress_indexed { cpu with PC := cpu.PC + 1, OpCycles := c } mode true
      base index hb
  obtain ⟨cpu3, h3, h4⟩ := hf _ _ _ _ v m1 hcalc hv
  rw [h3]
  refine ⟨cpu3, ?_⟩
  simp only [Option.some_bind, h4, true_and]

set_option maxRecDepth 100000 in
theorem opCyclesLengthAt_0xB9 : opCyclesLengthAt 0xB9 = some 4 := by decide

set_option maxRecDepth 100000 in
theorem opCyclesLengthAt_0x9D : opCyclesLengthAt 0x9D = some 5 := by decide

set_option maxRecDepth 100000 in
theorem executeOp_0xBF (cpu : CPU σ) : executeOp cpu 0xBF = opLAX cpu ABSY := rfl

set_option maxRecDepth 100000 in
theorem executeOp_0xB3 (cpu : CPU σ) : executeOp cpu 0xB3 = opLAX cpu INDY2 := rfl

set_option maxRecDepth 100000 in
theorem executeOp_0x1C (cpu : CPU σ) : executeOp cpu 0x1C = opTOP cpu ABSX2 := rfl

set_option maxRecDepth 100000 in
theorem executeOp_0x3C (cpu : CPU σ) : executeOp cpu 0x3C = opTOP cpu ABSX2 := rfl

set_option maxRecDepth 100000 in
theorem executeOp_0x5C (cpu : CPU σ) : executeOp cpu 0x5C = opTOP cpu ABSX2 := rfl

set_option maxRecDepth 100000 in
theorem executeOp_0x7C (cpu : CPU σ) : executeOp cpu 0x7C = opTOP cpu ABSX2 := rfl

set_option maxRecDepth 100000 in
theorem executeOp_0xDC (cpu : CPU σ) : executeOp cpu 0xDC = opTOP cpu ABSX2 := rfl

set_option maxRecDepth 100000 in
theorem executeOp_0xFC (cpu : CPU σ) : executeOp cpu 0xFC = opTOP cpu ABSX2 := rfl

set_option maxRecDepth 100000 in
theorem opCyclesLengthAt_0xBF : opCyclesLengthAt 0xBF = some 4 := by decide

theorem readType_opLAX : ReadType (opLAX : CPU σ → AddrMode → Option (CPU σ)) := by
  intro cpu mode ea cpu2 v m1 hcalc hv
  simp only [opLAX, opLoad, hcalc, readMemory, hv, Option.bind_eq_bind, Option.some_bind]
  exact ⟨_, rfl, rfl⟩

theorem readType_opTOP : ReadType (opTOP : CPU σ → AddrMode → Option (CPU σ)) := by
  intro cpu mode ea cpu2 v m1 hcalc hv
  simp only [opTOP, hcalc, readMemory, hv, Option.bind_eq_bind, Option.some_bind]
  exact ⟨_, rfl, rfl⟩

/-- The part of C8 that holds: LAX (IND),Y (0xB3) and TOP ABS,X (0x1C, 0x3C, 0x5C, 0x7C, 0xDC,
0xFC) return the base count plus 1 exactly when the effective address is on another page than
the base. -/
theorem unofficial_read_cycles (cpu : CPU σ) (op : Int) (mode : AddrMode)
    (base index c v : Int) (m1 : σ)
    (hmem : (op, mode) ∈ unofficialReadIndexedOps)
    (hint : cpu.pendingInterrupt = 0)
    (hop : readsAs cpu.memory cpu.PC op)
    (hc : opCyclesLengthAt op = some c)
    (hb : indexedBase cpu.memory (cpu.PC + 1) cpu.X cpu.Y mode base index)
    (hv : CPUMemory.Read cpu.memory ((base + index) % 65536) = some (v, m1)) :
    ∃ cpu1, ExecuteOp cpu
      = some (if (base + index) % 65536 / 256 ≠ base / 256 then c + 1 else c, cpu1) := by
  simp only [unofficialReadIndexedOps, List.mem_cons, Prod.mk.injEq, List.mem_singleton,
    List.not_mem_nil, or_false] at hmem
  repeat' (refine Or.elim hmem (fun hmem => ?_) (fun hmem => ?_))
  all_goals (obtain ⟨rfl, rfl⟩ := hmem)
  · exact read_case cpu _ c base index v m1 INDY opLAX readType_opLAX
      (fun _ => executeOp_0xB3 _) hint hop hc hb hv
  · exact read_case cpu _ c base index v m1 ABSX opTOP readType_opTOP
      (fun _ => executeOp_0x1C _) hint hop hc hb hv
  · exact read_case cpu _ c base index v m1 ABSX opTOP readType_opTOP
      (fun _ => executeOp_0x3C _) hint hop hc hb hv
  · exact read_case cpu _ c base index v m1 ABSX opTOP readType_opTOP
      (fun _ => executeOp_0x5C _) hint hop hc hb hv
  · exact read_case cpu _ c base index v m1 ABSX opTOP readType_opTOP
      (fun _ => executeOp_0x7C _) hint hop hc hb hv
  · exact read_case cpu _ c base index v m1 ABSX opTOP readType_opTOP
      (fun _ => executeOp_0xDC _) hint hop hc hb hv
  · exact read_case cpu _ c base index v m1 ABSX opTOP readType_opTOP
      (fun _ => executeOp_0xFC _) hint hop hc hb hv

/-- The stack address `0x0100 | S` of a byte-sized stack pointer. -/
theorem stack_address (S : Int) (h0 : 0 ≤ S) (h1 : S ≤ 255) : (0x0100 ||| S) = 0x0100 + S := by
  have := or_disjoint 1 S 8 (by norm_num) h0 (by norm_num; omega)
  norm_num at this
  exact this

end

section
variable {σ : Type} [CPUMemory σ]

set_option maxRecDepth 100000 in
theorem executeOp_0x00 (cpu : CPU σ) : executeOp cpu 0x00 = opBRK cpu := rfl

set_option maxRecDepth 100000 in
theorem opCyclesLengthAt_0x00 : opCyclesLengthAt 0x00 = some 7 := by decide

/-- The vector fetch that ends RESET, NMI, IRQ and BRK: high byte first, then the low byte. -/
theorem vector_word (high low : Int) (hh : IsByte high) (hl : IsByte low) :
    shl high 8 ||| low = low + 256 * high := by
  rw [shl_eq_mul, or_disjoint high low 8 hh.1 hl.1 (by have := hl.2; norm_num; omega)]
  ring

end

/-- The page test of `NESCPUMemory.Read` and `NESCPUMemory.Write` on an address of the RAM
range. -/
theorem ram_page (a : Int) (ha : 0 ≤ a ∧ a ≤ 0x1FFF) :
    (a &&& 0xF000) = 0x0000 ∨ (a &&& 0xF000) = 0x1000 := by
  rw [and_0xF000 a ha.1]
  omega

theorem NESCPUMemory.Read_ram {κ π : Type} [PrgDevice κ] [RegisterDevice π]
    (m : NESCPUMemory κ π) (a : Int) (ha : 0 ≤ a ∧ a ≤ 0x1FFF) :
    NESCPUMemory.Read m a = some (m.ram (a % 2048), m) := by
  simp only [NESCPUMemory.Read, ram_page a ha, if_true, and_0x07FF]

theorem NESCPUMemory.Write_ram {κ π : Type} [PrgDevice κ] [RegisterDevice π]
    (m : NESCPUMemory κ π) (a v : Int) (ha : 0 ≤ a ∧ a ≤ 0x1FFF) :
    NESCPUMemory.Write m a v
      = some (0, { m with ram := fun b => if b = a % 2048 then v else m.ram b }) := by
  simp only [NESCPUMemory.Write, ram_page a ha, if_true, and_0x07FF]

section
open cartridge

/-- Indexing a slice inside its bounds. -/
theorem index?_eq {α : Type} (s : List α) (i : Int) (h0 : 0 ≤ i) (h1 : i < s.length) :
    index? s i = some (s.get ⟨i.toNat, by omega⟩) := by
  have h : ¬ i < 0 := by omega
  simp only [index?, h, if_false]
  exact List.getElem?_eq_getElem (by omega)

/-- Assigning inside the bounds of a slice. -/
theorem setIndex?_eq {α : Type} (s : List α) (i : Int) (v : α) (h0 : 0 ≤ i)
    (h1 : i < s.length) : setIndex? s i v = some (s.set i.toNat v) := by
  simp only [setIndex?, h0, h1, and_self, if_true]

/-- The index that `getNameTableIndex` computes under four-screen mirroring. -/
theorem getNameTableIndex_fourScreen (a : Int) (ha : 0x2000 ≤ a ∧ a ≤ 0x2FFF) :
    getNameTableIndex a ntMirroringFourScreen
      = if a < 0x2400 then ntIndexA else if a < 0x2800 then ntIndexD
        else if a < 0x2C00 then ntIndexC else ntIndexD := by
  simp only [getNameTableIndex, ntMirroringFourScreen, ntMirroringHorizontal,
    ntMirroringVertical, ntMirroringOneScreenA, ntMirroringOneScreenB,
    and_0x0C00 a (by omega)]
  have h4 : a / 1024 % 4 = 0 ∨ a / 1024 % 4 = 1 ∨ a / 1024 % 4 = 2 ∨ a / 1024 % 4 = 3 := by
    omega
  rcases h4 with h | h | h | h <;> rw [h] <;> norm_num <;> split_ifs <;> first | rfl | omega

end

section
open cartridge

/-- Under four-screen mirroring every address of 0x2400..0x2FFF is routed to page C or D: a
read returns 0 and a write leaves the nametable RAM as it is. -/
theorem fourScreen_access (c : Cartridge) (a v : Int) (nt : List (List Int))
    (hc : c.memory.ntMirroringType = ntMirroringFourScreen)
    (ha : 0x2400 ≤ a ∧ a ≤ 0x2FFF) :
    c.ReadNameTable a nt = some 0 ∧ c.WriteNameTable a v nt = some nt := by
  have hi := getNameTableIndex_fourScreen a (by omega)
  have h1 : ¬ a < 0x2400 := by omega
  rw [if_neg h1] at hi
  have hCD : getNameTableIndex a c.memory.ntMirroringType = ntIndexC ∨
      getNameTableIndex a c.memory.ntMirroringType = ntIndexD := by
    rw [hc, hi]
    split_ifs <;> simp
  rcases hCD with h | h <;>
    simp [Cartridge.ReadNameTable, Cartridge.WriteNameTable, h, ntIndexA, ntIndexB, ntIndexC,
      ntIndexD]

end

section
variable {σ : Type} [CPUMemory σ]

/-- A relation that holds for both branches of a conditional holds for the conditional. -/
theorem rel_ite {α β : Type} (R : α → β → Prop) (x : α) (c : Prop) [Decidable c] (a b : β)
    (ha : R x a) (hb : R x b) : R x (if c then a else b) := by
  split_ifs <;> assumption

set_option maxRecDepth 100000 in
/-- Case analysis on the dispatch `executeOp`, with the fact that no opcode is dispatched with
the mode constant `IND`. -/
theorem executeOp_cases_mode (R : CPU σ → Option (CPU σ) → Prop)
    (hmode : ∀ f ∈ (modeOps : List (CPU σ → AddrMode → Option (CPU σ))),
      ∀ cpu mode, mode ≠ IND → R cpu (f cpu mode))
    (hstack : ∀ f ∈ (stackOps : List (CPU σ → Option (CPU σ))), ∀ cpu, R cpu (f cpu))
    (htransfer : ∀ f ∈ (transferOps : List (CPU σ → CPU σ)), ∀ cpu, R cpu (some (f cpu)))
    (hclear : ∀ f ∈ [flagC, flagD, flagI, flagV],
      ∀ cpu : CPU σ, R cpu (some { cpu with P := andNot cpu.P f }))
    (hset : ∀ f ∈ [flagC, flagD, flagI],
      ∀ cpu : CPU σ, R cpu (some { cpu with P := cpu.P ||| f }))
    (hdex : ∀ cpu : CPU σ,
      R cpu (some { (opDecrease cpu cpu.X).2 with X := (opDecrease cpu cpu.X).1 }))
    (hdey : ∀ cpu : CPU σ,
      R cpu (some { (opDecrease cpu cpu.Y).2 with Y := (opDecrease cpu cpu.Y).1 }))
    (hinx : ∀ cpu : CPU σ,
      R cpu (some { (opIncrease cpu cpu.X).2 with X := (opIncrease cpu cpu.X).1 }))
    (hiny : ∀ cpu : CPU σ,
      R cpu (some { (opIncrease cpu cpu.Y).2 with Y := (opIncrease cpu cpu.Y).1 }))
    (hnop : ∀ cpu : CPU σ, R cpu (some cpu)) :
    ∀ (cpu : CPU σ) (opCode : Int), R cpu (executeOp cpu opCode) := by
  intro cpu opCode
  unfold executeOp
  repeat' (with_reducible apply rel_ite R cpu)
  all_goals first
    | with_reducible exact hnop cpu
    | (with_reducible refine hmode _ ?_ cpu _ ?_
       · unfold modeOps
         with_reducible repeat (first | exact List.mem_cons_self _ _ | apply List.mem_cons_of_mem)
       · intro h
         cases h)
    | (with_reducible refine hstack _ ?_ cpu
       unfold stackOps
       with_reducible repeat (first | exact List.mem_cons_self _ _ | apply List.mem_cons_of_mem))
    | (with_reducible refine htransfer _ ?_ cpu
       unfold transferOps
       with_reducible repeat (first | exact List.mem_cons_self _ _ | apply List.mem_cons_of_mem))
    | (with_reducible refine hclear _ ?_ cpu
       with_reducible repeat (first | exact List.mem_cons_self _ _ | apply List.mem_cons_of_mem))
    | (with_reducible refine hset _ ?_ cpu
       with_reducible repeat (first | exact List.mem_cons_self _ _ | apply List.mem_cons_of_mem))
    | exact hdex cpu
    | exact hdey cpu
    | exact hinx cpu
    | exact hiny cpu

/-- Case analysis on the dispatch `executeOp`: a relation between the state before and the
result holds for every opcode as soon as it holds for every instruction handler and for the
cases written in the `switch` itself. -/
theorem executeOp_cases (R : CPU σ → Option (CPU σ) → Prop)
    (hmode : ∀ f ∈ (modeOps : List (CPU σ → AddrMode → Option (CPU σ))),
      ∀ cpu mode, R cpu (f cpu mode))
    (hstack : ∀ f ∈ (stackOps : List (CPU σ → Option (CPU σ))), ∀ cpu, R cpu (f cpu))
    (htransfer : ∀ f ∈ (transferOps : List (CPU σ → CPU σ)), ∀ cpu, R cpu (some (f cpu)))
    (hclear : ∀ f ∈ [flagC, flagD, flagI, flagV],
      ∀ cpu : CPU σ, R cpu (some { cpu with P := andNot cpu.P f }))
    (hset : ∀ f ∈ [flagC, flagD, flagI],
      ∀ cpu : CPU σ, R cpu (some { cpu with P := cpu.P ||| f }))
    (hdex : ∀ cpu : CPU σ,
      R cpu (some { (opDecrease cpu cpu.X).2 with X := (opDecrease cpu cpu.X).1 }))
    (hdey : ∀ cpu : CPU σ,
      R cpu (some { (opDecrease cpu cpu.Y).2 with Y := (opDecrease cpu cpu.Y).1 }))
    (hinx : ∀ cpu : CPU σ,
      R cpu (some { (opIncrease cpu cpu.X).2 with X := (opIncrease cpu cpu.X).1 }))
    (hiny : ∀ cpu : CPU σ,
      R cpu (some { (opIncrease cpu cpu.Y).2 with Y := (opIncrease cpu cpu.Y).1 }))
    (hnop : ∀ cpu : CPU σ, R cpu (some cpu)) :
    ∀ (cpu : CPU σ) (opCode : Int), R cpu (executeOp cpu opCode) :=
  executeOp_cases_mode R (fun f hf cpu mode _ => hmode f hf cpu mode) hstack htransfer hclear
    hset hdex hdey hinx hiny hnop

end

section
variable {σ : Type} [CPUMemory σ]

theorem After_some {α : Type} (a : α) (Q : α → Prop) (h : Q a) : After (some a) Q := by
  intro b hb
  cases hb
  exact h

theorem After_bind {α β : Type} (x : Option α) (f : α → Option β) (Q : β → Prop)
    (h : After x fun a => After (f a) Q) : After (x >>= f) Q := by
  intro b hb
  obtain ⟨a, ha, hfa⟩ := Option.bind_eq_some.mp hb
  exact h a ha b hfa

theorem After_ite {α : Type} (c : Prop) [Decidable c] (x y : Option α) (Q : α → Prop)
    (hx : After x Q) (hy : After y Q) : After (if c then x else y) Q := by
  split_ifs <;> assumption

/-- `readMemory` changes the memory only. -/
theorem After_readMemory (cpu : CPU σ) (address : Int) (Q : Int × CPU σ → Prop)
    (h : ∀ v m, Q (v, { cpu with memory := m })) : After (readMemory cpu address) Q := by
  intro r hr
  unfold readMemory at hr
  cases hm : CPUMemory.Read cpu.memory address with
  | none => rw [hm] at hr; cases hr
  | some p =>
    obtain ⟨v, m⟩ := p
    rw [hm] at hr
    cases hr
    exact h v m

/-- `writeMemory` changes the memory and the cycle count only. -/
theorem After_writeMemory (cpu : CPU σ) (address value : Int) (Q : CPU σ → Prop)
    (h : ∀ m oc, Q { cpu with memory := m, OpCycles := oc }) :
    After (writeMemory cpu address value) Q := by
  intro r hr
  unfold writeMemory at hr
  cases hm : CPUMemory.Write cpu.memory address value with
  | none => rw [hm] at hr; cases hr
  | some p =>
    obtain ⟨e, m⟩ := p
    rw [hm] at hr
    cases hr
    exact h m _

/-- `push` changes the memory, the cycle count and the stack pointer only. -/
theorem After_push (cpu : CPU σ) (value : Int) (Q : CPU σ → Prop)
    (h : ∀ m oc s, Q { cpu with memory := m, OpCycles := oc, S := s }) :
    After (push cpu value) Q := by
  unfold push
  apply After_bind
  apply After_writeMemory
  intro m oc
  apply After_some
  exact h m oc _

/-- `pop` changes the memory and the stack pointer only. -/
theorem After_pop (cpu : CPU σ) (Q : Int × CPU σ → Prop)
    (h : ∀ v m s, Q (v, { cpu with memory := m, S := s })) : After (pop cpu) Q := by
  unfold pop
  apply After_readMemory
  intro v m
  exact h v m _

/-- The address calculators change the memory, the program counter and the cycle count only. -/
theorem After_calculateMemoryAddress (cpu : CPU σ) (mode : AddrMode) (Q : Int × CPU σ → Prop)
    (h : ∀ (ea : Int) (m : σ) (pc oc : Int),
      Q (ea, { cpu with memory := m, PC := pc, OpCycles := oc })) :
    After (calculateMemoryAddress cpu mode) Q := by
  cases mode <;>
    simp only [calculateMemoryAddress, calculateMemoryAddressIMM, calculateMemoryAddressABS,
      calculateMemoryAddressZP, calculateMemoryAddressZPX, calculateMemoryAddressZPY,
      calculateMemoryAddressABSX, calculateMemoryAddressABSY, calculateMemoryAddressREL,
      calculateMemoryAddressINDX, calculateMemoryAddressINDY, calculateMemoryAddressIND] <;>
    repeat (first
      | exact After_some _ _ (h _ _ _ _)
      | with_reducible apply After_bind
      | with_reducible apply After_readMemory
      | intro _)

end

theorem bit5_or_flagR (p : Int) : Bit5 (p ||| flagR) := by
  simp [Bit5]

theorem bit5_ite (c : Prop) [Decidable c] (a b : Int) (ha : Bit5 a) (hb : Bit5 b) :
    Bit5 (if c then a else b) := by
  split_ifs <;> assumption

theorem bit5_or (p q : Int) (h : Bit5 p) : Bit5 (p ||| q) := by
  unfold Bit5 at *
  simp [h]

theorem bit5_andNot (p m : Int) (hm : m.testBit 5 = false) (h : Bit5 p) : Bit5 (andNot p m) := by
  unfold Bit5 at *
  simp [h, hm]

section
variable {σ : Type}

theorem bit5_opLoad (cpu : CPU σ) (v : Int) (h : Bit5 cpu.P) : Bit5 (opLoad cpu v).2.P := by
  unfold opLoad
  dsimp only
  repeat' (first
    | assumption
    | with_reducible apply bit5_ite
    | with_reducible apply bit5_or
    | with_reducible apply bit5_andNot
    | decide)

theorem bit5_opCompare (cpu : CPU σ) (r v : Int) (h : Bit5 cpu.P) :
    Bit5 (opCompare cpu r v).P := by
  unfold opCompare
  dsimp only
  repeat' (first
    | assumption
    | with_reducible apply bit5_ite
    | with_reducible apply bit5_or
    | with_reducible apply bit5_andNot
    | decide)

theorem bit5_opDecrease (cpu : CPU σ) (v : Int) (h : Bit5 cpu.P) :
    Bit5 (opDecrease cpu v).2.P := by
  unfold opDecrease
  dsimp only
  repeat' (first
    | assumption
    | with_reducible apply bit5_ite
    | with_reducible apply bit5_or
    | with_reducible apply bit5_andNot
    | decide)

theorem bit5_opIncrease (cpu : CPU σ) (v : Int) (h : Bit5 cpu.P) :
    Bit5 (opIncrease cpu v).2.P := by
  unfold opIncrease
  dsimp only
  repeat' (first
    | assumption
    | with_reducible apply bit5_ite
    | with_reducible apply bit5_or
    | with_reducible apply bit5_andNot
    | decide)

theorem bit5_opASLInt (cpu : CPU σ) (v : Int) (h : Bit5 cpu.P) : Bit5 (opASLInt cpu v).2.P := by
  unfold opASLInt
  dsimp only
  repeat' (first
    | assumption
    | with_reducible apply bit5_ite
    | with_reducible apply bit5_or
    | with_reducible apply bit5_andNot
    | decide)

theorem bit5_opLSRInt (cpu : CPU σ) (v : Int) (h : Bit5 cpu.P) : Bit5 (opLSRInt cpu v).2.P := by
  unfold opLSRInt
  dsimp only
  repeat' (first
    | assumption
    | with_reducible apply bit5_ite
    | with_reducible apply bit5_or
    | with_reducible apply bit5_andNot
    | decide)

theorem bit5_opROLInt (cpu : CPU σ) (v : Int) (h : Bit5 cpu.P) : Bit5 (opROLInt cpu v).2.P := by
  unfold opROLInt
  dsimp only
  repeat' (first
    | assumption
    | with_reducible apply bit5_ite
    | with_reducible apply bit5_or
    | with_reducible apply bit5_andNot
    | decide)

theorem bit5_opRORInt (cpu : CPU σ) (v : Int) (h : Bit5 cpu.P) : Bit5 (opRORInt cpu v).2.P := by
  unfold opRORInt
  dsimp only
  repeat' (first
    | assumption
    | with_reducible apply bit5_ite
    | with_reducible apply bit5_or
    | with_reducible apply bit5_andNot
    | decide)

theorem bit5_opEORInt (cpu : CPU σ) (v : Int) (h : Bit5 cpu.P) : Bit5 (opEORInt cpu v).P := by
  unfold opEORInt
  dsimp only
  repeat' (first
    | assumption
    | with_reducible apply bit5_ite
    | with_reducible apply bit5_or
    | with_reducible apply bit5_andNot
    | decide)

theorem bit5_opORAInt (cpu : CPU σ) (v : Int) (h : Bit5 cpu.P) : Bit5 (opORAInt cpu v).P := by
  unfold opORAInt
  dsimp only
  repeat' (first
    | assumption
    | with_reducible apply bit5_ite
    | with_reducible apply bit5_or
    | with_reducible apply bit5_andNot
    | decide)

theorem bit5_opBranch (cpu : CPU σ) (c : Bool) (j : Int) (h : Bit5 cpu.P) :
    Bit5 (opBranch cpu c j).P := by
  unfold opBranch
  split_ifs <;> exact h

theorem bit5_transfer (cpu : CPU σ) (r : Int) (h : Bit5 cpu.P) : Bit5 (transfer cpu r).P := by
  unfold transfer
  dsimp only
  repeat' (first
    | assumption
    | with_reducible apply bit5_ite
    | with_reducible apply bit5_or
    | with_reducible apply bit5_andNot
    | decide)

end

section
variable {σ : Type} [CPUMemory σ]

set_option maxHeartbeats 1000000 in
/-- Every instruction handler with an addressing mode keeps bit 5 of P. -/
theorem keepsBit5_modeOps : ∀ f ∈ (modeOps : List (CPU σ → AddrMode → Option (CPU σ))),
    ∀ cpu mode, KeepsBit5 cpu (f cpu mode) := by
  intro f hf cpu mode
  simp only [modeOps, List.mem_cons, List.mem_singleton, List.not_mem_nil, or_false] at hf
  repeat' (refine Or.elim hf (fun hf => ?_) (fun hf => ?_))
  all_goals subst hf
  all_goals unfold KeepsBit5
  all_goals first
    | unfold opADC | unfold opAND | unfold opASL | unfold opBCC | unfold opBCS | unfold opBEQ
    | unfold opBIT | unfold opBMI | unfold opBNE | unfold opBPL | unfold opBVC | unfold opBVS
    | unfold opCMP | unfold opCPX | unfold opCPY | unfold opDEC | unfold opEOR | unfold opINC
    | unfold opJMP | unfold opJSR | unfold opLDA | unfold opLDX | unfold opLDY | unfold opLSR
    | unfold opORA | unfold opROL | unfold opROR | unfold opSBC | unfold opSTA | unfold opSTX
    | unfold opSTY | unfold opDOP | unfold opTOP | unfold opLAX | unfold opAAX | unfold opDCP
    | unfold opISC | unfold opSLO | unfold opRLA | unfold opSRE | unfold opRRA
  repeat' (first
    | with_reducible apply After_bind
    | with_reducible apply After_calculateMemoryAddress
    | with_reducible apply After_readMemory
    | with_reducible apply After_writeMemory
    | with_reducible apply After_push
    | with_reducible apply After_pop
    | with_reducible apply After_ite
    | with_reducible apply After_some
    | intro _
    | dsimp only)
  all_goals repeat' (first
    | assumption
    | exact bit5_or_flagR _
    | with_reducible apply bit5_ite
    | with_reducible apply bit5_or
    | with_reducible apply bit5_andNot
    | with_reducible apply bit5_opLoad
    | with_reducible apply bit5_opCompare
    | with_reducible apply bit5_opDecrease
    | with_reducible apply bit5_opIncrease
    | with_reducible apply bit5_opASLInt
    | with_reducible apply bit5_opLSRInt
    | with_reducible apply bit5_opROLInt
    | with_reducible apply bit5_opRORInt
    | with_reducible apply bit5_opEORInt
    | with_reducible apply bit5_opORAInt
    | with_reducible apply bit5_opBranch
    | decide)

/-- Every instruction handler without an addressing mode keeps bit 5 of P. -/
theorem keepsBit5_stackOps : ∀ f ∈ (stackOps : List (CPU σ → Option (CPU σ))),
    ∀ cpu, KeepsBit5 cpu (f cpu) := by
  intro f hf cpu
  simp only [stackOps, List.mem_cons, List.mem_singleton, List.not_mem_nil, or_false] at hf
  repeat' (refine Or.elim hf (fun hf => ?_) (fun hf => ?_))
  all_goals subst hf
  all_goals unfold KeepsBit5
  all_goals first
    | unfold opBRK | unfold opPHA | unfold opPHP | unfold opPLA | unfold opPLP | unfold opRTI
    | unfold opRTS
  repeat' (first
    | with_reducible apply After_bind
    | with_reducible apply After_calculateMemoryAddress
    | with_reducible apply After_readMemory
    | with_reducible apply After_writeMemory
    | with_reducible apply After_push
    | with_reducible apply After_pop
    | with_reducible apply After_ite
    | with_reducible apply After_some
    | intro _
    | dsimp only)
  all_goals repeat' (first
    | assumption
    | exact bit5_or_flagR _
    | with_reducible apply bit5_ite
    | with_reducible apply bit5_or
    | with_reducible apply bit5_andNot
    | with_reducible apply bit5_opLoad
    | with_reducible apply bit5_opCompare
    | with_reducible apply bit5_opDecrease
    | with_reducible apply bit5_opIncrease
    | with_reducible apply bit5_opASLInt
    | with_reducible apply bit5_opLSRInt
    | with_reducible apply bit5_opROLInt
    | with_reducible apply bit5_opRORInt
    | with_reducible apply bit5_opEORInt
    | with_reducible apply bit5_opORAInt
    | with_reducible apply bit5_opBranch
    | decide)

end

section
variable {σ : Type} [CPUMemory σ]

theorem After_mono {α : Type} (x : Option α) (Q Q1 : α → Prop) (h : After x Q)
    (hq : ∀ a, Q a → Q1 a) : After x Q1 :=
  fun a ha => hq a (h a ha)

theorem After_any {α : Type} (x : Option α) (Q : α → Prop) (h : ∀ a, Q a) : After x Q :=
  fun a _ => h a

/-- Every opcode keeps bit 5 of P. -/
theorem executeOp_keepsBit5 (cpu : CPU σ) (opCode : Int) :
    KeepsBit5 cpu (executeOp cpu opCode) := by
  refine executeOp_cases KeepsBit5 keepsBit5_modeOps keepsBit5_stackOps ?_ ?_ ?_ ?_ ?_ ?_ ?_ ?_
    cpu opCode
  · intro f hf cpu
    simp only [transferOps, List.mem_cons, List.mem_singleton, List.not_mem_nil, or_false] at hf
    repeat' (refine Or.elim hf (fun hf => ?_) (fun hf => ?_))
    all_goals subst hf
    all_goals apply After_some
    all_goals intro h
    · exact bit5_transfer _ _ h
    · exact bit5_transfer _ _ h
    · exact bit5_transfer _ _ h
    · exact bit5_transfer _ _ h
    · exact h
    · exact bit5_transfer _ _ h
  · intro f hf cpu
    apply After_some
    intro h
    simp only [List.mem_cons, List.mem_singleton, List.not_mem_nil, or_false] at hf
    refine bit5_andNot _ _ ?_ h
    rcases hf with rfl | rfl | rfl | rfl <;> decide
  · intro f _ cpu
    apply After_some
    intro h
    exact bit5_or _ _ h
  · intro cpu
    apply After_some
    intro h
    exact bit5_opDecrease cpu cpu.X h
  · intro cpu
    apply After_some
    intro h
    exact bit5_opDecrease cpu cpu.Y h
  · intro cpu
    apply After_some
    intro h
    exact bit5_opIncrease cpu cpu.X h
  · intro cpu
    apply After_some
    intro h
    exact bit5_opIncrease cpu cpu.Y h
  · intro cpu
    exact After_some _ _ (fun h => h)

/-- Servicing a pending interrupt keeps bit 5 of P. -/
theorem executePendingInterruptOp_keepsBit5 (cpu : CPU σ) :
    KeepsBit5 cpu (executePendingInterruptOp cpu) := by
  unfold KeepsBit5 executePendingInterruptOp
  repeat' (first
    | with_reducible apply After_bind
    | with_reducible apply After_readMemory
    | with_reducible apply After_push
    | with_reducible apply After_ite
    | with_reducible apply After_some
    | intro _
    | dsimp only)
  all_goals repeat' (first
    | assumption
    | exact bit5_or_flagR _
    | with_reducible apply bit5_andNot
    | decide)

/-- `ExecuteOp` keeps bit 5 of P. -/
theorem ExecuteOp_keepsBit5 (cpu : CPU σ) :
    After (ExecuteOp cpu) fun r => Bit5 cpu.P → Bit5 r.2.P := by
  unfold ExecuteOp
  apply After_ite
  · apply After_bind
    refine After_mono _ _ _ (executePendingInterruptOp_keepsBit5 cpu) ?_
    intro c hc
    exact After_some _ _ hc
  · apply After_bind
    apply After_readMemory
    intro v m
    dsimp only
    apply After_bind
    apply After_any
    intro cycles
    apply After_bind
    refine After_mono _ _ _ (executeOp_keepsBit5 _ v) ?_
    intro c hc
    exact After_some _ _ hc

/-- `Init` sets bit 5 of P. -/
theorem Init_bit5 (cpu : CPU σ) : After (Init cpu) fun r => Bit5 r.2.P := by
  unfold Init
  repeat' (first
    | with_reducible apply After_bind
    | with_reducible apply After_readMemory
    | with_reducible apply After_some
    | intro _
    | dsimp only)
  all_goals (unfold Bit5; decide)

/-- PLP sets bit 5 of P whatever it pops. -/
theorem opPLP_bit5 (cpu : CPU σ) : After (opPLP cpu) fun c => Bit5 c.P := by
  unfold opPLP
  repeat' (first
    | with_reducible apply After_bind
    | with_reducible apply After_pop
    | with_reducible apply After_some
    | intro _
    | dsimp only)
  all_goals exact bit5_or_flagR _

/-- RTI sets bit 5 of P whatever it pops. -/
theorem opRTI_bit5 (cpu : CPU σ) : After (opRTI cpu) fun c => Bit5 c.P := by
  unfold opRTI
  repeat' (first
    | with_reducible apply After_bind
    | with_reducible apply After_pop
    | with_reducible apply After_some
    | intro _
    | dsimp only)
  all_goals exact bit5_or_flagR _

end

theorem Returns_some {α : Type} (a : α) : Returns (some a) := ⟨a, rfl⟩

theorem Returns_bind {α β : Type} (x : Option α) (f : α → Option β) (hx : Returns x)
    (hf : ∀ a, Returns (f a)) : Returns (x >>= f) := by
  obtain ⟨a, rfl⟩ := hx
  exact hf a

theorem Returns_ite {α : Type} (c : Prop) [Decidable c] (x y : Option α) (hx : Returns x)
    (hy : Returns y) : Returns (if c then x else y) := by
  split_ifs <;> assumption

set_option maxRecDepth 100000 in
/-- The table of base cycle counts has an entry for every byte. -/
theorem Returns_opCyclesLengthAt (opCode : Int) (h : 0 ≤ opCode ∧ opCode ≤ 255) :
    Returns (opCyclesLengthAt opCode) := by
  have hlen : opCyclesLength.length = 256 := rfl
  have hn : ¬ opCode < 0 := by omega
  have hlt : opCode.toNat < opCyclesLength.length := by omega
  simp only [opCyclesLengthAt, hn, if_false, List.getElem?_eq_getElem hlt]
  exact Returns_some _

section
variable {σ : Type} [CPUMemory σ]

theorem Returns_readMemory (hT : MemoryTotal σ) (cpu : CPU σ) (address : Int) :
    Returns (readMemory cpu address) := by
  obtain ⟨⟨v, m⟩, h⟩ := hT.1 cpu.memory address
  simp only [readMemory, h]
  exact Returns_some _

theorem Returns_writeMemory (hT : MemoryTotal σ) (cpu : CPU σ) (address value : Int) :
    Returns (writeMemory cpu address value) := by
  obtain ⟨⟨e, m⟩, h⟩ := hT.2 cpu.memory address value
  simp only [writeMemory, h]
  exact Returns_some _

theorem Returns_push (hT : MemoryTotal σ) (cpu : CPU σ) (value : Int) :
    Returns (push cpu value) := by
  unfold push
  exact Returns_bind _ _ (Returns_writeMemory hT _ _ _) fun _ => Returns_some _

theorem Returns_pop (hT : MemoryTotal σ) (cpu : CPU σ) : Returns (pop cpu) := by
  unfold pop
  exact Returns_readMemory hT _ _

theorem Returns_calculateMemoryAddress (hT : MemoryTotal σ) (cpu : CPU σ) (mode : AddrMode) :
    Returns (calculateMemoryAddress cpu mode) := by
  cases mode <;>
    simp only [calculateMemoryAddress, calculateMemoryAddressIMM, calculateMemoryAddressABS,
      calculateMemoryAddressZP, calculateMemoryAddressZPX, calculateMemoryAddressZPY,
      calculateMemoryAddressABSX, calculateMemoryAddressABSY, calculateMemoryAddressREL,
      calculateMemoryAddressINDX, calculateMemoryAddressINDY, calculateMemoryAddressIND] <;>
    repeat' (first
      | exact Returns_some _
      | with_reducible apply Returns_bind
      | exact Returns_readMemory hT _ _
      | intro _)

/-- On a memory whose accesses do not panic, no instruction handler with an addressing mode
panics. -/
theorem returns_modeOps (hT : MemoryTotal σ) :
    ∀ f ∈ (modeOps : List (CPU σ → AddrMode → Option (CPU σ))),
      ∀ cpu mode, Returns (f cpu mode) := by
  intro f hf cpu mode
  simp only [modeOps, List.mem_cons, List.mem_singleton, List.not_mem_nil, or_false] at hf
  repeat' (refine Or.elim hf (fun hf => ?_) (fun hf => ?_))
  all_goals subst hf
  all_goals first
    | unfold opADC | unfold opAND | unfold opASL | unfold opBCC | unfold opBCS | unfold opBEQ
    | unfold opBIT | unfold opBMI | unfold opBNE | unfold opBPL | unfold opBVC | unfold opBVS
    | unfold opCMP | unfold opCPX | unfold opCPY | unfold opDEC | unfold opEOR | unfold opINC
    | unfold opJMP | unfold opJSR | unfold opLDA | unfold opLDX | unfold opLDY | unfold opLSR
    | unfold opORA | unfold opROL | unfold opROR | unfold opSBC | unfold opSTA | unfold opSTX
    | unfold opSTY | unfold opDOP | unfold opTOP | unfold opLAX | unfold opAAX | unfold opDCP
    | unfold opISC | unfold opSLO | unfold opRLA | unfold opSRE | unfold opRRA
  repeat' (first
    | exact Returns_some _
    | with_reducible apply Returns_bind
    | with_reducible apply Returns_ite
    | exact Returns_calculateMemoryAddress hT _ _
    | exact Returns_readMemory hT _ _
    | exact Returns_writeMemory hT _ _ _
    | exact Returns_push hT _ _
    | exact Returns_pop hT _
    | intro _)

/-- On a memory whose accesses do not panic, no instruction handler without an addressing mode
panics. -/
theorem returns_stackOps (hT : MemoryTotal σ) :
    ∀ f ∈ (stackOps : List (CPU σ → Option (CPU σ))), ∀ cpu, Returns (f cpu) := by
  intro f hf cpu
  simp only [stackOps, List.mem_cons, List.mem_singleton, List.not_mem_nil, or_false] at hf
  repeat' (refine Or.elim hf (fun hf => ?_) (fun hf => ?_))
  all_goals subst hf
  all_goals first
    | unfold opBRK | unfold opPHA | unfold opPHP | unfold opPLA | unfold opPLP | unfold opRTI
    | unfold opRTS
  repeat' (first
    | exact Returns_some _
    | with_reducible apply Returns_bind
    | with_reducible apply Returns_ite
    | exact Returns_calculateMemoryAddress hT _ _
    | exact Returns_readMemory hT _ _
    | exact Returns_writeMemory hT _ _ _
    | exact Returns_push hT _ _
    | exact Returns_pop hT _
    | intro _)

/-- On a memory whose accesses do not panic, no opcode panics. -/
theorem executeOp_returns (hT : MemoryTotal σ) (cpu : CPU σ) (opCode : Int) :
    Returns (executeOp cpu opCode) :=
  executeOp_cases (fun _ x => Returns x) (returns_modeOps hT) (returns_stackOps hT)
    (fun _ _ _ => Returns_some _) (fun _ _ _ => Returns_some _) (fun _ _ _ => Returns_some _)
    (fun _ => Returns_some _) (fun _ => Returns_some _) (fun _ => Returns_some _)
    (fun _ => Returns_some _) (fun _ => Returns_some _) cpu opCode

/-- On a memory whose accesses do not panic, servicing a pending interrupt does not panic. -/
theorem executePendingInterruptOp_returns (hT : MemoryTotal σ) (cpu : CPU σ) :
    Returns (executePendingInterruptOp cpu) := by
  unfold executePendingInterruptOp
  repeat' (first
    | exact Returns_some _
    | with_reducible apply Returns_bind
    | with_reducible apply Returns_ite
    | exact Returns_calculateMemoryAddress hT _ _
    | exact Returns_readMemory hT _ _
    | exact Returns_writeMemory hT _ _ _
    | exact Returns_push hT _ _
    | exact Returns_pop hT _
    | intro _)

/-- On a memory whose accesses do not panic, `ExecuteOp` returns as soon as the opcode it
fetches is a byte. -/
theorem ExecuteOp_returns (hT : MemoryTotal σ) (cpu : CPU σ)
    (hop : ∀ v m, CPUMemory.Read cpu.memory cpu.PC = some (v, m) → 0 ≤ v ∧ v ≤ 255) :
    Returns (ExecuteOp cpu) := by
  unfold ExecuteOp
  apply Returns_ite
  · exact Returns_bind _ _ (executePendingInterruptOp_returns hT cpu) fun _ => Returns_some _
  · obtain ⟨⟨v, m⟩, h⟩ := hT.1 cpu.memory cpu.PC
    obtain ⟨c, hc⟩ := Returns_opCyclesLengthAt v (hop v m h)
    obtain ⟨cpu1, h1⟩ := executeOp_returns hT
      { cpu with memory := m, PC := cpu.PC + 1, OpCycles := c } v
    simp only [readMemory, h, Option.bind_eq_bind, Option.some_bind, hc, h1]
    exact Returns_some _

end

section
variable {κ π : Type} [PrgDevice κ] [RegisterDevice π]

/-- A read of the NES memory does not panic when the devices do not, and it keeps the PPU
pointer nil or not nil as it was. -/
theorem NESCPUMemory.Read_returns (hD : NeverPanics κ π) (m : NESCPUMemory κ π) (a : Int) :
    ∃ v m1, NESCPUMemory.Read m a = some (v, m1) ∧ (m1.ppu.isSome = m.ppu.isSome) := by
  have hc : ∀ a, ∃ v m1, (match m.cartridge with
      | some c => (PrgDevice.ReadPrgMemory c a).map fun v => (v, m)
      | none => some (0, m)) = some (v, m1) ∧ m1.ppu.isSome = m.ppu.isSome := by
    intro a
    cases hcart : m.cartridge with
    | none => exact ⟨0, m, rfl, rfl⟩
    | some c =>
      obtain ⟨v, hv⟩ := hD.1 c a
      exact ⟨v, m, by simp only [hv, Option.map_some'], rfl⟩
  unfold NESCPUMemory.Read
  dsimp only
  split_ifs
  · exact ⟨_, _, rfl, rfl⟩
  · cases hp : m.ppu with
    | none => exact ⟨0, m, rfl, by rw [hp]⟩
    | some p =>
      obtain ⟨⟨v, p1⟩, hv⟩ := hD.2.2.1 p (a &&& 0x0007)
      simp only [hv]
      exact ⟨v, _, rfl, rfl⟩
  · exact ⟨_, _, rfl, rfl⟩
  · exact ⟨_, _, rfl, rfl⟩
  · exact ⟨_, _, rfl, rfl⟩
  · exact hc a
  · exact ⟨_, _, rfl, rfl⟩
  · exact hc a

/-- The OAM DMA loop does not panic when the devices do not and the PPU pointer is not nil. -/
theorem NESCPUMemory.dmaLoop_returns (hD : NeverPanics κ π) (n : Nat) :
    ∀ (m : NESCPUMemory κ π) (a : Int), m.ppu.isSome = true →
      Returns (NESCPUMemory.dmaLoop n m a) := by
  induction n with
  | zero => intro m a _; exact ⟨m, rfl⟩
  | succ k ih =>
    intro m a hm
    obtain ⟨v, m1, hr, hp⟩ := NESCPUMemory.Read_returns hD m a
    rw [hm] at hp
    obtain ⟨p, hpp⟩ := Option.isSome_iff_exists.mp hp
    obtain ⟨p1, hw⟩ := hD.2.2.2 p SpriteRAMIORegID v
    simp only [NESCPUMemory.dmaLoop, hr, hpp, hw]
    exact ih _ _ rfl

/-- A write to the NES memory does not panic when the devices do not. -/
theorem NESCPUMemory.Write_returns (hD : NeverPanics κ π) (m : NESCPUMemory κ π) (a v : Int) :
    Returns (NESCPUMemory.Write m a v) := by
  have hc : ∀ a, Returns (match m.cartridge with
      | some c =>
        match PrgDevice.WritePrgMemory c a v with
        | some c1 => some ((0 : Int), { m with cartridge := some c1 })
        | none => none
      | none => some (0, m)) := by
    intro a
    cases hcart : m.cartridge with
    | none => exact ⟨_, rfl⟩
    | some c =>
      obtain ⟨c1, hv⟩ := hD.2.1 c a v
      simp only [hv]
      exact ⟨_, rfl⟩
  unfold NESCPUMemory.Write
  dsimp only
  split_ifs
  · exact ⟨_, rfl⟩
  · cases hp : m.ppu with
    | none => exact ⟨_, rfl⟩
    | some p =>
      obtain ⟨p1, hv⟩ := hD.2.2.2 p (a &&& 0x0007) v
      simp only [hv]
      exact ⟨_, rfl⟩
  · exact ⟨_, rfl⟩
  · cases hp : m.ppu with
    | none => exact ⟨_, rfl⟩
    | some p =>
      obtain ⟨m1, hl⟩ := NESCPUMemory.dmaLoop_returns hD 256 m (shl v 8) (by rw [hp]; rfl)
      simp only [hl]
      exact ⟨_, rfl⟩
  · exact ⟨_, rfl⟩
  · exact hc a
  · exact ⟨_, rfl⟩
  · exact hc a

/-- The NES memory does not panic when its devices do not. -/
theorem NESCPUMemory.total (hD : NeverPanics κ π) : MemoryTotal (NESCPUMemory κ π) :=
  ⟨fun m a => by
      obtain ⟨v, m1, h, _⟩ := NESCPUMemory.Read_returns hD m a
      exact ⟨(v, m1), h⟩,
    fun m a w => NESCPUMemory.Write_returns hD m a w⟩

end

/-- Nil device pointers never panic. -/
theorem neverPanics_empty : NeverPanics Empty Empty :=
  ⟨(fun c => nomatch c), (fun c => nomatch c), (fun p => nomatch p), (fun p => nomatch p)⟩

section
variable {σ : Type} [CPUMemory σ]

set_option maxRecDepth 100000 in
theorem executeOp_0x85 (cpu : CPU σ) : executeOp cpu 0x85 = opSTA cpu ZP := rfl

set_option maxRecDepth 100000 in
theorem executeOp_0x95 (cpu : CPU σ) : executeOp cpu 0x95 = opSTA cpu ZPX := rfl

set_option maxRecDepth 100000 in
theorem executeOp_0x8D (cpu : CPU σ) : executeOp cpu 0x8D = opSTA cpu ABS := rfl

set_option maxRecDepth 100000 in
theorem executeOp_0x81 (cpu : CPU σ) : executeOp cpu 0x81 = opSTA cpu INDX := rfl

set_option maxRecDepth 100000 in
theorem executeOp_0x86 (cpu : CPU σ) : executeOp cpu 0x86 = opSTX cpu ZP := rfl

set_option maxRecDepth 100000 in
theorem executeOp_0x96 (cpu : CPU σ) : executeOp cpu 0x96 = opSTX cpu ZPY := rfl

set_option maxRecDepth 100000 in
theorem executeOp_0x8E (cpu : CPU σ) : executeOp cpu 0x8E = opSTX cpu ABS := rfl

set_option maxRecDepth 100000 in
theorem executeOp_0x84 (cpu : CPU σ) : executeOp cpu 0x84 = opSTY cpu ZP := rfl

set_option maxRecDepth 100000 in
theorem executeOp_0x94 (cpu : CPU σ) : executeOp cpu 0x94 = opSTY cpu ZPX := rfl

set_option maxRecDepth 100000 in
theorem executeOp_0x8C (cpu : CPU σ) : executeOp cpu 0x8C = opSTY cpu ABS := rfl

set_option maxRecDepth 100000 in
theorem executeOp_0x87 (cpu : CPU σ) : executeOp cpu 0x87 = opAAX cpu ZP := rfl

set_option maxRecDepth 100000 in
theorem executeOp_0x97 (cpu : CPU σ) : executeOp cpu 0x97 = opAAX cpu ZPY := rfl

set_option maxRecDepth 100000 in
theorem executeOp_0x83 (cpu : CPU σ) : executeOp cpu 0x83 = opAAX cpu INDX := rfl

set_option maxRecDepth 100000 in
theorem executeOp_0x8F (cpu : CPU σ) : executeOp cpu 0x8F = opAAX cpu ABS := rfl

set_option maxRecDepth 100000 in
theorem opCyclesLengthAt_0x8D : opCyclesLengthAt 0x8D = some 4 := by decide

/-- The fetch of `ExecuteOp` when the read of the opcode may change the memory. -/
theorem ExecuteOp_fetch_memory (cpu : CPU σ) (opCode cycles : Int) (m0 : σ)
    (hint : cpu.pendingInterrupt = 0)
    (hop : CPUMemory.Read cpu.memory cpu.PC = some (opCode, m0))
    (hc : opCyclesLengthAt opCode = some cycles) :
    ExecuteOp cpu =
      (executeOp { cpu with memory := m0, PC := cpu.PC + 1, OpCycles := cycles } opCode).bind
        fun c => some (c.OpCycles, c) := by
  simp [ExecuteOp, hint, readMemory, hop, hc]

/-- The address calculators that do not count page crossings leave the cycle count as it is. -/
theorem calculateMemoryAddress_OpCycles (cpu : CPU σ) (mode : AddrMode)
    (hmode : mode ≠ ABSX2 ∧ mode ≠ ABSY2 ∧ mode ≠ INDY2) :
    After (calculateMemoryAddress cpu mode) fun r => r.2.OpCycles = cpu.OpCycles := by
  cases mode
  case ABSX2 => exact absurd rfl hmode.1
  case ABSY2 => exact absurd rfl hmode.2.1
  case INDY2 => exact absurd rfl hmode.2.2
  all_goals
    simp only [calculateMemoryAddress, calculateMemoryAddressIMM, calculateMemoryAddressABS,
      calculateMemoryAddressZP, calculateMemoryAddressZPX, calculateMemoryAddressZPY,
      calculateMemoryAddressABSX, calculateMemoryAddressABSY, calculateMemoryAddressREL,
      calculateMemoryAddressINDX, calculateMemoryAddressINDY, calculateMemoryAddressIND,
      Bool.false_and, Bool.false_eq_true, if_false]
  all_goals repeat' (first
    | exact After_some _ _ rfl
    | with_reducible apply After_bind
    | with_reducible apply After_readMemory
    | intro _)

theorem writeType_opSTX : WriteType (opSTX : CPU σ → AddrMode → Option (CPU σ)) false := by
  intro cpu mode ea cpu2 v m1 extra _ hcalc _ hm hw
  rw [hm rfl] at hw
  simp only [opSTX, hcalc, Option.bind_eq_bind, Option.some_bind]
  exact writeMemory_cycles cpu2 ea _ extra hw

theorem writeType_opSTY : WriteType (opSTY : CPU σ → AddrMode → Option (CPU σ)) false := by
  intro cpu mode ea cpu2 v m1 extra _ hcalc _ hm hw
  rw [hm rfl] at hw
  simp only [opSTY, hcalc, Option.bind_eq_bind, Option.some_bind]
  exact writeMemory_cycles cpu2 ea _ extra hw

theorem writeType_opAAX : WriteType (opAAX : CPU σ → AddrMode → Option (CPU σ)) false := by
  intro cpu mode ea cpu2 v m1 extra _ hcalc _ hm hw
  rw [hm rfl] at hw
  simp only [opAAX, hcalc, Option.bind_eq_bind, Option.some_bind]
  exact writeMemory_cycles cpu2 ea _ extra hw

/-- ExecuteOp on a store instruction whose effective address is `ea`. -/
theorem store_case (cpu : CPU σ) (op c ea extra : Int) (mode : AddrMode)
    (f : CPU σ → AddrMode → Option (CPU σ)) (hf : WriteType f false)
    (hacc : mode ≠ ACC) (hmode : mode ≠ ABSX2 ∧ mode ≠ ABSY2 ∧ mode ≠ INDY2)
    (hdisp : ∀ cpu1 : CPU σ, executeOp cpu1 op = f cpu1 mode)
    (m0 : σ) (cpu2 : CPU σ)
    (hint : cpu.pendingInterrupt = 0)
    (hop : CPUMemory.Read cpu.memory cpu.PC = some (op, m0))
    (hc : opCyclesLengthAt op = some c)
    (hea : calculateMemoryAddress { cpu with memory := m0, PC := cpu.PC + 1, OpCycles := c } mode
      = some (ea, cpu2))
    (hw : writeReports cpu2.memory ea extra) :
    ∃ cpu1, ExecuteOp cpu = some (c + max extra 0, cpu1) := by
  rw [ExecuteOp_fetch_memory cpu op c m0 hint hop hc, hdisp]
  have hoc : cpu2.OpCycles = c := calculateMemoryAddress_OpCycles _ mode hmode _ hea
  obtain ⟨cpu3, h3, h4⟩ :=
    hf _ _ _ _ 0 cpu2.memory extra hacc hea (fun h => absurd h (by decide)) (fun _ => rfl) hw
  rw [h3]
  refine ⟨cpu3, ?_⟩
  simp [h4, hoc]

/-- ExecuteOp on each of the store instructions. -/
theorem store_cases (cpu : CPU σ) (op c ea extra : Int) (mode : AddrMode)
    (hmem : (op, mode) ∈ storeOps) (m0 : σ) (cpu2 : CPU σ)
    (hint : cpu.pendingInterrupt = 0)
    (hop : CPUMemory.Read cpu.memory cpu.PC = some (op, m0))
    (hc : opCyclesLengthAt op = some c)
    (hea : calculateMemoryAddress { cpu with memory := m0, PC := cpu.PC + 1, OpCycles := c } mode
      = some (ea, cpu2))
    (hw : writeReports cpu2.memory ea extra) :
    ∃ cpu1, ExecuteOp cpu = some (c + max extra 0, cpu1) := by
  simp only [storeOps, List.mem_cons, Prod.mk.injEq, List.mem_singleton, List.not_mem_nil,
    or_false] at hmem
  repeat' (refine Or.elim hmem (fun hmem => ?_) (fun hmem => ?_))
  all_goals (obtain ⟨rfl, rfl⟩ := hmem)
  · exact store_case cpu _ c ea extra ZP opSTA writeType_opSTA (by decide) (by decide)
      (fun _ => executeOp_0x85 _) m0 cpu2 hint hop hc hea hw
  · exact store_case cpu _ c ea extra ZPX opSTA writeType_opSTA (by decide) (by decide)
      (fun _ => executeOp_0x95 _) m0 cpu2 hint hop hc hea hw
  · exact store_case cpu _ c ea extra ABS opSTA writeType_opSTA (by decide) (by decide)
      (fun _ => executeOp_0x8D _) m0 cpu2 hint hop hc hea hw
  · exact store_case cpu _ c ea extra ABSX opSTA writeType_opSTA (by decide) (by decide)
      (fun _ => executeOp_0x9D _) m0 cpu2 hint hop hc hea hw
  · exact store_case cpu _ c ea extra ABSY opSTA writeType_opSTA (by decide) (by decide)
      (fun _ => executeOp_0x99 _) m0 cpu2 hint hop hc hea hw
  · exact store_case cpu _ c ea extra INDX opSTA writeType_opSTA (by decide) (by decide)
      (fun _ => executeOp_0x81 _) m0 cpu2 hint hop hc hea hw
  · exact store_case cpu _ c ea extra INDY opSTA writeType_opSTA (by decide) (by decide)
      (fun _ => executeOp_0x91 _) m0 cpu2 hint hop hc hea hw
  · exact store_case cpu _ c ea extra ZP opSTX writeType_opSTX (by decide) (by decide)
      (fun _ => executeOp_0x86 _) m0 cpu2 hint hop hc hea hw
  · exact store_case cpu _ c ea extra ZPY opSTX writeType_opSTX (by decide) (by decide)
      (fun _ => executeOp_0x96 _) m0 cpu2 hint hop hc hea hw
  · exact store_case cpu _ c ea extra ABS opSTX writeType_opSTX (by decide) (by decide)
      (fun _ => executeOp_0x8E _) m0 cpu2 hint hop hc hea hw
  · exact store_case cpu _ c ea extra ZP opSTY writeType_opSTY (by decide) (by decide)
      (fun _ => executeOp_0x84 _) m0 cpu2 hint hop hc hea hw
  · exact store_case cpu _ c ea extra ZPX opSTY writeType_opSTY (by decide) (by decide)
      (fun _ => executeOp_0x94 _) m0 cpu2 hint hop hc hea hw
  · exact store_case cpu _ c ea extra ABS opSTY writeType_opSTY (by decide) (by decide)
      (fun _ => executeOp_0x8C _) m0 cpu2 hint hop hc hea hw
  · exact store_case cpu _ c ea extra ZP opAAX writeType_opAAX (by decide) (by decide)
      (fun _ => executeOp_0x87 _) m0 cpu2 hint hop hc hea hw
  · exact store_case cpu _ c ea extra ZPY opAAX writeType_opAAX (by decide) (by decide)
      (fun _ => executeOp_0x97 _) m0 cpu2 hint hop hc hea hw
  · exact store_case cpu _ c ea extra INDX opAAX writeType_opAAX (by decide) (by decide)
      (fun _ => executeOp_0x83 _) m0 cpu2 hint hop hc hea hw
  · exact store_case cpu _ c ea extra ABS opAAX writeType_opAAX (by decide) (by decide)
      (fun _ => executeOp_0x8F _) m0 cpu2 hint hop hc hea hw

end

section
variable {κ π : Type} [PrgDevice κ] [RegisterDevice π]

/-- A write to the OAM DMA register reports 513 cycles. -/
theorem NESCPUMemory.writeReports_dma (hD : NeverPanics κ π) (m : NESCPUMemory κ π) :
    writeReports m 0x4014 513 := by
  intro w
  show ∃ m1, NESCPUMemory.Write m 0x4014 w = some (513, m1)
  have hpage : ((0x4014 : Int) &&& 0xF000) = 0x4000 := by decide
  simp only [NESCPUMemory.Write, hpage]
  norm_num
  cases hp : m.ppu with
  | none => exact ⟨_, rfl⟩
  | some p =>
    obtain ⟨m1, hl⟩ := NESCPUMemory.dmaLoop_returns hD 256 m (shl w 8) (by rw [hp]; rfl)
    simp only [hl]
    exact ⟨_, rfl⟩

/-- A write to the RAM range or to 0x4000..0x4013 reports no cycle. -/
theorem NESCPUMemory.writeReports_plain (m : NESCPUMemory κ π) (ea : Int)
    (h : (0 ≤ ea ∧ ea ≤ 0x1FFF) ∨ (0x4000 ≤ ea ∧ ea ≤ 0x4013)) : writeReports m ea 0 := by
  intro w
  show ∃ m1, NESCPUMemory.Write m ea w = some (0, m1)
  rcases h with h | h
  · exact ⟨_, NESCPUMemory.Write_ram m ea w h⟩
  · have hpage : (ea &&& 0xF000) = 0x4000 := by
      rw [and_0xF000 ea (by omega)]
      omega
    have h1 : ea ≤ 0x4013 ∨ ea = 0x4015 ∨ ea = 0x4017 := Or.inl h.2
    simp only [NESCPUMemory.Write, hpage]
    norm_num
    rw [if_pos h1]
    exact ⟨_, rfl⟩

end

section
variable {σ : Type} [CPUMemory σ]

set_option maxRecDepth 100000 in
theorem executeOp_0x28 (cpu : CPU σ) : executeOp cpu 0x28 = opPLP cpu := rfl

set_option maxRecDepth 100000 in
theorem executeOp_0x40 (cpu : CPU σ) : executeOp cpu 0x40 = opRTI cpu := rfl

theorem bit5_iff_flagR (p : Int) : Bit5 p ↔ flagSet p flagR :=
  (and_bit_ne_zero p _ 5 flagR_testBit).symm

/-- `ExecuteOp` on PLP and on RTI sets bit 5 of P. -/
theorem ExecuteOp_pull_bit5 (cpu : CPU σ) (op : Int) (hopc : op = 0x28 ∨ op = 0x40) :
    After (ExecuteOp cpu) fun r =>
      cpu.pendingInterrupt = 0 → (∀ v m, CPUMemory.Read cpu.memory cpu.PC = some (v, m) → v = op) →
        Bit5 r.2.P := by
  unfold ExecuteOp
  by_cases hne : cpu.pendingInterrupt ≠ 0
  · rw [if_pos hne]
    apply After_any
    intro r h0 _
    exact absurd h0 hne
  rw [if_neg hne]
  · apply After_bind
    intro r hr
    obtain ⟨v, cpu1⟩ := r
    dsimp only
    apply After_bind
    apply After_any
    intro cycles
    apply After_bind
    have hshape : After (readMemory cpu cpu.PC) fun r =>
        ∀ v m, CPUMemory.Read cpu.memory cpu.PC = some (v, m) → r.1 = v := by
      intro r hr v m hm
      simp only [readMemory, hm, Option.some.injEq] at hr
      rw [← hr]
    have hv := hshape _ hr
    have hpull : After (executeOp { cpu1 with PC := cpu1.PC + 1, OpCycles := cycles } v)
        fun c => (v = 0x28 ∨ v = 0x40) → Bit5 c.P := by
      intro c hc hvv
      rcases hvv with h | h
      · rw [h, executeOp_0x28] at hc
        exact opPLP_bit5 _ c hc
      · rw [h, executeOp_0x40] at hc
        exact opRTI_bit5 _ c hc
    refine After_mono _ _ _ hpull ?_
    intro c hc
    apply After_some
    intro _ hread
    cases hm : CPUMemory.Read cpu.memory cpu.PC with
    | none => simp only [readMemory, hm] at hr; cases hr
    | some p =>
      obtain ⟨v1, m1⟩ := p
      have e1 : v = v1 := hv v1 m1 hm
      have e2 : v1 = op := hread v1 m1 hm
      exact hc (by rw [e1, e2]; exact hopc)

end

section
open cartridge

/-- Indexing a slice inside its bounds returns one of its elements. -/
theorem index?_mem {α : Type} (s : List α) (i : Int) (h0 : 0 ≤ i) (h1 : i < s.length) :
    ∃ x, index? s i = some x ∧ x ∈ s :=
  ⟨_, index?_eq s i h0 h1, List.get_mem s _ _⟩

theorem readBuffer_length (reader : List (Fin 256)) (n : Nat) :
    (readBuffer reader n).1.length = n := by
  simp only [readBuffer, List.length_append, List.length_replicate, List.length_take]
  omega

theorem readBanks_length (n : Nat) : ∀ reader : List (Fin 256), (readBanks n reader).1.length = n := by
  induction n with
  | zero => intro reader; rfl
  | succ n ih =>
    intro reader
    simp only [readBanks, List.length_cons, ih]

theorem readBanks_bank_length (n : Nat) :
    ∀ reader : List (Fin 256), ∀ b ∈ (readBanks n reader).1, b.length = 1024 := by
  induction n with
  | zero => intro reader b hb; simp [readBanks] at hb
  | succ n ih =>
    intro reader b hb
    simp only [readBanks, List.mem_cons] at hb
    rcases hb with rfl | hb
    · simp only [byteToInt, List.length_map, readBuffer_length]
    · exact ih _ b hb

theorem headerAt_byte (headers : List (Fin 256)) (i : Nat) :
    0 ≤ headerAt headers i ∧ headerAt headers i ≤ 255 := by
  unfold headerAt
  have := (headers.getD i 0).isLt
  omega

/-- The PRG banks are read by the bank loop. -/
theorem New_prgROM (rom : List (Fin 256)) :
    ∃ reader, (cartridge.New rom).memory.prgROM
      = (readBanks (headerAt (readBuffer rom 16).1 4 * 16).toNat reader).1 :=
  ⟨_, rfl⟩

/-- The CHR banks are read by the bank loop, or they are the eight banks of the CHR RAM. -/
theorem New_chrMem (rom : List (Fin 256)) :
    (headerAt (readBuffer rom 16).1 5 > 0 ∧
      ∃ reader, (cartridge.New rom).memory.chrMem
        = (readBanks (headerAt (readBuffer rom 16).1 5 * 8).toNat reader).1) ∨
    (cartridge.New rom).memory.chrMem = List.replicate 8 (List.replicate 1024 0) := by
  by_cases h : headerAt (readBuffer rom 16).1 5 > 0
  · left
    refine ⟨h, ?_⟩
    simp only [cartridge.New, createCartridge, if_pos h]
    exact ⟨_, rfl⟩
  · right
    simp only [cartridge.New, createCartridge, if_neg h]

/-- The entry of the slot `i` in the initial PRG map is `i & (n - 1)`, with `n` the number of
PRG banks, which is 16 times the PRG count of the header. -/
theorem New_prgROMMap (rom : List (Fin 256)) (i : Int) (hi : 0 ≤ i ∧ i ≤ 31) :
    index? (cartridge.New rom).prgROMMap i
      = some (i &&& (16 * headerAt (readBuffer rom 16).1 4 - 1)) ∧
    ((cartridge.New rom).memory.prgROM.length : Int) = 16 * headerAt (readBuffer rom 16).1 4 ∧
    ∀ b ∈ (cartridge.New rom).memory.prgROM, b.length = 1024 := by
  have hb := headerAt_byte (readBuffer rom 16).1 4
  obtain ⟨reader, hprg⟩ := New_prgROM rom
  have hlen : ((cartridge.New rom).memory.prgROM.length : Int)
      = 16 * headerAt (readBuffer rom 16).1 4 := by
    rw [hprg, readBanks_length]
    omega
  refine ⟨?_, hlen, ?_⟩
  · have h1 : (cartridge.New rom).prgROMMap
        = (List.range 32).map fun (k : Nat) =>
            (k : Int) &&& (((cartridge.New rom).memory.prgROM.length : Int) - 1) :=
      rfl
    obtain ⟨k, rfl⟩ := Int.eq_ofNat_of_zero_le hi.1
    have hk : k < 32 := by omega
    have hneg : ¬ (k : Int) < 0 := by omega
    rw [h1, hlen]
    simp [index?, hneg, hk]
  · intro b hb
    rw [hprg] at hb
    exact readBanks_bank_length _ _ b hb

/-- The entry of the window `j` in the initial CHR map is `j` itself, and every CHR bank has
1024 cells. -/
theorem New_chrMemMap (rom : List (Fin 256)) (j : Int) (hj : 0 ≤ j ∧ j ≤ 7) :
    index? (cartridge.New rom).chrMemMap j = some j ∧
    (8 : Int) ≤ (cartridge.New rom).memory.chrMem.length ∧
    ((cartridge.New rom).memory.chrMem.length : Int) % 8 = 0 ∧
    ∀ b ∈ (cartridge.New rom).memory.chrMem, b.length = 1024 := by
  have hb := headerAt_byte (readBuffer rom 16).1 5
  have hlen : (8 : Int) ≤ (cartridge.New rom).memory.chrMem.length ∧
      ((cartridge.New rom).memory.chrMem.length : Int) % 8 = 0 := by
    rcases New_chrMem rom with ⟨h, reader, hchr⟩ | hchr
    · rw [hchr, readBanks_length]
      omega
    · rw [hchr, List.length_replicate]
      decide
  have hbank : ∀ b ∈ (cartridge.New rom).memory.chrMem, b.length = 1024 := by
    intro b hb
    rcases New_chrMem rom with ⟨h, reader, hchr⟩ | hchr
    · rw [hchr] at hb
      exact readBanks_bank_length _ _ b hb
    · rw [hchr, List.mem_replicate] at hb
      rw [hb.2, List.length_replicate]
  refine ⟨?_, hlen.1, hlen.2, hbank⟩
  have h1 : (cartridge.New rom).chrMemMap
      = (List.range 8).map fun (k : Nat) =>
          (k : Int) &&& (((cartridge.New rom).memory.chrMem.length : Int) - 1) :=
    rfl
  obtain ⟨k, rfl⟩ := Int.eq_ofNat_of_zero_le hj.1
  have hk : k < 8 := by omega
  have hneg : ¬ (k : Int) < 0 := by omega
  -- the low three bits of the mask are set
  have hmask : (k : Int) &&& (((cartridge.New rom).memory.chrMem.length : Int) - 1) = k := by
    apply eq_of_testBit_eq
    intro t
    rw [testBit_and]
    by_cases hk0 : (k : Int).testBit t = true
    · rw [hk0, Bool.true_and, testBit_eq_decide]
      have ht : t < 3 := by
        by_contra hge
        have : (k : Int).testBit t = false := by
          show Nat.testBit k t = false
          apply Nat.testBit_lt_two_pow
          calc k < 8 := hk
            _ = 2 ^ 3 := rfl
            _ ≤ 2 ^ t := Nat.pow_le_pow_right (by norm_num) (by omega)
        rw [this] at hk0
        exact absurd hk0 (by decide)
      have h8 := hlen.2
      have h0 := hlen.1
      interval_cases t <;> simp <;> omega
    · simp only [Bool.not_eq_true] at hk0
      rw [hk0, Bool.false_and]
  rw [h1]
  simp [index?, hneg, hk, hmask]

/-- The reads of the PRG memory return on a cartridge whose PRG bank list is not empty. -/
theorem ReadPrgMemory_returns (rom : List (Fin 256))
    (hp : 1 ≤ headerAt (readBuffer rom 16).1 4) (a : Int) :
    ∃ v, (cartridge.New rom).ReadPrgMemory a = some v := by
  unfold Cartridge.ReadPrgMemory
  dsimp only
  split_ifs with h1 h2
  · exact ⟨_, rfl⟩
  · have hlen : (8192 : Int) ≤ (cartridge.New rom).memory.prgRAM.length := by
      have hb := headerAt_byte (readBuffer rom 16).1 8
      simp only [cartridge.New, createCartridge, List.length_replicate]
      split_ifs <;> omega
    have h0 : 0 ≤ a &&& 0x1FFF ∧ a &&& 0x1FFF < (cartridge.New rom).memory.prgRAM.length := by
      rw [and_0x1FFF]; omega
    exact ⟨_, index?_eq _ _ h0.1 h0.2⟩
  · have hs : 0 ≤ shr (a &&& 0x7FFF) 10 ∧ shr (a &&& 0x7FFF) 10 ≤ 31 := by
      rw [and_0x7FFF, shr_eq_div]; norm_num; omega
    obtain ⟨hmap, hlen, hbank⟩ := New_prgROMMap rom _ hs
    have hb := headerAt_byte (readBuffer rom 16).1 4
    have hv := and_nonneg_le (shr (a &&& 0x7FFF) 10)
      (16 * headerAt (readBuffer rom 16).1 4 - 1) hs.1 (by omega)
    obtain ⟨cells, hcells, hmem⟩ := index?_mem (cartridge.New rom).memory.prgROM _ hv.1
      (by rw [hlen]; omega)
    have hcell := hbank cells hmem
    rw [hmap, Option.some_bind, hcells, Option.some_bind]
    exact ⟨_, index?_eq _ _ (by rw [and_0x03FF]; omega) (by rw [hcell, and_0x03FF]; omega)⟩

/-- The reads of the CHR memory return on every cartridge that `New` builds. -/
theorem ReadChrMemory_returns (rom : List (Fin 256)) (a : Int) :
    ∃ v, (cartridge.New rom).ReadChrMemory a = some v := by
  unfold Cartridge.ReadChrMemory
  split_ifs with h1
  · have hs : 0 ≤ shr (a &&& 0x1FFF) 10 ∧ shr (a &&& 0x1FFF) 10 ≤ 7 := by
      rw [and_0x1FFF, shr_eq_div]; norm_num; omega
    obtain ⟨hmap, hlen, _, hbank⟩ := New_chrMemMap rom _ hs
    obtain ⟨cells, hcells, hmem⟩ := index?_mem (cartridge.New rom).memory.chrMem _ hs.1
      (by omega)
    have hcell := hbank cells hmem
    rw [hmap, Option.some_bind, hcells, Option.some_bind]
    exact ⟨_, index?_eq _ _ (by rw [and_0x03FF]; omega) (by rw [hcell, and_0x03FF]; omega)⟩
  · exact ⟨_, rfl⟩

end

section
open ppu

/-- The four mirrored palette addresses are decoded to the addresses 0x10 below, which are
decoded to themselves. -/
theorem decodePPUAddress_mirror (a : Int)
    (ha : a = 0x3F10 ∨ a = 0x3F14 ∨ a = 0x3F18 ∨ a = 0x3F1C) :
    decodePPUAddress a = a - 0x10 ∧ decodePPUAddress (a - 0x10) = a - 0x10 ∧
      0x3F00 ≤ a - 0x10 ∧ a - 0x10 ≤ 0x3F0F := by
  rcases ha with rfl | rfl | rfl | rfl <;> decide

/-- A read of the background palette. -/
theorem vramMemory.read_backgroundPalette (m : vramMemory) (a : Int)
    (h : 0x3F00 ≤ decodePPUAddress a ∧ decodePPUAddress a ≤ 0x3F0F) :
    m.read a = some (m.backgroundPaletteRAM (decodePPUAddress a &&& 0x000F)) := by
  have h1 : ¬ (0 ≤ decodePPUAddress a ∧ decodePPUAddress a ≤ 0x1FFF) := by omega
  have h2 : ¬ (0x2000 ≤ decodePPUAddress a ∧ decodePPUAddress a < 0x3000) := by omega
  simp only [vramMemory.read, h1, h2, h, if_false, if_true, and_self]

/-- A write to the background palette. -/
theorem vramMemory.write_backgroundPalette (m : vramMemory) (a v : Int)
    (h : 0x3F00 ≤ decodePPUAddress a ∧ decodePPUAddress a ≤ 0x3F0F) :
    m.write a v = some { m with
      backgroundPaletteRAM := fun i =>
        if i = (decodePPUAddress a &&& 0x000F) then v else m.backgroundPaletteRAM i } := by
  have h1 : ¬ (0 ≤ decodePPUAddress a ∧ decodePPUAddress a ≤ 0x1FFF) := by omega
  have h2 : ¬ (0x2000 ≤ decodePPUAddress a ∧ decodePPUAddress a ≤ 0x2FFF) := by omega
  simp only [vramMemory.write, h1, h2, h, if_false, if_true, and_self]

end

section
open ppu
variable {ρ ν : Type}

theorem mem_indices (n : Nat) (i : Int) : i ∈ indices n ↔ 0 ≤ i ∧ i < n := by
  unfold indices
  rw [List.mem_map]
  constructor
  · rintro ⟨k, hk, rfl⟩
    rw [List.mem_range] at hk
    omega
  · intro h
    refine ⟨i.toNat, ?_, ?_⟩
    · rw [List.mem_range]; omega
    · omega

theorem spriteMemory.read_eq (m : spriteMemory) (o : Int) (h : 0 ≤ o ∧ o < 0x100) :
    m.read o = some (m.ram o) := by
  simp only [spriteMemory.read, h, and_self, if_true]

theorem spriteMemory.writeTemp_eq (m : spriteMemory) (a v : Int) (h : 0 ≤ a ∧ a < 0x20) :
    m.writeTemp a v = some { m with
      tempMemory := fun i => if i = a then v else m.tempMemory i } := by
  simp only [spriteMemory.writeTemp, h, and_self, if_true]

/-- The range test of the sprite evaluation depends on the control register only. -/
theorem isSpriteInRangeForNextScanline_congr (p q : PPU ρ ν) (h : q.ctrlReg = p.ctrlReg)
    (y s : Int) :
    isSpriteInRangeForNextScanline q y s = isSpriteInRangeForNextScanline p y s := by
  simp only [isSpriteInRangeForNextScanline, h]

/-- The range test of the sprite evaluation: the row `s - 21 - y` of the sprite lies in
0..7, or in 0..15 when bit 5 of the control register selects sprites of 16 rows. -/
theorem isSpriteInRangeForNextScanline_eq (p : PPU ρ ν) (y s : Int) :
    isSpriteInRangeForNextScanline p y s
      = decide (0 ≤ s - 21 - y ∧ s - 21 - y ≤ if p.ctrlReg.value.testBit 5 then 15 else 7) := by
  have h16 : p.ctrlReg.is16PixelsSprite = p.ctrlReg.value.testBit 5 := by
    unfold ctrlRegister.is16PixelsSprite
    have := and_bit_ne_zero p.ctrlReg.value ctrlSpriteSize 5 (by simp [ctrlSpriteSize])
    by_cases hb : p.ctrlReg.value.testBit 5 = true
    · rw [hb, decide_eq_true (this.2 hb)]
    · rw [decide_eq_false (fun h => hb (this.1 h))]
      simpa using hb
  have hF : FirstRenderScanline = 21 := by decide
  simp only [isSpriteInRangeForNextScanline, h16, hF]
  by_cases hb : p.ctrlReg.value.testBit 5 = true
  · simp only [hb, if_true]
    split_ifs <;> simp <;> omega
  · simp only [hb, Bool.false_eq_true, if_false]
    split_ifs <;> simp <;> omega

/-- The loop of `evaluateSprites`, from any point of its run: it returns, it copies the first
sprites in range of the list into the next free slots as long as there are fewer than 8, and it
sets the overflow bit when there are more sprites in range than free slots. -/
theorem evaluateSpritesFrom_spec (s : Int) (l : List Int) :
    ∀ (slot : Int) (q : PPU ρ ν), (∀ i ∈ l, 0 ≤ i ∧ i < 64) → 0 ≤ slot → slot ≤ 8 →
      ∃ q1, evaluateSpritesFrom s l slot q = some q1 ∧
        q1.sprMemory.ram = q.sprMemory.ram ∧ q1.ctrlReg = q.ctrlReg ∧
        q1.sprMemory.tempMemory
          = copySprites q.sprMemory.ram
              ((l.filter fun i =>
                isSpriteInRangeForNextScanline q (q.sprMemory.ram (i * 4)) s).take
                  (8 - slot).toNat)
              slot q.sprMemory.tempMemory ∧
        q1.statusReg.value
          = (if 8 < slot + ((l.filter fun i =>
                isSpriteInRangeForNextScanline q (q.sprMemory.ram (i * 4)) s).length : Int)
             then q.statusReg.value ||| statusScanlineSpriteCount else q.statusReg.value) := by
  induction l with
  | nil =>
    intro slot q _ _ h8
    refine ⟨q, rfl, rfl, rfl, ?_, ?_⟩
    · simp [copySprites]
    · have : ¬ (8 < slot + ((([] : List Int).filter fun i =>
          isSpriteInRangeForNextScanline q (q.sprMemory.ram (i * 4)) s).length : Int)) := by
        simp only [List.filter_nil, List.length_nil, Nat.cast_zero, add_zero]; omega
      rw [if_neg this]
  | cons i rest ih =>
    intro slot q hl h0 h8
    have hi := hl i (List.mem_cons_self _ _)
    have hrest : ∀ j ∈ rest, 0 ≤ j ∧ j < 64 := fun j hj => hl j (List.mem_cons_of_mem _ hj)
    have r0 := spriteMemory.read_eq q.sprMemory (i * 4) (by omega)
    by_cases hin : isSpriteInRangeForNextScanline q (q.sprMemory.ram (i * 4)) s = true
    · have hf : (List.filter (fun i =>
          isSpriteInRangeForNextScanline q (q.sprMemory.ram (i * 4)) s) (i :: rest))
          = i :: List.filter (fun i =>
              isSpriteInRangeForNextScanline q (q.sprMemory.ram (i * 4)) s) rest := by
        rw [List.filter_cons]
        exact if_pos hin
      by_cases hs : slot < 8
      · -- the sprite is copied
        have r1 := spriteMemory.read_eq q.sprMemory (i * 4 + 1) (by omega)
        have r2 := spriteMemory.read_eq q.sprMemory (i * 4 + 2) (by omega)
        have r3 := spriteMemory.read_eq q.sprMemory (i * 4 + 3) (by omega)
        obtain ⟨q1, e, hram, hctrl, htemp, hstat⟩ := ih (slot + 1)
          { q with
            sprMemory :=
              { q.sprMemory with
                tempMemory := fun a =>
                  if a = slot * 4 + 3 then q.sprMemory.ram (i * 4 + 3)
                  else if a = slot * 4 + 2 then q.sprMemory.ram (i * 4 + 2)
                  else if a = slot * 4 + 1 then q.sprMemory.ram (i * 4 + 1)
                  else if a = slot * 4 then q.sprMemory.ram (i * 4)
                  else q.sprMemory.tempMemory a }
            spriteRenderer :=
              { q.spriteRenderer with
                isSpriteZeroInRange :=
                  if i = 0 then true else q.spriteRenderer.isSpriteZeroInRange } }
          hrest (by omega) (by omega)
        have htemp1 : q1.sprMemory.tempMemory
            = copySprites q.sprMemory.ram
                ((List.filter (fun i =>
                  isSpriteInRangeForNextScanline q (q.sprMemory.ram (i * 4)) s) rest).take
                    (8 - (slot + 1)).toNat)
                (slot + 1) (fun a =>
                  if a = slot * 4 + 3 then q.sprMemory.ram (i * 4 + 3)
                  else if a = slot * 4 + 2 then q.sprMemory.ram (i * 4 + 2)
                  else if a = slot * 4 + 1 then q.sprMemory.ram (i * 4 + 1)
                  else if a = slot * 4 then q.sprMemory.ram (i * 4)
                  else q.sprMemory.tempMemory a) := htemp
        have hstat1 : q1.statusReg.value
            = (if 8 < slot + 1 + ((List.filter (fun i =>
                  isSpriteInRangeForNextScanline q (q.sprMemory.ram (i * 4)) s) rest).length : Int)
               then q.statusReg.value ||| statusScanlineSpriteCount else q.statusReg.value) :=
          hstat
        refine ⟨q1, ?_, hram, hctrl, ?_, ?_⟩
        · rw [← e]
          simp only [evaluateSpritesFrom, r0, Option.some_bind, hin, if_true, hs, r1, r2, r3,
            spriteMemory.writeTemp_eq _ _ _ (show 0 ≤ slot * 4 ∧ slot * 4 < 0x20 by omega),
            spriteMemory.writeTemp_eq _ _ _ (show 0 ≤ slot * 4 + 1 ∧ slot * 4 + 1 < 0x20 by omega),
            spriteMemory.writeTemp_eq _ _ _ (show 0 ≤ slot * 4 + 2 ∧ slot * 4 + 2 < 0x20 by omega),
            spriteMemory.writeTemp_eq _ _ _ (show 0 ≤ slot * 4 + 3 ∧ slot * 4 + 3 < 0x20 by omega)]
        · have ht : (8 - slot).toNat = (8 - (slot + 1)).toNat + 1 := by omega
          rw [htemp1, hf, ht, List.take_succ_cons]
          rfl
        · rw [hstat1, hf, List.length_cons]
          have hc : slot + 1 + ((List.filter (fun i =>
              isSpriteInRangeForNextScanline q (q.sprMemory.ram (i * 4)) s) rest).length : Int)
              = slot + (((List.filter (fun i =>
              isSpriteInRangeForNextScanline q (q.sprMemory.ram (i * 4)) s) rest).length + 1 : Nat)
                : Int) := by
            push_cast; ring
          rw [hc]
      · -- the ninth sprite in range
        have hs8 : slot = 8 := by omega
        refine ⟨{ q with
          statusReg := { value := q.statusReg.value ||| statusScanlineSpriteCount } },
          ?_, rfl, rfl, ?_, ?_⟩
        · simp only [evaluateSpritesFrom, r0, Option.some_bind, hin, if_true, hs, if_false]
        · subst hs8
          simp [copySprites]
        · rw [hf, List.length_cons]
          have : 8 < slot + (((List.filter (fun i =>
              isSpriteInRangeForNextScanline q (q.sprMemory.ram (i * 4)) s) rest).length + 1 : Nat)
                : Int) := by
            push_cast; omega
          rw [if_pos this]
    · -- the sprite is skipped
      have hf : (List.filter (fun i =>
          isSpriteInRangeForNextScanline q (q.sprMemory.ram (i * 4)) s) (i :: rest))
          = List.filter (fun i =>
              isSpriteInRangeForNextScanline q (q.sprMemory.ram (i * 4)) s) rest := by
        rw [List.filter_cons]
        exact if_neg hin
      obtain ⟨q1, e, hram, hctrl, htemp, hstat⟩ := ih slot q hrest h0 h8
      refine ⟨q1, ?_, hram, hctrl, ?_, ?_⟩
      · rw [← e]
        simp only [evaluateSpritesFrom, r0, Option.some_bind, hin, Bool.false_eq_true, if_false]
      · rw [htemp, hf]
      · rw [hstat, hf]

/-- An address outside the slots that receive the sprites keeps its content. -/
theorem copySprites_outside (ram : Int → Int) (l : List Int) :
    ∀ (slot : Int) (temp : Int → Int) (a : Int),
      a < slot * 4 ∨ (slot + l.length) * 4 ≤ a → copySprites ram l slot temp a = temp a := by
  induction l with
  | nil => intro slot temp a _; rfl
  | cons i rest ih =>
    intro slot temp a ha
    simp only [List.length_cons, Nat.cast_add, Nat.cast_one] at ha
    rw [copySprites, ih (slot + 1) _ a (by omega)]
    have h3 : ¬ a = slot * 4 + 3 := by omega
    have h2 : ¬ a = slot * 4 + 2 := by omega
    have h1 : ¬ a = slot * 4 + 1 := by omega
    have h0 : ¬ a = slot * 4 := by omega
    simp only [h3, h2, h1, h0, if_false]

/-- The slot `slot + j` receives the four bytes of the sprite at the position `j` of the
list. -/
theorem copySprites_slot (ram : Int → Int) (l : List Int) :
    ∀ (slot : Int) (temp : Int → Int) (j : Nat) (i b : Int), l[j]? = some i → 0 ≤ b → b < 4 →
      copySprites ram l slot temp ((slot + j) * 4 + b) = ram (i * 4 + b) := by
  induction l with
  | nil => intro slot temp j i b h; simp at h
  | cons i0 rest ih =>
    intro slot temp j i b h hb0 hb4
    cases j with
    | zero =>
      simp only [List.getElem?_cons_zero, Option.some.injEq] at h
      subst h
      rw [copySprites, copySprites_outside ram rest (slot + 1) _ _
        (Or.inl (by push_cast; omega))]
      have hb : b = 0 ∨ b = 1 ∨ b = 2 ∨ b = 3 := by omega
      rcases hb with rfl | rfl | rfl | rfl <;> simp
    | succ j =>
      simp only [List.getElem?_cons_succ] at h
      have e : (slot + ((j + 1 : Nat) : Int)) * 4 + b = (slot + 1 + (j : Int)) * 4 + b := by
        push_cast; ring
      rw [copySprites, e]
      exact ih (slot + 1) _ j i b h hb0 hb4

end

section
open ppu
variable {ρ ν : Type}

theorem Keeps_some (F : Unrendered ρ ν) (a : PPU ρ ν) (h : a.unrendered = F) :
    Keeps F (some a) := ⟨a, rfl, h⟩

theorem Keeps_bind (F : Unrendered ρ ν) (x : Option (PPU ρ ν)) (f : PPU ρ ν → Option (PPU ρ ν))
    (hx : Keeps F x) (hf : ∀ a, a.unrendered = F → Keeps F (f a)) : Keeps F (x.bind f) := by
  obtain ⟨a, rfl, ha⟩ := hx
  exact hf a ha

theorem Keeps_bind_value {α : Type} (F : Unrendered ρ ν) (x : Option α)
    (f : α → Option (PPU ρ ν)) (hx : Returns x) (hf : ∀ v, Keeps F (f v)) :
    Keeps F (x.bind f) := by
  obtain ⟨v, rfl⟩ := hx
  exact hf v

theorem Keeps_map_value {α : Type} (F : Unrendered ρ ν) (x : Option α) (f : α → PPU ρ ν)
    (hx : Returns x) (hf : ∀ v, (f v).unrendered = F) : Keeps F (x.map f) := by
  obtain ⟨v, rfl⟩ := hx
  exact ⟨f v, rfl, hf v⟩

theorem Keeps_ite (F : Unrendered ρ ν) (c : Prop) [Decidable c] (x y : Option (PPU ρ ν))
    (hx : Keeps F x) (hy : Keeps F y) : Keeps F (if c then x else y) := by
  split_ifs <;> assumption

/-- A change of Status that keeps its bit 7 keeps the components outside the renderers. -/
theorem unrendered_status (p : PPU ρ ν) (v : Int)
    (h : v.testBit 7 = p.statusReg.value.testBit 7) :
    ({ p with statusReg := { value := v } }).unrendered = p.unrendered := by
  simp only [PPU.unrendered, h]

theorem Returns_map {α β : Type} (x : Option α) (f : α → β) (hx : Returns x) :
    Returns (x.map f) := by
  obtain ⟨a, rfl⟩ := hx
  exact ⟨f a, rfl⟩

/-- The tables of four entries are indexed by a nametable index, which has two bits. -/
theorem Returns_index_table (t : List Int) (ht : t.length = 4) (a : Int) :
    Returns (index? t (shr a 10 &&& 0x3)) := by
  have h3 : shr a 10 &&& 0x3 = shr a 10 % 4 := by simpa using and_mask (shr a 10) 2
  exact ⟨_, index?_eq t _ (by rw [h3]; omega) (by rw [h3, ht]; omega)⟩

theorem writeScanlineBuffer_keeps (F : Unrendered ρ ν) (p : PPU ρ ν) (hF : p.unrendered = F)
    (i v : Int) (hi : 0 ≤ i ∧ i ≤ 255) : Keeps F (p.writeScanlineBuffer i v) := by
  have h : 0 ≤ i ∧ i < NESWidth := ⟨hi.1, by have : NESWidth = 256 := rfl; omega⟩
  simp only [PPU.writeScanlineBuffer, h, and_self, if_true]
  exact Keeps_some F _ hF

theorem readScanlineBuffer_returns (p : PPU ρ ν) (i : Int) (hi : 0 ≤ i ∧ i ≤ 255) :
    Returns (p.readScanlineBuffer i) := by
  have h : 0 ≤ i ∧ i < NESWidth := ⟨hi.1, by have : NESWidth = 256 := rfl; omega⟩
  simp only [PPU.readScanlineBuffer, h, and_self, if_true]
  exact Returns_some _

theorem renderBackgroundPixel_keeps (F : Unrendered ρ ν) (p : PPU ρ ν) (hF : p.unrendered = F)
    (c : Int) (hc : 0 ≤ c ∧ c ≤ 255) : Keeps F (renderBackgroundPixel p c) := by
  unfold renderBackgroundPixel
  exact writeScanlineBuffer_keeps F p hF _ _ hc

theorem renderTileData_keeps (F : Unrendered ρ ν) (p : PPU ρ ν) (hF : p.unrendered = F)
    (c : Int) (draw : Bool) (hc : draw = true → 0 ≤ c ∧ c ≤ 255) :
    Keeps F (renderTileData p c draw) := by
  unfold renderTileData
  refine Keeps_bind F _ _ ?_ (fun a ha => Keeps_some F _ ha)
  by_cases hd : draw = true
  · rw [if_pos hd]
    exact Keeps_ite F _ _ _ (renderBackgroundPixel_keeps F p hF c (hc hd)) (Keeps_some F p hF)
  · rw [if_neg hd]
    exact Keeps_some F p hF

theorem incrementBackgroundTileX_keeps (F : Unrendered ρ ν) (p : PPU ρ ν)
    (hF : p.unrendered = F) : Keeps F (incrementBackgroundTileX p) := by
  unfold incrementBackgroundTileX
  refine Keeps_map_value F _ _ ?_ (fun _ => hF)
  dsimp only
  split_ifs
  · exact Returns_map _ _ (Returns_index_table nametableIndexToHorizontalIndex rfl _)
  · exact Returns_some _

theorem incrementBackgroundFineY_keeps (F : Unrendered ρ ν) (p : PPU ρ ν)
    (hF : p.unrendered = F) : Keeps F (incrementBackgroundFineY p) := by
  unfold incrementBackgroundFineY
  refine Keeps_map_value F _ _ ?_ (fun _ => hF)
  dsimp only
  split_ifs
  · exact Returns_some _
  · exact Returns_map _ _ (Returns_index_table nametableIndexToVerticalndex rfl _)
  · exact Returns_some _
  · exact Returns_some _

theorem fetchTileData_keeps (F : Unrendered ρ ν) (p : PPU ρ ν) (hF : p.unrendered = F)
    (hR : ReadsReturn F.vramMemory) : Keeps F (fetchTileData p) := by
  have hp : ReadsReturn p.vramMemory := by rw [← hF] at hR; exact hR
  unfold fetchTileData
  refine Keeps_bind_value F _ _ (Returns_index_table nametableIndexToAddress rfl _)
    fun nameTableAddress => ?_
  refine Keeps_bind_value F _ _ (hp _) fun tileIndex => ?_
  refine Keeps_bind_value F _ _ (hp _) fun attributeByte => ?_
  refine Keeps_bind F _ _ (incrementBackgroundTileX_keeps F p hF) fun a ha => ?_
  have hq : ReadsReturn a.vramMemory := by
    have : a.vramMemory = F.vramMemory := congrArg Unrendered.vramMemory ha
    rw [this]; exact hR
  refine Keeps_bind_value F _ _ (hq _) fun tileDataLow => ?_
  refine Keeps_bind_value F _ _ (hq _) fun tileDataHigh => ?_
  exact Keeps_some F _ ha

theorem executeScanlineBackgroundCycle_keeps (F : Unrendered ρ ν) (p : PPU ρ ν)
    (hF : p.unrendered = F) (hR : ReadsReturn F.vramMemory) (c : Int) (shouldRender : Bool) :
    Keeps F (executeScanlineBackgroundCycle p c shouldRender) := by
  unfold executeScanlineBackgroundCycle
  have hload : (if (c &&& 0x07) = 0 then loadPipeline p else p).unrendered = F := by
    split_ifs
    · exact hF
    · exact hF
  by_cases h1 : 0 ≤ c ∧ c ≤ 255
  · rw [if_pos h1]
    dsimp only
    refine Keeps_bind F _ _ ?_ fun a ha =>
      Keeps_ite F _ _ _ (fetchTileData_keeps F a ha hR) (Keeps_some F a ha)
    exact Keeps_ite F _ _ _ (renderTileData_keeps F _ hload c true (fun _ => h1))
      (Keeps_some F p hF)
  · rw [if_neg h1]
    refine Keeps_ite F _ _ _ ?_ ?_
    · exact Keeps_ite F _ _ _ (incrementBackgroundFineY_keeps F p hF) (Keeps_some F p hF)
    · refine Keeps_ite F _ _ _ ?_ (Keeps_some F p hF)
      dsimp only
      refine Keeps_bind F _ _ (renderTileData_keeps F _ hload c false (fun h => by cases h))
        fun a ha => Keeps_ite F _ _ _ (fetchTileData_keeps F a ha hR) (Keeps_some F a ha)

theorem renderSpritePixelFrom_keeps (F : Unrendered ρ ν) (p : PPU ρ ν) (hF : p.unrendered = F)
    (c : Int) (hc : 0 ≤ c ∧ c ≤ 255) (l : List Int) :
    Keeps F (renderSpritePixelFrom p c l) := by
  induction l with
  | nil => exact Keeps_some F p hF
  | cons i rest ih =>
    unfold renderSpritePixelFrom
    dsimp only
    refine Keeps_ite F _ _ _ ?_ ih
    refine Keeps_ite F _ _ _ ?_ ih
    refine Keeps_bind_value F _ _ (readScanlineBuffer_returns p c hc) fun bgPixel => ?_
    refine Keeps_bind F _ _ ?_ fun a ha => ?_
    · exact Keeps_ite F _ _ _ (writeScanlineBuffer_keeps F p hF _ _ hc) (Keeps_some F p hF)
    · refine Keeps_some F _ ?_
      rw [← ha]
      apply unrendered_status
      split_ifs
      · simp [statusSpriteZeroOccurrence]
      · rfl

theorem renderSpritePixel_keeps (F : Unrendered ρ ν) (p : PPU ρ ν) (hF : p.unrendered = F)
    (c : Int) (hc : 0 ≤ c ∧ c ≤ 255) : Keeps F (renderSpritePixel p c) :=
  renderSpritePixelFrom_keeps F p hF c hc _

theorem Returns_read (m : spriteMemory) (o : Int) (h : 0 ≤ o ∧ o < 0x100) :
    Returns (m.read o) := ⟨_, spriteMemory.read_eq m o h⟩

theorem Returns_readTemp (m : spriteMemory) (o : Int) (h : 0 ≤ o ∧ o < 0x20) :
    Returns (m.readTemp o) := by
  simp only [spriteMemory.readTemp, h, and_self, if_true]
  exact Returns_some _

theorem evaluateSpritesFrom_keeps (F : Unrendered ρ ν) (s : Int) (l : List Int) :
    ∀ (slot : Int) (q : PPU ρ ν), q.unrendered = F → (∀ i ∈ l, 0 ≤ i ∧ i < 64) → 0 ≤ slot →
      Keeps F (evaluateSpritesFrom s l slot q) := by
  induction l with
  | nil => intro slot q hF _ _; exact Keeps_some F q hF
  | cons i rest ih =>
    intro slot q hF hl h0
    have hi := hl i (List.mem_cons_self _ _)
    have hrest : ∀ j ∈ rest, 0 ≤ j ∧ j < 64 := fun j hj => hl j (List.mem_cons_of_mem _ hj)
    unfold evaluateSpritesFrom
    dsimp only
    refine Keeps_bind_value F _ _ (Returns_read _ _ (by omega)) fun yPosition => ?_
    refine Keeps_ite F _ _ _ ?_ (ih slot q hF hrest h0)
    by_cases hs : slot < 8
    · rw [if_pos hs]
      refine Keeps_bind_value F _ _ (Returns_read _ _ (by omega)) fun tileIndex => ?_
      refine Keeps_bind_value F _ _ (Returns_read _ _ (by omega)) fun attributes => ?_
      refine Keeps_bind_value F _ _ (Returns_read _ _ (by omega)) fun xPosition => ?_
      rw [spriteMemory.writeTemp_eq _ _ _ (show 0 ≤ slot * 4 ∧ slot * 4 < 0x20 by omega),
        Option.some_bind,
        spriteMemory.writeTemp_eq _ _ _ (show 0 ≤ slot * 4 + 1 ∧ slot * 4 + 1 < 0x20 by omega),
        Option.some_bind,
        spriteMemory.writeTemp_eq _ _ _ (show 0 ≤ slot * 4 + 2 ∧ slot * 4 + 2 < 0x20 by omega),
        Option.some_bind,
        spriteMemory.writeTemp_eq _ _ _ (show 0 ≤ slot * 4 + 3 ∧ slot * 4 + 3 < 0x20 by omega),
        Option.some_bind]
      exact ih (slot + 1) _ hF hrest (by omega)
    · rw [if_neg hs]
      refine Keeps_some F _ ?_
      rw [← hF]
      apply unrendered_status
      simp [statusScanlineSpriteCount]

theorem evaluateSprites_keeps (F : Unrendered ρ ν) (p : PPU ρ ν) (hF : p.unrendered = F)
    (s : Int) : Keeps F (evaluateSprites p s) :=
  evaluateSpritesFrom_keeps F s _ 0 p hF
    (fun i hi => by have := (mem_indices 64 i).1 hi; omega) (le_refl 0)

theorem fetchSpriteTileDataFrom_keeps (F : Unrendered ρ ν) (hR : ReadsReturn F.vramMemory)
    (s : Int) (l : List Int) :
    ∀ q : PPU ρ ν, q.unrendered = F → (∀ i ∈ l, 0 ≤ i ∧ i < 8) →
      Keeps F (fetchSpriteTileDataFrom s l q) := by
  induction l with
  | nil => intro q hF _; exact Keeps_some F q hF
  | cons i rest ih =>
    intro q hF hl
    have hq : ReadsReturn q.vramMemory := by rw [← hF] at hR; exact hR
    have hi := hl i (List.mem_cons_self _ _)
    have hrest : ∀ j ∈ rest, 0 ≤ j ∧ j < 8 := fun j hj => hl j (List.mem_cons_of_mem _ hj)
    unfold fetchSpriteTileDataFrom
    dsimp only
    refine Keeps_bind_value F _ _ (Returns_readTemp _ _ (by omega)) fun yPosition => ?_
    refine Keeps_bind_value F _ _ (Returns_readTemp _ _ (by omega)) fun tileIndex => ?_
    refine Keeps_bind_value F _ _ (Returns_readTemp _ _ (by omega)) fun attributes => ?_
    refine Keeps_bind_value F _ _ (Returns_readTemp _ _ (by omega)) fun xPosition => ?_
    refine Keeps_bind_value F _ _ ?_ fun spriteRenderData => ih _ hF hrest
    refine Returns_ite _ _ _ (Returns_map _ _ (hq _)) ?_
    exact Returns_bind _ _ (hq _) fun _ => Returns_bind _ _ (hq _) fun _ => Returns_some _

theorem fetchSpriteTileData_keeps (F : Unrendered ρ ν) (hR : ReadsReturn F.vramMemory)
    (p : PPU ρ ν) (hF : p.unrendered = F) (s : Int) : Keeps F (fetchSpriteTileData p s) :=
  fetchSpriteTileDataFrom_keeps F hR s _ p hF
    (fun i hi => by have := (mem_indices 8 i).1 hi; omega)

theorem executeScanlineSpriteCycle_keeps (F : Unrendered ρ ν) (p : PPU ρ ν)
    (hF : p.unrendered = F) (hR : ReadsReturn F.vramMemory) (c s : Int) :
    Keeps F (executeScanlineSpriteCycle p c s) := by
  unfold executeScanlineSpriteCycle
  refine Keeps_bind F _ _ ?_ fun a ha => ?_
  · by_cases h1 : 0 ≤ c ∧ c ≤ 255
    · rw [if_pos h1]
      exact Keeps_ite F _ _ _
        (Keeps_ite F _ _ _ (renderSpritePixel_keeps F p hF c h1) (Keeps_some F p hF))
        (Keeps_some F p hF)
    · rw [if_neg h1]
      exact Keeps_some F p hF
  · refine Keeps_ite F _ _ _ (Keeps_ite F _ _ _ (Keeps_some F _ ha) (Keeps_some F a ha)) ?_
    refine Keeps_ite F _ _ _
      (Keeps_ite F _ _ _ (evaluateSprites_keeps F a ha s) (Keeps_some F a ha)) ?_
    exact Keeps_ite F _ _ _
      (Keeps_ite F _ _ _ (fetchSpriteTileData_keeps F hR a ha s) (Keeps_some F a ha))
      (Keeps_some F a ha)

/-- The two renderers return when the reads of the PPU memory return, and they keep every
component outside them. -/
theorem render_keeps (F : Unrendered ρ ν) (p : PPU ρ ν) (hF : p.unrendered = F)
    (hR : p.isRenderingEnabled = true → ReadsReturn F.vramMemory) (shouldRender : Bool) :
    Keeps F (render p shouldRender) := by
  unfold render
  by_cases he : p.isRenderingEnabled = true
  · rw [if_pos he]
    refine Keeps_bind F _ _ (executeScanlineBackgroundCycle_keeps F p hF (hR he) _ _)
      fun a ha => executeScanlineSpriteCycle_keeps F a ha (hR he) _ _
  · rw [if_neg he]
    exact Keeps_some F p hF

end

section
open ppu
variable {ρ ν : Type}

/-- The palette addresses are decoded to palette addresses. -/
theorem decodePPUAddress_palette (x : Int) :
    0x3F00 ≤ decodePPUAddress (0x3F00 ||| (x &&& 0x1F)) ∧
      decodePPUAddress (0x3F00 ||| (x &&& 0x1F)) ≤ 0x3F1F := by
  have h1 : x &&& 0x1F = x % 32 := by simpa using and_mask x 5
  have h2 : (0x3F00 : Int) ||| (x % 32) = 0x3F00 + x % 32 := by
    have := or_disjoint 0x3F 0 8 (by norm_num) (le_refl 0) (by norm_num)
    have h := or_disjoint 0x1F8 (x % 32) 5 (by norm_num) (by omega) (by norm_num; omega)
    norm_num at h
    exact h
  rw [h1, h2]
  have hx : 0 ≤ x % 32 ∧ x % 32 < 32 := by omega
  generalize x % 32 = y at hx
  obtain ⟨h0, h32⟩ := hx
  interval_cases y <;> decide

/-- The reads that `getScanlineVideo` makes never panic. -/
theorem read_palette_returns (m : vramMemory) (x : Int) :
    Returns (m.read (0x3F00 ||| (x &&& 0x1F))) := by
  have h := decodePPUAddress_palette x
  have h1 : ¬ (0 ≤ decodePPUAddress (0x3F00 ||| (x &&& 0x1F)) ∧
      decodePPUAddress (0x3F00 ||| (x &&& 0x1F)) ≤ 0x1FFF) := by omega
  have h2 : ¬ (0x2000 ≤ decodePPUAddress (0x3F00 ||| (x &&& 0x1F)) ∧
      decodePPUAddress (0x3F00 ||| (x &&& 0x1F)) < 0x3000) := by omega
  simp only [vramMemory.read, h1, h2, if_false]
  split_ifs <;> exact Returns_some _

theorem getScanlineVideoFrom_returns (paletteRGB : Int → Int) (p : PPU ρ ν) (l : List Int) :
    ∀ buffer : Int → Int, Returns (getScanlineVideoFrom paletteRGB p l buffer) := by
  induction l with
  | nil => intro buffer; exact Returns_some _
  | cons i rest ih =>
    intro buffer
    unfold getScanlineVideoFrom
    obtain ⟨v, hv⟩ := read_palette_returns p.vramMemory (p.scanlineOffscreenBuffer i)
    simp only [hv, Option.some_bind]
    exact ih _

theorem getScanlineVideo_returns (paletteRGB : Int → Int) (p : PPU ρ ν) :
    Returns (getScanlineVideo paletteRGB p) :=
  getScanlineVideoFrom_returns paletteRGB p _ _

/-- The reads of the nametables return when the nametable RAM has its two pages of 1024
cells. -/
theorem ReadNameTable_returns (c : cartridge.Cartridge) (pA pB : List Int)
    (hA : pA.length = 1024) (hB : pB.length = 1024) (a : Int) :
    Returns (c.ReadNameTable a [pA, pB]) := by
  have ho : 0 ≤ cartridge.getNameTableOffset a ∧ cartridge.getNameTableOffset a < 1024 := by
    unfold cartridge.getNameTableOffset
    rw [and_0x03FF]; omega
  have h0 : index? [pA, pB] 0 = some pA := rfl
  have h1 : index? [pA, pB] 1 = some pB := rfl
  unfold cartridge.Cartridge.ReadNameTable
  dsimp only
  split_ifs
  · rw [h0, Option.some_bind]
    exact ⟨_, index?_eq _ _ ho.1 (by rw [hA]; exact_mod_cast ho.2)⟩
  · rw [h1, Option.some_bind]
    exact ⟨_, index?_eq _ _ ho.1 (by rw [hB]; exact_mod_cast ho.2)⟩
  all_goals exact Returns_some _

/-- Every read of the memory that `newVRAMMemory` builds over a cartridge read from a ROM image
returns. -/
theorem newVRAMMemory_reads (rom : List (Fin 256)) :
    ReadsReturn (newVRAMMemory (some (cartridge.New rom))) := by
  intro a
  unfold vramMemory.read
  dsimp only
  split_ifs
  · exact ReadChrMemory_returns rom _
  · exact ReadNameTable_returns _ _ _ (List.length_replicate _ _) (List.length_replicate _ _) _
  all_goals exact Returns_some _

/-- The counters after the part "Determine scanline & frame" of a dot. -/
theorem determineScanlineAndFrame_counters (p : PPU ρ ν) :
    (determineScanlineAndFrame p).currentCycle
      = (if p.currentCycle + 1 = p.currentScanlineCyclesCount then 0 else p.currentCycle + 1) ∧
    (determineScanlineAndFrame p).currentScanline
      = (if p.currentCycle + 1 = p.currentScanlineCyclesCount then
          (if p.currentScanline + 1 = 262 then 0 else p.currentScanline + 1)
         else p.currentScanline) ∧
    (determineScanlineAndFrame p).currentScanlineCyclesCount
      = (if p.currentCycle + 1 = p.currentScanlineCyclesCount then 341
         else p.currentScanlineCyclesCount) ∧
    (determineScanlineAndFrame p).isOddFrame
      = (if p.currentCycle + 1 = p.currentScanlineCyclesCount ∧ p.currentScanline + 1 = 262
         then !p.isOddFrame else p.isOddFrame) := by
  have h262 : ScanlineCountInFrame = 262 := rfl
  have h341 : CyclesCountInScanline = 341 := rfl
  unfold determineScanlineAndFrame
  simp only [h262, h341]
  by_cases h1 : p.currentCycle + 1 = p.currentScanlineCyclesCount
  · by_cases h2 : p.currentScanline + 1 = 262
    · simp only [h1, h2, if_true, and_self]
    · simp only [h1, h2, if_true, if_false, and_false, and_self]
  · simp only [h1, if_false, false_and, and_self]

/-- The part "Determine scanline & frame" assigns the counters and the frame buffer only. -/
theorem determineScanlineAndFrame_others (p : PPU ρ ν) :
    (determineScanlineAndFrame p).ctrlReg = p.ctrlReg ∧
    (determineScanlineAndFrame p).maskReg = p.maskReg ∧
    (determineScanlineAndFrame p).statusReg = p.statusReg ∧
    (determineScanlineAndFrame p).vramMemory = p.vramMemory ∧
    (determineScanlineAndFrame p).vblReceiver = p.vblReceiver ∧
    (determineScanlineAndFrame p).canSetVblForFrame = p.canSetVblForFrame ∧
    (determineScanlineAndFrame p).vramAddressScrollReg = p.vramAddressScrollReg := by
  unfold determineScanlineAndFrame
  dsimp only
  split_ifs <;> exact ⟨rfl, rfl, rfl, rfl, rfl, rfl, rfl⟩

theorem testBit7_setInVblank_true (s : statusRegister) :
    (s.setInVblank true).value.testBit 7 = true := by
  simp [statusRegister.setInVblank, statusVblankOccurrence]

theorem testBit7_setInVblank_false (s : statusRegister) :
    (s.setInVblank false).value.testBit 7 = false := by
  simp [statusRegister.setInVblank, statusVblankOccurrence]

theorem isInVblank_eq (s : statusRegister) : s.isInVblank = s.value.testBit 7 := by
  unfold statusRegister.isInVblank
  have := and_bit_ne_zero s.value statusVblankOccurrence 7 (by simp [statusVblankOccurrence])
  by_cases hb : s.value.testBit 7 = true
  · rw [hb, decide_eq_true (this.2 hb)]
  · rw [decide_eq_false (fun h => hb (this.1 h))]
    simpa using hb

theorem execNMIOnVblEnabled_eq (c : ctrlRegister) :
    c.execNMIOnVblEnabled = c.value.testBit 7 := by
  unfold ctrlRegister.execNMIOnVblEnabled
  have := and_bit_ne_zero c.value ctrlExecNMIOnVblank 7 (by simp [ctrlExecNMIOnVblank])
  by_cases hb : c.value.testBit 7 = true
  · rw [hb, decide_eq_true (this.2 hb)]
  · rw [decide_eq_false (fun h => hb (this.1 h))]
    simpa using hb

theorem isBackgroundVisibilityEnabled_eq (m : maskRegister) :
    m.isBackgroundVisibilityEnabled = m.value.testBit 3 := by
  unfold maskRegister.isBackgroundVisibilityEnabled
  have := and_bit_ne_zero m.value maskBackgroundVisibility 3 (by simp [maskBackgroundVisibility])
  by_cases hb : m.value.testBit 3 = true
  · rw [hb, decide_eq_true (this.2 hb)]
  · rw [decide_eq_false (fun h => hb (this.1 h))]
    simpa using hb

theorem isSpriteVisibilityEnabled_eq (m : maskRegister) :
    m.isSpriteVisibilityEnabled = m.value.testBit 4 := by
  unfold maskRegister.isSpriteVisibilityEnabled
  have := and_bit_ne_zero m.value maskSpriteVisibility 4 (by simp [maskSpriteVisibility])
  by_cases hb : m.value.testBit 4 = true
  · rw [hb, decide_eq_true (this.2 hb)]
  · rw [decide_eq_false (fun h => hb (this.1 h))]
    simpa using hb

/-- The assignments of the dummy scanline: the length of the scanline and bit 7 of Status on
the dot 0, the VRAM address on the dots 256 and 303. -/
theorem dummyScanlineCycle_fields (q : PPU ρ ν) :
    (dummyScanlineCycle q).currentCycle = q.currentCycle ∧
    (dummyScanlineCycle q).currentScanline = q.currentScanline ∧
    (dummyScanlineCycle q).isOddFrame = q.isOddFrame ∧
    (dummyScanlineCycle q).maskReg = q.maskReg ∧
    (dummyScanlineCycle q).ctrlReg = q.ctrlReg ∧
    (dummyScanlineCycle q).vramMemory = q.vramMemory ∧
    (dummyScanlineCycle q).currentScanlineCyclesCount
      = (if q.currentCycle = 0 ∧ q.isOddFrame = true ∧ q.maskReg.value.testBit 3 = true
         then 340 else q.currentScanlineCyclesCount) ∧
    (dummyScanlineCycle q).vblReceiver = q.vblReceiver ∧
    (dummyScanlineCycle q).canSetVblForFrame = q.canSetVblForFrame ∧
    (dummyScanlineCycle q).statusReg.value.testBit 7
      = (if q.currentCycle = 0 then false else q.statusReg.value.testBit 7) := by
  unfold dummyScanlineCycle
  by_cases hc0 : q.currentCycle = 0
  · rw [if_pos hc0, if_pos hc0]
    refine ⟨rfl, rfl, rfl, rfl, rfl, rfl, ?_, rfl, rfl, ?_⟩
    · show (if q.isOddFrame = true ∧ q.maskReg.isBackgroundVisibilityEnabled = true
        then CyclesCountInScanline - 1 else q.currentScanlineCyclesCount) = _
      rw [isBackgroundVisibilityEnabled_eq]
      by_cases hb : q.isOddFrame = true ∧ q.maskReg.value.testBit 3 = true
      · rw [if_pos hb, if_pos ⟨hc0, hb⟩]; rfl
      · have nA : ¬ (q.currentCycle = 0 ∧ q.isOddFrame = true ∧
            q.maskReg.value.testBit 3 = true) := fun h => hb h.2
        rw [if_neg hb, if_neg nA]
    · simp [clearSpriteZeroInRangeFlag, statusRegister.setInVblank, statusVblankOccurrence,
        statusScanlineSpriteCount, statusSpriteZeroOccurrence]
  · have nA : ¬ (q.currentCycle = 0 ∧ q.isOddFrame = true ∧
        q.maskReg.value.testBit 3 = true) := fun h => hc0 h.1
    rw [if_neg hc0, if_neg hc0, if_neg nA]
    split_ifs <;> exact ⟨rfl, rfl, rfl, rfl, rfl, rfl, rfl, rfl, rfl, rfl⟩

/-- The assignments of a rendered scanline: the scanline buffer on the dot 0, the VRAM address
on the dot 256. -/
theorem renderScanlineCycle_fields (q : PPU ρ ν) :
    (renderScanlineCycle q).currentCycle = q.currentCycle ∧
    (renderScanlineCycle q).currentScanline = q.currentScanline ∧
    (renderScanlineCycle q).isOddFrame = q.isOddFrame ∧
    (renderScanlineCycle q).maskReg = q.maskReg ∧
    (renderScanlineCycle q).ctrlReg = q.ctrlReg ∧
    (renderScanlineCycle q).vramMemory = q.vramMemory ∧
    (renderScanlineCycle q).currentScanlineCyclesCount = q.currentScanlineCyclesCount ∧
    (renderScanlineCycle q).vblReceiver = q.vblReceiver ∧
    (renderScanlineCycle q).canSetVblForFrame = q.canSetVblForFrame ∧
    (renderScanlineCycle q).statusReg.value.testBit 7 = q.statusReg.value.testBit 7 := by
  unfold renderScanlineCycle
  split_ifs <;> exact ⟨rfl, rfl, rfl, rfl, rfl, rfl, rfl, rfl, rfl, rfl⟩

variable [VBLReceiver ρ] [VideoReceiver ν]

/-- The part "Scanline rendering" of a dot: it returns when the reads of the PPU memory return
or nothing is rendered, it keeps the dot, the scanline, the parity of the frame, the control
and mask registers and the PPU memory, and it assigns the length of the scanline, the VBL
receiver, the VBL lock and bit 7 of Status as stated. -/
theorem scanlineRendering_spec (paletteRGB : Int → Int) (q : PPU ρ ν)
    (hR : 20 ≤ q.currentScanline ∧ q.currentScanline ≤ 260 → q.isRenderingEnabled = true →
      ReadsReturn q.vramMemory) :
    ∃ q1, scanlineRendering paletteRGB q = some q1 ∧
      q1.currentCycle = q.currentCycle ∧ q1.currentScanline = q.currentScanline ∧
      q1.isOddFrame = q.isOddFrame ∧ q1.maskReg = q.maskReg ∧ q1.ctrlReg = q.ctrlReg ∧
      q1.vramMemory = q.vramMemory ∧
      q1.currentScanlineCyclesCount
        = (if q.currentScanline = 20 ∧ q.currentCycle = 0 ∧ q.isOddFrame = true ∧
              q.maskReg.value.testBit 3 = true then 340
           else q.currentScanlineCyclesCount) ∧
      q1.vblReceiver
        = (if q.currentScanline = 0 ∧ q.currentCycle = 2 ∧ q.ctrlReg.value.testBit 7 = true
           then VBLReceiver.ReceiveVBL q.vblReceiver else q.vblReceiver) ∧
      q1.canSetVblForFrame
        = (if q.currentScanline = 0 ∧ q.currentCycle = 2 then true else q.canSetVblForFrame) ∧
      q1.statusReg.value.testBit 7
        = (if q.currentScanline = 0 ∧ q.currentCycle = 0 then
            (q.canSetVblForFrame || q.statusReg.value.testBit 7)
           else if q.currentScanline = 20 ∧ q.currentCycle = 0 then false
           else q.statusReg.value.testBit 7) := by
  have hV : VblankStartScanline = 0 := rfl
  have hD : DummyRenderScanline = 20 := by decide
  have hF : FirstRenderScanline = 21 := by decide
  have hL : LastRenderScanline = 260 := by decide
  unfold scanlineRendering
  rw [hV, hD, hF, hL]
  by_cases hs0 : (0 : Int) = q.currentScanline
  · -- the scanline of the VBL start
    have hs : q.currentScanline = 0 := hs0.symm
    have nA : ¬ (q.currentScanline = 20 ∧ q.currentCycle = 0 ∧ q.isOddFrame = true ∧
        q.maskReg.value.testBit 3 = true) := fun h => by omega
    have nE : ¬ (q.currentScanline = 20 ∧ q.currentCycle = 0) := fun h => by omega
    rw [if_pos hs0, if_neg nA]
    by_cases hc0 : q.currentCycle = 0
    · have nB : ¬ (q.currentScanline = 0 ∧ q.currentCycle = 2 ∧
          q.ctrlReg.value.testBit 7 = true) := fun h => by omega
      have nC : ¬ (q.currentScanline = 0 ∧ q.currentCycle = 2) := fun h => by omega
      have pD : q.currentScanline = 0 ∧ q.currentCycle = 0 := ⟨hs, hc0⟩
      rw [if_pos hc0, if_neg nB, if_neg nC, if_pos pD]
      refine ⟨_, rfl, rfl, rfl, rfl, rfl, rfl, rfl, rfl, rfl, rfl, ?_⟩
      show (if q.canSetVblForFrame = true then q.statusReg.setInVblank true
        else q.statusReg).value.testBit 7 = _
      by_cases hcan : q.canSetVblForFrame = true
      · rw [if_pos hcan, testBit7_setInVblank_true, hcan]; rfl
      · rw [if_neg hcan]
        simp only [Bool.not_eq_true] at hcan
        rw [hcan, Bool.false_or]
    · have nD : ¬ (q.currentScanline = 0 ∧ q.currentCycle = 0) := fun h => hc0 h.2
      rw [if_neg hc0, if_neg nD, if_neg nE]
      by_cases hc2 : q.currentCycle = 2
      · have pC : q.currentScanline = 0 ∧ q.currentCycle = 2 := ⟨hs, hc2⟩
        rw [if_pos hc2, if_pos pC]
        refine ⟨_, rfl, rfl, rfl, rfl, rfl, rfl, rfl, rfl, ?_, rfl, rfl⟩
        show (if q.ctrlReg.execNMIOnVblEnabled = true then _ else _) = _
        rw [execNMIOnVblEnabled_eq]
        by_cases hb : q.ctrlReg.value.testBit 7 = true
        · have pB : q.currentScanline = 0 ∧ q.currentCycle = 2 ∧
              q.ctrlReg.value.testBit 7 = true := ⟨hs, hc2, hb⟩
          rw [if_pos hb, if_pos pB]
        · have nB : ¬ (q.currentScanline = 0 ∧ q.currentCycle = 2 ∧
              q.ctrlReg.value.testBit 7 = true) := fun h => hb h.2.2
          rw [if_neg hb, if_neg nB]
      · have nB : ¬ (q.currentScanline = 0 ∧ q.currentCycle = 2 ∧
            q.ctrlReg.value.testBit 7 = true) := fun h => hc2 h.2.1
        have nC : ¬ (q.currentScanline = 0 ∧ q.currentCycle = 2) := fun h => hc2 h.2
        rw [if_neg hc2, if_neg nB, if_neg nC]
        exact ⟨_, rfl, rfl, rfl, rfl, rfl, rfl, rfl, rfl, rfl, rfl, rfl⟩
  · have hs : ¬ q.currentScanline = 0 := fun h => hs0 h.symm
    have nB : ¬ (q.currentScanline = 0 ∧ q.currentCycle = 2 ∧
        q.ctrlReg.value.testBit 7 = true) := fun h => hs h.1
    have nC : ¬ (q.currentScanline = 0 ∧ q.currentCycle = 2) := fun h => hs h.1
    have nD : ¬ (q.currentScanline = 0 ∧ q.currentCycle = 0) := fun h => hs h.1
    rw [if_neg hs0, if_neg nB, if_neg nC, if_neg nD]
    by_cases hs20 : (20 : Int) = q.currentScanline
    · -- the dummy scanline
      have hs20' : q.currentScanline = 20 := hs20.symm
      rw [if_pos hs20]
      obtain ⟨u1, u2, u3, u4, u5, u6, u7, u8, u9, u10⟩ := dummyScanlineCycle_fields q
      have hen : (dummyScanlineCycle q).isRenderingEnabled = q.isRenderingEnabled := by
        simp only [PPU.isRenderingEnabled, u4]
      obtain ⟨q1, e, hk⟩ := render_keeps _ (dummyScanlineCycle q) rfl
        (fun he => by
          show ReadsReturn (dummyScanlineCycle q).vramMemory
          rw [u6]
          exact hR (by omega) (by rw [← hen]; exact he)) false
      refine ⟨q1, e, ?_, ?_, ?_, ?_, ?_, ?_, ?_, ?_, ?_, ?_⟩
      · exact (congrArg Unrendered.currentCycle hk).trans u1
      · exact (congrArg Unrendered.currentScanline hk).trans u2
      · exact (congrArg Unrendered.isOddFrame hk).trans u3
      · exact (congrArg Unrendered.maskReg hk).trans u4
      · exact (congrArg Unrendered.ctrlReg hk).trans u5
      · exact (congrArg Unrendered.vramMemory hk).trans u6
      · refine (congrArg Unrendered.currentScanlineCyclesCount hk).trans (u7.trans ?_)
        by_cases hA : q.currentCycle = 0 ∧ q.isOddFrame = true ∧
            q.maskReg.value.testBit 3 = true
        · have pA : q.currentScanline = 20 ∧ q.currentCycle = 0 ∧ q.isOddFrame = true ∧
              q.maskReg.value.testBit 3 = true := ⟨hs20', hA⟩
          rw [if_pos hA, if_pos pA]
        · have nA : ¬ (q.currentScanline = 20 ∧ q.currentCycle = 0 ∧ q.isOddFrame = true ∧
              q.maskReg.value.testBit 3 = true) := fun h => hA h.2
          rw [if_neg hA, if_neg nA]
      · exact (congrArg Unrendered.vblReceiver hk).trans u8
      · exact (congrArg Unrendered.canSetVblForFrame hk).trans u9
      · refine (congrArg Unrendered.inVblank hk).trans (u10.trans ?_)
        by_cases hc0 : q.currentCycle = 0
        · have pE : q.currentScanline = 20 ∧ q.currentCycle = 0 := ⟨hs20', hc0⟩
          rw [if_pos hc0, if_pos pE]
        · have nE : ¬ (q.currentScanline = 20 ∧ q.currentCycle = 0) := fun h => hc0 h.2
          rw [if_neg hc0, if_neg nE]
    · have hs20' : ¬ q.currentScanline = 20 := fun h => hs20 h.symm
      have nA : ¬ (q.currentScanline = 20 ∧ q.currentCycle = 0 ∧ q.isOddFrame = true ∧
          q.maskReg.value.testBit 3 = true) := fun h => hs20' h.1
      have nE : ¬ (q.currentScanline = 20 ∧ q.currentCycle = 0) := fun h => hs20' h.1
      rw [if_neg hs20, if_neg nA, if_neg nE]
      by_cases hsr : 21 ≤ q.currentScanline ∧ q.currentScanline ≤ 260
      · -- a rendered scanline
        rw [if_pos hsr]
        obtain ⟨u1, u2, u3, u4, u5, u6, u7, u8, u9, u10⟩ := renderScanlineCycle_fields q
        have hen : (renderScanlineCycle q).isRenderingEnabled = q.isRenderingEnabled := by
          simp only [PPU.isRenderingEnabled, u4]
        obtain ⟨q1, e, hk⟩ := render_keeps _ (renderScanlineCycle q) rfl
          (fun he => by
            show ReadsReturn (renderScanlineCycle q).vramMemory
            rw [u6]
            exact hR (by omega) (by rw [← hen]; exact he)) true
        have k1 : q1.currentCycle = q.currentCycle :=
          (congrArg Unrendered.currentCycle hk).trans u1
        have k2 : q1.currentScanline = q.currentScanline :=
          (congrArg Unrendered.currentScanline hk).trans u2
        have k3 : q1.isOddFrame = q.isOddFrame :=
          (congrArg Unrendered.isOddFrame hk).trans u3
        have k4 : q1.maskReg = q.maskReg := (congrArg Unrendered.maskReg hk).trans u4
        have k5 : q1.ctrlReg = q.ctrlReg := (congrArg Unrendered.ctrlReg hk).trans u5
        have k6 : q1.vramMemory = q.vramMemory := (congrArg Unrendered.vramMemory hk).trans u6
        have k7 : q1.currentScanlineCyclesCount = q.currentScanlineCyclesCount :=
          (congrArg Unrendered.currentScanlineCyclesCount hk).trans u7
        have k8 : q1.vblReceiver = q.vblReceiver :=
          (congrArg Unrendered.vblReceiver hk).trans u8
        have k9 : q1.canSetVblForFrame = q.canSetVblForFrame :=
          (congrArg Unrendered.canSetVblForFrame hk).trans u9
        have k10 : q1.statusReg.value.testBit 7 = q.statusReg.value.testBit 7 :=
          (congrArg Unrendered.inVblank hk).trans u10
        rw [e, Option.some_bind]
        obtain ⟨buffer, hbuf⟩ := getScanlineVideo_returns paletteRGB q1
        by_cases hlast : q1.currentCycle = q1.currentScanlineCyclesCount - 1
        · rw [if_pos hlast, hbuf, Option.some_bind]
          exact ⟨_, rfl, k1, k2, k3, k4, k5, k6, k7, k8, k9, k10⟩
        · rw [if_neg hlast]
          exact ⟨_, rfl, k1, k2, k3, k4, k5, k6, k7, k8, k9, k10⟩
      · rw [if_neg hsr]
        exact ⟨_, rfl, rfl, rfl, rfl, rfl, rfl, rfl, rfl, rfl, rfl, rfl⟩

/-- One dot: `executeCycle` returns when the reads of the PPU memory return or nothing is
rendered.  It advances the dot counter, wraps it at the length of the scanline, wraps the
scanline counter at 262 and then toggles the parity of the frame; the scanline 20 of an odd
frame with the background enabled gets the length 340; the VBL receiver is called on the dot 2
of the scanline 0 when bit 7 of the control register is set. -/
theorem executeCycle_step (paletteRGB : Int → Int) (p : PPU ρ ν)
    (hR : 20 ≤ (determineScanlineAndFrame p).currentScanline ∧
      (determineScanlineAndFrame p).currentScanline ≤ 260 →
      p.isRenderingEnabled = true → ReadsReturn p.vramMemory) :
    ∃ p1, executeCycle paletteRGB p = some p1 ∧
      p1.maskReg = p.maskReg ∧ p1.ctrlReg = p.ctrlReg ∧ p1.vramMemory = p.vramMemory ∧
      p1.currentCycle
        = (if p.currentCycle + 1 = p.currentScanlineCyclesCount then 0 else p.currentCycle + 1) ∧
      p1.currentScanline
        = (if p.currentCycle + 1 = p.currentScanlineCyclesCount then
            (if p.currentScanline + 1 = 262 then 0 else p.currentScanline + 1)
           else p.currentScanline) ∧
      p1.isOddFrame
        = (if p.currentCycle + 1 = p.currentScanlineCyclesCount ∧ p.currentScanline + 1 = 262
           then !p.isOddFrame else p.isOddFrame) ∧
      p1.currentScanlineCyclesCount
        = (if p1.currentScanline = 20 ∧ p1.currentCycle = 0 ∧ p1.isOddFrame = true ∧
              p.maskReg.value.testBit 3 = true then 340
           else if p.currentCycle + 1 = p.currentScanlineCyclesCount then 341
           else p.currentScanlineCyclesCount) ∧
      p1.vblReceiver
        = (if p1.currentScanline = 0 ∧ p1.currentCycle = 2 ∧ p.ctrlReg.value.testBit 7 = true
           then VBLReceiver.ReceiveVBL p.vblReceiver else p.vblReceiver) ∧
      p1.canSetVblForFrame
        = (if p1.currentScanline = 0 ∧ p1.currentCycle = 2 then true
           else p.canSetVblForFrame) ∧
      p1.statusReg.value.testBit 7
        = (if p1.currentScanline = 0 ∧ p1.currentCycle = 0 then
            (p.canSetVblForFrame || p.statusReg.value.testBit 7)
           else if p1.currentScanline = 20 ∧ p1.currentCycle = 0 then false
           else p.statusReg.value.testBit 7) := by
  obtain ⟨d1, d2, d3, d4⟩ := determineScanlineAndFrame_counters p
  obtain ⟨o1, o2, o3, o4, o5, o6, _⟩ := determineScanlineAndFrame_others p
  have hen : (determineScanlineAndFrame p).isRenderingEnabled = p.isRenderingEnabled := by
    simp only [PPU.isRenderingEnabled, o2]
  obtain ⟨p1, e, a1, a2, a3, a4, a5, a6, a7, a8, a9, a10⟩ :=
    scanlineRendering_spec paletteRGB (determineScanlineAndFrame p)
      (fun hs he => by rw [o4]; exact hR hs (by rw [← hen]; exact he))
  refine ⟨p1, e, by rw [a4, o2], by rw [a5, o1], by rw [a6, o4], by rw [a1, d1],
    by rw [a2, d2], by rw [a3, d4], ?_, ?_, ?_, ?_⟩
  · rw [a7, a1, a2, a3, o2, d3]
  · rw [a8, a1, a2, o1, o5]
  · rw [a9, a1, a2, o6]
  · rw [a10, a1, a2, o3, o6]

/-- The loop of `ExecuteCycles` over `a + b` dots is the loop over `a` dots followed by the loop
over `b` dots. -/
theorem executeCyclesLoop_add (paletteRGB : Int → Int) (a b : Nat) :
    ∀ p : PPU ρ ν, executeCyclesLoop paletteRGB (a + b) p
      = (executeCyclesLoop paletteRGB a p).bind (executeCyclesLoop paletteRGB b) := by
  induction a with
  | zero => intro p; simp [executeCyclesLoop]
  | succ a ih =>
    intro p
    have e : a + 1 + b = (a + b) + 1 := by omega
    rw [e]
    simp only [executeCyclesLoop]
    cases h : executeCycle paletteRGB p with
    | none => rfl
    | some p1 => simp only [Option.some_bind, ih]

/-- One more dot at the end of the loop of `ExecuteCycles`. -/
theorem executeCyclesLoop_succ (paletteRGB : Int → Int) (n : Nat) (p p1 : PPU ρ ν)
    (h : executeCyclesLoop paletteRGB n p = some p1) :
    executeCyclesLoop paletteRGB (n + 1) p = executeCycle paletteRGB p1 := by
  rw [executeCyclesLoop_add, h, Option.some_bind]
  simp [executeCyclesLoop]

end

section
open ppu
variable {ρ ν : Type}

theorem testBit7_setExecNMIOnVblEnabled_false (c : ctrlRegister) :
    (c.setExecNMIOnVblEnabled false).value.testBit 7 = false := by
  simp [ctrlRegister.setExecNMIOnVblEnabled, ctrlExecNMIOnVblank]

/-- A read of Status on the last dot of the scanline 261 clears the VBL flag, locks it for the
coming frame and clears bit 7 of the control register. -/
theorem ReadRegister_status_before_vbl (q : PPU ρ ν) (hs : q.currentScanline = 261)
    (hc : q.currentCycle = q.currentScanlineCyclesCount - 1) :
    ∃ q0, q.ReadRegister StatusRegID = some (q.statusReg.value, q0) ∧
      q0.currentScanline = q.currentScanline ∧ q0.currentCycle = q.currentCycle ∧
      q0.currentScanlineCyclesCount = q.currentScanlineCyclesCount ∧
      q0.canSetVblForFrame = false ∧ q0.ctrlReg.value.testBit 7 = false ∧
      q0.statusReg.value.testBit 7 = false ∧ q0.vblReceiver = q.vblReceiver := by
  have hW : WasteScanline = 261 := by decide
  unfold PPU.ReadRegister
  rw [if_pos rfl]
  dsimp only
  rw [hW, if_pos ⟨hs.symm, hc⟩]
  exact ⟨_, rfl, rfl, rfl, rfl, rfl, testBit7_setExecNMIOnVblEnabled_false _,
    testBit7_setInVblank_false _, rfl⟩

/-- A read of Status on the dot 0 or 1 of the scanline 0 clears the VBL flag and bit 7 of the
control register. -/
theorem ReadRegister_status_at_vbl (w : PPU ρ ν) (hs : w.currentScanline = 0)
    (hc : w.currentCycle ≤ 1) :
    ∃ w0, w.ReadRegister StatusRegID = some (w.statusReg.value, w0) ∧
      w0.currentScanline = w.currentScanline ∧ w0.currentCycle = w.currentCycle ∧
      w0.currentScanlineCyclesCount = w.currentScanlineCyclesCount ∧
      w0.ctrlReg.value.testBit 7 = false ∧
      w0.statusReg.value.testBit 7 = false ∧ w0.vblReceiver = w.vblReceiver := by
  have hW : WasteScanline = 261 := by decide
  have hV : VblankStartScanline = 0 := rfl
  have nW : ¬ ((261 : Int) = w.currentScanline ∧
      w.currentCycle = w.currentScanlineCyclesCount - 1) := fun h => by omega
  unfold PPU.ReadRegister
  rw [if_pos rfl]
  dsimp only
  rw [hW, hV, if_neg nW, if_pos ⟨hs.symm, hc⟩]
  exact ⟨_, rfl, rfl, rfl, rfl, testBit7_setExecNMIOnVblEnabled_false _,
    testBit7_setInVblank_false _, rfl⟩

/-- The rendering is enabled when bit 3 or bit 4 of Mask is set. -/
theorem isRenderingEnabled_eq (p : PPU ρ ν) :
    p.isRenderingEnabled = (p.maskReg.value.testBit 3 || p.maskReg.value.testBit 4) := by
  unfold PPU.isRenderingEnabled
  rw [isBackgroundVisibilityEnabled_eq, isSpriteVisibilityEnabled_eq]

variable [VBLReceiver ρ] [VideoReceiver ν]

/-- The first frame of a PPU that starts one dot before the VBL start with the rendering
disabled and NMI on VBL enabled: after `k` dots the PPU is on the dot `k - 1` of the frame, bit 7
of Status is set from the first dot to the last dot of scanline 19, and the VBL receiver has
been called once from the third dot on. -/
theorem executeCyclesLoop_first_frame (paletteRGB : Int → Int) (p0 : PPU ρ ν)
    (hm3 : p0.maskReg.value.testBit 3 = false) (hm4 : p0.maskReg.value.testBit 4 = false)
    (hc7 : p0.ctrlReg.value.testBit 7 = true)
    (hc : p0.currentCycle = -1) (hs : p0.currentScanline = 0)
    (hn : p0.currentScanlineCyclesCount = 341) (hl : p0.canSetVblForFrame = true)
    (hv : p0.statusReg.value.testBit 7 = false) (k : Nat) (hk : k ≤ 341 * 262) :
    ∃ p, executeCyclesLoop paletteRGB k p0 = some p ∧
      p.maskReg = p0.maskReg ∧ p.ctrlReg = p0.ctrlReg ∧
      p.currentScanlineCyclesCount = 341 ∧
      p.currentScanline * 341 + p.currentCycle + 1 = k ∧
      0 ≤ p.currentScanline ∧ -1 ≤ p.currentCycle ∧ p.currentCycle ≤ 340 ∧
      (1 ≤ k → 0 ≤ p.currentCycle) ∧
      p.canSetVblForFrame = true ∧
      p.statusReg.value.testBit 7 = decide (1 ≤ k ∧ k ≤ 6820) ∧
      p.vblReceiver
        = (if 3 ≤ k then VBLReceiver.ReceiveVBL p0.vblReceiver else p0.vblReceiver) := by
  induction k with
  | zero =>
    refine ⟨p0, rfl, rfl, rfl, hn, ?_, ?_, ?_, ?_, ?_, hl, ?_, ?_⟩
    · rw [hc, hs]; rfl
    · rw [hs]
    · rw [hc]
    · rw [hc]; decide
    · intro h; exact absurd h (by decide)
    · rw [hv]; rfl
    · rfl
  | succ k ih =>
    obtain ⟨p, e, i1, i2, i3, i4, i5, i6, i7, i8, i9, i10, i11⟩ := ih (by omega)
    have hen : p.isRenderingEnabled = false := by
      rw [isRenderingEnabled_eq, i1, hm3, hm4]; rfl
    obtain ⟨p1, e1, b1, b2, _, b4, b5, _, b7, b8, b9, b10⟩ :=
      executeCycle_step paletteRGB p (fun _ he => by rw [hen] at he; cases he)
    have nA : ¬ (p1.currentScanline = 20 ∧ p1.currentCycle = 0 ∧ p1.isOddFrame = true ∧
        p.maskReg.value.testBit 3 = true) := fun h => by
      have h3 := h.2.2.2
      rw [i1, hm3] at h3
      cases h3
    rw [if_neg nA, i3] at b7
    rw [i3] at b4 b5
    have hpos : p1.currentScanline * 341 + p1.currentCycle + 1 = ((k + 1 : Nat) : Int) ∧
        0 ≤ p1.currentScanline ∧ 0 ≤ p1.currentCycle ∧ p1.currentCycle ≤ 340 := by
      push_cast
      split_ifs at b4 b5 <;> omega
    obtain ⟨q1, q2, q3, q4⟩ := hpos
    push_cast at q1
    refine ⟨p1, (executeCyclesLoop_succ _ _ _ _ e).trans e1, b1.trans i1, b2.trans i2, ?_, ?_,
      q2, by omega, q4, fun _ => q3, ?_, ?_, ?_⟩
    · rw [b7]; split_ifs <;> rfl
    · push_cast; exact q1
    · rw [b9, i9]; split_ifs <;> rfl
    · rw [b10, i9, i10]
      by_cases hA : p1.currentScanline = 0 ∧ p1.currentCycle = 0
      · rw [if_pos hA]
        exact (decide_eq_true (by omega)).symm
      · rw [if_neg hA]
        by_cases hB : p1.currentScanline = 20 ∧ p1.currentCycle = 0
        · rw [if_pos hB]
          exact (decide_eq_false (by omega)).symm
        · rw [if_neg hB]
          exact decide_eq_decide.2 (by omega)
    · rw [b8, i11, i2, hc7]
      by_cases hA : p1.currentScanline = 0 ∧ p1.currentCycle = 2 ∧ true = true
      · have h2 : ¬ 3 ≤ k := by omega
        have h3 : 3 ≤ k + 1 := by omega
        rw [if_pos hA, if_neg h2, if_pos h3]
      · rw [if_neg hA]
        have : (3 ≤ k) ↔ (3 ≤ k + 1) := by
          constructor
          · intro h; omega
          · intro h
            by_contra h2
            exact hA ⟨by omega, by omega, rfl⟩
        by_cases h3 : 3 ≤ k
        · rw [if_pos h3, if_pos (this.1 h3)]
        · rw [if_neg h3, if_neg (fun h => h3 (this.2 h))]

/-- The dots of the scanline 0 with bit 7 of the control register clear: as long as the scanline
lasts the run returns, the dot counter advances, and the control register, the VBL receiver and
the VBL flag stay unless the dot 0 is run. -/
theorem executeCyclesLoop_vbl_scanline (paletteRGB : Int → Int) (p : PPU ρ ν)
    (hs : p.currentScanline = 0) (hc : 0 ≤ p.currentCycle)
    (hn : p.currentScanlineCyclesCount = 341) (hc7 : p.ctrlReg.value.testBit 7 = false)
    (j : Nat) (hj : p.currentCycle + j ≤ 340) :
    ∃ p1, executeCyclesLoop paletteRGB j p = some p1 ∧
      p1.currentScanline = 0 ∧ p1.currentCycle = p.currentCycle + j ∧
      p1.currentScanlineCyclesCount = 341 ∧ p1.ctrlReg = p.ctrlReg ∧
      p1.vblReceiver = p.vblReceiver ∧
      p1.statusReg.value.testBit 7 = p.statusReg.value.testBit 7 := by
  induction j with
  | zero => exact ⟨p, rfl, hs, by simp, hn, rfl, rfl, rfl⟩
  | succ j ih =>
    obtain ⟨p1, e, i1, i2, i3, i4, i5, i6⟩ := ih (by push_cast at hj; omega)
    push_cast at hj
    have hne : ¬ p1.currentCycle + 1 = p1.currentScanlineCyclesCount := by omega
    obtain ⟨d1, d2, d3, d4⟩ := determineScanlineAndFrame_counters p1
    obtain ⟨p2, e2, _, b2, _, b4, b5, _, b7, b8, _, b10⟩ :=
      executeCycle_step paletteRGB p1 (fun h _ => by
        rw [d2, if_neg hne] at h
        omega)
    rw [if_neg hne] at b4 b5
    have nA : ¬ (p2.currentScanline = 20 ∧ p2.currentCycle = 0 ∧ p2.isOddFrame = true ∧
        p1.maskReg.value.testBit 3 = true) := fun h => by omega
    have nB : ¬ (p2.currentScanline = 0 ∧ p2.currentCycle = 2 ∧
        p1.ctrlReg.value.testBit 7 = true) := fun h => by
      have h7 := h.2.2
      rw [i4, hc7] at h7
      cases h7
    have nC : ¬ (p2.currentScanline = 0 ∧ p2.currentCycle = 0) := fun h => by omega
    have nD : ¬ (p2.currentScanline = 20 ∧ p2.currentCycle = 0) := fun h => by omega
    rw [if_neg nA, if_neg hne] at b7
    rw [if_neg nB] at b8
    rw [if_neg nC, if_neg nD] at b10
    refine ⟨p2, (executeCyclesLoop_succ _ _ _ _ e).trans e2, by omega, ?_, by omega,
      b2.trans i4, b8.trans i5, b10.trans i6⟩
    push_cast
    omega

end

section
open ppu
variable {ρ ν : Type} [VBLReceiver ρ] [VideoReceiver ν]

/-- The three ways in which a dot moves the counters: within the scanline, to the next
scanline, to the next frame. -/
theorem executeCycle_counters (paletteRGB : Int → Int) (p : PPU ρ ν)
    (hR : p.isRenderingEnabled = true → ReadsReturn p.vramMemory) :
    ∃ p1, executeCycle paletteRGB p = some p1 ∧
      p1.maskReg = p.maskReg ∧ p1.vramMemory = p.vramMemory ∧
      ((p.currentCycle + 1 ≠ p.currentScanlineCyclesCount ∧
          p1.currentCycle = p.currentCycle + 1 ∧ p1.currentScanline = p.currentScanline ∧
          p1.isOddFrame = p.isOddFrame) ∨
        (p.currentCycle + 1 = p.currentScanlineCyclesCount ∧ p.currentScanline + 1 ≠ 262 ∧
          p1.currentCycle = 0 ∧ p1.currentScanline = p.currentScanline + 1 ∧
          p1.isOddFrame = p.isOddFrame) ∨
        (p.currentCycle + 1 = p.currentScanlineCyclesCount ∧ p.currentScanline + 1 = 262 ∧
          p1.currentCycle = 0 ∧ p1.currentScanline = 0 ∧
          p1.isOddFrame = !p.isOddFrame)) ∧
      p1.currentScanlineCyclesCount
        = (if p1.currentScanline = 20 ∧ p1.currentCycle = 0 ∧ p1.isOddFrame = true ∧
              p.maskReg.value.testBit 3 = true then 340
           else if p.currentCycle + 1 = p.currentScanlineCyclesCount then 341
           else p.currentScanlineCyclesCount) := by
  obtain ⟨p1, e1, b1, _, b3, b4, b5, b6, b7, _⟩ :=
    executeCycle_step paletteRGB p (fun _ he => hR he)
  refine ⟨p1, e1, b1, b3, ?_, b7⟩
  by_cases hw : p.currentCycle + 1 = p.currentScanlineCyclesCount
  · rw [if_pos hw] at b4 b5
    by_cases hf : p.currentScanline + 1 = 262
    · rw [if_pos hf] at b5
      rw [if_pos ⟨hw, hf⟩] at b6
      exact Or.inr (Or.inr ⟨hw, hf, b4, b5, b6⟩)
    · have nf : ¬ (p.currentCycle + 1 = p.currentScanlineCyclesCount ∧
          p.currentScanline + 1 = 262) := fun h => hf h.2
      rw [if_neg hf] at b5
      rw [if_neg nf] at b6
      exact Or.inr (Or.inl ⟨hw, hf, b4, b5, b6⟩)
  · have nf : ¬ (p.currentCycle + 1 = p.currentScanlineCyclesCount ∧
        p.currentScanline + 1 = 262) := fun h => hw h.1
    rw [if_neg hw] at b4 b5
    rw [if_neg nf] at b6
    exact Or.inl ⟨hw, b4, b5, b6⟩

/-- The counters of a PPU that starts one dot before the first dot of an odd frame, after `n`
dots with the mask register untouched.  With the background disabled every scanline has 341 dots
and the `n` dots are `j` frames and the dots up to the current one.  With the background enabled
they are `j` pairs of an odd frame of `341 * 262 - 1` dots and an even frame of `341 * 262`
dots, then either the dots of an odd frame up to the current one, less the dot that the
scanline 20 has lost, or an odd frame and the dots of an even frame up to the current one. -/
theorem executeCyclesLoop_counters (paletteRGB : Int → Int) (p0 : PPU ρ ν)
    (hc : p0.currentCycle = -1) (hs : p0.currentScanline = 0)
    (hn : p0.currentScanlineCyclesCount = 341) (ho : p0.isOddFrame = true)
    (hR : p0.isRenderingEnabled = true → ReadsReturn p0.vramMemory) (n : Nat) :
    ∃ p, executeCyclesLoop paletteRGB n p0 = some p ∧
      p.maskReg = p0.maskReg ∧ p.vramMemory = p0.vramMemory ∧
      0 ≤ p.currentScanline ∧ p.currentScanline ≤ 261 ∧ -1 ≤ p.currentCycle ∧
      p.currentCycle < p.currentScanlineCyclesCount ∧ p.currentScanlineCyclesCount ≤ 341 ∧
      (1 ≤ n → 0 ≤ p.currentCycle) ∧ (p.currentCycle = -1 → p.currentScanline = 0) ∧
      (p0.maskReg.value.testBit 3 = false → p.currentScanlineCyclesCount = 341 ∧
        ∃ j : Int, 0 ≤ j ∧
          (n : Int) - 1 = j * 89342 + p.currentScanline * 341 + p.currentCycle) ∧
      (p0.maskReg.value.testBit 3 = true → ∃ j : Int, 0 ≤ j ∧
        ((p.isOddFrame = true ∧
            p.currentScanlineCyclesCount = (if p.currentScanline = 20 then 340 else 341) ∧
            (n : Int) - 1 = j * 178683 + p.currentScanline * 341 + p.currentCycle
              - (if 20 < p.currentScanline then 1 else 0)) ∨
          (p.isOddFrame = false ∧ p.currentScanlineCyclesCount = 341 ∧
            (n : Int) - 1
              = j * 178683 + 89341 + p.currentScanline * 341 + p.currentCycle))) := by
  induction n with
  | zero =>
    refine ⟨p0, rfl, rfl, rfl, by omega, by omega, by omega, by omega, by omega,
      fun h => absurd h (by decide), fun _ => hs, fun _ => ⟨hn, 0, le_refl _, ?_⟩,
      fun _ => ⟨0, le_refl _, Or.inl ⟨ho, ?_, ?_⟩⟩⟩
    · rw [hs, hc]; rfl
    · rw [hs, hn]; rfl
    · rw [hs, hc]; rfl
  | succ n ih =>
    obtain ⟨p, e, i1, i2, i3, i4, i5, i6, i7, i8, i9, i10, i11⟩ := ih
    have hen : p.isRenderingEnabled = p0.isRenderingEnabled := by
      simp only [PPU.isRenderingEnabled, i1]
    obtain ⟨p1, e1, b1, b2, hstep, b7⟩ :=
      executeCycle_counters paletteRGB p (fun he => by rw [i2]; exact hR (hen ▸ he))
    rw [i1] at b7
    have hcases : p0.maskReg.value.testBit 3 = false ∨ p0.maskReg.value.testBit 3 = true := by
      cases p0.maskReg.value.testBit 3
      · exact Or.inl rfl
      · exact Or.inr rfl
    have hbase : 0 ≤ p1.currentScanline ∧ p1.currentScanline ≤ 261 ∧ 0 ≤ p1.currentCycle ∧
        p1.currentCycle < p1.currentScanlineCyclesCount ∧
        p1.currentScanlineCyclesCount ≤ 341 ∧
        (p0.maskReg.value.testBit 3 = false → p1.currentScanlineCyclesCount = 341 ∧
          ∃ j : Int, 0 ≤ j ∧
            ((n + 1 : Nat) : Int) - 1
              = j * 89342 + p1.currentScanline * 341 + p1.currentCycle) ∧
        (p0.maskReg.value.testBit 3 = true → ∃ j : Int, 0 ≤ j ∧
          ((p1.isOddFrame = true ∧
              p1.currentScanlineCyclesCount
                = (if p1.currentScanline = 20 then 340 else 341) ∧
              ((n + 1 : Nat) : Int) - 1 = j * 178683 + p1.currentScanline * 341
                + p1.currentCycle - (if 20 < p1.currentScanline then 1 else 0)) ∨
            (p1.isOddFrame = false ∧ p1.currentScanlineCyclesCount = 341 ∧
              ((n + 1 : Nat) : Int) - 1
                = j * 178683 + 89341 + p1.currentScanline * 341 + p1.currentCycle))) := by
      push_cast
      rcases hcases with hb | hb
      · -- the background is disabled
        obtain ⟨k1, j, hj, k2⟩ := i10 hb
        have nA : ¬ (p1.currentScanline = 20 ∧ p1.currentCycle = 0 ∧ p1.isOddFrame = true ∧
            p0.maskReg.value.testBit 3 = true) := fun h => by
          have h3 := h.2.2.2
          rw [hb] at h3
          cases h3
        rw [if_neg nA] at b7
        have hcount : p1.currentScanlineCyclesCount = 341 := by
          rw [b7]; split_ifs
          · rfl
          · exact k1
        refine ⟨?_, ?_, ?_, ?_, ?_, fun _ => ⟨hcount, ?_⟩, fun h => ?_⟩
        · rcases hstep with h | h | h <;> omega
        · rcases hstep with h | h | h <;> omega
        · rcases hstep with h | h | h <;> omega
        · rcases hstep with h | h | h <;> omega
        · omega
        · rcases hstep with h | h | h
          · exact ⟨j, hj, by omega⟩
          · exact ⟨j, hj, by omega⟩
          · exact ⟨j + 1, by omega, by omega⟩
        · rw [hb] at h; cases h
      · -- the background is enabled
        obtain ⟨j, hj, hfr⟩ := i11 hb
        rw [hb] at b7
        have hfalse : p0.maskReg.value.testBit 3 = false →
            p1.currentScanlineCyclesCount = 341 ∧ ∃ j : Int, 0 ≤ j ∧
              (n : Int) + 1 - 1 = j * 89342 + p1.currentScanline * 341 + p1.currentCycle :=
          fun h => by rw [hb] at h; cases h
        rcases hfr with ⟨f1, f2, f3⟩ | ⟨f1, f2, f3⟩
        · -- in an odd frame
          rcases hstep with ⟨h1, h2, h3, h4⟩ | ⟨h1, h2, h3, h4, h5⟩ | ⟨h1, h2, h3, h4, h5⟩
          · have o1 : p1.isOddFrame = true := h4.trans f1
            have nA : ¬ (p1.currentScanline = 20 ∧ p1.currentCycle = 0 ∧
                p1.isOddFrame = true ∧ true = true) := fun h => by omega
            rw [if_neg nA, if_neg h1] at b7
            refine ⟨by omega, by omega, by omega, by omega, by omega, hfalse,
              fun _ => ⟨j, hj, Or.inl ⟨o1, ?_, ?_⟩⟩⟩
            · rw [b7, f2, h3]
            · rw [h3, h2]; omega
          · have o1 : p1.isOddFrame = true := h5.trans f1
            by_cases h20 : p1.currentScanline = 20
            · rw [if_pos ⟨h20, h3, o1, rfl⟩] at b7
              refine ⟨by omega, by omega, by omega, by omega, by omega, hfalse,
                fun _ => ⟨j, hj, Or.inl ⟨o1, ?_, ?_⟩⟩⟩
              · rw [b7, if_pos h20]
              · split_ifs at f2 f3 ⊢ <;> omega
            · have nA : ¬ (p1.currentScanline = 20 ∧ p1.currentCycle = 0 ∧
                  p1.isOddFrame = true ∧ true = true) := fun h => h20 h.1
              rw [if_neg nA, if_pos h1] at b7
              refine ⟨by omega, by omega, by omega, by omega, by omega, hfalse,
                fun _ => ⟨j, hj, Or.inl ⟨o1, ?_, ?_⟩⟩⟩
              · rw [b7, if_neg h20]
              · split_ifs at f2 f3 ⊢ <;> omega
          · have o1 : p1.isOddFrame = false := by rw [h5, f1]; rfl
            have nA : ¬ (p1.currentScanline = 20 ∧ p1.currentCycle = 0 ∧
                p1.isOddFrame = true ∧ true = true) := fun h => by omega
            rw [if_neg nA, if_pos h1] at b7
            refine ⟨by omega, by omega, by omega, by omega, by omega, hfalse,
              fun _ => ⟨j, hj, Or.inr ⟨o1, b7, ?_⟩⟩⟩
            split_ifs at f2 f3 <;> omega
        · -- in an even frame
          have nA : ¬ (p1.currentScanline = 20 ∧ p1.currentCycle = 0 ∧
              p1.isOddFrame = true ∧ true = true) := fun h => by
            have h3 := h.2.2.1
            rcases hstep with ⟨_, _, _, h4⟩ | ⟨_, _, _, _, h5⟩ | ⟨_, _, _, h4, _⟩
            · rw [h4, f1] at h3; cases h3
            · rw [h5, f1] at h3; cases h3
            · omega
          rw [if_neg nA] at b7
          have hcount : p1.currentScanlineCyclesCount = 341 := by
            rw [b7]; split_ifs
            · rfl
            · exact f2
          rcases hstep with ⟨h1, h2, h3, h4⟩ | ⟨h1, h2, h3, h4, h5⟩ | ⟨h1, h2, h3, h4, h5⟩
          · exact ⟨by omega, by omega, by omega, by omega, by omega, hfalse,
              fun _ => ⟨j, hj, Or.inr ⟨h4.trans f1, hcount, by omega⟩⟩⟩
          · exact ⟨by omega, by omega, by omega, by omega, by omega, hfalse,
              fun _ => ⟨j, hj, Or.inr ⟨h5.trans f1, hcount, by omega⟩⟩⟩
          · have o1 : p1.isOddFrame = true := by rw [h5, f1]; rfl
            refine ⟨by omega, by omega, by omega, by omega, by omega, hfalse,
              fun _ => ⟨j + 1, by omega, Or.inl ⟨o1, ?_, ?_⟩⟩⟩
            · rw [hcount, h4]; rfl
            · rw [h4, h3]; simp; omega
    obtain ⟨q1, q2, q3, q4, q5, q6, q7⟩ := hbase
    exact ⟨p1, (executeCyclesLoop_succ _ _ _ _ e).trans e1, b1.trans i1, b2.trans i2, q1, q2,
      by omega, q4, q5, fun _ => q3, fun h => by omega, q6, q7⟩

end

section
open ppu
variable {ρ ν : Type}

/-- The three fields that `incrementBackgroundFineY` reads, as arithmetic. -/
theorem vram_fields (r : vramAddressScrollRegister) :
    r.backgroundFineY = r.address / 4096 % 8 ∧ r.backgroundTileY = r.address / 32 % 32 ∧
    r.nameTableIndex = r.address / 1024 % 4 ∧ r.backgroundTileX = r.address % 32 := by
  unfold vramAddressScrollRegister.backgroundFineY vramAddressScrollRegister.backgroundTileY
    vramAddressScrollRegister.nameTableIndex vramAddressScrollRegister.backgroundTileX
  rw [shr_eq_div, shr_eq_div, shr_eq_div]
  have a1 := and_mask (r.address / 2 ^ 12) 3
  have a2 := and_mask (r.address / 2 ^ 5) 5
  have a3 := and_mask (r.address / 2 ^ 10) 2
  have a4 := and_mask r.address 5
  norm_num at a1 a2 a3 a4 ⊢
  exact ⟨a1, a2, a3, a4⟩

/-- The address after the three assignments of `incrementBackgroundFineY`, for a coarse-Y below
32. -/
theorem set_fields (v f t n : Int) (hv : 0 ≤ v ∧ v < 0x8000) (hf : 0 ≤ f ∧ f < 8)
    (ht : 0 ≤ t ∧ t < 32) (hn : 0 ≤ n ∧ n < 4) :
    (((((v &&& 0x8FFF) ||| shl f 12) &&& 0xFC1F) ||| shl t 5) &&& 0xF3FF) ||| shl n 10
      = 4096 * f + 1024 * n + 32 * t + v % 32 := by
  rw [setBackgroundFineY_eq v f (by omega) hf,
    setBackgroundTileY_eq _ t (by omega) ht, setNameTableIndex_eq _ n (by omega) hn]
  omega

/-- The three assignments of `incrementBackgroundFineY` on the register. -/
theorem set_chain (r : vramAddressScrollRegister) (f t n : Int) :
    ((r.setBackgroundFineY f).setBackgroundTileY t).setNameTableIndex n
      = { r with address :=
          (((((r.address &&& 0x8FFF) ||| shl f 12) &&& 0xFC1F) ||| shl t 5) &&& 0xF3FF)
            ||| shl n 10 } := rfl

/-- The table `nametableIndexToVerticalndex` toggles bit 1 of the index. -/
theorem vertical_index (n : Int) (hn : 0 ≤ n ∧ n < 4) :
    index? nametableIndexToVerticalndex n = some ((n + 2) % 4) := by
  have h : n = 0 ∨ n = 1 ∨ n = 2 ∨ n = 3 := by omega
  rcases h with h | h | h | h <;> subst h <;> rfl

end

section
open ppu
variable {ρ ν : Type}

/-- The palette index that `renderBackgroundPixel` writes is below 16. -/
theorem backgroundPixel_range (a b c d : Prop) [Decidable a] [Decidable b] [Decidable c]
    [Decidable d] :
    let paletteIndex : Int := (if d then 8 else 0) ||| (if c then 4 else 0) |||
      (if b then 2 else 0) ||| (if a then 1 else 0)
    0 ≤ (if paletteIndex = 0x04 ∨ paletteIndex = 0x08 ∨ paletteIndex = 0x0C then 0x00
        else paletteIndex) ∧
      (if paletteIndex = 0x04 ∨ paletteIndex = 0x08 ∨ paletteIndex = 0x0C then 0x00
        else paletteIndex) ≤ 15 := by
  by_cases ha : a <;> by_cases hb : b <;> by_cases hc : c <;> by_cases hd : d <;>
    simp only [ha, hb, hc, hd, if_true, if_false] <;> decide

/-- Within the scanline `renderBackgroundPixel` writes one palette index below 16 at the dot. -/
theorem renderBackgroundPixel_writes (p : PPU ρ ν) (c : Int) (hc : 0 ≤ c ∧ c ≤ 255) :
    ∃ x, (0 ≤ x ∧ x ≤ 15) ∧ renderBackgroundPixel p c
      = some { p with
          scanlineOffscreenBuffer := fun j => if j = c then x else p.scanlineOffscreenBuffer j } := by
  have h : 0 ≤ c ∧ c < NESWidth := by unfold NESWidth; omega
  simp only [renderBackgroundPixel, PPU.writeScanlineBuffer, h, and_self, if_true]
  refine ⟨_, ?_, rfl⟩
  exact backgroundPixel_range _ _ _ _

/-- At the dot 303 the background renderer does nothing. -/
theorem executeScanlineBackgroundCycle_303 (q : PPU ρ ν) (shouldRender : Bool) :
    executeScanlineBackgroundCycle q 303 shouldRender = some q := by
  unfold executeScanlineBackgroundCycle
  rw [if_neg (by decide), if_pos (by decide), if_neg (by decide)]

/-- At the dot 303 the sprite renderer does nothing. -/
theorem executeScanlineSpriteCycle_303 (q : PPU ρ ν) (s : Int) :
    executeScanlineSpriteCycle q 303 s = some q := by
  unfold executeScanlineSpriteCycle
  rw [if_neg (by decide)]
  simp only [Option.some_bind]
  rw [if_neg (by decide), if_neg (by decide), if_pos (by decide), if_neg (by decide)]

/-- The renderers at the dot 303. -/
theorem render_303 (q : PPU ρ ν) (shouldRender : Bool) (h : q.currentCycle = 303) :
    render q shouldRender = some q := by
  unfold render
  split_ifs
  · rw [h, executeScanlineBackgroundCycle_303]
    show executeScanlineSpriteCycle q q.currentCycle q.currentScanline = _
    rw [h, executeScanlineSpriteCycle_303]
  · rfl

variable [VBLReceiver ρ] [VideoReceiver ν]

/-- The dot 303 of the scanline 20: the counter advances and `v` is loaded from `t` when the
rendering is enabled; nothing else changes. -/
theorem executeCycle_dot303 (paletteRGB : Int → Int) (p : PPU ρ ν)
    (hs : p.currentScanline = 20) (hc : p.currentCycle = 302)
    (hn : p.currentScanlineCyclesCount ≠ 303) :
    executeCycle paletteRGB p
      = some { p with
          currentCycle := 303
          vramAddressScrollReg := { p.vramAddressScrollReg with
            address :=
              if p.isRenderingEnabled then p.vramAddressScrollReg.tempAddress
              else p.vramAddressScrollReg.address } } := by
  have h1 : determineScanlineAndFrame p = { p with currentCycle := 303 } := by
    unfold determineScanlineAndFrame
    simp only [hc]
    rw [if_neg (by norm_num; exact fun h => hn h.symm)]
    norm_num
  have h2 : dummyScanlineCycle { p with currentCycle := 303 }
      = { p with
          currentCycle := 303
          vramAddressScrollReg := { p.vramAddressScrollReg with
            address :=
              if p.isRenderingEnabled then p.vramAddressScrollReg.tempAddress
              else p.vramAddressScrollReg.address } } := by
    unfold dummyScanlineCycle
    show (if (303 : Int) = 0 then _ else if (303 : Int) = 256 then _
      else if (303 : Int) = 303 then _ else _) = _
    rw [if_neg (by decide), if_neg (by decide), if_pos rfl]
    rfl
  have hv : ¬ VblankStartScanline = p.currentScanline := by rw [hs]; decide
  have hd : DummyRenderScanline = p.currentScanline := by rw [hs]; decide
  unfold executeCycle scanlineRendering
  rw [h1]
  show (if VblankStartScanline = p.currentScanline then _
    else if DummyRenderScanline = p.currentScanline then
      render (dummyScanlineCycle { p with currentCycle := 303 }) false
    else _) = _
  rw [if_neg hv, if_pos hd, h2, render_303 _ _ rfl]

/-- One cycle of `ExecuteCycles` is the body of its loop. -/
theorem ExecuteCycles_one (paletteRGB : Int → Int) (p : PPU ρ ν) :
    PPU.ExecuteCycles paletteRGB p 1 = executeCycle paletteRGB p := by
  show (executeCycle paletteRGB p).bind some = _
  cases executeCycle paletteRGB p <;> rfl

end

section
open ppu
variable {ρ ν : Type}

/-- The sprite evaluation over sprites other than the sprite 0 leaves the sprite renderer as it
is. -/
theorem evaluateSpritesFrom_renderer (s : Int) (l : List Int) (hl : ∀ i ∈ l, i ≠ 0) :
    ∀ (slot : Int) (q q1 : PPU ρ ν), evaluateSpritesFrom s l slot q = some q1 →
      q1.spriteRenderer = q.spriteRenderer := by
  induction l with
  | nil =>
    intro slot q q1 h
    unfold evaluateSpritesFrom at h
    cases h
    rfl
  | cons i rest ih =>
    intro slot q q1 h
    have hi : i ≠ 0 := hl i (List.mem_cons_self _ _)
    have hrest : ∀ j ∈ rest, j ≠ 0 := fun j hj => hl j (List.mem_cons_of_mem _ hj)
    unfold evaluateSpritesFrom at h
    dsimp only at h
    obtain ⟨y, -, h⟩ := Option.bind_eq_some.1 h
    split_ifs at h with h1 h2
    · obtain ⟨t, -, h⟩ := Option.bind_eq_some.1 h
      obtain ⟨a, -, h⟩ := Option.bind_eq_some.1 h
      obtain ⟨x, -, h⟩ := Option.bind_eq_some.1 h
      obtain ⟨m1, -, h⟩ := Option.bind_eq_some.1 h
      obtain ⟨m2, -, h⟩ := Option.bind_eq_some.1 h
      obtain ⟨m3, -, h⟩ := Option.bind_eq_some.1 h
      obtain ⟨m4, -, h⟩ := Option.bind_eq_some.1 h
      rw [ih hrest _ _ _ h]
    · cases h
      rfl
    · exact ih hrest _ _ _ h

/-- The flag `isSpriteZeroInRange` after the sprite evaluation: it is set when the sprite 0 is
in range, and it is never cleared. -/
theorem evaluateSprites_flag (p p1 : PPU ρ ν) (s : Int) (h : evaluateSprites p s = some p1) :
    p1.spriteRenderer.isSpriteZeroInRange
      = (p.spriteRenderer.isSpriteZeroInRange
          || isSpriteInRangeForNextScanline p (p.sprMemory.ram 0) s) := by
  have e : indices 64 = 0 :: (indices 64).tail := rfl
  have ht : ∀ i ∈ (indices 64).tail, i ≠ 0 := by decide
  unfold evaluateSprites at h
  rw [e] at h
  unfold evaluateSpritesFrom at h
  dsimp only at h
  rw [spriteMemory.read_eq _ _ (by decide), Option.some_bind] at h
  norm_num at h
  by_cases hin : isSpriteInRangeForNextScanline p (p.sprMemory.ram 0) s = true
  · rw [if_pos hin] at h
    obtain ⟨t, -, h⟩ := Option.bind_eq_some.1 h
    obtain ⟨a, -, h⟩ := Option.bind_eq_some.1 h
    obtain ⟨x, -, h⟩ := Option.bind_eq_some.1 h
    obtain ⟨m1, -, h⟩ := Option.bind_eq_some.1 h
    obtain ⟨m2, -, h⟩ := Option.bind_eq_some.1 h
    obtain ⟨m3, -, h⟩ := Option.bind_eq_some.1 h
    obtain ⟨m4, -, h⟩ := Option.bind_eq_some.1 h
    rw [evaluateSpritesFrom_renderer s _ ht _ _ _ h, hin, Bool.or_true]
  · rw [if_neg hin] at h
    rw [evaluateSpritesFrom_renderer s _ ht _ _ _ h]
    simp only [Bool.not_eq_true] at hin
    rw [hin, Bool.or_false]

theorem ite_eq_some_cases {α : Type} (C : Prop) [Decidable C] (A B : Option α) (d : α)
    (h : (if C then A else B) = some d) : (C ∧ A = some d) ∨ (¬ C ∧ B = some d) := by
  split_ifs at h with hc
  · exact Or.inl ⟨hc, h⟩
  · exact Or.inr ⟨hc, h⟩

/-- The sprite fetch over the slots of the list: the flag and the entries of the other slots are
as before, and the entry of a slot other than 0 is not marked as sprite zero. -/
theorem fetchSpriteTileDataFrom_marks (s : Int) (l : List Int) :
    ∀ (q q1 : PPU ρ ν), fetchSpriteTileDataFrom s l q = some q1 →
      q1.spriteRenderer.isSpriteZeroInRange = q.spriteRenderer.isSpriteZeroInRange ∧
      q1.sprMemory = q.sprMemory ∧
      (∀ j, j ∉ l → q1.spriteRenderer.pipelineMemory j = q.spriteRenderer.pipelineMemory j) ∧
      (∀ j, j ∈ l → j ≠ 0 → (q1.spriteRenderer.pipelineMemory j).isSpriteZero = false) := by
  induction l with
  | nil =>
    intro q q1 h
    unfold fetchSpriteTileDataFrom at h
    cases h
    exact ⟨rfl, rfl, fun _ _ => rfl, fun _ hj => absurd hj (List.not_mem_nil _)⟩
  | cons i rest ih =>
    intro q q1 h
    unfold fetchSpriteTileDataFrom at h
    dsimp only at h
    obtain ⟨y, -, h⟩ := Option.bind_eq_some.1 h
    obtain ⟨t, -, h⟩ := Option.bind_eq_some.1 h
    obtain ⟨a, -, h⟩ := Option.bind_eq_some.1 h
    obtain ⟨x, -, h⟩ := Option.bind_eq_some.1 h
    obtain ⟨d, hd, h⟩ := Option.bind_eq_some.1 h
    obtain ⟨k1, k2, k3, k4⟩ := ih _ _ h
    have hmark : i ≠ 0 → d.isSpriteZero = false := by
      intro hi
      rcases ite_eq_some_cases _ _ _ _ hd with ⟨-, hd⟩ | ⟨-, hd⟩
      · obtain ⟨_, -, hd⟩ := Option.map_eq_some'.1 hd
        rw [← hd]
        rfl
      · obtain ⟨lo, -, hd⟩ := Option.bind_eq_some.1 hd
        obtain ⟨hi1, -, hd⟩ := Option.bind_eq_some.1 hd
        cases hd
        simp only [hi, decide_False, Bool.and_false]
    refine ⟨k1, k2, ?_, ?_⟩
    · intro j hj
      rw [k3 j (fun hjr => hj (List.mem_cons_of_mem _ hjr))]
      have : j ≠ i := fun e => hj (e ▸ List.mem_cons_self _ _)
      simp only [this, if_false]
    · intro j hj h0
      by_cases hjr : j ∈ rest
      · exact k4 j hjr h0
      · have hji : j = i := by
          rcases List.mem_cons.1 hj with e | e
          · exact e
          · exact absurd e hjr
        rw [k3 j hjr]
        simp only [hji, if_true]
        exact hmark (hji ▸ h0)

/-- The entry 0 of the pipeline after the sprite fetch: it is marked as sprite zero only when
the flag `isSpriteZeroInRange` is set, and it is marked, with the X position of the slot 0 of the
secondary OAM, when the flag is set and that X position is not 0xFF. -/
theorem fetchSpriteTileData_entry0 (q q1 : PPU ρ ν) (s : Int)
    (h : fetchSpriteTileData q s = some q1) :
    ((q1.spriteRenderer.pipelineMemory 0).isSpriteZero = true →
      q.spriteRenderer.isSpriteZeroInRange = true) ∧
    (q.spriteRenderer.isSpriteZeroInRange = true → q.sprMemory.tempMemory 3 ≠ 0xFF →
      (q1.spriteRenderer.pipelineMemory 0).isSpriteZero = true ∧
      (q1.spriteRenderer.pipelineMemory 0).xPosition = q.sprMemory.tempMemory 3) ∧
    (∀ j, 1 ≤ j ∧ j ≤ 7 → (q1.spriteRenderer.pipelineMemory j).isSpriteZero = false) := by
  have e : indices 8 = 0 :: (indices 8).tail := rfl
  have ht : (0 : Int) ∉ (indices 8).tail := by decide
  have hall := fetchSpriteTileDataFrom_marks s (indices 8) q q1 h
  unfold fetchSpriteTileData at h
  rw [e] at h
  unfold fetchSpriteTileDataFrom at h
  dsimp only at h
  norm_num at h
  obtain ⟨y, -, h⟩ := Option.bind_eq_some.1 h
  obtain ⟨t, -, h⟩ := Option.bind_eq_some.1 h
  obtain ⟨a, -, h⟩ := Option.bind_eq_some.1 h
  obtain ⟨x, hx, h⟩ := Option.bind_eq_some.1 h
  obtain ⟨d, hd, h⟩ := Option.bind_eq_some.1 h
  obtain ⟨-, -, k3, -⟩ := fetchSpriteTileDataFrom_marks s _ _ _ h
  have h0 := k3 0 ht
  simp only [if_true] at h0
  have hx3 : x = q.sprMemory.tempMemory 3 := by
    simp only [spriteMemory.readTemp] at hx
    rw [if_pos (by decide)] at hx
    cases hx
    rfl
  refine ⟨?_, ?_, ?_⟩
  · intro hz
    rw [h0] at hz
    rcases ite_eq_some_cases _ _ _ _ hd with ⟨-, hd⟩ | ⟨-, hd⟩
    · obtain ⟨_, -, hd⟩ := Option.map_eq_some'.1 hd
      rw [← hd] at hz
      exact absurd hz (by decide)
    · obtain ⟨lo, -, hd⟩ := Option.bind_eq_some.1 hd
      obtain ⟨hi1, -, hd⟩ := Option.bind_eq_some.1 hd
      cases hd
      simp only [decide_True, Bool.and_true] at hz
      exact hz
  · intro hf hne
    rw [h0]
    rcases ite_eq_some_cases _ _ _ _ hd with ⟨hc, -⟩ | ⟨-, hd⟩
    · exact absurd (hx3 ▸ hc.2.2.2) hne
    · obtain ⟨lo, -, hd⟩ := Option.bind_eq_some.1 hd
      obtain ⟨hi1, -, hd⟩ := Option.bind_eq_some.1 hd
      cases hd
      simp only [hf, decide_True, Bool.and_true, true_and]
      exact hx3
  · intro j hj
    exact hall.2.2.2 j ((mem_indices 8 j).2 (by push_cast; omega)) (by omega)

end

section
open ppu
variable {ρ ν : Type}

/-- With the sprites disabled the loop of `renderSpritePixel` returns and leaves Status as it
is. -/
theorem renderSpritePixelFrom_status (c : Int) (hc : 0 ≤ c ∧ c ≤ 255) (l : List Int)
    (p : PPU ρ ν) (hm : p.maskReg.isSpriteVisibilityEnabled = false) :
    ∃ q, renderSpritePixelFrom p c l = some q ∧ q.statusReg = p.statusReg := by
  have hw : 0 ≤ c ∧ c < NESWidth := by unfold NESWidth; omega
  have hite : ∀ (C : Prop) [Decidable C] (A B : Option (PPU ρ ν)),
      (∃ q, A = some q ∧ q.statusReg = p.statusReg) →
      (∃ q, B = some q ∧ q.statusReg = p.statusReg) →
      ∃ q, (if C then A else B) = some q ∧ q.statusReg = p.statusReg := by
    intro C _ A B hA hB
    split_ifs
    · exact hA
    · exact hB
  induction l with
  | nil => exact ⟨p, rfl, rfl⟩
  | cons i rest ih =>
    unfold renderSpritePixelFrom
    dsimp only
    refine hite _ _ _ (hite _ _ _ ?_ ih) ih
    simp only [PPU.readScanlineBuffer, hw, and_self, if_true, Option.some_bind]
    have hin : ∀ (C : Prop) [Decidable C] (A B : PPU ρ ν) (f : PPU ρ ν → PPU ρ ν),
        (f A).statusReg = p.statusReg → (f B).statusReg = p.statusReg →
        ∃ q, ((if C then some A else some B).bind fun a => some (f a)) = some q ∧
          q.statusReg = p.statusReg := by
      intro C _ A B f hA hB
      split_ifs
      · exact ⟨_, rfl, hA⟩
      · exact ⟨_, rfl, hB⟩
    simp only [PPU.writeScanlineBuffer, hw, and_self, if_true]
    apply hin
    · simp only [hm, Bool.false_eq_true, false_and, and_false, if_false]
    · simp only [hm, Bool.false_eq_true, false_and, and_false, if_false]

/-- A sprite pixel that is not transparent, in the entry 0 of the pipeline over a transparent
background pixel, is written with bit 4 set, whatever the Mask. -/
theorem renderSpritePixel_entry0 (p : PPU ρ ν) (c : Int) (hc : 0 ≤ c ∧ c ≤ 255)
    (e : spriteRenderPipeline) (he : p.spriteRenderer.pipelineMemory 0 = e)
    (hx : 0 ≤ c - e.xPosition ∧ c - e.xPosition ≤ 7)
    (hlow : (e.tileDataLow &&& shl 1 (7 - (c - e.xPosition)).toNat) ≠ 0)
    (hbg : (p.scanlineOffscreenBuffer c &&& 0x3) = 0) :
    ∃ q idx, renderSpritePixel p c = some q ∧ q.scanlineOffscreenBuffer c = 0x10 ||| idx := by
  have hw : 0 ≤ c ∧ c < NESWidth := by unfold NESWidth; omega
  have e8 : indices 8 = 0 :: (indices 8).tail := rfl
  unfold renderSpritePixel
  rw [e8]
  unfold renderSpritePixelFrom
  dsimp only
  rw [he, if_pos hx, if_pos hlow]
  simp only [ne_eq, one_ne_zero, not_false_eq_true, true_or, if_true, PPU.readScanlineBuffer,
    PPU.writeScanlineBuffer, hw, and_self, Option.some_bind, hbg]
  exact ⟨_, _, rfl, if_pos rfl⟩

end

section

set_option maxRecDepth 100000 in
theorem executeOp_0x20 {σ : Type} [CPUMemory σ] (cpu : CPU σ) :
    executeOp cpu 0x20 = opJSR cpu ABS := rfl

set_option maxRecDepth 100000 in
theorem executeOp_0x60 {σ : Type} [CPUMemory σ] (cpu : CPU σ) :
    executeOp cpu 0x60 = opRTS cpu := rfl

set_option maxRecDepth 100000 in
theorem opCyclesLengthAt_0x20 : opCyclesLengthAt 0x20 = some 6 := by decide

set_option maxRecDepth 100000 in
theorem opCyclesLengthAt_0x60 : opCyclesLengthAt 0x60 = some 6 := by decide

/-- A read of the plain memory inside its 64 KiB. -/
theorem readMemory_plain (cpu : CPU TestCPUMemory) (a : Int) (h : 0 ≤ a ∧ a < 64 * 1024) :
    readMemory cpu a = some (cpu.memory.mem a, cpu) := by
  simp only [readMemory, CPUMemory.Read, TestCPUMemory.Read, h, and_self, if_true]

/-- A push on the plain memory with a byte as stack pointer. -/
theorem push_plain (cpu : CPU TestCPUMemory) (v : Int) (hS : 0 ≤ cpu.S ∧ cpu.S ≤ 255) :
    push cpu v = some { cpu with
        S := (cpu.S - 1) % 256
        memory := ⟨fun a => if a = 0x0100 + cpu.S then v else cpu.memory.mem a⟩ } := by
  have hr : (0 : Int) ≤ 0x0100 + cpu.S ∧ 0x0100 + cpu.S < 64 * 1024 := by omega
  have hs : (if cpu.S = 0x00 then 0xFF else cpu.S - 1) = (cpu.S - 1) % 256 := by
    split_ifs <;> omega
  simp only [push, writeMemory, CPUMemory.Write, TestCPUMemory.Write,
    stack_address cpu.S hS.1 hS.2, hr, and_self, if_true, Option.bind_eq_bind,
    Option.some_bind, gt_iff_lt, lt_self_iff_false, if_false, hs]

/-- A pop on the plain memory with a byte as stack pointer. -/
theorem pop_plain (c : CPU TestCPUMemory) (hc : 0 ≤ c.S ∧ c.S ≤ 255) :
    pop c = some (c.memory.mem (0x0100 + (c.S + 1) % 256), { c with S := (c.S + 1) % 256 }) := by
  have hs : (if c.S = 0xFF then 0x00 else c.S + 1) = (c.S + 1) % 256 := by
    split_ifs <;> omega
  have hr : (0 : Int) ≤ 0x0100 + (c.S + 1) % 256 ∧ 0x0100 + (c.S + 1) % 256 < 64 * 1024 := by
    omega
  simp only [pop, readMemory, CPUMemory.Read, TestCPUMemory.Read, hs,
    stack_address ((c.S + 1) % 256) (by omega) (by omega), hr, and_self, if_true]

end

section
variable {σ : Type} [CPUMemory σ]

/-- Every handler of the claims C36 and C37 is the address calculation followed by its part
`..At`; this holds by unfolding the definitions. -/
theorem handlers_at (cpu : CPU σ) (mode : AddrMode) :
    opDEC cpu mode = (calculateMemoryAddress cpu mode).bind (fun r => decAt r.2 r.1) ∧
    opINC cpu mode = (calculateMemoryAddress cpu mode).bind (fun r => incAt r.2 r.1) ∧
    opCMP cpu mode = (calculateMemoryAddress cpu mode).bind (fun r => cmpAt r.2 r.1) ∧
    opORA cpu mode = (calculateMemoryAddress cpu mode).bind (fun r => oraAt r.2 r.1) ∧
    opEOR cpu mode = (calculateMemoryAddress cpu mode).bind (fun r => eorAt r.2 r.1) ∧
    opAND cpu mode = (calculateMemoryAddress cpu mode).bind (fun r => andAt r.2 r.1) ∧
    opDCP cpu mode = (calculateMemoryAddress cpu mode).bind (fun r => dcpAt r.2 r.1) ∧
    opISC cpu mode = (calculateMemoryAddress cpu mode).bind (fun r => iscAt r.2 r.1) ∧
    opSLO cpu mode = (calculateMemoryAddress cpu mode).bind (fun r => sloAt r.2 r.1) ∧
    opRLA cpu mode = (calculateMemoryAddress cpu mode).bind (fun r => rlaAt r.2 r.1) ∧
    opSRE cpu mode = (calculateMemoryAddress cpu mode).bind (fun r => sreAt r.2 r.1) ∧
    opRRA cpu mode = (calculateMemoryAddress cpu mode).bind (fun r => rraAt r.2 r.1) ∧
    (mode ≠ ACC →
      opASL cpu mode = (calculateMemoryAddress cpu mode).bind (fun r => aslAt r.2 r.1) ∧
      opLSR cpu mode = (calculateMemoryAddress cpu mode).bind (fun r => lsrAt r.2 r.1) ∧
      opROL cpu mode = (calculateMemoryAddress cpu mode).bind (fun r => rolAt r.2 r.1) ∧
      opROR cpu mode = (calculateMemoryAddress cpu mode).bind (fun r => rorAt r.2 r.1)) := by
  refine ⟨rfl, rfl, rfl, rfl, rfl, rfl, rfl, rfl, rfl, rfl, rfl, rfl, fun h => ?_⟩
  simp only [opASL, opLSR, opROL, opROR, if_neg h]
  exact ⟨rfl, rfl, rfl, rfl⟩

/-- In binary mode `opADC` and `opSBC` are the address calculation followed by their parts
`adcAt` and `sbcAt`. -/
theorem arith_handlers_at (cpu : CPU σ) (mode : AddrMode)
    (h : cpu.decimalModeSupported = false) :
    opADC cpu mode = (calculateMemoryAddress cpu mode).bind (fun r => adcAt r.2 r.1) ∧
    opSBC cpu mode = (calculateMemoryAddress cpu mode).bind (fun r => sbcAt r.2 r.1) := by
  have hcalc : After (calculateMemoryAddress cpu mode) fun r =>
      r.2.decimalModeSupported = false :=
    After_calculateMemoryAddress cpu mode _ fun _ _ _ _ => h
  unfold opADC opSBC adcAt sbcAt
  cases hc : calculateMemoryAddress cpu mode with
  | none => exact ⟨rfl, rfl⟩
  | some r =>
    obtain ⟨a, c⟩ := r
    have hd : c.decimalModeSupported = false := hcalc _ hc
    have hread : After (readMemory c a) fun r => r.2.decimalModeSupported = false :=
      After_readMemory c a _ fun _ _ => hd
    simp only [Option.bind_eq_bind, Option.some_bind]
    cases hr : readMemory c a with
    | none => exact ⟨rfl, rfl⟩
    | some r1 =>
      obtain ⟨v, c1⟩ := r1
      have hd1 : c1.decimalModeSupported = false := hread _ hr
      simp only [Option.some_bind, hd1, or_true, if_true]
      constructor <;> trivial

end

section

/-- A write to the plain memory inside its 64 KiB. -/
theorem writeMemory_plain (cpu : CPU TestCPUMemory) (a v : Int) (h : 0 ≤ a ∧ a < 64 * 1024) :
    writeMemory cpu a v
      = some { cpu with memory := ⟨fun x => if x = a then v else cpu.memory.mem x⟩ } := by
  simp only [writeMemory, CPUMemory.Write, TestCPUMemory.Write, h, and_self, if_true,
    gt_iff_lt, lt_self_iff_false, if_false]

theorem or_zero_int (X : Int) : X ||| 0 = X := by
  apply eq_of_testBit_eq
  intro k
  rw [testBit_or, testBit_zero_int, Bool.or_false]

/-- Setting a flag under a condition is the disjunction with the flag or with 0. -/
theorem ite_or_flag (c : Prop) [Decidable c] (X f : Int) :
    (if c then X ||| f else X) = X ||| (if c then f else 0) := by
  split_ifs
  · rfl
  · rw [or_zero_int]

theorem testBit_ite_zero (c : Prop) [Decidable c] (f : Int) (k : Nat) :
    (if c then f else (0 : Int)).testBit k = (decide c && f.testBit k) := by
  split_ifs with h <;> simp [h, testBit_zero_int]

theorem testBit_0xFF (k : Nat) : (0xFF : Int).testBit k = decide (k < 8) := by
  have h : (0xFF : Int) = ((2 ^ 8 - 1 : Nat) : Int) := by norm_num
  rw [h]
  show Nat.testBit (2 ^ 8 - 1) k = _
  exact Nat.testBit_two_pow_sub_one 8 k

theorem and_0x80_gt (x : Int) : (x &&& 0x80) > 0 ↔ (x &&& 0x80) ≠ 0 := by
  rw [and_0x80]
  split_ifs <;> simp

/-- Bit 7 of the low byte. -/
theorem and_0x80_byte (t : Int) : ((t &&& 0xFF) &&& 0x80) ≠ 0 ↔ (t &&& 0x80) ≠ 0 := by
  rw [and_bit_ne_zero _ _ 7 testBit_128, and_bit_ne_zero _ _ 7 testBit_128, testBit_and]
  have : (0xFF : Int).testBit 7 = true := by decide
  rw [this, Bool.and_true]

/-- The flags of DCP are those of CMP after DEC. -/
theorem dcp_flags (A v P : Int) (hA : IsByte A) (hv : IsByte v) :
    (let t := A - v
     let R1 := andNot P (flagN ||| flagZ ||| flagC)
     let R2 := if (t &&& 0x80) ≠ 0 then R1 ||| flagN else R1
     let R3 := if t = 0 then R2 ||| flagZ else R2
     if (t &&& 0x100) = 0 then R3 ||| flagC else R3)
    = (let P1 := andNot P (flagN ||| flagZ)
       let P2 := if (v &&& 0x80) ≠ 0 then P1 ||| flagN else P1
       let P3 := if v = 0 then P2 ||| flagZ else P2
       let res := (A - v) &&& 0xFF
       let Q1 := andNot P3 (flagN ||| flagZ ||| flagC)
       let Q2 := if (res &&& 0x80) ≠ 0 then Q1 ||| flagN else Q1
       let Q3 := if res = 0 then Q2 ||| flagZ else Q2
       if A ≥ v then Q3 ||| flagC else Q3) := by
  unfold IsByte at hA hv
  have c1 : (((A - v) &&& 0xFF) &&& 0x80) ≠ 0 ↔ ((A - v) &&& 0x80) ≠ 0 := and_0x80_byte _
  have c2 : ((A - v) &&& 0xFF) = 0 ↔ A - v = 0 := by rw [and_0xFF]; omega
  have c3 : ((A - v) &&& 0x100) = 0 ↔ A ≥ v := by
    rw [and_bit_eq_zero _ _ 8 testBit_256, testBit8_eq, decide_eq_false_iff_not]
    omega
  simp only [c1, c2, c3, ite_or_flag]
  apply eq_of_testBit_eq
  intro k
  simp only [testBit_or, testBit_andNot, testBit_ite_zero, flagN_testBit, flagZ_testBit,
    flagC_testBit]
  by_cases h7 : k = 7 <;> by_cases h1 : k = 1 <;> by_cases h0 : k = 0 <;> simp [h7, h1, h0]

/-- DCP is DEC then CMP. -/
theorem dcpAt_eq (cpu : CPU TestCPUMemory) (a : Int) (ha : 0 ≤ a ∧ a < 64 * 1024)
    (hA : IsByte cpu.A) :
    Returns (dcpAt cpu a) ∧ dcpAt cpu a = (decAt cpu a).bind (fun c => cmpAt c a) := by
  have hv : IsByte ((cpu.memory.mem a - 1) &&& 0xFF) := by
    unfold IsByte; rw [and_0xFF]; omega
  simp only [dcpAt, decAt, cmpAt, opDecrease, opCompare, Option.bind_eq_bind,
    readMemory_plain _ a ha, Option.some_bind, writeMemory_plain _ a _ ha, if_true]
  rw [and_comm_int 0xFF (cpu.memory.mem a - 1)]
  refine ⟨Returns_some _, congrArg some ?_⟩
  congr 1
  exact dcp_flags cpu.A _ cpu.P hA hv

end

section

/-- The flags of SLO are those of ORA after ASL. -/
theorem slo_flags (A1 res M P : Int) :
    (let R1 := andNot P (flagN ||| flagZ ||| flagC)
     let R2 := R1 ||| (A1 &&& flagN)
     let R3 := if A1 = 0 then R2 ||| flagZ else R2
     if (M &&& 0x80) ≠ 0 then R3 ||| flagC else R3)
    = (let P1 := andNot P (flagN ||| flagZ ||| flagC)
       let P2 := if (res &&& 0x80) > 0 then P1 ||| flagN else P1
       let P3 := if res = 0 then P2 ||| flagZ else P2
       let P4 := if (M &&& 0x80) > 0 then P3 ||| flagC else P3
       let Q1 := andNot P4 (flagN ||| flagZ)
       let Q2 := if (A1 &&& 0x80) ≠ 0 then Q1 ||| flagN else Q1
       if A1 = 0 then Q2 ||| flagZ else Q2) := by
  simp only [and_0x80_gt, and_bit_ne_zero _ _ 7 testBit_128, ite_or_flag]
  apply eq_of_testBit_eq
  intro k
  simp only [testBit_or, testBit_and, testBit_andNot, testBit_ite_zero, flagN_testBit,
    flagZ_testBit, flagC_testBit]
  by_cases h7 : k = 7 <;> by_cases h1 : k = 1 <;> by_cases h0 : k = 0 <;> simp [h7, h1, h0]

/-- The flags of RLA are those of AND after ROL. -/
theorem rla_flags (A1 res M P : Int) :
    (let R1 := andNot P (flagN ||| flagZ ||| flagC)
     let R2 := if (A1 &&& 0x80) ≠ 0 then R1 ||| flagN else R1
     let R3 := if A1 = 0 then R2 ||| flagZ else R2
     if (M &&& 0x80) ≠ 0 then R3 ||| flagC else R3)
    = (let P1 := andNot P (flagN ||| flagZ ||| flagC)
       let P2 := if (res &&& 0x80) ≠ 0 then P1 ||| flagN else P1
       let P3 := if res = 0 then P2 ||| flagZ else P2
       let P4 := if (M &&& 0x80) ≠ 0 then P3 ||| flagC else P3
       let Q1 := andNot P4 (flagN ||| flagZ)
       let Q2 := if (A1 &&& 0x80) ≠ 0 then Q1 ||| flagN else Q1
       if A1 = 0 then Q2 ||| flagZ else Q2) := by
  simp only [ite_or_flag]
  apply eq_of_testBit_eq
  intro k
  simp only [testBit_or, testBit_and, testBit_andNot, testBit_ite_zero, flagN_testBit,
    flagZ_testBit, flagC_testBit]
  by_cases h7 : k = 7 <;> by_cases h1 : k = 1 <;> by_cases h0 : k = 0 <;> simp [h7, h1, h0]

/-- INC and DEC leave the carry as it is. -/
theorem carry_after_step (P v : Int) :
    ((if v = 0 then
        (if (v &&& 0x80) ≠ 0 then andNot P (flagN ||| flagZ) ||| flagN
          else andNot P (flagN ||| flagZ)) ||| flagZ
      else
        (if (v &&& 0x80) ≠ 0 then andNot P (flagN ||| flagZ) ||| flagN
          else andNot P (flagN ||| flagZ))) &&& flagC) = 0 ↔ (P &&& flagC) = 0 := by
  rw [and_bit_eq_zero _ _ 0 flagC_testBit, and_bit_eq_zero _ _ 0 flagC_testBit]
  simp only [ite_or_flag, testBit_or, testBit_andNot, testBit_ite_zero, flagN_testBit,
    flagZ_testBit]
  simp

/-- The carry after ROR is bit 0 of the value rotated. -/
theorem carry_after_ror (P res M : Int) :
    ((if (M &&& 0x01) ≠ 0 then
        (if res = 0 then
          (if (res &&& 0x80) ≠ 0 then andNot P (flagN ||| flagZ ||| flagC) ||| flagN
            else andNot P (flagN ||| flagZ ||| flagC)) ||| flagZ
         else
          (if (res &&& 0x80) ≠ 0 then andNot P (flagN ||| flagZ ||| flagC) ||| flagN
            else andNot P (flagN ||| flagZ ||| flagC))) ||| flagC
      else
        (if res = 0 then
          (if (res &&& 0x80) ≠ 0 then andNot P (flagN ||| flagZ ||| flagC) ||| flagN
            else andNot P (flagN ||| flagZ ||| flagC)) ||| flagZ
         else
          (if (res &&& 0x80) ≠ 0 then andNot P (flagN ||| flagZ ||| flagC) ||| flagN
            else andNot P (flagN ||| flagZ ||| flagC)))) &&& flagC) ≠ 0
      ↔ (M &&& 0x01) ≠ 0 := by
  rw [and_bit_ne_zero _ _ 0 flagC_testBit]
  simp only [ite_or_flag, testBit_or, testBit_andNot, testBit_ite_zero, flagN_testBit,
    flagZ_testBit, flagC_testBit]
  simp

/-- Bit 7 of the low byte, as a flag. -/
theorem and_0xFF_flagN (r : Int) : (r &&& 0xFF) &&& flagN = r &&& flagN := by
  apply eq_of_testBit_eq
  intro k
  simp only [testBit_and, testBit_0xFF, flagN_testBit]
  by_cases h7 : k = 7 <;> simp [h7]

/-- The flags of ISC are those of SBC after INC, for the same difference `r`. -/
theorem isc_flags (A v r P : Int) :
    (let R1 := andNot P (flagN ||| flagV ||| flagZ ||| flagC)
     let R2 := if ((A ^^^ v) &&& (A ^^^ (r &&& 0xFF)) &&& 0x80) ≠ 0 then R1 ||| flagV else R1
     let R3 := if (r &&& 0x100) = 0 then R2 ||| flagC else R2
     let R4 := if ((r &&& 0xFF) &&& (0xFF : Int)) = 0 then R3 ||| flagZ else R3
     R4 ||| ((r &&& 0xFF) &&& flagN))
    = (let P1 := andNot P (flagN ||| flagZ)
       let P2 := if (v &&& 0x80) ≠ 0 then P1 ||| flagN else P1
       let P3 := if v = 0 then P2 ||| flagZ else P2
       let Q1 := andNot P3 (flagN ||| flagV ||| flagZ ||| flagC)
       let Q2 := Q1 ||| (r &&& flagN)
       let Q3 := if ((A ^^^ v) &&& (A ^^^ (0xFF &&& r)) &&& 0x80) ≠ 0 then Q2 ||| flagV else Q2
       let Q4 := if (r &&& 0xFF) = 0 then Q3 ||| flagZ else Q3
       if (r &&& 0x100) = 0 then Q4 ||| flagC else Q4) := by
  have e1 : (r &&& 0xFF) &&& (0xFF : Int) = r &&& 0xFF := by
    rw [and_0xFF, and_0xFF]; omega
  simp only [e1, and_comm_int 0xFF r, and_0xFF_flagN, ite_or_flag]
  apply eq_of_testBit_eq
  intro k
  simp only [testBit_or, testBit_and, testBit_andNot, testBit_ite_zero, flagN_testBit,
    flagZ_testBit, flagC_testBit, flagV_testBit]
  by_cases h7 : k = 7 <;> by_cases h6 : k = 6 <;> by_cases h1 : k = 1 <;>
    by_cases h0 : k = 0 <;> simp [h7, h6, h1, h0]

/-- The flags of RRA are those of ADC after ROR, for the same sum `r`. -/
theorem rra_flags (A value r M P : Int) :
    (let R1 := andNot P (flagN ||| flagV ||| flagZ ||| flagC)
     let R2 := R1 ||| (r &&& flagN)
     let R3 := if (andNot (A ^^^ (r &&& 0xFF)) (A ^^^ value) &&& 0x80) ≠ 0
       then R2 ||| flagV else R2
     let R4 := if (r &&& 0xFF) = 0 then R3 ||| flagZ else R3
     if r > 0xFF then R4 ||| flagC else R4)
    = (let P1 := andNot P (flagN ||| flagZ ||| flagC)
       let P2 := if (value &&& 0x80) ≠ 0 then P1 ||| flagN else P1
       let P3 := if value = 0 then P2 ||| flagZ else P2
       let P4 := if (M &&& 0x01) ≠ 0 then P3 ||| flagC else P3
       let Q1 := andNot P4 (flagN ||| flagV ||| flagZ ||| flagC)
       let Q2 := Q1 ||| (r &&& flagN)
       let Q3 := if (andNot (A ^^^ (r &&& 0xFF)) (A ^^^ value) &&& 0x80) ≠ 0
         then Q2 ||| flagV else Q2
       let Q4 := if (r &&& 0xFF) = 0 then Q3 ||| flagZ else Q3
       if r > 0xFF then Q4 ||| flagC else Q4) := by
  simp only [ite_or_flag]
  apply eq_of_testBit_eq
  intro k
  simp only [testBit_or, testBit_and, testBit_andNot, testBit_ite_zero, flagN_testBit,
    flagZ_testBit, flagC_testBit, flagV_testBit]
  by_cases h7 : k = 7 <;> by_cases h6 : k = 6 <;> by_cases h1 : k = 1 <;>
    by_cases h0 : k = 0 <;> simp [h7, h6, h1, h0]

end

section

/-- SLO is ASL then ORA. -/
theorem sloAt_eq (cpu : CPU TestCPUMemory) (a : Int) (ha : 0 ≤ a ∧ a < 64 * 1024) :
    Returns (sloAt cpu a) ∧ sloAt cpu a = (aslAt cpu a).bind (fun c => oraAt c a) := by
  simp only [sloAt, aslAt, oraAt, opASLInt, opORAInt, Option.bind_eq_bind,
    readMemory_plain _ a ha, Option.some_bind, writeMemory_plain _ a _ ha, if_true]
  refine ⟨Returns_some _, congrArg some ?_⟩
  congr 1
  exact slo_flags _ _ _ _

/-- RLA is ROL then AND. -/
theorem rlaAt_eq (cpu : CPU TestCPUMemory) (a : Int) (ha : 0 ≤ a ∧ a < 64 * 1024) :
    Returns (rlaAt cpu a) ∧ rlaAt cpu a = (rolAt cpu a).bind (fun c => andAt c a) := by
  simp only [rlaAt, rolAt, andAt, opROLInt, Option.bind_eq_bind,
    readMemory_plain _ a ha, Option.some_bind, writeMemory_plain _ a _ ha, if_true]
  refine ⟨Returns_some _, congrArg some ?_⟩
  congr 1
  exact rla_flags _ _ _ _

/-- ISC is INC then SBC. -/
theorem iscAt_eq (cpu : CPU TestCPUMemory) (a : Int) (ha : 0 ≤ a ∧ a < 64 * 1024) :
    Returns (iscAt cpu a) ∧ iscAt cpu a = (incAt cpu a).bind (fun c => sbcAt c a) := by
  simp only [iscAt, incAt, sbcAt, opIncrease, Option.bind_eq_bind,
    readMemory_plain _ a ha, Option.some_bind, writeMemory_plain _ a _ ha, if_true,
    carry_after_step]
  rw [and_comm_int 0xFF (cpu.memory.mem a + 1)]
  refine ⟨Returns_some _, congrArg some ?_⟩
  congr 1
  · exact and_comm_int _ _
  · exact isc_flags _ _ _ _

/-- RRA is ROR then ADC. -/
theorem rraAt_eq (cpu : CPU TestCPUMemory) (a : Int) (ha : 0 ≤ a ∧ a < 64 * 1024) :
    Returns (rraAt cpu a) ∧ rraAt cpu a = (rorAt cpu a).bind (fun c => adcAt c a) := by
  simp only [rraAt, rorAt, adcAt, opRORInt, Option.bind_eq_bind,
    readMemory_plain _ a ha, Option.some_bind, writeMemory_plain _ a _ ha, if_true,
    carry_after_ror]
  refine ⟨Returns_some _, congrArg some ?_⟩
  congr 1
  exact rra_flags _ _ _ _ _

end

section

/-- The byte shifted right by SRE and LSR. -/
theorem lsr_byte (M : Int) (hM : IsByte M) : 0x7F &&& shr M 1 = M / 2 := by
  unfold IsByte at hM
  rw [and_comm_int, and_0x7F, shr_eq_div]
  omega

theorem and_0x01_ne (M : Int) : (M &&& 0x01) ≠ 0 ↔ M % 2 = 1 := by
  rw [and_bit_ne_zero _ _ 0 testBit_1, testBit_eq_decide, decide_eq_true_iff]
  simp

/-- The address calculation leaves the accumulator as it is. -/
theorem calculateMemoryAddress_A {σ : Type} [CPUMemory σ] (cpu c : CPU σ) (mode : AddrMode)
    (a : Int) (h : calculateMemoryAddress cpu mode = some (a, c)) : c.A = cpu.A :=
  After_calculateMemoryAddress cpu mode (fun r => r.2.A = cpu.A) (fun _ _ _ _ => rfl) _ h

end

section
variable {κ ρ ν : Type} [PrgDevice κ] [ppu.VBLReceiver ρ] [ppu.VideoReceiver ν]

/-- A write to the sprite RAM register stores the value at the OAM address and advances the
address modulo 256. -/
theorem WriteRegister_oam (p : ppu.PPU ρ ν) (v : Int)
    (ha : 0 ≤ p.sprRAMAddressReg.value ∧ p.sprRAMAddressReg.value ≤ 255) :
    RegisterDevice.WriteRegister p SpriteRAMIORegID v
      = some { p with
          sprMemory := { p.sprMemory with
            ram := fun i => if i = p.sprRAMAddressReg.value then v else p.sprMemory.ram i }
          sprRAMAddressReg := { value := (p.sprRAMAddressReg.value + 1) % 256 } } := by
  have h : 0 ≤ p.sprRAMAddressReg.value ∧ p.sprRAMAddressReg.value < 0x100 := by omega
  show ppu.PPU.WriteRegister p 4 v = _
  simp [ppu.PPU.WriteRegister, ppu.CtrlRegID, ppu.MaskRegID, ppu.SpriteRAMAddressRegID,
    SpriteRAMIORegID, ppu.spriteMemory.write, h, and_0xFF]

/-- The loop of the OAM DMA over `n` cells of the RAM range, for `n ≤ 256`. -/
theorem dmaLoop_oam (n : Nat) (hn : n ≤ 256) :
    ∀ (memory : NESCPUMemory κ (ppu.PPU ρ ν)) (p0 : ppu.PPU ρ ν) (addr : Int),
      memory.ppu = some p0 →
      (0 ≤ p0.sprRAMAddressReg.value ∧ p0.sprRAMAddressReg.value ≤ 255) →
      (0 ≤ addr ∧ addr + n ≤ 0x2000) →
      ∃ m1 p1, NESCPUMemory.dmaLoop n memory addr = some m1 ∧ m1.ppu = some p1 ∧
        m1.ram = memory.ram ∧ m1.cartridge = memory.cartridge ∧
        p1.sprRAMAddressReg.value = (p0.sprRAMAddressReg.value + n) % 256 ∧
        (∀ i : Int, 0 ≤ i ∧ i < n →
          p1.sprMemory.ram ((p0.sprRAMAddressReg.value + i) % 256)
            = memory.ram ((addr + i) % 2048)) ∧
        (∀ j : Int, (∀ i : Int, 0 ≤ i ∧ i < n → j ≠ (p0.sprRAMAddressReg.value + i) % 256) →
          p1.sprMemory.ram j = p0.sprMemory.ram j) := by
  induction n with
  | zero =>
    intro memory p0 addr hp ha _
    refine ⟨memory, p0, rfl, hp, rfl, rfl, ?_, ?_, fun _ _ => rfl⟩
    · simp only [Nat.cast_zero, add_zero]; omega
    · intro i hi; simp only [Nat.cast_zero] at hi; omega
  | succ n ih =>
    intro memory p0 addr hp ha hr
    have hr1 : 0 ≤ addr ∧ addr ≤ 0x1FFF := by push_cast at hr; omega
    obtain ⟨m1, p1, e, hp1, hram, hcart, hadr, hcells, hrest⟩ :=
      ih (by omega)
        { memory with ppu := some { p0 with
            sprMemory := { p0.sprMemory with
              ram := fun i => if i = p0.sprRAMAddressReg.value then memory.ram (addr % 2048)
                else p0.sprMemory.ram i }
            sprRAMAddressReg := { value := (p0.sprRAMAddressReg.value + 1) % 256 } } }
        _ (addr + 1) rfl (by dsimp only; omega) (by push_cast at hr; omega)
    dsimp only at hram hcart hadr hcells hrest
    refine ⟨m1, p1, ?_, hp1, hram, hcart, ?_, ?_, ?_⟩
    · simp only [NESCPUMemory.dmaLoop, NESCPUMemory.Read_ram memory addr hr1, hp,
        WriteRegister_oam p0 _ ha]
      exact e
    · rw [hadr]; push_cast; omega
    · intro i hi
      push_cast at hi
      by_cases h0 : i = 0
      · subst h0
        rw [hrest]
        · simp only [add_zero]
          rw [if_pos (by omega)]
        · intro i hi1
          omega
      · have := hcells (i - 1) (by omega)
        have e1 : ((p0.sprRAMAddressReg.value + 1) % 256 + (i - 1)) % 256
            = (p0.sprRAMAddressReg.value + i) % 256 := by omega
        have e2 : addr + 1 + (i - 1) = addr + i := by ring
        rw [e1, e2] at this
        exact this
    · intro j hj
      rw [hrest]
      · have := hj 0 ⟨le_refl _, by exact_mod_cast Nat.succ_pos n⟩
        rw [if_neg (by simp only [add_zero] at this; omega)]
      · intro i hi
        have := hj (i + 1) (by push_cast; omega)
        omega

end

section
variable {σ : Type} [CPUMemory σ]

/-- `writeMemory` changes the memory and does not lower the cycle count. -/
theorem After_writeMemory_ge (cpu : CPU σ) (address value : Int) (Q : CPU σ → Prop)
    (h : ∀ m oc, cpu.OpCycles ≤ oc → Q { cpu with memory := m, OpCycles := oc }) :
    After (writeMemory cpu address value) Q := by
  intro r hr
  unfold writeMemory at hr
  cases hm : CPUMemory.Write cpu.memory address value with
  | none => rw [hm] at hr; cases hr
  | some p =>
    obtain ⟨e, m⟩ := p
    rw [hm] at hr
    cases hr
    refine h m _ ?_
    split_ifs <;> omega

/-- `push` changes the memory and the stack pointer and does not lower the cycle count. -/
theorem After_push_ge (cpu : CPU σ) (value : Int) (Q : CPU σ → Prop)
    (h : ∀ m oc s, cpu.OpCycles ≤ oc → Q { cpu with memory := m, OpCycles := oc, S := s }) :
    After (push cpu value) Q := by
  unfold push
  apply After_bind
  apply After_writeMemory_ge
  intro m oc hoc
  apply After_some
  exact h m oc _ hoc

/-- The address calculators change the memory and the program counter and do not lower the
cycle count. -/
theorem After_calculateMemoryAddress_ge (cpu : CPU σ) (mode : AddrMode)
    (Q : Int × CPU σ → Prop)
    (h : ∀ (ea : Int) (m : σ) (pc oc : Int), cpu.OpCycles ≤ oc →
      Q (ea, { cpu with memory := m, PC := pc, OpCycles := oc })) :
    After (calculateMemoryAddress cpu mode) Q := by
  cases mode <;>
    simp only [calculateMemoryAddress, calculateMemoryAddressIMM, calculateMemoryAddressABS,
      calculateMemoryAddressZP, calculateMemoryAddressZPX, calculateMemoryAddressZPY,
      calculateMemoryAddressABSX, calculateMemoryAddressABSY, calculateMemoryAddressREL,
      calculateMemoryAddressINDX, calculateMemoryAddressINDY, calculateMemoryAddressIND] <;>
    repeat (first
      | (refine After_some _ _ (h _ _ _ _ ?_)
         dsimp only
         first | exact le_refl _ | (split_ifs <;> omega))
      | with_reducible apply After_bind
      | with_reducible apply After_readMemory
      | intro _)

omit [CPUMemory σ] in
theorem opLoad_OpCycles (cpu : CPU σ) (v : Int) : (opLoad cpu v).2.OpCycles = cpu.OpCycles := rfl
omit [CPUMemory σ] in
theorem opCompare_OpCycles (cpu : CPU σ) (r v : Int) :
    (opCompare cpu r v).OpCycles = cpu.OpCycles := rfl
omit [CPUMemory σ] in
theorem opDecrease_OpCycles (cpu : CPU σ) (v : Int) :
    (opDecrease cpu v).2.OpCycles = cpu.OpCycles := rfl
omit [CPUMemory σ] in
theorem opIncrease_OpCycles (cpu : CPU σ) (v : Int) :
    (opIncrease cpu v).2.OpCycles = cpu.OpCycles := rfl
omit [CPUMemory σ] in
theorem opASLInt_OpCycles (cpu : CPU σ) (v : Int) :
    (opASLInt cpu v).2.OpCycles = cpu.OpCycles := rfl
omit [CPUMemory σ] in
theorem opLSRInt_OpCycles (cpu : CPU σ) (v : Int) :
    (opLSRInt cpu v).2.OpCycles = cpu.OpCycles := rfl
omit [CPUMemory σ] in
theorem opROLInt_OpCycles (cpu : CPU σ) (v : Int) :
    (opROLInt cpu v).2.OpCycles = cpu.OpCycles := rfl
omit [CPUMemory σ] in
theorem opRORInt_OpCycles (cpu : CPU σ) (v : Int) :
    (opRORInt cpu v).2.OpCycles = cpu.OpCycles := rfl
omit [CPUMemory σ] in
theorem opEORInt_OpCycles (cpu : CPU σ) (v : Int) :
    (opEORInt cpu v).OpCycles = cpu.OpCycles := rfl
omit [CPUMemory σ] in
theorem opORAInt_OpCycles (cpu : CPU σ) (v : Int) :
    (opORAInt cpu v).OpCycles = cpu.OpCycles := rfl

omit [CPUMemory σ] in
theorem opBranch_OpCycles (cpu : CPU σ) (c : Bool) (j : Int) :
    cpu.OpCycles ≤ (opBranch cpu c j).OpCycles := by
  unfold opBranch
  split_ifs <;> (try dsimp only) <;> omega

set_option maxHeartbeats 1000000 in
/-- No instruction handler with an addressing mode lowers the cycle count. -/
theorem cyclesGrow_modeOps : ∀ f ∈ (modeOps : List (CPU σ → AddrMode → Option (CPU σ))),
    ∀ cpu mode, CyclesGrow cpu (f cpu mode) := by
  intro f hf cpu mode
  simp only [modeOps, List.mem_cons, List.mem_singleton, List.not_mem_nil, or_false] at hf
  repeat' (refine Or.elim hf (fun hf => ?_) (fun hf => ?_))
  all_goals subst hf
  all_goals unfold CyclesGrow
  all_goals first
    | unfold opADC | unfold opAND | unfold opASL | unfold opBCC | unfold opBCS | unfold opBEQ
    | unfold opBIT | unfold opBMI | unfold opBNE | unfold opBPL | unfold opBVC | unfold opBVS
    | unfold opCMP | unfold opCPX | unfold opCPY | unfold opDEC | unfold opEOR | unfold opINC
    | unfold opJMP | unfold opJSR | unfold opLDA | unfold opLDX | unfold opLDY | unfold opLSR
    | unfold opORA | unfold opROL | unfold opROR | unfold opSBC | unfold opSTA | unfold opSTX
    | unfold opSTY | unfold opDOP | unfold opTOP | unfold opLAX | unfold opAAX | unfold opDCP
    | unfold opISC | unfold opSLO | unfold opRLA | unfold opSRE | unfold opRRA
  repeat' (first
    | with_reducible apply After_bind
    | with_reducible apply After_calculateMemoryAddress_ge
    | with_reducible apply After_readMemory
    | with_reducible apply After_writeMemory_ge
    | with_reducible apply After_push_ge
    | with_reducible apply After_pop
    | with_reducible apply After_ite
    | with_reducible apply After_some
    | (intro h
       try simp only [opLoad_OpCycles, opCompare_OpCycles, opDecrease_OpCycles,
         opIncrease_OpCycles, opASLInt_OpCycles, opLSRInt_OpCycles, opROLInt_OpCycles,
         opRORInt_OpCycles, opEORInt_OpCycles, opORAInt_OpCycles] at h)
    | dsimp only)
  all_goals first
    | exact le_refl _
    | assumption
    | omega
    | exact le_trans (by assumption) (opBranch_OpCycles _ _ _)

/-- No instruction handler without an addressing mode lowers the cycle count. -/
theorem cyclesGrow_stackOps : ∀ f ∈ (stackOps : List (CPU σ → Option (CPU σ))),
    ∀ cpu, CyclesGrow cpu (f cpu) := by
  intro f hf cpu
  simp only [stackOps, List.mem_cons, List.mem_singleton, List.not_mem_nil, or_false] at hf
  repeat' (refine Or.elim hf (fun hf => ?_) (fun hf => ?_))
  all_goals subst hf
  all_goals unfold CyclesGrow
  all_goals first
    | unfold opBRK | unfold opPHA | unfold opPHP | unfold opPLA | unfold opPLP | unfold opRTI
    | unfold opRTS
  repeat' (first
    | with_reducible apply After_bind
    | with_reducible apply After_calculateMemoryAddress_ge
    | with_reducible apply After_readMemory
    | with_reducible apply After_writeMemory_ge
    | with_reducible apply After_push_ge
    | with_reducible apply After_pop
    | with_reducible apply After_ite
    | with_reducible apply After_some
    | (intro h; try dsimp only at h)
    | dsimp only)
  all_goals first
    | exact le_refl _
    | assumption
    | omega

/-- No opcode lowers the cycle count. -/
theorem executeOp_cyclesGrow (cpu : CPU σ) (opCode : Int) :
    CyclesGrow cpu (executeOp cpu opCode) := by
  refine executeOp_cases CyclesGrow cyclesGrow_modeOps cyclesGrow_stackOps ?_ ?_ ?_ ?_ ?_ ?_ ?_
    ?_ cpu opCode
  · intro f hf cpu
    simp only [transferOps, List.mem_cons, List.mem_singleton, List.not_mem_nil, or_false] at hf
    repeat' (refine Or.elim hf (fun hf => ?_) (fun hf => ?_))
    all_goals subst hf
    all_goals apply After_some
    all_goals exact le_refl _
  all_goals intros
  all_goals apply After_some
  all_goals exact le_refl _

set_option maxRecDepth 100000 in
/-- Every entry of the table of the base cycle counts is at least 2. -/
theorem opCyclesLengthAt_ge (opCode c : Int) (h : opCyclesLengthAt opCode = some c) :
    2 ≤ c := by
  unfold opCyclesLengthAt at h
  split_ifs at h
  have hall : ∀ x ∈ opCyclesLength, (2 : Int) ≤ x := by decide
  exact hall c (List.mem_iff_getElem?.2 ⟨_, h⟩)

/-- Servicing a RESET, an NMI or an IRQ that is not masked takes at least 7 cycles. -/
theorem executePendingInterruptOp_cycles (cpu : CPU σ)
    (hp : cpu.pendingInterrupt = RESET ∨ cpu.pendingInterrupt = NMI ∨
      (cpu.pendingInterrupt = IRQ ∧ (cpu.P &&& flagI) = 0)) :
    After (executePendingInterruptOp cpu) fun cpu1 => 7 ≤ cpu1.OpCycles := by
  unfold executePendingInterruptOp
  have hN : ¬ (NMI = RESET) := by decide
  have hI : ¬ (IRQ = RESET) ∧ ¬ (IRQ = NMI) := by decide
  rcases hp with h | h | ⟨h, h2⟩
  · simp only [h, if_true]
    repeat' (first
      | with_reducible apply After_bind
      | with_reducible apply After_readMemory
      | with_reducible apply After_push_ge
      | with_reducible apply After_some
      | (intro h; try dsimp only at h)
      | dsimp only)
    all_goals omega
  · simp only [h, hN, if_true, if_false]
    repeat' (first
      | with_reducible apply After_bind
      | with_reducible apply After_readMemory
      | with_reducible apply After_push_ge
      | with_reducible apply After_some
      | (intro h; try dsimp only at h)
      | dsimp only)
    all_goals omega
  · simp only [h, h2, hI.1, hI.2, if_true, if_false, and_self]
    repeat' (first
      | with_reducible apply After_bind
      | with_reducible apply After_readMemory
      | with_reducible apply After_push_ge
      | with_reducible apply After_some
      | (intro h; try dsimp only at h)
      | dsimp only)
    all_goals omega

/-- `ExecuteOp` returns at least 2 cycles unless it finds a masked IRQ or a pending interrupt
of no known type. -/
theorem ExecuteOp_cycles (cpu : CPU σ)
    (hp : cpu.pendingInterrupt = 0 ∨ cpu.pendingInterrupt = RESET ∨ cpu.pendingInterrupt = NMI ∨
      (cpu.pendingInterrupt = IRQ ∧ (cpu.P &&& flagI) = 0)) :
    After (ExecuteOp cpu) fun r => 2 ≤ r.1 := by
  unfold ExecuteOp
  by_cases h0 : cpu.pendingInterrupt = 0
  · have n0 : ¬ cpu.pendingInterrupt ≠ 0 := fun h => h h0
    rw [if_neg n0]
    apply After_bind
    apply After_readMemory
    intro v m
    dsimp only
    apply After_bind
    intro c hc
    have h2 := opCyclesLengthAt_ge v c hc
    apply After_bind
    refine After_mono _ _ _ (executeOp_cyclesGrow _ v) ?_
    intro cpu1 h1
    apply After_some
    exact le_trans h2 h1
  · rw [if_pos h0]
    have hp1 : cpu.pendingInterrupt = RESET ∨ cpu.pendingInterrupt = NMI ∨
        (cpu.pendingInterrupt = IRQ ∧ (cpu.P &&& flagI) = 0) := by
      rcases hp with h | h
      · exact absurd h h0
      · exact h
    apply After_bind
    refine After_mono _ _ _ (executePendingInterruptOp_cycles cpu hp1) ?_
    intro cpu1 h1
    apply After_some
    exact le_trans (by norm_num) h1

end

section
open cartridge

/-- With a PRG count of 0 in the header the PRG bank list is empty, every entry of the PRG map
is its slot number, and no read of the PRG ROM range returns. -/
theorem New_noPrg (rom : List (Fin 256)) (hp : headerAt (readBuffer rom 16).1 4 = 0) :
    (cartridge.New rom).memory.prgROM = [] ∧
    (∀ i, 0 ≤ i ∧ i ≤ 31 → index? (cartridge.New rom).prgROMMap i = some i) ∧
    ∀ a, 0x8000 ≤ a ∧ a ≤ 0xFFFF → (cartridge.New rom).ReadPrgMemory a = none := by
  have hnil : (cartridge.New rom).memory.prgROM = [] := by
    obtain ⟨_, hlen, _⟩ := New_prgROMMap rom 0 (by decide)
    rw [hp] at hlen
    exact List.eq_nil_of_length_eq_zero (by omega)
  refine ⟨hnil, ?_, ?_⟩
  · intro i hi
    obtain ⟨hmap, _, _⟩ := New_prgROMMap rom i hi
    rw [hmap, hp]
    have h1 : (16 * 0 - 1 : Int) = -1 := by norm_num
    rw [h1]
    congr 1
    apply eq_of_testBit_eq
    intro k
    have hm : (-1 : Int).testBit k = true := by
      have e : (-1 : Int) = Int.negSucc 0 := rfl
      rw [e]
      simp [Int.testBit]
    simp [hm]
  · intro a ha
    have hs : 0 ≤ shr (a &&& 0x7FFF) 10 ∧ shr (a &&& 0x7FFF) 10 ≤ 31 := by
      rw [and_0x7FFF, shr_eq_div]; norm_num; omega
    obtain ⟨hmap, _, _⟩ := New_prgROMMap rom _ hs
    have hpage : (a &&& 0xF000) = 4096 * (a / 4096 % 16) := and_0xF000 a (by omega)
    have h1 : ¬ ((a &&& 0xF000) = 0x4000 ∨ (a &&& 0xF000) = 0x5000) := by rw [hpage]; omega
    have h2 : ¬ ((a &&& 0xF000) = 0x6000 ∨ (a &&& 0xF000) = 0x7000) := by rw [hpage]; omega
    unfold Cartridge.ReadPrgMemory
    simp only [h1, h2, if_false, hmap, Option.some_bind, hnil]
    simp [index?]

end

/-- The cell `k` of a slice after the assignment of `v` to its cell `i`. -/
theorem index?_set {α : Type} (s : List α) (i k : Int) (v : α) (h0 : 0 ≤ i)
    (h1 : i < s.length) :
    index? (s.set i.toNat v) k = if k = i then some v else index? s k := by
  unfold index?
  by_cases hk : k < 0
  · have hne : k ≠ i := by omega
    simp only [hk, if_true, hne, if_false]
  · simp only [hk, if_false]
    by_cases hki : k = i
    · subst hki
      simp only [if_true]
      rw [List.getElem?_set_self]
      omega
    · have hne : i.toNat ≠ k.toNat := by omega
      simp only [hki, if_false]
      exact List.getElem?_set_ne hne

section
open cartridge

/-- A cartridge of the valid shape returns a value for every CPU address. -/
theorem ReadPrgMemory_valid {c : Cartridge} (h : c.Valid) (a : Int) :
    ∃ v, c.ReadPrgMemory a = some v := by
  unfold Cartridge.ReadPrgMemory
  dsimp only
  split_ifs with h1 h2
  · exact ⟨_, rfl⟩
  · exact ⟨_, index?_eq _ _ (by rw [and_0x1FFF]; omega)
      (by have := h.1; rw [and_0x1FFF]; omega)⟩
  · have hs : 0 ≤ shr (a &&& 0x7FFF) 10 ∧ shr (a &&& 0x7FFF) 10 ≤ 31 := by
      rw [and_0x7FFF, shr_eq_div]; norm_num; omega
    obtain ⟨e, cells, hmap, hcells, hlen⟩ := h.2.1 _ hs
    rw [hmap, Option.some_bind, hcells, Option.some_bind]
    exact ⟨_, index?_eq _ _ (by rw [and_0x03FF]; omega) (by rw [hlen, and_0x03FF]; omega)⟩

/-- A write to the PRG memory of a cartridge of the valid shape returns and keeps the shape. -/
theorem WritePrgMemory_valid {c : Cartridge} (h : c.Valid) (a w : Int) :
    ∃ c1, c.WritePrgMemory a w = some c1 ∧ c1.Valid := by
  unfold Cartridge.WritePrgMemory
  dsimp only
  split_ifs with h1
  · have h0 : 0 ≤ a &&& 0x1FFF ∧ a &&& 0x1FFF < c.memory.prgRAM.length := by
      have := h.1
      rw [and_0x1FFF]; omega
    rw [setIndex?_eq _ _ _ h0.1 h0.2]
    refine ⟨_, rfl, ?_, h.2.1, h.2.2⟩
    show (8192 : Int) ≤ (c.memory.prgRAM.set _ w).length
    rw [List.length_set]
    exact h.1
  · exact ⟨c, rfl, h⟩

/-- A cartridge of the valid shape returns a value for every PPU address. -/
theorem ReadChrMemory_valid {c : Cartridge} (h : c.Valid) (a : Int) :
    ∃ v, c.ReadChrMemory a = some v := by
  unfold Cartridge.ReadChrMemory
  split_ifs with h1
  · have hs : 0 ≤ shr (a &&& 0x1FFF) 10 ∧ shr (a &&& 0x1FFF) 10 ≤ 7 := by
      rw [and_0x1FFF, shr_eq_div]; norm_num; omega
    obtain ⟨e, cells, hmap, hcells, hlen⟩ := h.2.2 _ hs
    rw [hmap, Option.some_bind, hcells, Option.some_bind]
    exact ⟨_, index?_eq _ _ (by rw [and_0x03FF]; omega) (by rw [hlen, and_0x03FF]; omega)⟩
  · exact ⟨_, rfl⟩

/-- An index that `index?` accepts is inside the slice. -/
theorem index?_bounds {α : Type} (s : List α) (i : Int) (x : α) (h : index? s i = some x) :
    0 ≤ i ∧ i < s.length := by
  unfold index? at h
  by_cases hi : i < 0
  · simp [hi] at h
  · simp only [hi, if_false] at h
    have := (List.getElem?_eq_some.mp h).1
    omega

/-- A write to the CHR memory of a cartridge of the valid shape returns and keeps the shape. -/
theorem WriteChrMemory_valid {c : Cartridge} (h : c.Valid) (a w : Int) :
    ∃ c1, c.WriteChrMemory a w = some c1 ∧ c1.Valid := by
  unfold Cartridge.WriteChrMemory
  split_ifs with h1 h2
  · have hs : 0 ≤ shr (a &&& 0x1FFF) 10 ∧ shr (a &&& 0x1FFF) 10 ≤ 7 := by
      rw [and_0x1FFF, shr_eq_div]; norm_num; omega
    obtain ⟨e, cells, hmap, hcells, hlen⟩ := h.2.2 _ hs
    have he := index?_bounds _ _ _ hcells
    have ho : 0 ≤ a &&& 0x03FF ∧ a &&& 0x03FF < cells.length := by
      rw [hlen, and_0x03FF]; omega
    rw [hmap, Option.some_bind, hcells, Option.some_bind, setIndex?_eq _ _ _ ho.1 ho.2,
      Option.some_bind, setIndex?_eq _ _ _ he.1 he.2]
    refine ⟨_, rfl, h.1, h.2.1, ?_⟩
    intro j hj
    obtain ⟨e1, cells1, hmap1, hcells1, hlen1⟩ := h.2.2 j hj
    show ∃ e2 cells2, index? c.chrMemMap j = some e2 ∧
      index? (c.memory.chrMem.set e.toNat (cells.set (a &&& 0x03FF).toNat w)) e2 = some cells2 ∧
      cells2.length = 1024
    by_cases hee : e1 = e
    · refine ⟨e1, cells.set (a &&& 0x03FF).toNat w, hmap1, ?_, ?_⟩
      · rw [index?_set _ _ _ _ he.1 he.2, if_pos hee]
      · rw [List.length_set]; exact hlen
    · refine ⟨e1, cells1, hmap1, ?_, hlen1⟩
      rw [index?_set _ _ _ _ he.1 he.2, if_neg hee]
      exact hcells1
  · exact ⟨c, rfl, h⟩
  · exact ⟨c, rfl, h⟩

/-- The cartridge read from a ROM image with at least one PRG unit has the valid shape. -/
theorem New_valid (rom : List (Fin 256)) (hp : 1 ≤ headerAt (readBuffer rom 16).1 4) :
    (cartridge.New rom).Valid := by
  refine ⟨?_, ?_, ?_⟩
  · have hb := headerAt_byte (readBuffer rom 16).1 8
    simp only [cartridge.New, createCartridge, List.length_replicate]
    split_ifs <;> omega
  · intro i hi
    obtain ⟨hmap, hlen, hbank⟩ := New_prgROMMap rom i hi
    have hb := headerAt_byte (readBuffer rom 16).1 4
    have hv := and_nonneg_le i (16 * headerAt (readBuffer rom 16).1 4 - 1) hi.1 (by omega)
    obtain ⟨cells, hcells, hmem⟩ := index?_mem (cartridge.New rom).memory.prgROM _ hv.1
      (by rw [hlen]; omega)
    exact ⟨_, cells, hmap, hcells, hbank cells hmem⟩
  · intro j hj
    obtain ⟨hmap, hlen, _, hbank⟩ := New_chrMemMap rom j hj
    obtain ⟨cells, hcells, hmem⟩ := index?_mem (cartridge.New rom).memory.chrMem _ hj.1
      (by omega)
    exact ⟨_, cells, hmap, hcells, hbank cells hmem⟩

end

section
open cartridge

/-- A write to the nametables returns and keeps the two pages of 1024 cells. -/
theorem WriteNameTable_shape (c : Cartridge) (pA pB : List Int)
    (hA : pA.length = 1024) (hB : pB.length = 1024) (a w : Int) :
    ∃ qA qB, c.WriteNameTable a w [pA, pB] = some [qA, qB] ∧ qA.length = 1024 ∧
      qB.length = 1024 := by
  have ho : 0 ≤ getNameTableOffset a ∧ getNameTableOffset a < 1024 := by
    unfold getNameTableOffset
    rw [and_0x03FF]; omega
  have h0 : index? [pA, pB] 0 = some pA := rfl
  have h1 : index? [pA, pB] 1 = some pB := rfl
  unfold Cartridge.WriteNameTable
  dsimp only
  split_ifs
  · rw [h0, Option.some_bind, setIndex?_eq _ _ _ ho.1 (by rw [hA]; exact_mod_cast ho.2),
      Option.some_bind]
    exact ⟨_, pB, rfl, by rw [List.length_set]; exact hA, hB⟩
  · rw [h1, Option.some_bind, setIndex?_eq _ _ _ ho.1 (by rw [hB]; exact_mod_cast ho.2),
      Option.some_bind]
    exact ⟨pA, _, rfl, hA, by rw [List.length_set]; exact hB⟩
  · exact ⟨pA, pB, rfl, hA, hB⟩

end

section
open ppu
variable {ρ ν : Type}

/-- A PPU memory of the valid shape returns a value for every address. -/
theorem vramRead_valid {m : vramMemory} (h : m.Valid) (a : Int) :
    ∃ v, m.read a = some v := by
  obtain ⟨⟨c, hc, hv⟩, pA, pB, hnt, hA, hB⟩ := h
  unfold vramMemory.read
  dsimp only
  split_ifs
  · rw [hc]
    exact ReadChrMemory_valid hv _
  · rw [hc, hnt]
    exact ReadNameTable_returns c pA pB hA hB _
  all_goals exact ⟨_, rfl⟩

/-- A write to a PPU memory of the valid shape returns and keeps the shape. -/
theorem vramWrite_valid {m : vramMemory} (h : m.Valid) (a w : Int) :
    ∃ m1, m.write a w = some m1 ∧ m1.Valid := by
  obtain ⟨⟨c, hc, hv⟩, pA, pB, hnt, hA, hB⟩ := h
  unfold vramMemory.write
  dsimp only
  split_ifs
  · obtain ⟨c1, hw, hv1⟩ := WriteChrMemory_valid hv (decodePPUAddress a) w
    rw [hc, Option.some_bind, hw]
    exact ⟨_, rfl, ⟨c1, rfl, hv1⟩, pA, pB, hnt, hA, hB⟩
  · obtain ⟨qA, qB, hw, hqA, hqB⟩ := WriteNameTable_shape c pA pB hA hB (decodePPUAddress a) w
    rw [hc, Option.some_bind, hnt, hw]
    exact ⟨_, rfl, ⟨c, rfl, hv⟩, qA, qB, rfl, hqA, hqB⟩
  · exact ⟨_, rfl, ⟨c, hc, hv⟩, pA, pB, hnt, hA, hB⟩
  · exact ⟨_, rfl, ⟨c, hc, hv⟩, pA, pB, hnt, hA, hB⟩
  · exact ⟨_, rfl, ⟨c, hc, hv⟩, pA, pB, hnt, hA, hB⟩

/-- A read of a register of a PPU of the valid shape returns and keeps the shape. -/
theorem ReadRegister_valid {p : PPU ρ ν} (h : p.Valid) (r : Int) :
    ∃ v p1, p.ReadRegister r = some (v, p1) ∧ p1.Valid := by
  obtain ⟨hs, hm⟩ := h
  unfold PPU.ReadRegister
  by_cases h2 : r = StatusRegID
  · rw [if_pos h2]
    dsimp only
    split_ifs <;> exact ⟨_, _, rfl, hs, hm⟩
  · rw [if_neg h2]
    by_cases h4 : r = SpriteRAMIORegID
    · rw [if_pos h4]
      have hr : p.sprMemory.read p.sprRAMAddressReg.value
          = some (p.sprMemory.ram p.sprRAMAddressReg.value) := by
        unfold spriteMemory.read
        rw [if_pos ⟨hs.1, by omega⟩]
      rw [hr]
      exact ⟨_, _, rfl, hs, hm⟩
    · rw [if_neg h4]
      by_cases h7 : r = VRAMIORegID
      · rw [if_pos h7]
        obtain ⟨v1, hr1⟩ := vramRead_valid hm (p.vramAddressScrollReg.address &&& 0x3FFF)
        obtain ⟨v2, hr2⟩ := vramRead_valid hm ((p.vramAddressScrollReg.address &&& 0x3FFF) - 0x1000)
        dsimp only
        rw [hr1, hr2]
        split_ifs <;> exact ⟨_, _, rfl, hs, hm⟩
      · rw [if_neg h7]
        exact ⟨_, _, rfl, hs, hm⟩

variable [VBLReceiver ρ]

/-- A write to a register of a PPU of the valid shape returns and keeps the shape, whatever the
value written. -/
theorem WriteRegister_valid {p : PPU ρ ν} (h : p.Valid) (r w : Int) :
    ∃ p1, p.WriteRegister r w = some p1 ∧ p1.Valid := by
  obtain ⟨hs, hm⟩ := h
  unfold PPU.WriteRegister
  by_cases h0 : r = CtrlRegID
  · rw [if_pos h0]
    exact ⟨_, rfl, hs, hm⟩
  rw [if_neg h0]
  by_cases h1 : r = MaskRegID
  · rw [if_pos h1]
    exact ⟨_, rfl, hs, hm⟩
  rw [if_neg h1]
  by_cases h3 : r = SpriteRAMAddressRegID
  · rw [if_pos h3]
    refine ⟨_, rfl, ?_, hm⟩
    show 0 ≤ w &&& 0xFF ∧ w &&& 0xFF ≤ 255
    rw [and_0xFF]; omega
  rw [if_neg h3]
  by_cases h4 : r = SpriteRAMIORegID
  · rw [if_pos h4]
    have hw : p.sprMemory.write p.sprRAMAddressReg.value w
        = some { p.sprMemory with
            ram := fun i => if i = p.sprRAMAddressReg.value then w else p.sprMemory.ram i } := by
      unfold spriteMemory.write
      rw [if_pos ⟨hs.1, by omega⟩]
    rw [hw]
    refine ⟨_, rfl, ?_, hm⟩
    show 0 ≤ (p.sprRAMAddressReg.value + 1) &&& 0xFF ∧
      (p.sprRAMAddressReg.value + 1) &&& 0xFF ≤ 255
    rw [and_0xFF]; omega
  rw [if_neg h4]
  by_cases h5 : r = ScrollRegID
  · rw [if_pos h5]
    exact ⟨_, rfl, hs, hm⟩
  rw [if_neg h5]
  by_cases h6 : r = VRAMAddressRegID
  · rw [if_pos h6]
    exact ⟨_, rfl, hs, hm⟩
  rw [if_neg h6]
  by_cases h7 : r = VRAMIORegID
  · rw [if_pos h7]
    obtain ⟨m1, hw1, hm1⟩ := vramWrite_valid hm (p.vramAddressScrollReg.address &&& 0x3FFF) w
    by_cases hf : (p.statusReg.value &&& statusVRAMWriteFlag) = 0
    · rw [if_pos hf, hw1]
      exact ⟨_, rfl, hs, hm1⟩
    · rw [if_neg hf]
      exact ⟨_, rfl, hs, hm⟩
  · rw [if_neg h7]
    exact ⟨_, rfl, hs, hm⟩

variable [VideoReceiver ν]

/-- The cartridges and the PPUs of the valid shape serve every call of the CPU memory. -/
theorem devicesClosed_valid :
    DevicesClosed cartridge.Cartridge.Valid (ppu.PPU.Valid : PPU ρ ν → Prop) :=
  ⟨fun _ a h => ReadPrgMemory_valid h a, fun _ a w h => WritePrgMemory_valid h a w,
    fun _ r h => ReadRegister_valid h r, fun _ r w h => WriteRegister_valid h r w⟩

end

section
variable {κ π : Type} [PrgDevice κ] [RegisterDevice π]

/-- A read of the NES memory at any address returns when the devices serve their calls, and it
keeps the conditions on the devices, the RAM, and the PPU pointer nil or not nil. -/
theorem NESCPUMemory.Read_closed {K : κ → Prop} {R : π → Prop} (hD : DevicesClosed K R)
    (m : NESCPUMemory κ π) (a : Int) (hm : NESCPUMemory.Within K R m) :
    ∃ v m1, NESCPUMemory.Read m a = some (v, m1) ∧ NESCPUMemory.Within K R m1 ∧
      m1.ppu.isSome = m.ppu.isSome := by
  have hc : ∀ a, ∃ v m1, (match m.cartridge with
      | some c => (PrgDevice.ReadPrgMemory c a).map fun v => (v, m)
      | none => some (0, m)) = some (v, m1) ∧ NESCPUMemory.Within K R m1 ∧
        m1.ppu.isSome = m.ppu.isSome := by
    intro a
    cases hcart : m.cartridge with
    | none => exact ⟨0, m, rfl, hm, rfl⟩
    | some c =>
      obtain ⟨v, hv⟩ := hD.1 c a (hm.1 c hcart)
      exact ⟨v, m, by simp only [hv, Option.map_some'], hm, rfl⟩
  unfold NESCPUMemory.Read
  dsimp only
  split_ifs
  · exact ⟨_, _, rfl, hm, rfl⟩
  · cases hp : m.ppu with
    | none => exact ⟨0, m, rfl, hm, by rw [hp]⟩
    | some p =>
      obtain ⟨v, p1, hv, hR⟩ := hD.2.2.1 p (a &&& 0x0007) (hm.2 p hp)
      simp only [hv]
      refine ⟨v, _, rfl, ⟨hm.1, ?_⟩, rfl⟩
      intro q hq
      cases hq
      exact hR
  · exact ⟨_, _, rfl, hm, rfl⟩
  · exact ⟨_, _, rfl, hm, rfl⟩
  · exact ⟨_, _, rfl, hm, rfl⟩
  · exact hc a
  · exact ⟨_, _, rfl, hm, rfl⟩
  · exact hc a

/-- The OAM DMA loop returns when the devices serve their calls and the PPU pointer is not nil,
and it keeps the conditions on the devices. -/
theorem NESCPUMemory.dmaLoop_closed {K : κ → Prop} {R : π → Prop} (hD : DevicesClosed K R)
    (n : Nat) :
    ∀ (m : NESCPUMemory κ π) (a : Int), NESCPUMemory.Within K R m → m.ppu.isSome = true →
      ∃ m1, NESCPUMemory.dmaLoop n m a = some m1 ∧ NESCPUMemory.Within K R m1 := by
  induction n with
  | zero => intro m a hm _; exact ⟨m, rfl, hm⟩
  | succ k ih =>
    intro m a hm hs
    obtain ⟨v, m1, hr, hm1, hp⟩ := NESCPUMemory.Read_closed hD m a hm
    rw [hs] at hp
    obtain ⟨p, hpp⟩ := Option.isSome_iff_exists.mp hp
    obtain ⟨p1, hw, hR⟩ := hD.2.2.2 p SpriteRAMIORegID v (hm1.2 p hpp)
    simp only [NESCPUMemory.dmaLoop, hr, hpp, hw]
    refine ih _ _ ⟨hm1.1, ?_⟩ rfl
    intro q hq
    cases hq
    exact hR

/-- A write to the NES memory at any address returns when the devices serve their calls, and it
keeps the conditions on the devices. -/
theorem NESCPUMemory.Write_closed {K : κ → Prop} {R : π → Prop} (hD : DevicesClosed K R)
    (m : NESCPUMemory κ π) (a w : Int) (hm : NESCPUMemory.Within K R m) :
    ∃ e m1, NESCPUMemory.Write m a w = some (e, m1) ∧ NESCPUMemory.Within K R m1 := by
  have hc : ∀ a, ∃ e m1, (match m.cartridge with
      | some c =>
        match PrgDevice.WritePrgMemory c a w with
        | some c1 => some ((0 : Int), { m with cartridge := some c1 })
        | none => none
      | none => some (0, m)) = some (e, m1) ∧ NESCPUMemory.Within K R m1 := by
    intro a
    cases hcart : m.cartridge with
    | none => exact ⟨_, _, rfl, hm⟩
    | some c =>
      obtain ⟨c1, hv, hK⟩ := hD.2.1 c a w (hm.1 c hcart)
      simp only [hv]
      refine ⟨_, _, rfl, ?_, hm.2⟩
      intro q hq
      cases hq
      exact hK
  unfold NESCPUMemory.Write
  dsimp only
  split_ifs
  · exact ⟨_, _, rfl, hm⟩
  · cases hp : m.ppu with
    | none => exact ⟨_, _, rfl, hm⟩
    | some p =>
      obtain ⟨p1, hv, hR⟩ := hD.2.2.2 p (a &&& 0x0007) w (hm.2 p hp)
      simp only [hv]
      refine ⟨_, _, rfl, hm.1, ?_⟩
      intro q hq
      cases hq
      exact hR
  · exact ⟨_, _, rfl, hm⟩
  · cases hp : m.ppu with
    | none => exact ⟨_, _, rfl, hm⟩
    | some p =>
      obtain ⟨m1, hl, hm1⟩ :=
        NESCPUMemory.dmaLoop_closed hD 256 m (shl w 8) hm (by rw [hp]; rfl)
      simp only [hl]
      exact ⟨_, _, rfl, hm1⟩
  · exact ⟨_, _, rfl, hm⟩
  · exact hc a
  · exact ⟨_, _, rfl, hm⟩
  · exact hc a

/-- The NES memories whose devices satisfy closed conditions serve every access. -/
theorem nesMemory_closed {K : κ → Prop} {R : π → Prop} (hD : DevicesClosed K R) :
    MemoryClosed (NESCPUMemory.Within K R : NESCPUMemory κ π → Prop) :=
  ⟨fun m a hm _ _ => by
      obtain ⟨v, m1, h, h1, _⟩ := NESCPUMemory.Read_closed hD m a hm
      exact ⟨v, m1, h, h1⟩,
    fun m a w hm _ _ => NESCPUMemory.Write_closed hD m a w hm⟩

/-- A write to the OAM DMA register reports 513 cycles when the devices serve their calls. -/
theorem NESCPUMemory.writeReports_oam {K : κ → Prop} {R : π → Prop} (hD : DevicesClosed K R)
    (m : NESCPUMemory κ π) (hm : NESCPUMemory.Within K R m) : writeReports m 0x4014 513 := by
  intro w
  show ∃ m1, NESCPUMemory.Write m 0x4014 w = some (513, m1)
  have hpage : ((0x4014 : Int) &&& 0xF000) = 0x4000 := by decide
  simp only [NESCPUMemory.Write, hpage]
  norm_num
  cases hp : m.ppu with
  | none => exact ⟨_, rfl⟩
  | some p =>
    obtain ⟨m1, hl, _⟩ := NESCPUMemory.dmaLoop_closed hD 256 m (shl w 8) hm (by rw [hp]; rfl)
    simp only [hl]
    exact ⟨_, rfl⟩

end

section
variable {σ : Type} [CPUMemory σ] {I : σ → Prop}

/-- A read at an address of 0..0xFFFF, followed by `f`. -/
theorem read_then (hC : MemoryClosed I) {β : Type} (P : Option β → Prop) (cpu : CPU σ)
    (a : Int) (f : Int × CPU σ → Option β) (hI : I cpu.memory) (ha : 0 ≤ a ∧ a ≤ 0xFFFF)
    (hf : ∀ v m1, I m1 → CPUMemory.Read cpu.memory a = some (v, m1) →
      P (f (v, { cpu with memory := m1 }))) :
    P (readMemory cpu a >>= f) := by
  obtain ⟨v, m1, hr, h1⟩ := hC.1 cpu.memory a hI ha.1 ha.2
  have e : readMemory cpu a = some (v, { cpu with memory := m1 }) := by
    simp only [readMemory, hr]
  rw [e]
  exact hf v m1 h1 hr

/-- The address calculation returns an address of 0..0xFFFF when the operand bytes lie inside
the memory and the first of them is a byte. -/
theorem calculateMemoryAddress_sound (hC : MemoryClosed I) (cpu : CPU σ) (mode : AddrMode)
    (hs : CPU.Sound I cpu) (hm : mode ≠ IND) (hpc : 0 ≤ cpu.PC ∧ cpu.PC + 1 ≤ 0xFFFF)
    (hop : ∀ v m, CPUMemory.Read cpu.memory cpu.PC = some (v, m) → 0 ≤ v ∧ v ≤ 0xFF) :
    AddressSound I (calculateMemoryAddress cpu mode) := by
  have hw : ∀ x : Int, 0 ≤ 0xFFFF &&& x ∧ 0xFFFF &&& x ≤ 0xFFFF := by
    intro x
    rw [and_0xFFFF_left]; omega
  have hb : ∀ x : Int, 0 ≤ 0x00FF &&& x ∧ 0x00FF &&& x ≤ 0xFFFF := by
    intro x
    have := and_0xFF_left x
    norm_num at this ⊢
    rw [this]; omega
  have hpc0 : 0 ≤ cpu.PC ∧ cpu.PC ≤ 0xFFFF := ⟨hpc.1, by omega⟩
  have hpc1 : 0 ≤ cpu.PC + 1 ∧ cpu.PC + 1 ≤ 0xFFFF := ⟨by omega, hpc.2⟩
  cases mode <;>
    simp only [calculateMemoryAddress, calculateMemoryAddressIMM, calculateMemoryAddressABS,
      calculateMemoryAddressZP, calculateMemoryAddressZPX, calculateMemoryAddressZPY,
      calculateMemoryAddressABSX, calculateMemoryAddressABSY, calculateMemoryAddressREL,
      calculateMemoryAddressINDX, calculateMemoryAddressINDY, calculateMemoryAddressIND]
  case ACC => exact ⟨_, _, rfl, hs, by decide⟩
  case IMPL => exact ⟨_, _, rfl, hs, by decide⟩
  case IMM => exact ⟨_, _, rfl, hs, hpc0⟩
  case IND => exact absurd rfl hm
  case ABS =>
    refine read_then hC (AddressSound I) _ _ _ hs.1 hpc0 fun lo m1 h1 _ => ?_
    refine read_then hC (AddressSound I) _ _ _ h1 hpc1 fun hi m2 h2 _ => ?_
    exact ⟨_, _, rfl, ⟨h2, hs.2⟩, hw _⟩
  case ABSX =>
    refine read_then hC (AddressSound I) _ _ _ hs.1 hpc0 fun lo m1 h1 _ => ?_
    refine read_then hC (AddressSound I) _ _ _ h1 hpc1 fun hi m2 h2 _ => ?_
    exact ⟨_, _, rfl, ⟨h2, hs.2⟩, hw _⟩
  case ABSX2 =>
    refine read_then hC (AddressSound I) _ _ _ hs.1 hpc0 fun lo m1 h1 _ => ?_
    refine read_then hC (AddressSound I) _ _ _ h1 hpc1 fun hi m2 h2 _ => ?_
    exact ⟨_, _, rfl, ⟨h2, hs.2⟩, hw _⟩
  case ABSY =>
    refine read_then hC (AddressSound I) _ _ _ hs.1 hpc0 fun lo m1 h1 _ => ?_
    refine read_then hC (AddressSound I) _ _ _ h1 hpc1 fun hi m2 h2 _ => ?_
    exact ⟨_, _, rfl, ⟨h2, hs.2⟩, hw _⟩
  case ABSY2 =>
    refine read_then hC (AddressSound I) _ _ _ hs.1 hpc0 fun lo m1 h1 _ => ?_
    refine read_then hC (AddressSound I) _ _ _ h1 hpc1 fun hi m2 h2 _ => ?_
    exact ⟨_, _, rfl, ⟨h2, hs.2⟩, hw _⟩
  case ZP =>
    refine read_then hC (AddressSound I) _ _ _ hs.1 hpc0 fun lo m1 h1 hr => ?_
    have hl := hop lo m1 hr
    exact ⟨_, _, rfl, ⟨h1, hs.2⟩, hl.1, by omega⟩
  case ZPX =>
    refine read_then hC (AddressSound I) _ _ _ hs.1 hpc0 fun lo m1 h1 _ => ?_
    exact ⟨_, _, rfl, ⟨h1, hs.2⟩, hb _⟩
  case ZPY =>
    refine read_then hC (AddressSound I) _ _ _ hs.1 hpc0 fun lo m1 h1 _ => ?_
    exact ⟨_, _, rfl, ⟨h1, hs.2⟩, hb _⟩
  case REL =>
    refine read_then hC (AddressSound I) _ _ _ hs.1 hpc0 fun inc m1 h1 _ => ?_
    dsimp only
    split_ifs <;> exact ⟨_, _, rfl, ⟨h1, hs.2⟩, hw _⟩
  case INDX =>
    refine read_then hC (AddressSound I) _ _ _ hs.1 hpc0 fun lo m1 h1 _ => ?_
    refine read_then hC (AddressSound I) _ _ _ h1 (hb _) fun hi1 m2 h2 _ => ?_
    refine read_then hC (AddressSound I) _ _ _ h2 (hb _) fun lo1 m3 h3 _ => ?_
    exact ⟨_, _, rfl, ⟨h3, hs.2⟩, hw _⟩
  case INDY =>
    refine read_then hC (AddressSound I) _ _ _ hs.1 hpc0 fun lo m1 h1 hr => ?_
    have hl := hop lo m1 hr
    refine read_then hC (AddressSound I) _ _ _ h1 ⟨hl.1, by omega⟩ fun lo1 m2 h2 _ => ?_
    refine read_then hC (AddressSound I) _ _ _ h2 (hb _) fun hi1 m3 h3 _ => ?_
    exact ⟨_, _, rfl, ⟨h3, hs.2⟩, hw _⟩
  case INDY2 =>
    refine read_then hC (AddressSound I) _ _ _ hs.1 hpc0 fun lo m1 h1 hr => ?_
    have hl := hop lo m1 hr
    refine read_then hC (AddressSound I) _ _ _ h1 ⟨hl.1, by omega⟩ fun lo1 m2 h2 _ => ?_
    refine read_then hC (AddressSound I) _ _ _ h2 (hb _) fun hi1 m3 h3 _ => ?_
    exact ⟨_, _, rfl, ⟨h3, hs.2⟩, hw _⟩
  case IND2 =>
    refine read_then hC (AddressSound I) _ _ _ hs.1 hpc0 fun lo m1 h1 _ => ?_
    refine read_then hC (AddressSound I) _ _ _ h1 hpc1 fun hi m2 h2 _ => ?_
    have hA := hw (shl hi 8 ||| lo)
    dsimp only
    refine read_then hC (AddressSound I) _ _ _ h2 ?_ fun hi1 m3 h3 _ => ?_
    · split_ifs with hc
      · have := and_nonneg_le (0xFFFF &&& (shl hi 8 ||| lo)) 0xFF00 hA.1 (by decide)
        omega
      · have h255 := and_0xFF (0xFFFF &&& (shl hi 8 ||| lo))
        have hne : ¬ ((0xFFFF &&& (shl hi 8 ||| lo)) &&& 0xFF) = 0xFF := fun h => hc ⟨h, trivial⟩
        rw [h255] at hne
        omega
    refine read_then hC (AddressSound I) _ _ _ h3 hA fun lo1 m4 h4 _ => ?_
    exact ⟨_, _, rfl, ⟨h4, hs.2⟩, hw _⟩

end

section
variable {σ : Type} [CPUMemory σ] {I : σ → Prop}

theorem sound_read (hC : MemoryClosed I) {β : Type} (cpu : CPU σ) (a : Int)
    (f : Int × CPU σ → Option β) (hs : CPU.Sound I cpu) (ha : 0 ≤ a ∧ a ≤ 0xFFFF)
    (hf : ∀ r : Int × CPU σ, CPU.Sound I r.2 → Returns (f r)) :
    Returns (readMemory cpu a >>= f) :=
  read_then hC Returns cpu a f hs.1 ha fun v _ h1 _ => hf (v, _) ⟨h1, hs.2⟩

theorem sound_read_last (hC : MemoryClosed I) (cpu : CPU σ) (a : Int) (hs : CPU.Sound I cpu)
    (ha : 0 ≤ a ∧ a ≤ 0xFFFF) : Returns (readMemory cpu a) := by
  obtain ⟨v, m1, hr, _⟩ := hC.1 cpu.memory a hs.1 ha.1 ha.2
  simp only [readMemory, hr]
  exact Returns_some _

theorem sound_write (hC : MemoryClosed I) {β : Type} (cpu : CPU σ) (a w : Int)
    (f : CPU σ → Option β) (hs : CPU.Sound I cpu) (ha : 0 ≤ a ∧ a ≤ 0xFFFF)
    (hf : ∀ r : CPU σ, CPU.Sound I r → Returns (f r)) :
    Returns (writeMemory cpu a w >>= f) := by
  obtain ⟨e, m1, hr, h1⟩ := hC.2 cpu.memory a w hs.1 ha.1 ha.2
  simp only [writeMemory, hr, Option.bind_eq_bind, Option.some_bind]
  exact hf _ ⟨h1, hs.2⟩

theorem sound_write_last (hC : MemoryClosed I) (cpu : CPU σ) (a w : Int)
    (hs : CPU.Sound I cpu) (ha : 0 ≤ a ∧ a ≤ 0xFFFF) : Returns (writeMemory cpu a w) := by
  obtain ⟨e, m1, hr, _⟩ := hC.2 cpu.memory a w hs.1 ha.1 ha.2
  simp only [writeMemory, hr]
  exact Returns_some _

theorem sound_push (hC : MemoryClosed I) {β : Type} (cpu : CPU σ) (w : Int)
    (f : CPU σ → Option β) (hs : CPU.Sound I cpu)
    (hf : ∀ r : CPU σ, CPU.Sound I r → Returns (f r)) :
    Returns (push cpu w >>= f) := by
  have ha : 0 ≤ (0x0100 ||| cpu.S) ∧ (0x0100 ||| cpu.S) ≤ 0xFFFF := by
    rw [stack_address cpu.S hs.2.1 hs.2.2]
    have := hs.2
    omega
  obtain ⟨e, m1, hr, h1⟩ := hC.2 cpu.memory _ w hs.1 ha.1 ha.2
  simp only [push, writeMemory, hr, Option.bind_eq_bind, Option.some_bind]
  refine hf _ ⟨h1, ?_⟩
  show 0 ≤ (if cpu.S = 0x00 then 0xFF else cpu.S - 1) ∧
    (if cpu.S = 0x00 then 0xFF else cpu.S - 1) ≤ 0xFF
  have := hs.2
  split_ifs <;> omega

theorem sound_push_last (hC : MemoryClosed I) (cpu : CPU σ) (w : Int)
    (hs : CPU.Sound I cpu) : Returns (push cpu w) := by
  have h := sound_push hC cpu w some hs fun r _ => Returns_some r
  obtain ⟨r, hr⟩ := h
  obtain ⟨c, hc, -⟩ := Option.bind_eq_some.mp hr
  exact ⟨c, hc⟩

theorem sound_pop (hC : MemoryClosed I) {β : Type} (cpu : CPU σ)
    (f : Int × CPU σ → Option β) (hs : CPU.Sound I cpu)
    (hf : ∀ r : Int × CPU σ, CPU.Sound I r.2 → Returns (f r)) :
    Returns (pop cpu >>= f) := by
  have h2 : 0 ≤ (if cpu.S = 0xFF then 0x00 else cpu.S + 1) ∧
      (if cpu.S = 0xFF then 0x00 else cpu.S + 1) ≤ 0xFF := by
    have := hs.2
    split_ifs <;> omega
  have ha : 0 ≤ (0x0100 ||| (if cpu.S = 0xFF then 0x00 else cpu.S + 1)) ∧
      (0x0100 ||| (if cpu.S = 0xFF then 0x00 else cpu.S + 1)) ≤ 0xFFFF := by
    rw [stack_address _ h2.1 h2.2]
    omega
  unfold pop
  exact sound_read hC _ _ f ⟨hs.1, h2⟩ ha hf

theorem sound_pop_last (hC : MemoryClosed I) (cpu : CPU σ) (hs : CPU.Sound I cpu) :
    Returns (pop cpu) := by
  have h := sound_pop hC cpu some hs fun r _ => Returns_some r
  obtain ⟨r, hr⟩ := h
  obtain ⟨c, hc, -⟩ := Option.bind_eq_some.mp hr
  exact ⟨c, hc⟩

theorem sound_calc (hC : MemoryClosed I) {β : Type} (cpu : CPU σ) (mode : AddrMode)
    (f : Int × CPU σ → Option β) (hs : CPU.Sound I cpu) (hm : mode ≠ IND)
    (hpc : 0 ≤ cpu.PC ∧ cpu.PC + 1 ≤ 0xFFFF)
    (hop : ∀ v m, CPUMemory.Read cpu.memory cpu.PC = some (v, m) → 0 ≤ v ∧ v ≤ 0xFF)
    (hf : ∀ r : Int × CPU σ, CPU.Sound I r.2 → 0 ≤ r.1 ∧ r.1 ≤ 0xFFFF → Returns (f r)) :
    Returns (calculateMemoryAddress cpu mode >>= f) := by
  obtain ⟨ea, cpu1, h, hs1, ha⟩ := calculateMemoryAddress_sound hC cpu mode hs hm hpc hop
  rw [h]
  exact hf (ea, cpu1) hs1 ha

/-- On a memory that serves the accesses at 0..0xFFFF, no instruction handler with an addressing
mode panics when the stack pointer is a byte, the operand bytes lie inside the memory and the
first of them is a byte. -/
theorem sound_modeOps (hC : MemoryClosed I) :
    ∀ f ∈ (modeOps : List (CPU σ → AddrMode → Option (CPU σ))),
      ∀ cpu mode, mode ≠ IND → CPU.Sound I cpu → (0 ≤ cpu.PC ∧ cpu.PC + 1 ≤ 0xFFFF) →
        (∀ v m, CPUMemory.Read cpu.memory cpu.PC = some (v, m) → 0 ≤ v ∧ v ≤ 0xFF) →
        Returns (f cpu mode) := by
  intro f hf cpu mode hm hs hpc hop
  simp only [modeOps, List.mem_cons, List.mem_singleton, List.not_mem_nil, or_false] at hf
  repeat' (refine Or.elim hf (fun hf => ?_) (fun hf => ?_))
  all_goals subst hf
  all_goals first
    | unfold opADC | unfold opAND | unfold opASL | unfold opBCC | unfold opBCS | unfold opBEQ
    | unfold opBIT | unfold opBMI | unfold opBNE | unfold opBPL | unfold opBVC | unfold opBVS
    | unfold opCMP | unfold opCPX | unfold opCPY | unfold opDEC | unfold opEOR | unfold opINC
    | unfold opJMP | unfold opJSR | unfold opLDA | unfold opLDX | unfold opLDY | unfold opLSR
    | unfold opORA | unfold opROL | unfold opROR | unfold opSBC | unfold opSTA | unfold opSTX
    | unfold opSTY | unfold opDOP | unfold opTOP | unfold opLAX | unfold opAAX | unfold opDCP
    | unfold opISC | unfold opSLO | unfold opRLA | unfold opSRE | unfold opRRA
  all_goals repeat' (first
    | exact Returns_some _
    | with_reducible apply Returns_ite
    | (with_reducible refine sound_calc hC _ _ _ hs hm hpc hop ?_)
    | (with_reducible refine sound_read hC _ _ _ ?_ ?_ ?_)
    | (with_reducible refine sound_write hC _ _ _ _ ?_ ?_ ?_)
    | (with_reducible refine sound_push hC _ _ _ ?_ ?_)
    | (with_reducible refine sound_pop hC _ _ ?_ ?_)
    | (with_reducible refine sound_read_last hC _ _ ?_ ?_)
    | (with_reducible refine sound_write_last hC _ _ _ ?_ ?_)
    | (with_reducible refine sound_push_last hC _ _ ?_)
    | (with_reducible refine sound_pop_last hC _ ?_)
    | intro _
    | assumption)

end

section
variable {σ : Type} [CPUMemory σ] {I : σ → Prop}

/-- On a memory that serves the accesses at 0..0xFFFF, no instruction handler without an
addressing mode panics when the stack pointer is a byte. -/
theorem sound_stackOps (hC : MemoryClosed I) :
    ∀ f ∈ (stackOps : List (CPU σ → Option (CPU σ))), ∀ cpu, CPU.Sound I cpu →
      Returns (f cpu) := by
  intro f hf cpu hs
  simp only [stackOps, List.mem_cons, List.mem_singleton, List.not_mem_nil, or_false] at hf
  repeat' (refine Or.elim hf (fun hf => ?_) (fun hf => ?_))
  all_goals subst hf
  all_goals first
    | unfold opBRK | unfold opPHA | unfold opPHP | unfold opPLA | unfold opPLP | unfold opRTI
    | unfold opRTS
  all_goals repeat' (first
    | exact Returns_some _
    | with_reducible apply Returns_ite
    | (with_reducible refine sound_read hC _ _ _ ?_ ?_ ?_)
    | (with_reducible refine sound_write hC _ _ _ _ ?_ ?_ ?_)
    | (with_reducible refine sound_push hC _ _ _ ?_ ?_)
    | (with_reducible refine sound_pop hC _ _ ?_ ?_)
    | (with_reducible refine sound_read_last hC _ _ ?_ ?_)
    | (with_reducible refine sound_write_last hC _ _ _ ?_ ?_)
    | (with_reducible refine sound_push_last hC _ _ ?_)
    | (with_reducible refine sound_pop_last hC _ ?_)
    | intro _
    | assumption
    | decide)

/-- On a memory that serves the accesses at 0..0xFFFF, no opcode panics when the stack pointer
is a byte, the operand bytes lie inside the memory and the first of them is a byte. -/
theorem executeOp_sound (hC : MemoryClosed I) (cpu : CPU σ) (opCode : Int)
    (hs : CPU.Sound I cpu) (hpc : 0 ≤ cpu.PC ∧ cpu.PC + 1 ≤ 0xFFFF)
    (hop : ∀ v m, CPUMemory.Read cpu.memory cpu.PC = some (v, m) → 0 ≤ v ∧ v ≤ 0xFF) :
    Returns (executeOp cpu opCode) :=
  executeOp_cases_mode
    (fun cpu x => CPU.Sound I cpu → (0 ≤ cpu.PC ∧ cpu.PC + 1 ≤ 0xFFFF) →
      (∀ v m, CPUMemory.Read cpu.memory cpu.PC = some (v, m) → 0 ≤ v ∧ v ≤ 0xFF) → Returns x)
    (fun f hf cpu mode hm hs hpc hop => sound_modeOps hC f hf cpu mode hm hs hpc hop)
    (fun f hf cpu hs _ _ => sound_stackOps hC f hf cpu hs)
    (fun _ _ _ _ _ _ => Returns_some _) (fun _ _ _ _ _ _ => Returns_some _)
    (fun _ _ _ _ _ _ => Returns_some _)
    (fun _ _ _ _ => Returns_some _) (fun _ _ _ _ => Returns_some _)
    (fun _ _ _ _ => Returns_some _) (fun _ _ _ _ => Returns_some _)
    (fun _ _ _ _ => Returns_some _) cpu opCode hs hpc hop

/-- On a memory that serves the accesses at 0..0xFFFF, servicing a pending interrupt does not
panic when the stack pointer is a byte. -/
theorem executePendingInterruptOp_sound (hC : MemoryClosed I) (cpu : CPU σ)
    (hs : CPU.Sound I cpu) : Returns (executePendingInterruptOp cpu) := by
  unfold executePendingInterruptOp
  repeat' (first
    | exact Returns_some _
    | with_reducible apply Returns_ite
    | (with_reducible refine sound_read hC _ _ _ ?_ ?_ ?_)
    | (with_reducible refine sound_push hC _ _ _ ?_ ?_)
    | with_reducible apply Returns_bind
    | intro _
    | assumption
    | exact ⟨hs.1, by dsimp only; decide⟩
    | decide)

/-- ExecuteOp returns on a memory that serves the accesses at 0..0xFFFF, when the stack
pointer is a byte and, without a pending interrupt, the program counter is at most 0xFFFD and
the opcode and the byte after it are bytes. -/
theorem ExecuteOp_sound (hC : MemoryClosed I) (cpu : CPU σ) (hs : CPU.Sound I cpu)
    (hop : cpu.pendingInterrupt = 0 → (0 ≤ cpu.PC ∧ cpu.PC ≤ 0xFFFD) ∧
      ∀ op m0, CPUMemory.Read cpu.memory cpu.PC = some (op, m0) →
        (0 ≤ op ∧ op ≤ 255) ∧
          ∀ v m, CPUMemory.Read m0 (cpu.PC + 1) = some (v, m) → 0 ≤ v ∧ v ≤ 255) :
    Returns (ExecuteOp cpu) := by
  unfold ExecuteOp
  split_ifs with hp
  · exact Returns_bind _ _ (executePendingInterruptOp_sound hC cpu hs) fun _ => Returns_some _
  · obtain ⟨hpc, hbytes⟩ := hop (not_not.mp hp)
    obtain ⟨op, m0, hr, h0⟩ := hC.1 cpu.memory cpu.PC hs.1 hpc.1 (by omega)
    obtain ⟨hb, hnext⟩ := hbytes op m0 hr
    obtain ⟨c, hc⟩ := Returns_opCyclesLengthAt op hb
    obtain ⟨cpu1, h1⟩ := executeOp_sound hC
      { cpu with memory := m0, PC := cpu.PC + 1, OpCycles := c } op ⟨h0, hs.2⟩
      ⟨by show 0 ≤ cpu.PC + 1; omega, by show cpu.PC + 1 + 1 ≤ 0xFFFF; omega⟩ hnext
    simp only [readMemory, hr, Option.bind_eq_bind, Option.some_bind, hc, h1]
    exact Returns_some _

/-- The plain memory serves every access at 0..0xFFFF. -/
theorem testMemory_closed : MemoryClosed (fun _ : TestCPUMemory => True) :=
  ⟨fun m a _ h0 h1 => ⟨m.mem a, m, by
      show TestCPUMemory.Read m a = _
      unfold TestCPUMemory.Read
      rw [if_pos ⟨h0, by omega⟩], trivial⟩,
    fun m a w _ h0 h1 => ⟨0, _, by
      show TestCPUMemory.Write m a w = _
      unfold TestCPUMemory.Write
      rw [if_pos ⟨h0, by omega⟩], trivial⟩⟩

/-- A read, followed by `f`, keeps a condition on the memory that every read keeps. -/
theorem keeps_read_then {P : σ → Prop}
    (hP : ∀ m a v m1, P m → CPUMemory.Read m a = some (v, m1) → P m1) {β : Type}
    (Q : β → Prop) (cpu : CPU σ) (a : Int) (f : Int × CPU σ → Option β) (h : P cpu.memory)
    (hf : ∀ v m1, P m1 → After (f (v, { cpu with memory := m1 })) Q) :
    After (readMemory cpu a >>= f) Q := by
  intro b hb
  obtain ⟨r, hr, hfr⟩ := Option.bind_eq_some.mp hb
  unfold readMemory at hr
  cases hread : CPUMemory.Read cpu.memory a with
  | none => rw [hread] at hr; cases hr
  | some x =>
    obtain ⟨v, m1⟩ := x
    rw [hread] at hr
    cases hr
    exact hf v m1 (hP _ _ _ _ h hread) b hfr

/-- The address calculation keeps a condition on the memory that every read keeps. -/
theorem calculateMemoryAddress_keeps {P : σ → Prop}
    (hP : ∀ m a v m1, P m → CPUMemory.Read m a = some (v, m1) → P m1) (cpu : CPU σ)
    (mode : AddrMode) (h : P cpu.memory) :
    After (calculateMemoryAddress cpu mode) fun r => P r.2.memory := by
  cases mode <;>
    simp only [calculateMemoryAddress, calculateMemoryAddressIMM, calculateMemoryAddressABS,
      calculateMemoryAddressZP, calculateMemoryAddressZPX, calculateMemoryAddressZPY,
      calculateMemoryAddressABSX, calculateMemoryAddressABSY, calculateMemoryAddressREL,
      calculateMemoryAddressINDX, calculateMemoryAddressINDY, calculateMemoryAddressIND]
  case REL =>
    refine keeps_read_then hP _ _ _ _ h fun v m1 h1 => ?_
    dsimp only
    split_ifs <;> exact After_some _ _ h1
  all_goals repeat' (first
    | exact After_some _ _ (by assumption)
    | (refine keeps_read_then hP _ _ _ _ (by assumption) ?_)
    | intro _)

end

section
open ppu

/-- The example PPU has the valid shape. -/
theorem ppuExample_valid (s : statusRegister) :
    ({ ppuExample with statusReg := s } : PPU CountingReceiver CountingReceiver).Valid :=
  ⟨(by show (0 : Int) ≤ 0 ∧ (0 : Int) ≤ 255; decide),
    ⟨_, rfl, New_valid onePrgRom (by decide)⟩, _, _, rfl, List.length_replicate _ _,
    List.length_replicate _ _⟩

/-- The devices of the example memory have the valid shape. -/
theorem nesExample_within (ram : Int → Int) (s : statusRegister) :
    NESCPUMemory.Within cartridge.Cartridge.Valid PPU.Valid
      (nesExample ram { ppuExample with statusReg := s }) :=
  ⟨fun c hc => by
      cases hc
      exact New_valid onePrgRom (by decide),
    fun p hp => by
      cases hp
      exact ppuExample_valid s⟩

end

section
variable {κ π : Type} [PrgDevice κ] [RegisterDevice π]

/-- A read of the NES memory keeps the conditions on the devices. -/
theorem NESCPUMemory.Read_within {K : κ → Prop} {R : π → Prop} (hD : DevicesClosed K R)
    (m : NESCPUMemory κ π) (a v : Int) (m1 : NESCPUMemory κ π)
    (hm : NESCPUMemory.Within K R m) (h : CPUMemory.Read m a = some (v, m1)) :
    NESCPUMemory.Within K R m1 := by
  obtain ⟨v2, m2, h2, hw, _⟩ := NESCPUMemory.Read_closed hD m a hm
  have e : (some (v2, m2) : Option (Int × NESCPUMemory κ π)) = some (v, m1) := h2.symm.trans h
  cases e
  exact hw

end

set_option maxRecDepth 100000 in
theorem opCyclesLengthAt_0xBD : opCyclesLengthAt 0xBD = some 4 := by decide

section
variable {σ : Type} [CPUMemory σ]

/-- Operand bytes whose reads leave the memory as it is. -/
theorem indexedOperands_of_base (m : σ) (pc X Y : Int) (mode : AddrMode) (base index : Int)
    (hb : indexedBase m pc X Y mode base index) :
    indexedOperands m pc X Y mode base index m := by
  cases mode
  case ABSX =>
    obtain ⟨lo, hi, hlo, hhi, h1, h2, hbase, hidx⟩ := hb
    exact ⟨lo, hi, m, hlo, hhi, h1, h2, hbase, hidx⟩
  case ABSY =>
    obtain ⟨lo, hi, hlo, hhi, h1, h2, hbase, hidx⟩ := hb
    exact ⟨lo, hi, m, hlo, hhi, h1, h2, hbase, hidx⟩
  case INDY =>
    obtain ⟨d, lo, hi, hlo, hhi, h0, h1, h2, hbase, hidx⟩ := hb
    exact ⟨d, lo, hi, m, m, hlo, hhi, h0, h1, h2, hbase, hidx⟩
  all_goals exact False.elim hb

/-- The three indexed address calculators when the reads of the operand bytes may change the
memory: the effective address is (base + index) mod 65536, and one cycle is added exactly when
the calculator counts page crossings and the effective address is on another page than the
base. -/
theorem calculateMemoryAddress_operands (cpu : CPU σ) (mode : AddrMode) (count : Bool)
    (base index : Int) (m1 : σ)
    (hb : indexedOperands cpu.memory cpu.PC cpu.X cpu.Y mode base index m1) :
    ∃ n, calculateMemoryAddress cpu (codeMode mode count)
      = some ((base + index) % 65536,
          { cpu with
            memory := m1
            PC := cpu.PC + n
            OpCycles :=
              if count = true ∧ (base + index) % 65536 / 256 ≠ base / 256
              then cpu.OpCycles + 1 else cpu.OpCycles }) := by
  have hw : ∀ lo hi : Int, IsByte lo → IsByte hi →
      (shl hi 8 ||| lo) % 65536 = lo + 256 * hi := by
    intro lo hi hlo hhi
    rw [← and_0xFFFF_left, word_of_bytes hi lo hhi hlo]; ring
  have hpage : ∀ a b : Int, isPageBoundaryCrossed a b = decide (b / 256 ≠ a / 256) := by
    intro a b
    simp only [isPageBoundaryCrossed, shr_eq_div]
    by_cases h : b / 256 = a / 256
    · simp [h]
    · have h2 : ¬ a / 256 = b / 256 := fun hh => h hh.symm
      norm_num
      simp [h, h2]
  cases mode
  case ABSX =>
    obtain ⟨lo, hi, ma, hlo, hhi, h1, h2, rfl, rfl⟩ := hb
    refine ⟨2, ?_⟩
    cases count <;>
      simp only [codeMode, calculateMemoryAddress, calculateMemoryAddressABSX, readMemory, h1, h2,
        Option.bind_eq_bind, Option.some_bind, and_0xFFFF_left, hw lo hi hlo hhi, hpage,
        Bool.false_and, Bool.true_and] <;> simp <;> ring
  case ABSY =>
    obtain ⟨lo, hi, ma, hlo, hhi, h1, h2, rfl, rfl⟩ := hb
    refine ⟨2, ?_⟩
    cases count <;>
      simp only [codeMode, calculateMemoryAddress, calculateMemoryAddressABSY, readMemory, h1, h2,
        Option.bind_eq_bind, Option.some_bind, and_0xFFFF_left, hw lo hi hlo hhi, hpage,
        Bool.false_and, Bool.true_and] <;> simp <;> ring
  case INDY =>
    obtain ⟨d, lo, hi, ma, mb, hlo, hhi, h0, h1, h2, rfl, rfl⟩ := hb
    refine ⟨1, ?_⟩
    cases count <;>
      simp only [codeMode, calculateMemoryAddress, calculateMemoryAddressINDY, readMemory, h0, h1,
        h2, Option.bind_eq_bind, Option.some_bind, and_0xFFFF_left, and_0xFF_left,
        hw lo hi hlo hhi, hpage, Bool.false_and, Bool.true_and] <;> simp
  all_goals exact False.elim hb

/-- ExecuteOp on a read instruction in an indexed mode that counts page crossings, when every
read may change the memory. -/
theorem read_case_operands (cpu : CPU σ) (op c base index v : Int) (m0 m1 m2 : σ)
    (mode : AddrMode)
    (f : CPU σ → AddrMode → Option (CPU σ)) (hf : ReadType f)
    (hdisp : ∀ cpu1 : CPU σ, executeOp cpu1 op = f cpu1 (codeMode mode true))
    (hint : cpu.pendingInterrupt = 0)
    (hop : CPUMemory.Read cpu.memory cpu.PC = some (op, m0))
    (hc : opCyclesLengthAt op = some c)
    (hb : indexedOperands m0 (cpu.PC + 1) cpu.X cpu.Y mode base index m1)
    (hv : CPUMemory.Read m1 ((base + index) % 65536) = some (v, m2)) :
    ∃ cpu1, ExecuteOp cpu
      = some (if (base + index) % 65536 / 256 ≠ base / 256 then c + 1 else c, cpu1) := by
  rw [ExecuteOp_fetch_memory cpu op c m0 hint hop hc, hdisp]
  obtain ⟨n, hcalc⟩ :=
    calculateMemoryAddress_operands
      { cpu with memory := m0, PC := cpu.PC + 1, OpCycles := c } mode true base index m1 hb
  obtain ⟨cpu3, h3, h4⟩ := hf _ _ _ _ v m2 hcalc hv
  rw [h3]
  refine ⟨cpu3, ?_⟩
  simp only [Option.some_bind, h4, true_and]

/-- ExecuteOp on a store or read-modify-write instruction in an indexed mode that does not count
page crossings, when every read may change the memory. -/
theorem write_case_operands (cpu : CPU σ) (op c base index v : Int) (m0 m1 m2 : σ)
    (extra : Int) (mode : AddrMode)
    (reads : Bool) (f : CPU σ → AddrMode → Option (CPU σ)) (hf : WriteType f reads)
    (hdisp : ∀ cpu1 : CPU σ, executeOp cpu1 op = f cpu1 (codeMode mode false))
    (hint : cpu.pendingInterrupt = 0)
    (hop : CPUMemory.Read cpu.memory cpu.PC = some (op, m0))
    (hc : opCyclesLengthAt op = some c)
    (hb : indexedOperands m0 (cpu.PC + 1) cpu.X cpu.Y mode base index m1)
    (hv : reads = true → CPUMemory.Read m1 ((base + index) % 65536) = some (v, m2))
    (hm : reads = false → m2 = m1)
    (hw : writeReports m2 ((base + index) % 65536) extra) :
    ∃ cpu1, ExecuteOp cpu = some (c + max extra 0, cpu1) := by
  rw [ExecuteOp_fetch_memory cpu op c m0 hint hop hc, hdisp]
  obtain ⟨n, hcalc⟩ :=
    calculateMemoryAddress_operands
      { cpu with memory := m0, PC := cpu.PC + 1, OpCycles := c } mode false base index m1 hb
  have hacc : codeMode mode false ≠ ACC := by
    cases mode <;> first | exact False.elim hb | simp [codeMode]
  obtain ⟨cpu3, h3, h4⟩ := hf _ _ _ _ v m2 extra hacc hcalc hv hm hw
  rw [h3]
  refine ⟨cpu3, ?_⟩
  simp [h4]

end

section
variable {σ : Type} [CPUMemory σ] {I : σ → Prop}

theorem serves_read_then (hS : MemoryServes I) {β : Type} (P : Option β → Prop) (cpu : CPU σ)
    (a : Int) (f : Int × CPU σ → Option β) (hI : I cpu.memory)
    (hf : ∀ v m1, I m1 → P (f (v, { cpu with memory := m1 }))) :
    P (readMemory cpu a >>= f) := by
  obtain ⟨v, m1, hr, h1⟩ := hS.1 cpu.memory a hI
  have e : readMemory cpu a = some (v, { cpu with memory := m1 }) := by
    simp only [readMemory, hr]
  rw [e]
  exact hf v m1 h1

theorem serves_read (hS : MemoryServes I) {β : Type} (cpu : CPU σ) (a : Int)
    (f : Int × CPU σ → Option β) (hI : I cpu.memory)
    (hf : ∀ r : Int × CPU σ, I r.2.memory → Returns (f r)) :
    Returns (readMemory cpu a >>= f) :=
  serves_read_then hS Returns cpu a f hI fun v _ h1 => hf (v, _) h1

theorem serves_read_last (hS : MemoryServes I) (cpu : CPU σ) (a : Int) (hI : I cpu.memory) :
    Returns (readMemory cpu a) := by
  obtain ⟨v, m1, hr, _⟩ := hS.1 cpu.memory a hI
  simp only [readMemory, hr]
  exact Returns_some _

theorem serves_write (hS : MemoryServes I) {β : Type} (cpu : CPU σ) (a w : Int)
    (f : CPU σ → Option β) (hI : I cpu.memory)
    (hf : ∀ r : CPU σ, I r.memory → Returns (f r)) :
    Returns (writeMemory cpu a w >>= f) := by
  obtain ⟨e, m1, hr, h1⟩ := hS.2 cpu.memory a w hI
  simp only [writeMemory, hr, Option.bind_eq_bind, Option.some_bind]
  exact hf _ h1

theorem serves_write_last (hS : MemoryServes I) (cpu : CPU σ) (a w : Int)
    (hI : I cpu.memory) : Returns (writeMemory cpu a w) := by
  obtain ⟨e, m1, hr, _⟩ := hS.2 cpu.memory a w hI
  simp only [writeMemory, hr]
  exact Returns_some _

theorem serves_push (hS : MemoryServes I) {β : Type} (cpu : CPU σ) (w : Int)
    (f : CPU σ → Option β) (hI : I cpu.memory)
    (hf : ∀ r : CPU σ, I r.memory → Returns (f r)) :
    Returns (push cpu w >>= f) := by
  obtain ⟨e, m1, hr, h1⟩ := hS.2 cpu.memory (0x0100 ||| cpu.S) w hI
  simp only [push, writeMemory, hr, Option.bind_eq_bind, Option.some_bind]
  exact hf _ h1

theorem serves_push_last (hS : MemoryServes I) (cpu : CPU σ) (w : Int)
    (hI : I cpu.memory) : Returns (push cpu w) := by
  obtain ⟨e, m1, hr, _⟩ := hS.2 cpu.memory (0x0100 ||| cpu.S) w hI
  simp only [push, writeMemory, hr, Option.bind_eq_bind, Option.some_bind]
  exact Returns_some _

theorem serves_pop (hS : MemoryServes I) {β : Type} (cpu : CPU σ)
    (f : Int × CPU σ → Option β) (hI : I cpu.memory)
    (hf : ∀ r : Int × CPU σ, I r.2.memory → Returns (f r)) :
    Returns (pop cpu >>= f) := by
  unfold pop
  exact serves_read hS _ _ f hI hf

theorem serves_pop_last (hS : MemoryServes I) (cpu : CPU σ) (hI : I cpu.memory) :
    Returns (pop cpu) := by
  unfold pop
  exact serves_read_last hS _ _ hI

/-- The address calculation returns on a memory that serves every access. -/
theorem calculateMemoryAddress_serves (hS : MemoryServes I) (cpu : CPU σ) (mode : AddrMode)
    (hI : I cpu.memory) :
    AddressServes I (calculateMemoryAddress cpu mode) := by
  cases mode <;>
    simp only [calculateMemoryAddress, calculateMemoryAddressIMM, calculateMemoryAddressABS,
      calculateMemoryAddressZP, calculateMemoryAddressZPX, calculateMemoryAddressZPY,
      calculateMemoryAddressABSX, calculateMemoryAddressABSY, calculateMemoryAddressREL,
      calculateMemoryAddressINDX, calculateMemoryAddressINDY, calculateMemoryAddressIND]
  case REL =>
    refine serves_read_then hS (AddressServes I) _ _ _ hI fun v m1 h1 => ?_
    dsimp only
    split_ifs <;> exact ⟨_, _, rfl, h1⟩
  all_goals repeat' (first
    | exact ⟨_, _, rfl, by assumption⟩
    | (refine serves_read_then hS (AddressServes I) _ _ _ (by assumption) ?_)
    | intro _)

theorem serves_calc (hS : MemoryServes I) {β : Type} (cpu : CPU σ) (mode : AddrMode)
    (f : Int × CPU σ → Option β) (hI : I cpu.memory)
    (hf : ∀ r : Int × CPU σ, I r.2.memory → Returns (f r)) :
    Returns (calculateMemoryAddress cpu mode >>= f) := by
  obtain ⟨ea, cpu1, h, h1⟩ := calculateMemoryAddress_serves hS cpu mode hI
  rw [h]
  exact hf (ea, cpu1) h1

/-- On a memory that serves every access, no instruction handler with an addressing mode
panics. -/
theorem serves_modeOps (hS : MemoryServes I) :
    ∀ f ∈ (modeOps : List (CPU σ → AddrMode → Option (CPU σ))),
      ∀ cpu mode, I cpu.memory → Returns (f cpu mode) := by
  intro f hf cpu mode hI
  simp only [modeOps, List.mem_cons, List.mem_singleton, List.not_mem_nil, or_false] at hf
  repeat' (refine Or.elim hf (fun hf => ?_) (fun hf => ?_))
  all_goals subst hf
  all_goals first
    | unfold opADC | unfold opAND | unfold opASL | unfold opBCC | unfold opBCS | unfold opBEQ
    | unfold opBIT | unfold opBMI | unfold opBNE | unfold opBPL | unfold opBVC | unfold opBVS
    | unfold opCMP | unfold opCPX | unfold opCPY | unfold opDEC | unfold opEOR | unfold opINC
    | unfold opJMP | unfold opJSR | unfold opLDA | unfold opLDX | unfold opLDY | unfold opLSR
    | unfold opORA | unfold opROL | unfold opROR | unfold opSBC | unfold opSTA | unfold opSTX
    | unfold opSTY | unfold opDOP | unfold opTOP | unfold opLAX | unfold opAAX | unfold opDCP
    | unfold opISC | unfold opSLO | unfold opRLA | unfold opSRE | unfold opRRA
  all_goals repeat' (first
    | exact Returns_some _
    | with_reducible apply Returns_ite
    | (with_reducible refine serves_calc hS _ _ _ ?_ ?_)
    | (with_reducible refine serves_read hS _ _ _ ?_ ?_)
    | (with_reducible refine serves_write hS _ _ _ _ ?_ ?_)
    | (with_reducible refine serves_push hS _ _ _ ?_ ?_)
    | (with_reducible refine serves_pop hS _ _ ?_ ?_)
    | (with_reducible refine serves_read_last hS _ _ ?_)
    | (with_reducible refine serves_write_last hS _ _ _ ?_)
    | (with_reducible refine serves_push_last hS _ _ ?_)
    | (with_reducible refine serves_pop_last hS _ ?_)
    | intro _
    | assumption)

/-- On a memory that serves every access, no instruction handler without an addressing mode
panics. -/
theorem serves_stackOps (hS : MemoryServes I) :
    ∀ f ∈ (stackOps : List (CPU σ → Option (CPU σ))), ∀ cpu, I cpu.memory →
      Returns (f cpu) := by
  intro f hf cpu hI
  simp only [stackOps, List.mem_cons, List.mem_singleton, List.not_mem_nil, or_false] at hf
  repeat' (refine Or.elim hf (fun hf => ?_) (fun hf => ?_))
  all_goals subst hf
  all_goals first
    | unfold opBRK | unfold opPHA | unfold opPHP | unfold opPLA | unfold opPLP | unfold opRTI
    | unfold opRTS
  all_goals repeat' (first
    | exact Returns_some _
    | with_reducible apply Returns_ite
    | (with_reducible refine serves_read hS _ _ _ ?_ ?_)
    | (with_reducible refine serves_write hS _ _ _ _ ?_ ?_)
    | (with_reducible refine serves_push hS _ _ _ ?_ ?_)
    | (with_reducible refine serves_pop hS _ _ ?_ ?_)
    | (with_reducible refine serves_read_last hS _ _ ?_)
    | (with_reducible refine serves_write_last hS _ _ _ ?_)
    | (with_reducible refine serves_push_last hS _ _ ?_)
    | (with_reducible refine serves_pop_last hS _ ?_)
    | intro _
    | assumption)

/-- On a memory that serves every access, no opcode panics. -/
theorem executeOp_serves (hS : MemoryServes I) (cpu : CPU σ) (opCode : Int)
    (hI : I cpu.memory) : Returns (executeOp cpu opCode) :=
  executeOp_cases (fun cpu x => I cpu.memory → Returns x)
    (fun f hf cpu mode hI => serves_modeOps hS f hf cpu mode hI)
    (fun f hf cpu hI => serves_stackOps hS f hf cpu hI)
    (fun _ _ _ _ => Returns_some _) (fun _ _ _ _ => Returns_some _)
    (fun _ _ _ _ => Returns_some _)
    (fun _ _ => Returns_some _) (fun _ _ => Returns_some _)
    (fun _ _ => Returns_some _) (fun _ _ => Returns_some _)
    (fun _ _ => Returns_some _) cpu opCode hI

/-- On a memory that serves every access, servicing a pending interrupt does not panic. -/
theorem executePendingInterruptOp_serves (hS : MemoryServes I) (cpu : CPU σ)
    (hI : I cpu.memory) : Returns (executePendingInterruptOp cpu) := by
  unfold executePendingInterruptOp
  repeat' (first
    | exact Returns_some _
    | with_reducible apply Returns_ite
    | (with_reducible refine serves_read hS _ _ _ ?_ ?_)
    | (with_reducible refine serves_push hS _ _ _ ?_ ?_)
    | with_reducible apply Returns_bind
    | intro _
    | assumption)

/-- ExecuteOp returns on a memory that serves every access, when the opcode it fetches is a
byte. -/
theorem ExecuteOp_serves (hS : MemoryServes I) (cpu : CPU σ) (hI : I cpu.memory)
    (hop : cpu.pendingInterrupt = 0 →
      ∀ op m0, CPUMemory.Read cpu.memory cpu.PC = some (op, m0) → 0 ≤ op ∧ op ≤ 255) :
    Returns (ExecuteOp cpu) := by
  unfold ExecuteOp
  split_ifs with hp
  · exact Returns_bind _ _ (executePendingInterruptOp_serves hS cpu hI) fun _ => Returns_some _
  · obtain ⟨op, m0, hr, h0⟩ := hS.1 cpu.memory cpu.PC hI
    obtain ⟨c, hc⟩ := Returns_opCyclesLengthAt op (hop (not_not.mp hp) op m0 hr)
    obtain ⟨cpu1, h1⟩ := executeOp_serves hS
      { cpu with memory := m0, PC := cpu.PC + 1, OpCycles := c } op h0
    simp only [readMemory, hr, Option.bind_eq_bind, Option.some_bind, hc, h1]
    exact Returns_some _

end

section
variable {κ π : Type} [PrgDevice κ] [RegisterDevice π]

/-- The NES memories whose devices satisfy closed conditions serve every access, at whatever
address. -/
theorem nesMemory_serves {K : κ → Prop} {R : π → Prop} (hD : DevicesClosed K R) :
    MemoryServes (NESCPUMemory.Within K R : NESCPUMemory κ π → Prop) :=
  ⟨fun m a hm => by
      obtain ⟨v, m1, h, h1, _⟩ := NESCPUMemory.Read_closed hD m a hm
      exact ⟨v, m1, h, h1⟩,
    fun m a w hm => NESCPUMemory.Write_closed hD m a w hm⟩

end

/-! ## The claims -/

section
variable {σ : Type} [CPUMemory σ]

/-- C1. ADC #M (opcode 0x69), whatever the D flag: with A and M bytes and carry-in C, the
instruction takes 2 cycles and leaves A = (A + M + C) mod 256, carry set exactly when
A + M + C > 255, Z set exactly when the new A is 0, N set exactly when bit 7 of the new A is set,
and V set exactly when the signed sum of A, M and C lies outside -128..127. -/
theorem adc_immediate (cpu : CPU σ) (M : Int)
    (hint : cpu.pendingInterrupt = 0)
    (hdec : cpu.decimalModeSupported = false)
    (hop : readsAs cpu.memory cpu.PC 0x69)
    (hM : readsAs cpu.memory (cpu.PC + 1) M)
    (hA : 0 ≤ cpu.A ∧ cpu.A ≤ 255) (hMb : 0 ≤ M ∧ M ≤ 255) :
    ∃ cpu1, ExecuteOp cpu = some (2, cpu1) ∧
      cpu1.A = (cpu.A + M + carryIn cpu.P) % 256 ∧
      (flagSet cpu1.P flagC ↔ cpu.A + M + carryIn cpu.P > 255) ∧
      (flagSet cpu1.P flagZ ↔ cpu1.A = 0) ∧
      (flagSet cpu1.P flagN ↔ 128 ≤ cpu1.A) ∧
      (flagSet cpu1.P flagV ↔
        ¬ (-128 ≤ signed8 cpu.A + signed8 M + carryIn cpu.P ∧
            signed8 cpu.A + signed8 M + carryIn cpu.P ≤ 127)) := by
  have hres : (if (cpu.P &&& flagC) ≠ 0 then cpu.A + M + 1 else cpu.A + M)
      = cpu.A + M + carryIn cpu.P := by
    unfold carryIn; split_ifs <;> simp
  have hfl := adc_flags cpu.A M (carryIn cpu.P) cpu.P hA hMb (carryIn_cases cpu.P)
  rw [ExecuteOp_fetch cpu 0x69 2 hint hop opCyclesLengthAt_0x69, executeOp_0x69]
  unfold readsAs at hM
  simp only [opADC, calculateMemoryAddress, calculateMemoryAddressIMM, readMemory, hM, hdec,
    Option.bind_eq_bind, Option.some_bind, or_true, if_true, hres]
  obtain ⟨h1, h2, h3, h4⟩ := hfl
  refine ⟨_, rfl, ?_, h1, ?_, ?_, h4⟩
  · exact and_0xFF _
  · simpa only [and_0xFF] using h2
  · simpa only [and_0xFF] using h3


/-- Witness of C1: with A = 0x50 and the carry clear, ADC #$50 gives A = 0xA0, V = 1, N = 1,
Z = 0, C = 0. -/
theorem adc_immediate_witness :
    ∃ cpu1, ExecuteOp adcExample = some (2, cpu1) ∧ cpu1.A = 0xA0 ∧
      flagSet cpu1.P flagV ∧ flagSet cpu1.P flagN ∧ ¬ flagSet cpu1.P flagZ ∧
      ¬ flagSet cpu1.P flagC := by
  obtain ⟨cpu1, h, hA, hC, hZ, hN, hV⟩ :=
    adc_immediate adcExample 0x50 rfl rfl rfl rfl (by decide) (by decide)
  have hA1 : cpu1.A = 0xA0 := hA.trans (by decide)
  refine ⟨cpu1, h, hA1, hV.mpr (by decide), hN.mpr ?_, fun hz => ?_, fun hc => ?_⟩
  · rw [hA1]; decide
  · have := hZ.mp hz
    rw [hA1] at this
    exact absurd this (by decide)
  · exact absurd (hC.mp hc) (by decide)

/-- C2. SBC #M (opcode 0xE9 and its alias 0xEB), whatever the D flag: with A and M bytes and
carry-in C, the instruction takes 2 cycles and leaves A = (A - M - (1 - C)) mod 256, carry set
exactly when A >= M + (1 - C), Z set exactly when the new A is 0, N set exactly when bit 7 of the
new A is set, and V = ((A xor M) and (A xor new A) and 0x80) != 0, which is the case exactly when
the signed difference lies outside -128..127. -/
theorem sbc_immediate (cpu : CPU σ) (op M : Int)
    (hopc : op = 0xE9 ∨ op = 0xEB)
    (hint : cpu.pendingInterrupt = 0)
    (hdec : cpu.decimalModeSupported = false)
    (hop : readsAs cpu.memory cpu.PC op)
    (hM : readsAs cpu.memory (cpu.PC + 1) M)
    (hA : 0 ≤ cpu.A ∧ cpu.A ≤ 255) (hMb : 0 ≤ M ∧ M ≤ 255) :
    ∃ cpu1, ExecuteOp cpu = some (2, cpu1) ∧
      cpu1.A = (cpu.A - M - (1 - carryIn cpu.P)) % 256 ∧
      (flagSet cpu1.P flagC ↔ cpu.A ≥ M + (1 - carryIn cpu.P)) ∧
      (flagSet cpu1.P flagZ ↔ cpu1.A = 0) ∧
      (flagSet cpu1.P flagN ↔ 128 ≤ cpu1.A) ∧
      (flagSet cpu1.P flagV ↔ ((cpu.A ^^^ M) &&& (cpu.A ^^^ cpu1.A) &&& 0x80) ≠ 0) ∧
      (flagSet cpu1.P flagV ↔
        ¬ (-128 ≤ signed8 cpu.A - signed8 M - (1 - carryIn cpu.P) ∧
            signed8 cpu.A - signed8 M - (1 - carryIn cpu.P) ≤ 127)) := by
  have hres : (if (cpu.P &&& flagC) = 0 then cpu.A - M - 1 else cpu.A - M)
      = cpu.A - M - (1 - carryIn cpu.P) := by
    unfold carryIn; split_ifs <;> simp_all
  have hfl := sbc_flags cpu.A M (carryIn cpu.P) cpu.P hA hMb (carryIn_cases cpu.P)
  have hex : ExecuteOp cpu =
      (opSBC { cpu with PC := cpu.PC + 1, OpCycles := 2 } IMM).bind
        fun c => some (c.OpCycles, c) := by
    rcases hopc with h | h
    · subst h
      rw [ExecuteOp_fetch cpu 0xE9 2 hint hop opCyclesLengthAt_0xE9, executeOp_0xE9]
    · subst h
      rw [ExecuteOp_fetch cpu 0xEB 2 hint hop opCyclesLengthAt_0xEB, executeOp_0xEB]
  rw [hex]
  unfold readsAs at hM
  simp only [opSBC, calculateMemoryAddress, calculateMemoryAddressIMM, readMemory, hM, hdec,
    Option.bind_eq_bind, Option.some_bind, or_true, if_true, hres]
  obtain ⟨h1, h2, h3, h4, h5⟩ := hfl
  refine ⟨_, rfl, ?_, h1, ?_, ?_, ?_, h5⟩
  · exact and_0xFF_left _
  · simpa only [and_0xFF_left] using h2
  · simpa only [and_0xFF_left] using h3
  · simpa only [and_0xFF_left] using h4

/-- Witness of C2: with A = 0x10 and the carry clear, the alias opcode 0xEB with operand 0x50
gives A = 0xBF, N = 1, Z = 0, C = 0 (a borrow) and V = 0. -/
theorem sbc_immediate_witness :
    ∃ cpu1, ExecuteOp sbcExample = some (2, cpu1) ∧ cpu1.A = 0xBF ∧
      flagSet cpu1.P flagN ∧ ¬ flagSet cpu1.P flagZ ∧ ¬ flagSet cpu1.P flagC ∧
      ¬ flagSet cpu1.P flagV := by
  obtain ⟨cpu1, h, hA, hC, hZ, hN, _, hV⟩ :=
    sbc_immediate sbcExample 0xEB 0x50 (Or.inr rfl) rfl rfl rfl rfl (by decide) (by decide)
  have hA1 : cpu1.A = 0xBF := hA.trans (by decide)
  refine ⟨cpu1, h, hA1, hN.mpr ?_, fun hz => ?_, fun hc => ?_, fun hv => ?_⟩
  · rw [hA1]; decide
  · have := hZ.mp hz
    rw [hA1] at this
    exact absurd this (by decide)
  · exact absurd (hC.mp hc) (by decide)
  · exact (hV.mp hv) (by decide)

/-- C3. JMP (p) (opcode 0x6C) for a 16-bit pointer p: the instruction takes 5 cycles and sets PC
to mem[p] + 256 * mem[q], where q = p + 1 when the low byte of p is not 0xFF and
q = p AND 0xFF00 (that is p - 0xFF, the start of the page of p) when it is 0xFF; nothing else
changes. -/
theorem jmp_indirect (cpu : CPU σ) (p vp vq : Int)
    (hp : 0 ≤ p ∧ p ≤ 0xFFFF)
    (hint : cpu.pendingInterrupt = 0)
    (hop : readsAs cpu.memory cpu.PC 0x6C)
    (hlo : readsAs cpu.memory (cpu.PC + 1) (p % 256))
    (hhi : readsAs cpu.memory (cpu.PC + 2) (p / 256))
    (hvp : readsAs cpu.memory p vp)
    (hvq : readsAs cpu.memory (if p % 256 ≠ 0xFF then p + 1 else p &&& 0xFF00) vq)
    (hvpb : 0 ≤ vp ∧ vp ≤ 255) (hvqb : 0 ≤ vq ∧ vq ≤ 255) :
    ExecuteOp cpu = some (5, { cpu with PC := vp + 256 * vq, OpCycles := 5 }) ∧
      (p % 256 = 0xFF → p &&& 0xFF00 = p - 0xFF) := by
  have hword : 0xFFFF &&& (shl (p / 256) 8 ||| p % 256) = p := by
    rw [word_of_bytes _ _ (by omega) (by omega)]; omega
  have hword2 : 0xFFFF &&& (shl vq 8 ||| vp) = vp + 256 * vq := by
    rw [word_of_bytes _ _ hvqb hvpb]; ring
  have hnext : (if (p &&& 0xFF) = 0xFF then p &&& 0xFF00 else p + 1)
      = (if p % 256 ≠ 0xFF then p + 1 else p &&& 0xFF00) := by
    rw [and_0xFF]
    by_cases h : p % 256 = 255 <;> simp [h]
  constructor
  · rw [ExecuteOp_fetch cpu 0x6C 5 hint hop opCyclesLengthAt_0x6C, executeOp_0x6C]
    unfold readsAs at hlo hhi hvp hvq
    have e2 : cpu.PC + 1 + 1 = cpu.PC + 2 := by ring
    simp only [opJMP, calculateMemoryAddress, calculateMemoryAddressIND, readMemory, hlo, hhi,
      Option.bind_eq_bind, Option.some_bind, e2, hword, and_true, hnext, hvq, hvp, hword2]
  · intro h
    rw [and_0xFF00 p hp.1 hp.2, h]

/-- Witness of C3: with 0x40 at 0x30FF and 0x80 at 0x3000 (and 0x11 at 0x3100),
JMP ($30FF) gives PC = 0x8040. -/
theorem jmp_indirect_witness :
    (ExecuteOp jmpExample).map (fun r => (r.1, r.2.PC)) = some (5, 0x8040) := by
  rw [(jmp_indirect jmpExample 0x30FF 0x40 0x80 (by decide) rfl rfl rfl rfl rfl rfl
    (by decide) (by decide)).1]
  rfl

/-- C4. With the operand byte d at PC and any X and Y: the ZP,X address is
(d + X) mod 256, the ZP,Y address is (d + Y) mod 256, the (IND,X) address is
mem[(d + X) mod 256] + 256 * mem[(d + X + 1) mod 256], and the (IND),Y address is
(mem[d] + 256 * mem[(d + 1) mod 256] + Y) mod 65536; each mode advances PC by one, and every
address used to fetch a pointer byte lies in 0..255, as do the ZP,X and ZP,Y addresses. -/
theorem zero_page_addressing (cpu : CPU σ) (d a0 a1 b0 b1 : Int) (count : Bool)
    (hd : readsAs cpu.memory cpu.PC d)
    (hdb : 0 ≤ d ∧ d ≤ 255)
    (hx0 : readsAs cpu.memory ((d + cpu.X) % 256) a0)
    (hx1 : readsAs cpu.memory ((d + cpu.X + 1) % 256) a1)
    (hy0 : readsAs cpu.memory d b0)
    (hy1 : readsAs cpu.memory ((d + 1) % 256) b1)
    (ha0 : 0 ≤ a0 ∧ a0 ≤ 255) (ha1 : 0 ≤ a1 ∧ a1 ≤ 255)
    (hb0 : 0 ≤ b0 ∧ b0 ≤ 255) (hb1 : 0 ≤ b1 ∧ b1 ≤ 255) :
    calculateMemoryAddressZPX cpu = some ((d + cpu.X) % 256, { cpu with PC := cpu.PC + 1 }) ∧
    calculateMemoryAddressZPY cpu = some ((d + cpu.Y) % 256, { cpu with PC := cpu.PC + 1 }) ∧
    calculateMemoryAddressINDX cpu = some (a0 + 256 * a1, { cpu with PC := cpu.PC + 1 }) ∧
    (calculateMemoryAddressINDY cpu count).map (fun r => (r.1, r.2.PC))
      = some ((b0 + 256 * b1 + cpu.Y) % 65536, cpu.PC + 1) ∧
    (0 ≤ (d + cpu.X) % 256 ∧ (d + cpu.X) % 256 ≤ 255) ∧
    (0 ≤ (d + cpu.Y) % 256 ∧ (d + cpu.Y) % 256 ≤ 255) ∧
    (0 ≤ (d + cpu.X + 1) % 256 ∧ (d + cpu.X + 1) % 256 ≤ 255) ∧
    (0 ≤ (d + 1) % 256 ∧ (d + 1) % 256 ≤ 255) ∧ (0 ≤ d ∧ d ≤ 255) := by
  unfold readsAs at hd hx0 hx1 hy0 hy1
  have e1 : cpu.X + d = d + cpu.X := by ring
  have e2 : cpu.Y + d = d + cpu.Y := by ring
  have e3 : ((d + cpu.X) % 256 + 1) % 256 = (d + cpu.X + 1) % 256 := by omega
  have w1 : 0xFFFF &&& (shl a1 8 ||| a0) = a0 + 256 * a1 := by
    rw [word_of_bytes _ _ ha1 ha0]; ring
  have w2 : 0xFFFF &&& (shl b1 8 ||| b0) = b0 + 256 * b1 := by
    rw [word_of_bytes _ _ hb1 hb0]; ring
  have w3 : (shl b1 8 ||| b0) % 65536 = b0 + 256 * b1 := by
    rw [← and_0xFFFF_left]; exact w2
  refine ⟨?_, ?_, ?_, ?_, by omega, by omega, by omega, by omega, hdb⟩
  · simp only [calculateMemoryAddressZPX, readMemory, hd, Option.bind_eq_bind, Option.some_bind,
      and_0xFF_left, e1]
  · simp only [calculateMemoryAddressZPY, readMemory, hd, Option.bind_eq_bind, Option.some_bind,
      and_0xFF_left, e2]
  · simp only [calculateMemoryAddressINDX, readMemory, hd, Option.bind_eq_bind,
      Option.some_bind, and_0xFF_left, e3, hx0, hx1, w1]
  · simp only [calculateMemoryAddressINDY, readMemory, hd, Option.bind_eq_bind,
      Option.some_bind, and_0xFF_left, hy0, hy1, and_0xFFFF_left, w3, Option.map_some']

/-- Witness of C4: operand 0xFF with X = 2 and Y = 0x10 gives the ZP,X address 0x01, the ZP,Y
address 0x0F, the (IND,X) address 0x1234 read at 0x01/0x02, and the (IND),Y address 0x2108 read
at 0xFF/0x00. -/
theorem zero_page_addressing_witness :
    (calculateMemoryAddressZPX zeroPageExample).map Prod.fst = some 0x01 ∧
    (calculateMemoryAddressZPY zeroPageExample).map Prod.fst = some 0x0F ∧
    (calculateMemoryAddressINDX zeroPageExample).map Prod.fst = some 0x1234 ∧
    (calculateMemoryAddressINDY zeroPageExample true).map Prod.fst = some 0x2108 := by
  obtain ⟨h1, h2, h3, h4, _⟩ :=
    zero_page_addressing zeroPageExample 0xFF 0x34 0x12 0xF8 0x20 true rfl (by decide)
      rfl rfl rfl rfl (by decide) (by decide) (by decide) (by decide)
  refine ⟨?_, ?_, ?_, ?_⟩
  · rw [h1]; rfl
  · rw [h2]; rfl
  · rw [h3]; rfl
  · have := congrArg (Option.map Prod.fst) h4
    simpa using this

/-- C5. Relative addressing with the operand byte d at PC returns (PC + 1 + s) mod 65536, where
PC + 1 is the PC after the operand byte has been consumed and s is d read as a signed
twos-complement byte (s = d for d < 128, s = d - 256 otherwise). -/
theorem relative_addressing (cpu : CPU σ) (d : Int)
    (hd : readsAs cpu.memory cpu.PC d) (hdb : 0 ≤ d ∧ d ≤ 255) :
    calculateMemoryAddressREL cpu
      = some ((cpu.PC + 1 + signed8 d) % 65536, { cpu with PC := cpu.PC + 1 }) := by
  unfold readsAs at hd
  simp only [calculateMemoryAddressREL, readMemory, hd, Option.bind_eq_bind, Option.some_bind]
  rw [rel_offset d (cpu.PC + 1) hdb]

/-- Witness of C5: the displacement 0xFD read at 0x8001 is -3 and leads from 0x8002 to 0x7FFF. -/
theorem relative_addressing_witness :
    (calculateMemoryAddressREL relExample).map Prod.fst = some 0x7FFF := by
  rw [relative_addressing relExample 0xFD rfl (by decide)]
  rfl

/-- C6. For each of the eight branch opcodes with the displacement byte d: when the condition
is false ExecuteOp returns 2 cycles and leaves PC just after the operand (PC + 2); when it is
true ExecuteOp sets PC to the relative target (PC + 2 + signed d) mod 65536 and returns 3 cycles
if the target is on the same 256-byte page as PC + 2, and 4 cycles otherwise; nothing else
changes. -/
theorem branch_cycles (cpu : CPU σ) (op d : Int)
    (hop : op ∈ branchOpcodes)
    (hint : cpu.pendingInterrupt = 0)
    (hopr : readsAs cpu.memory cpu.PC op)
    (hd : readsAs cpu.memory (cpu.PC + 1) d) (hdb : 0 ≤ d ∧ d ≤ 255) :
    ExecuteOp cpu =
      if branchCondition op cpu.P = true then
        if (cpu.PC + 2 + signed8 d) % 65536 / 256 = (cpu.PC + 2) / 256 then
          some (3, { cpu with PC := (cpu.PC + 2 + signed8 d) % 65536, OpCycles := 3 })
        else
          some (4, { cpu with PC := (cpu.PC + 2 + signed8 d) % 65536, OpCycles := 4 })
      else some (2, { cpu with PC := cpu.PC + 2, OpCycles := 2 }) := by
  rw [ExecuteOp_fetch cpu op 2 hint hopr (opCyclesLengthAt_branch op hop),
    executeOp_branch _ op hop]
  have e2 : cpu.PC + 1 + 1 = cpu.PC + 2 := by ring
  rw [branch_core { cpu with PC := cpu.PC + 1, OpCycles := 2 } _ d hd hdb]
  simp only [e2, Option.some_bind]
  by_cases hc : branchCondition op cpu.P = true
  · simp only [hc, if_true]
    by_cases hp : (cpu.PC + 2 + signed8 d) % 65536 / 256 = (cpu.PC + 2) / 256
    · simp [hp]
    · simp [hp]
  · simp [hc]

/-- Witness of C6: BNE +3 at 0x80FD with Z clear is taken, crosses from page 0x80 to page 0x81
and costs 4 cycles. -/
theorem branch_cycles_witness :
    (ExecuteOp branchExample).map (fun r => (r.1, r.2.PC)) = some (4, 0x8102) := by
  rw [branch_cycles branchExample 0xD0 0x03 (by decide) rfl rfl rfl (by decide)]
  rfl

/-- C7, the claim as stated fails: on the NES memory `STA $4000,X` with `X = 0x14` stores to the
OAM DMA register 0x4014 and ExecuteOp returns 518 cycles, not the base count 5 of opcode 0x9D. -/
theorem indexed_store_counterexample :
    (0x9D, ABSX) ∈ storeIndexedOps ∧ opCyclesLengthAt 0x9D = some 5 ∧
      (ExecuteOp staDmaExample).map Prod.fst = some 518 := by
  refine ⟨by decide, opCyclesLengthAt_0x9D, ?_⟩
  rw [ExecuteOp_fetch staDmaExample 0x9D 5 rfl rfl opCyclesLengthAt_0x9D, executeOp_0x9D]
  decide

/-- C7 as amended. With c the base cycle count of the opcode, base the un-indexed base address
and (base + index) mod 65536 the effective address: each official read instruction (LDA, LDX,
LDY, ADC, SBC, AND, ORA, EOR, CMP) in ABS,X, ABS,Y or (IND),Y mode returns c + 1 exactly when
the effective address lies on another 256-byte page than the base, and c otherwise; STA in
those three modes and ASL, LSR, ROL, ROR, INC, DEC in ABS,X add no cycle for a page crossing and
return c plus the additional cycles that the memory reports for the write (none when it
reports 0, as plain RAM does).  Every read of the instruction may change the memory, as the
read of a PPU register does: the fetch of the opcode leaves the memory m0, the reads of the
operand bytes leave m1, the read at the effective address returns any value v and leaves any
memory m2, and a read-modify-write instruction writes to m2. -/
theorem indexed_cycles (cpu : CPU σ) (op : Int) (mode : AddrMode) (base index c : Int)
    (m0 m1 : σ)
    (hint : cpu.pendingInterrupt = 0)
    (hop : CPUMemory.Read cpu.memory cpu.PC = some (op, m0))
    (hc : opCyclesLengthAt op = some c)
    (hb : indexedOperands m0 (cpu.PC + 1) cpu.X cpu.Y mode base index m1) :
    ((op, mode) ∈ readIndexedOps →
      ∀ v m2, CPUMemory.Read m1 ((base + index) % 65536) = some (v, m2) →
        ∃ cpu1, ExecuteOp cpu
          = some (if (base + index) % 65536 / 256 ≠ base / 256 then c + 1 else c, cpu1)) ∧
    ((op, mode) ∈ storeIndexedOps →
      ∀ extra,
        writeReports m1 ((base + index) % 65536) extra →
        ∃ cpu1, ExecuteOp cpu = some (c + max extra 0, cpu1)) ∧
    ((op, mode) ∈ rmwIndexedOps →
      ∀ v m2 extra, CPUMemory.Read m1 ((base + index) % 65536) = some (v, m2) →
        writeReports m2 ((base + index) % 65536) extra →
        ∃ cpu1, ExecuteOp cpu = some (c + max extra 0, cpu1)) := by
  refine ⟨?_, ?_, ?_⟩
  · intro hmem v m2 hv
    simp only [readIndexedOps, List.mem_cons, Prod.mk.injEq, List.mem_singleton,
      List.not_mem_nil, or_false] at hmem
    repeat' (refine Or.elim hmem (fun hmem => ?_) (fun hmem => ?_))
    all_goals (obtain ⟨rfl, rfl⟩ := hmem)
    · exact read_case_operands cpu _ c base index v m0 m1 m2 ABSX opLDA readType_opLDA
        (fun _ => executeOp_0xBD _) hint hop hc hb hv
    · exact read_case_operands cpu _ c base index v m0 m1 m2 ABSY opLDA readType_opLDA
        (fun _ => executeOp_0xB9 _) hint hop hc hb hv
    · exact read_case_operands cpu _ c base index v m0 m1 m2 INDY opLDA readType_opLDA
        (fun _ => executeOp_0xB1 _) hint hop hc hb hv
    · exact read_case_operands cpu _ c base index v m0 m1 m2 ABSY opLDX readType_opLDX
        (fun _ => executeOp_0xBE _) hint hop hc hb hv
    · exact read_case_operands cpu _ c base index v m0 m1 m2 ABSX opLDY readType_opLDY
        (fun _ => executeOp_0xBC _) hint hop hc hb hv
    · exact read_case_operands cpu _ c base index v m0 m1 m2 ABSX opADC readType_opADC
        (fun _ => executeOp_0x7D _) hint hop hc hb hv
    · exact read_case_operands cpu _ c base index v m0 m1 m2 ABSY opADC readType_opADC
        (fun _ => executeOp_0x79 _) hint hop hc hb hv
    · exact read_case_operands cpu _ c base index v m0 m1 m2 INDY opADC readType_opADC
        (fun _ => executeOp_0x71 _) hint hop hc hb hv
    · exact read_case_operands cpu _ c base index v m0 m1 m2 ABSX opSBC readType_opSBC
        (fun _ => executeOp_0xFD _) hint hop hc hb hv
    · exact read_case_operands cpu _ c base index v m0 m1 m2 ABSY opSBC readType_opSBC
        (fun _ => executeOp_0xF9 _) hint hop hc hb hv
    · exact read_case_operands cpu _ c base index v m0 m1 m2 INDY opSBC readType_opSBC
        (fun _ => executeOp_0xF1 _) hint hop hc hb hv
    · exact read_case_operands cpu _ c base index v m0 m1 m2 ABSX opAND readType_opAND
        (fun _ => executeOp_0x3D _) hint hop hc hb hv
    · exact read_case_operands cpu _ c base index v m0 m1 m2 ABSY opAND readType_opAND
        (fun _ => executeOp_0x39 _) hint hop hc hb hv
    · exact read_case_operands cpu _ c base index v m0 m1 m2 INDY opAND readType_opAND
        (fun _ => executeOp_0x31 _) hint hop hc hb hv
    · exact read_case_operands cpu _ c base index v m0 m1 m2 ABSX opORA readType_opORA
        (fun _ => executeOp_0x1D _) hint hop hc hb hv
    · exact read_case_operands cpu _ c base index v m0 m1 m2 ABSY opORA readType_opORA
        (fun _ => executeOp_0x19 _) hint hop hc hb hv
    · exact read_case_operands cpu _ c base index v m0 m1 m2 INDY opORA readType_opORA
        (fun _ => executeOp_0x11 _) hint hop hc hb hv
    · exact read_case_operands cpu _ c base index v m0 m1 m2 ABSX opEOR readType_opEOR
        (fun _ => executeOp_0x5D _) hint hop hc hb hv
    · exact read_case_operands cpu _ c base index v m0 m1 m2 ABSY opEOR readType_opEOR
        (fun _ => executeOp_0x59 _) hint hop hc hb hv
    · exact read_case_operands cpu _ c base index v m0 m1 m2 INDY opEOR readType_opEOR
        (fun _ => executeOp_0x51 _) hint hop hc hb hv
    · exact read_case_operands cpu _ c base index v m0 m1 m2 ABSX opCMP readType_opCMP
        (fun _ => executeOp_0xDD _) hint hop hc hb hv
    · exact read_case_operands cpu _ c base index v m0 m1 m2 ABSY opCMP readType_opCMP
        (fun _ => executeOp_0xD9 _) hint hop hc hb hv
    · exact read_case_operands cpu _ c base index v m0 m1 m2 INDY opCMP readType_opCMP
        (fun _ => executeOp_0xD1 _) hint hop hc hb hv
  · intro hmem extra hw
    simp only [storeIndexedOps, List.mem_cons, Prod.mk.injEq, List.mem_singleton,
      List.not_mem_nil, or_false] at hmem
    repeat' (refine Or.elim hmem (fun hmem => ?_) (fun hmem => ?_))
    all_goals (obtain ⟨rfl, rfl⟩ := hmem)
    · exact write_case_operands cpu _ c base index 0 m0 m1 m1 extra ABSX false opSTA writeType_opSTA
        (fun _ => executeOp_0x9D _) hint hop hc hb (fun h => absurd h (by decide))
        (fun _ => rfl) hw
    · exact write_case_operands cpu _ c base index 0 m0 m1 m1 extra ABSY false opSTA writeType_opSTA
        (fun _ => executeOp_0x99 _) hint hop hc hb (fun h => absurd h (by decide))
        (fun _ => rfl) hw
    · exact write_case_operands cpu _ c base index 0 m0 m1 m1 extra INDY false opSTA writeType_opSTA
        (fun _ => executeOp_0x91 _) hint hop hc hb (fun h => absurd h (by decide))
        (fun _ => rfl) hw
  · intro hmem v m2 extra hv hw
    simp only [rmwIndexedOps, List.mem_cons, Prod.mk.injEq, List.mem_singleton,
      List.not_mem_nil, or_false] at hmem
    repeat' (refine Or.elim hmem (fun hmem => ?_) (fun hmem => ?_))
    all_goals (obtain ⟨rfl, rfl⟩ := hmem)
    · exact write_case_operands cpu _ c base index v m0 m1 m2 extra ABSX true opASL writeType_opASL
        (fun _ => executeOp_0x1E _) hint hop hc hb (fun _ => hv)
        (fun h => absurd h (by decide)) hw
    · exact write_case_operands cpu _ c base index v m0 m1 m2 extra ABSX true opLSR writeType_opLSR
        (fun _ => executeOp_0x5E _) hint hop hc hb (fun _ => hv)
        (fun h => absurd h (by decide)) hw
    · exact write_case_operands cpu _ c base index v m0 m1 m2 extra ABSX true opROL writeType_opROL
        (fun _ => executeOp_0x3E _) hint hop hc hb (fun _ => hv)
        (fun h => absurd h (by decide)) hw
    · exact write_case_operands cpu _ c base index v m0 m1 m2 extra ABSX true opROR writeType_opROR
        (fun _ => executeOp_0x7E _) hint hop hc hb (fun _ => hv)
        (fun h => absurd h (by decide)) hw
    · exact write_case_operands cpu _ c base index v m0 m1 m2 extra ABSX true opINC writeType_opINC
        (fun _ => executeOp_0xFE _) hint hop hc hb (fun _ => hv)
        (fun h => absurd h (by decide)) hw
    · exact write_case_operands cpu _ c base index v m0 m1 m2 extra ABSX true opDEC writeType_opDEC
        (fun _ => executeOp_0xDE _) hint hop hc hb (fun _ => hv)
        (fun h => absurd h (by decide)) hw

/-- Witness of C7: `LDA $10FF,Y` with `Y = 1` crosses a page and returns 4 + 1 = 5 cycles;
`STA $4000,X` with `X = 0x14` on the NES memory returns 5 + 513 = 518 cycles; `LDA $2000,X`
with `X = 2` on the NES memory with a PPU reads the status register, which clears the VBL flag
of the PPU, and returns the base count 4. -/
theorem indexed_cycles_witness :
    (∃ cpu1, ExecuteOp ldaCrossExample = some (5, cpu1)) ∧
      (∃ cpu1, ExecuteOp staDmaExample = some (518, cpu1)) ∧
      (∃ cpu1, ExecuteOp ldaStatusExample = some (4, cpu1)) ∧
      (CPUMemory.Read ldaStatusExample.memory 0x2002).map
          (fun r => (r.1, r.2.ppu.map fun p => p.statusReg.value)) = some (0x80, some 0) ∧
      ldaStatusExample.memory.ppu.map (fun p => p.statusReg.value) = some 0x80 :=
  ⟨(indexed_cycles ldaCrossExample 0xB9 ABSY 0x10FF 1 4 _ _ rfl rfl opCyclesLengthAt_0xB9
      ⟨0xFF, 0x10, _, by decide, by decide, rfl, rfl, by decide, rfl⟩).1 (by decide) 0 _ rfl,
   (indexed_cycles staDmaExample 0x9D ABSX 0x4000 0x14 5 _ _ rfl rfl opCyclesLengthAt_0x9D
      ⟨0x00, 0x40, _, by decide, by decide, rfl, rfl, by decide, rfl⟩).2.1 (by decide) 513
      (fun _ => ⟨_, rfl⟩),
   (indexed_cycles ldaStatusExample 0xBD ABSX 0x2000 2 4 _ _ rfl rfl opCyclesLengthAt_0xBD
      ⟨0x00, 0x20, _, by decide, by decide, rfl, rfl, by decide, rfl⟩).1 (by decide) 0x80 _ rfl,
   rfl, rfl⟩

/-- C8, the code at the failing input: `LAX $10FF,Y` (opcode 0xBF, base count 4) with `Y = 1`
has its effective address 0x1100 on another page than its base 0x10FF, and ExecuteOp returns 4
cycles, not 5; the official `LDA $10FF,Y` returns 5 in the same situation. -/
theorem lax_absy_page_cross :
    opCyclesLengthAt 0xBF = some 4 ∧
      indexedBase laxCrossExample.memory (laxCrossExample.PC + 1) laxCrossExample.X
        laxCrossExample.Y ABSY 0x10FF 1 ∧
      ((0x10FF + 1) % 65536 / 256 ≠ (0x10FF : Int) / 256) ∧
      (ExecuteOp laxCrossExample).map Prod.fst = some 4 ∧
      (ExecuteOp ldaCrossExample).map Prod.fst = some 5 := by
  refine ⟨opCyclesLengthAt_0xBF, ⟨0xFF, 0x10, by decide, by decide, rfl, rfl, by decide, rfl⟩,
    by decide, ?_, ?_⟩
  · rw [ExecuteOp_fetch laxCrossExample 0xBF 4 rfl rfl opCyclesLengthAt_0xBF, executeOp_0xBF]
    decide
  · rw [ExecuteOp_fetch ldaCrossExample 0xB9 4 rfl rfl opCyclesLengthAt_0xB9, executeOp_0xB9]
    decide

/-- C9. Over the plain read/write memory and for a stack pointer S in 0..255: push(v) stores v
at address 0x0100 + S, changes no other cell and sets S to (S - 1) mod 256; pop sets S to
(S + 1) mod 256 and returns the value at 0x0100 + new S; push(v) followed by pop returns v and
restores S (also across the wrap between 0x00 and 0xFF). -/
theorem push_pop (cpu : CPU TestCPUMemory) (v : Int) (hS : 0 ≤ cpu.S ∧ cpu.S ≤ 255) :
    push cpu v = some { cpu with
        S := (cpu.S - 1) % 256
        memory := ⟨fun a => if a = 0x0100 + cpu.S then v else cpu.memory.mem a⟩ } ∧
    pop cpu = some (cpu.memory.mem (0x0100 + (cpu.S + 1) % 256),
        { cpu with S := (cpu.S + 1) % 256 }) ∧
    (push cpu v).bind pop = some (v, { cpu with
        memory := ⟨fun a => if a = 0x0100 + cpu.S then v else cpu.memory.mem a⟩ }) := by
  have hpush : push cpu v = some { cpu with
        S := (cpu.S - 1) % 256
        memory := ⟨fun a => if a = 0x0100 + cpu.S then v else cpu.memory.mem a⟩ } := by
    have hr : (0 : Int) ≤ 0x0100 + cpu.S ∧ 0x0100 + cpu.S < 64 * 1024 := by omega
    have hs : (if cpu.S = 0x00 then 0xFF else cpu.S - 1) = (cpu.S - 1) % 256 := by
      split_ifs <;> omega
    simp only [push, writeMemory, CPUMemory.Write, TestCPUMemory.Write,
      stack_address cpu.S hS.1 hS.2, hr, and_self, if_true, Option.bind_eq_bind,
      Option.some_bind, gt_iff_lt, lt_self_iff_false, if_false, hs]
  have hpop : ∀ c : CPU TestCPUMemory, 0 ≤ c.S ∧ c.S ≤ 255 →
      pop c = some (c.memory.mem (0x0100 + (c.S + 1) % 256),
        { c with S := (c.S + 1) % 256 }) := by
    intro c hc
    have hs : (if c.S = 0xFF then 0x00 else c.S + 1) = (c.S + 1) % 256 := by
      split_ifs <;> omega
    have hr : (0 : Int) ≤ 0x0100 + (c.S + 1) % 256 ∧ 0x0100 + (c.S + 1) % 256 < 64 * 1024 := by
      omega
    simp only [pop, readMemory, CPUMemory.Read, TestCPUMemory.Read, hs,
      stack_address ((c.S + 1) % 256) (by omega) (by omega), hr, and_self, if_true]
  refine ⟨hpush, hpop cpu hS, ?_⟩
  rw [hpush, Option.some_bind, hpop _ (by dsimp only; omega)]
  have e : ((cpu.S - 1) % 256 + 1) % 256 = cpu.S := by omega
  simp only [e, if_true]

/-- Witness of C9: with S = 0x00, push(0x5A) stores at 0x0100 and wraps S to 0xFF, and the pop
that follows returns 0x5A with S back at 0x00. -/
theorem push_pop_witness :
    (push stackExample 0x5A).map (fun c => (c.S, c.memory.mem 0x0100)) = some (0xFF, 0x5A) ∧
      ((push stackExample 0x5A).bind pop).map (fun r => (r.1, r.2.S)) = some (0x5A, 0x00) := by
  obtain ⟨h1, _, h3⟩ := push_pop stackExample 0x5A (by decide)
  exact ⟨by rw [h1]; rfl, by rw [h3]; rfl⟩

end

/-- C10. For a pending interrupt p in {none, RESET, NMI, IRQ} and a request r in
{RESET, NMI, IRQ}, requestInterrupt changes only the pending interrupt, which becomes r when p
is none, RESET when r is RESET, NMI when r is NMI and p is IRQ, and stays p otherwise; so IRQ
never replaces a pending NMI or RESET and NMI never replaces a pending RESET. -/
theorem requestInterrupt_priority {σ : Type} (cpu : CPU σ) (r : Int)
    (hr : r = RESET ∨ r = NMI ∨ r = IRQ)
    (hp : cpu.pendingInterrupt = 0 ∨ cpu.pendingInterrupt = RESET ∨
      cpu.pendingInterrupt = NMI ∨ cpu.pendingInterrupt = IRQ) :
    requestInterrupt cpu r = { cpu with pendingInterrupt :=
        if cpu.pendingInterrupt = 0 then r
        else if r = RESET then RESET
        else if r = NMI ∧ cpu.pendingInterrupt = IRQ then NMI
        else cpu.pendingInterrupt } ∧
    (r = IRQ → cpu.pendingInterrupt = NMI ∨ cpu.pendingInterrupt = RESET →
      (requestInterrupt cpu r).pendingInterrupt = cpu.pendingInterrupt) ∧
    (r = NMI → cpu.pendingInterrupt = RESET →
      (requestInterrupt cpu r).pendingInterrupt = cpu.pendingInterrupt) := by
  obtain ⟨A, X, Y, S, P, PC, OpCycles, p, memory, dm⟩ := cpu
  simp only at hp
  rcases hr with rfl | rfl | rfl <;> rcases hp with rfl | rfl | rfl | rfl <;>
    simp [requestInterrupt, RESET, NMI, IRQ]

/-- Witness of C10: an IRQ requested while an NMI is pending leaves the NMI pending. -/
theorem requestInterrupt_priority_witness :
    (requestInterrupt nmiPendingExample IRQ).pendingInterrupt = NMI :=
  (requestInterrupt_priority nmiPendingExample IRQ (Or.inr (Or.inr rfl))
    (Or.inr (Or.inr (Or.inl rfl)))).2.1 rfl (Or.inl rfl)

section
variable {σ : Type} [CPUMemory σ]

/-- C11. With an NMI pending, S in 0..255 and PC in 0..65535, ExecuteOp performs exactly these
memory accesses, none of them an opcode fetch: it writes PC / 256 (the high byte of PC) at
0x0100 + S, then PC AND 0xFF00 (the PC with its low byte cleared, as `PC &^ 0x00FF` computes) at
the next stack slot, then P with the B flag cleared at the third slot, then reads the high byte
of the new PC at 0xFFFB and the low byte at 0xFFFA.  It leaves P with the D flag cleared and the
other bits as they were, S lowered by 3 modulo 256, no interrupt pending, and returns 7. -/
theorem nmi_service (cpu : CPU σ) (m1 m2 m3 m4 m5 : σ) (high low : Int)
    (hpend : cpu.pendingInterrupt = NMI)
    (hS : 0 ≤ cpu.S ∧ cpu.S ≤ 255) (hPC : 0 ≤ cpu.PC ∧ cpu.PC ≤ 0xFFFF)
    (hw1 : CPUMemory.Write cpu.memory (0x0100 + cpu.S) (cpu.PC / 256) = some (0, m1))
    (hw2 : CPUMemory.Write m1 (0x0100 + (cpu.S - 1) % 256) (cpu.PC &&& 0xFF00) = some (0, m2))
    (hw3 : CPUMemory.Write m2 (0x0100 + (cpu.S - 2) % 256) (andNot cpu.P flagB) = some (0, m3))
    (hr1 : CPUMemory.Read m3 0xFFFB = some (high, m4))
    (hr2 : CPUMemory.Read m4 0xFFFA = some (low, m5))
    (hh : IsByte high) (hl : IsByte low) :
    ExecuteOp cpu = some (7, { cpu with
        S := (cpu.S - 3) % 256, P := andNot cpu.P flagD, PC := low + 256 * high, OpCycles := 7,
        pendingInterrupt := 0, memory := m5 }) ∧
      cpu.PC &&& 0xFF00 = cpu.PC - cpu.PC % 256 ∧
      (∀ k, (andNot cpu.P flagB).testBit k = (cpu.P.testBit k && decide (k ≠ 4))) ∧
      (∀ k, (andNot cpu.P flagD).testBit k = (cpu.P.testBit k && decide (k ≠ 3))) := by
  refine ⟨?_, and_0xFF00 cpu.PC hPC.1 hPC.2, testBit_andNot_flagB cpu.P,
    testBit_andNot_flagD cpu.P⟩
  have hne : cpu.pendingInterrupt ≠ 0 := by rw [hpend]; decide
  have h1 : shr cpu.PC 8 &&& 0xFF = cpu.PC / 256 := by
    rw [and_0xFF, shr_eq_div]; omega
  have h2 : andNot cpu.PC 0x00FF = cpu.PC &&& 0xFF00 := by
    rw [andNot_0xFF cpu.PC hPC.1, and_0xFF00 cpu.PC hPC.1 hPC.2]
  have hn1 : ¬ (NMI : Int) = RESET := by decide
  have a1 := stack_address cpu.S hS.1 hS.2
  have a2 := stack_address ((cpu.S - 1) % 256) (by omega) (by omega)
  have a3 := stack_address ((cpu.S - 2) % 256) (by omega) (by omega)
  have s1 : (if cpu.S = 0x00 then 0xFF else cpu.S - 1) = (cpu.S - 1) % 256 := by
    split_ifs <;> omega
  have s2 : (if (cpu.S - 1) % 256 = 0x00 then 0xFF else (cpu.S - 1) % 256 - 1)
      = (cpu.S - 2) % 256 := by
    split_ifs <;> omega
  have s3 : (if (cpu.S - 2) % 256 = 0x00 then 0xFF else (cpu.S - 2) % 256 - 1)
      = (cpu.S - 3) % 256 := by
    split_ifs <;> omega
  simp only [ExecuteOp, hne, ne_eq, not_false_eq_true, if_true, executePendingInterruptOp, hpend,
    hn1, if_false, Option.bind_eq_bind, h1, h2, push, writeMemory, readMemory, a1, s1, hw1,
    Option.some_bind, a2, s2, hw2, a3, s3, hw3, hr1, hr2, gt_iff_lt, lt_self_iff_false,
    vector_word high low hh hl]
  rw [if_pos (by decide)]

/-- Witness of C11: from PC = 0x8034, S = 0x01 and P = 0x38, the NMI stores 0x80 at 0x0101,
0x8000 at 0x0100 and 0x28 at 0x01FF, and leaves PC = 0x9000, S = 0xFE and P = 0x30. -/
theorem nmi_service_witness :
    (ExecuteOp nmiExample).map (fun r => (r.1, r.2.PC, r.2.S, r.2.P, r.2.pendingInterrupt,
        r.2.memory.mem 0x0101, r.2.memory.mem 0x0100, r.2.memory.mem 0x01FF))
      = some (7, 0x9000, 0xFE, 0x30, 0, 0x80, 0x8000, 0x28) := by
  rw [(nmi_service nmiExample _ _ _ _ _ 0x90 0x00 rfl (by decide) (by decide) rfl rfl rfl rfl rfl
    (by decide) (by decide)).1]
  rfl

/-- C12, what the code does: with an IRQ pending, the I flag clear, S in 0..255 and PC in
0..65535, ExecuteOp pushes PC / 256, PC mod 256 and P with B cleared, loads PC from the word at
0xFFFE/0xFFFF and returns 7, but it leaves P with the D flag cleared and the I flag still
clear: `cpu.P &^ flagI` clears the flag that the claim says is set. -/
theorem irq_service (cpu : CPU σ) (m1 m2 m3 m4 m5 : σ) (high low : Int)
    (hpend : cpu.pendingInterrupt = IRQ) (hI : ¬ flagSet cpu.P flagI)
    (hS : 0 ≤ cpu.S ∧ cpu.S ≤ 255) (hPC : 0 ≤ cpu.PC ∧ cpu.PC ≤ 0xFFFF)
    (hw1 : CPUMemory.Write cpu.memory (0x0100 + cpu.S) (cpu.PC / 256) = some (0, m1))
    (hw2 : CPUMemory.Write m1 (0x0100 + (cpu.S - 1) % 256) (cpu.PC % 256) = some (0, m2))
    (hw3 : CPUMemory.Write m2 (0x0100 + (cpu.S - 2) % 256) (andNot cpu.P flagB) = some (0, m3))
    (hr1 : CPUMemory.Read m3 0xFFFF = some (high, m4))
    (hr2 : CPUMemory.Read m4 0xFFFE = some (low, m5))
    (hh : IsByte high) (hl : IsByte low) :
    ExecuteOp cpu = some (7, { cpu with
        S := (cpu.S - 3) % 256, P := andNot (andNot cpu.P flagD) flagI, PC := low + 256 * high,
        OpCycles := 7, pendingInterrupt := 0, memory := m5 }) ∧
      ¬ flagSet (andNot (andNot cpu.P flagD) flagI) flagI ∧
      ¬ flagSet (andNot (andNot cpu.P flagD) flagI) flagD := by
  refine ⟨?_, ?_, ?_⟩
  · have hne : cpu.pendingInterrupt ≠ 0 := by rw [hpend]; decide
    have hI0 : (cpu.P &&& flagI) = 0 := by
      unfold flagSet at hI
      exact not_not.mp hI
    have h1 : shr cpu.PC 8 &&& 0xFF = cpu.PC / 256 := by
      rw [and_0xFF, shr_eq_div]; omega
    have hn1 : ¬ (IRQ : Int) = RESET := by decide
    have hn2 : ¬ (IRQ : Int) = NMI := by decide
    have a1 := stack_address cpu.S hS.1 hS.2
    have a2 := stack_address ((cpu.S - 1) % 256) (by omega) (by omega)
    have a3 := stack_address ((cpu.S - 2) % 256) (by omega) (by omega)
    have s1 : (if cpu.S = 0x00 then 0xFF else cpu.S - 1) = (cpu.S - 1) % 256 := by
      split_ifs <;> omega
    have s2 : (if (cpu.S - 1) % 256 = 0x00 then 0xFF else (cpu.S - 1) % 256 - 1)
        = (cpu.S - 2) % 256 := by
      split_ifs <;> omega
    have s3 : (if (cpu.S - 2) % 256 = 0x00 then 0xFF else (cpu.S - 2) % 256 - 1)
        = (cpu.S - 3) % 256 := by
      split_ifs <;> omega
    simp only [ExecuteOp, hne, ne_eq, not_false_eq_true, if_true, executePendingInterruptOp,
      hpend, hn1, hn2, hI0, and_self, if_false, Option.bind_eq_bind, h1, and_0xFF, push,
      writeMemory, readMemory, a1, s1, hw1, Option.some_bind, a2, s2, hw2, a3, s3, hw3, hr1, hr2,
      gt_iff_lt, lt_self_iff_false, vector_word high low hh hl]
    rw [if_pos (by decide)]
  · rw [flagSet, not_not, and_bit_eq_zero _ _ 2 flagI_testBit]
    simp
  · rw [flagSet, not_not, and_bit_eq_zero _ _ 3 flagD_testBit]
    simp

/-- Witness of C12: from PC = 0x8034, S = 0xFF and P = 0x38 (I clear), the IRQ leaves
PC = 0x9000 and P = 0x30, in which the I flag (0x04) is still clear. -/
theorem irq_service_witness :
    (ExecuteOp irqExample).map (fun r => (r.1, r.2.PC, r.2.S, r.2.P,
        r.2.memory.mem 0x01FF, r.2.memory.mem 0x01FE, r.2.memory.mem 0x01FD))
      = some (7, 0x9000, 0xFC, 0x30, 0x80, 0x34, 0x28) := by
  rw [(irq_service irqExample _ _ _ _ _ 0x90 0x00 rfl (by decide) (by decide) (by decide)
    rfl rfl rfl rfl rfl (by decide) (by decide)).1]
  rfl

end

set_option maxRecDepth 100000 in
/-- C15, the code at two failing inputs.  NOP fetched at 0xFFFF over a memory of bytes: PC goes
from 0xFFFF to 0x10000, and the next ExecuteOp reads outside the 64 KiB array.  RTS popping the
return address 0xFFFF: PC becomes 0x10000. -/
theorem pc_leaves_range :
    ((0 ≤ nopTopExample.PC ∧ nopTopExample.PC ≤ 0xFFFF) ∧
      (∀ a, IsByte (nopTopExample.memory.mem a)) ∧
      (ExecuteOp nopTopExample).map (fun r => (r.1, r.2.PC)) = some (2, 0x10000) ∧
      ((ExecuteOp nopTopExample).bind fun r => ExecuteOp r.2).map Prod.fst = none) ∧
    ((0 ≤ rtsTopExample.PC ∧ rtsTopExample.PC ≤ 0xFFFF) ∧
      (∀ a, IsByte (rtsTopExample.memory.mem a)) ∧
      (ExecuteOp rtsTopExample).map (fun r => (r.1, r.2.PC)) = some (6, 0x10000)) := by
  refine ⟨⟨by decide, ?_, by decide, by decide⟩, ⟨by decide, ?_, by decide⟩⟩
  · intro a
    show IsByte (if a = 0xFFFF then 0xEA else 0)
    split_ifs <;> decide
  · intro a
    show IsByte (if a = 0x8000 then 0x60 else if a = 0x01FE then 0xFF else
      if a = 0x01FF then 0xFF else 0)
    split_ifs <;> decide

set_option maxRecDepth 100000 in
/-- C16, the code at a failing input.  Over a memory of bytes, Init, an NMI request, the
ExecuteOp that services it and two PLA: the NMI pushes `PC &^ 0x00FF` = 0x8000, which is not a
byte, and the second PLA loads it into A. -/
theorem accumulator_leaves_range :
    (∀ a, IsByte (plaExample.mem a)) ∧
      ((Init (New plaExample)).bind fun r =>
          runCalls r.2 [Call.nmi, Call.step, Call.step, Call.step]).map
        (fun c => (c.A, c.S, c.PC)) = some (0x8000, 0xFE, 0x9002) := by
  refine ⟨?_, by decide⟩
  intro a
  show IsByte (if a = 0xFFFD then 0x80 else if a = 0xFFFB then 0x90 else
    if a = 0x9000 then 0x68 else if a = 0x9001 then 0x68 else 0)
  split_ifs <;> decide

/-- C18. For every address a in 0x0000..0x1FFF and every value v: Read(a) returns the RAM cell
a AND 0x7FF (= a mod 2048) and is equal to Read(a AND 0x7FF); Write(a, v) reports no additional
cycle, and afterwards every address b of 0x0000..0x1FFF with b AND 0x7FF = a AND 0x7FF reads v,
while every other address of that range reads what it read before. -/
theorem ram_mirroring {κ π : Type} [PrgDevice κ] [RegisterDevice π]
    (m : NESCPUMemory κ π) (a v : Int) (ha : 0 ≤ a ∧ a ≤ 0x1FFF) :
    NESCPUMemory.Read m a = some (m.ram (a &&& 0x07FF), m) ∧
      NESCPUMemory.Read m a = NESCPUMemory.Read m (a &&& 0x07FF) ∧
      (a &&& 0x07FF) = a % 2048 ∧
      ∃ m1, NESCPUMemory.Write m a v = some (0, m1) ∧
        ∀ b, 0 ≤ b ∧ b ≤ 0x1FFF →
          ((b &&& 0x07FF) = (a &&& 0x07FF) → NESCPUMemory.Read m1 b = some (v, m1)) ∧
          ((b &&& 0x07FF) ≠ (a &&& 0x07FF) →
            (NESCPUMemory.Read m1 b).map Prod.fst = (NESCPUMemory.Read m b).map Prod.fst) := by
  have hlow : 0 ≤ a % 2048 ∧ a % 2048 ≤ 0x1FFF := by omega
  refine ⟨?_, ?_, and_0x07FF a, _, NESCPUMemory.Write_ram m a v ha, ?_⟩
  · rw [NESCPUMemory.Read_ram m a ha, and_0x07FF]
  · rw [NESCPUMemory.Read_ram m a ha, and_0x07FF, NESCPUMemory.Read_ram m _ hlow]
    congr 3
    omega
  · intro b hb
    rw [and_0x07FF, and_0x07FF, NESCPUMemory.Read_ram _ b hb, NESCPUMemory.Read_ram m b hb]
    constructor
    · intro h
      simp only [h, if_true]
    · intro h
      simp only [h, if_false, Option.map_some']

/-- Witness of C18: on a RAM of zeros, the value 0x5A written at 0x0801 is read at 0x0001 and
at 0x1001, and 0x0002 still reads 0. -/
theorem ram_mirroring_witness :
    ∃ m1, NESCPUMemory.Write emptyNesMemory 0x0801 0x5A = some (0, m1) ∧
      NESCPUMemory.Read m1 0x0001 = some (0x5A, m1) ∧
      NESCPUMemory.Read m1 0x1001 = some (0x5A, m1) ∧
      (NESCPUMemory.Read m1 0x0002).map Prod.fst = some 0 := by
  obtain ⟨_, _, _, m1, hw, hr⟩ := ram_mirroring emptyNesMemory 0x0801 0x5A (by decide)
  exact ⟨m1, hw, (hr 0x0001 (by decide)).1 (by decide), (hr 0x1001 (by decide)).1 (by decide),
    ((hr 0x0002 (by decide)).2 (by decide)).trans (by decide)⟩

section
open cartridge

/-- C19. For every PPU address a in 0x2000..0x2FFF: under Horizontal mirroring
getNameTableIndex returns page A for a < 0x2800 and page B otherwise; under Vertical mirroring
page A when bit 10 of a is clear and page B otherwise; under OneScreenA always page A; under
OneScreenB always page B.  Under these four mirroring types, over a nametable RAM of two pages
of 1024 cells, ReadNameTable returns the cell a AND 0x3FF (= a mod 1024) of that page and
WriteNameTable stores the value in that cell and changes nothing else. -/
theorem nametable_mirroring (c : Cartridge) (a v : Int) (pA pB : List Int)
    (ha : 0x2000 ≤ a ∧ a ≤ 0x2FFF) (hA : pA.length = 1024) (hB : pB.length = 1024) :
    getNameTableIndex a ntMirroringHorizontal = (if a < 0x2800 then ntIndexA else ntIndexB) ∧
    getNameTableIndex a ntMirroringVertical = (if a.testBit 10 then ntIndexB else ntIndexA) ∧
    getNameTableIndex a ntMirroringOneScreenA = ntIndexA ∧
    getNameTableIndex a ntMirroringOneScreenB = ntIndexB ∧
    getNameTableOffset a = a % 1024 ∧
    (c.memory.ntMirroringType = ntMirroringHorizontal ∨
      c.memory.ntMirroringType = ntMirroringVertical ∨
      c.memory.ntMirroringType = ntMirroringOneScreenA ∨
      c.memory.ntMirroringType = ntMirroringOneScreenB →
      (getNameTableIndex a c.memory.ntMirroringType = ntIndexA ∧
        c.ReadNameTable a [pA, pB] = pA[(a % 1024).toNat]? ∧
        c.WriteNameTable a v [pA, pB] = some [pA.set (a % 1024).toNat v, pB] ∧
        (a % 1024).toNat < pA.length) ∨
      (getNameTableIndex a c.memory.ntMirroringType = ntIndexB ∧
        c.ReadNameTable a [pA, pB] = pB[(a % 1024).toNat]? ∧
        c.WriteNameTable a v [pA, pB] = some [pA, pB.set (a % 1024).toNat v] ∧
        (a % 1024).toNat < pB.length)) := by
  have hH : getNameTableIndex a ntMirroringHorizontal
      = (if a < 0x2800 then ntIndexA else ntIndexB) := by
    simp only [getNameTableIndex, if_true, and_0x0800 a (by omega)]
    by_cases h : a < 0x2800
    · have : 2048 * (a / 2048 % 2) = 0 := by omega
      simp only [this, h, if_true]
    · have : ¬ 2048 * (a / 2048 % 2) = 0 := by omega
      simp only [this, h, if_false]
  have hV : getNameTableIndex a ntMirroringVertical
      = (if a.testBit 10 then ntIndexB else ntIndexA) := by
    have hne : ¬ ntMirroringVertical = ntMirroringHorizontal := by decide
    simp only [getNameTableIndex, hne, if_false, if_true]
    cases hb : a.testBit 10
    · rw [if_pos ((and_bit_eq_zero a _ 10 testBit_1024).mpr hb)]
      simp
    · rw [if_neg (fun h => by
        rw [(and_bit_eq_zero a _ 10 testBit_1024).mp h] at hb
        exact Bool.noConfusion hb)]
      simp
  have hOA : getNameTableIndex a ntMirroringOneScreenA = ntIndexA := by
    simp [getNameTableIndex, ntMirroringOneScreenA, ntMirroringHorizontal, ntMirroringVertical]
  have hOB : getNameTableIndex a ntMirroringOneScreenB = ntIndexB := by
    simp [getNameTableIndex, ntMirroringOneScreenA, ntMirroringOneScreenB,
      ntMirroringHorizontal, ntMirroringVertical]
  have hoff : getNameTableOffset a = a % 1024 := and_0x03FF a
  have hlt : (a % 1024).toNat < 1024 := by omega
  have hnn : ¬ a % 1024 < 0 := by omega
  have hrA : getNameTableIndex a c.memory.ntMirroringType = ntIndexA →
      c.ReadNameTable a [pA, pB] = pA[(a % 1024).toNat]? ∧
        c.WriteNameTable a v [pA, pB] = some [pA.set (a % 1024).toNat v, pB] := by
    intro h
    constructor
    · simp [Cartridge.ReadNameTable, h, hoff, index?, hnn]
    · have hin : 0 ≤ a % 1024 ∧ a % 1024 < (pA.length : Int) := by omega
      simp [Cartridge.WriteNameTable, h, hoff, index?, setIndex?, hin]
  have hrB : getNameTableIndex a c.memory.ntMirroringType = ntIndexB →
      c.ReadNameTable a [pA, pB] = pB[(a % 1024).toNat]? ∧
        c.WriteNameTable a v [pA, pB] = some [pA, pB.set (a % 1024).toNat v] := by
    intro h
    have hAB : ¬ ntIndexB = ntIndexA := by decide
    constructor
    · simp [Cartridge.ReadNameTable, h, hAB, hoff, index?, hnn]
    · have hin : 0 ≤ a % 1024 ∧ a % 1024 < (pB.length : Int) := by omega
      simp [Cartridge.WriteNameTable, h, hAB, hoff, index?, setIndex?, hin]
  refine ⟨hH, hV, hOA, hOB, hoff, ?_⟩
  have hcase : ∀ i, getNameTableIndex a c.memory.ntMirroringType = i →
      i = ntIndexA ∨ i = ntIndexB →
      (getNameTableIndex a c.memory.ntMirroringType = ntIndexA ∧
        c.ReadNameTable a [pA, pB] = pA[(a % 1024).toNat]? ∧
        c.WriteNameTable a v [pA, pB] = some [pA.set (a % 1024).toNat v, pB] ∧
        (a % 1024).toNat < pA.length) ∨
      (getNameTableIndex a c.memory.ntMirroringType = ntIndexB ∧
        c.ReadNameTable a [pA, pB] = pB[(a % 1024).toNat]? ∧
        c.WriteNameTable a v [pA, pB] = some [pA, pB.set (a % 1024).toNat v] ∧
        (a % 1024).toNat < pB.length) := by
    intro i hi hor
    rcases hor with h | h
    · have := hrA (hi.trans h)
      exact Or.inl ⟨hi.trans h, this.1, this.2, by omega⟩
    · have := hrB (hi.trans h)
      exact Or.inr ⟨hi.trans h, this.1, this.2, by omega⟩
  rintro (h | h | h | h) <;> rw [h] at hcase ⊢
  · exact hcase _ hH (by split_ifs <;> simp)
  · exact hcase _ hV (by split_ifs <;> simp)
  · exact hcase _ hOA (Or.inl rfl)
  · exact hcase _ hOB (Or.inr rfl)

/-- Witness of C19: under Vertical mirroring the address 0x2C05 has bit 10 set and is routed to
page B, whose cells hold 0xBB; under Horizontal mirroring the address 0x2405 is routed to page A. -/
theorem nametable_mirroring_witness :
    (mirroringExample ntMirroringVertical).ReadNameTable 0x2C05 ntExample = some 0xBB ∧
      (mirroringExample ntMirroringHorizontal).ReadNameTable 0x2405 ntExample = some 0xAA := by
  have hl : ∀ b : Int, (List.replicate 1024 b).length = 1024 :=
    fun b => List.length_replicate 1024 b
  obtain ⟨_, hV, _, _, _, h1⟩ :=
    nametable_mirroring (mirroringExample ntMirroringVertical) 0x2C05 0 _ _ (by decide)
      (hl 0xAA) (hl 0xBB)
  obtain ⟨hH, _, _, _, _, h2⟩ :=
    nametable_mirroring (mirroringExample ntMirroringHorizontal) 0x2405 0 _ _ (by decide)
      (hl 0xAA) (hl 0xBB)
  constructor
  · rcases h1 (Or.inr (Or.inl rfl)) with h | h
    · exact absurd (hV.symm.trans h.1) (by decide)
    · exact h.2.1.trans (by rw [List.getElem?_replicate]; decide)
  · rcases h2 (Or.inl rfl) with h | h
    · exact h.2.1.trans (by rw [List.getElem?_replicate]; decide)
    · exact absurd (hH.symm.trans h.1) (by decide)

end

section
open cartridge

set_option maxRecDepth 100000 in
/-- C20, the code at the failing input: under FourScreen mirroring the address 0x2400 (like
0x27FF, the other end of the second nametable) is routed to page D, not to page B, because
`ppuAddress & 0x0C00` is 0x0400 there and the `switch` tests 0x0300; so the read returns 0 and
not the cell 0xBB of page B, and the write is dropped. -/
theorem fourScreen_second_page :
    getNameTableIndex 0x2400 ntMirroringFourScreen = ntIndexD ∧
      getNameTableIndex 0x27FF ntMirroringFourScreen = ntIndexD ∧
      ((0x2400 : Int) &&& 0x0C00) = 0x0400 ∧
      (index? ntExample ntIndexB).bind (fun page => index? page (getNameTableOffset 0x2400))
        = some 0xBB ∧
      (mirroringExample ntMirroringFourScreen).ReadNameTable 0x2400 ntExample = some 0 ∧
      (mirroringExample ntMirroringFourScreen).WriteNameTable 0x2400 0x5A ntExample
        = some ntExample := by
  exact ⟨by decide, by decide, by decide, by decide, by decide, rfl⟩

end

section
variable {σ : Type} [CPUMemory σ]

/-- C14. Bit 5 of P: after Init it is 1; when it is 1 before ExecuteOp it is 1 afterwards, for
every opcode and every pending interrupt; ExecuteOp on PLP (0x28) and on RTI (0x40) leaves it 1
whatever it was and whatever byte is popped.  Bit 5 is the flag `flagR`.  On a memory whose
accesses never panic, Init returns, and ExecuteOp returns as soon as the opcode it fetches is a
byte. -/
theorem bit5_invariant (cpu : CPU σ) :
    (∀ r, Init cpu = some r → Bit5 r.2.P) ∧
    (Bit5 cpu.P → ∀ r, ExecuteOp cpu = some r → Bit5 r.2.P) ∧
    (∀ op, op = 0x28 ∨ op = 0x40 → cpu.pendingInterrupt = 0 →
      (∀ v m, CPUMemory.Read cpu.memory cpu.PC = some (v, m) → v = op) →
      ∀ r, ExecuteOp cpu = some r → Bit5 r.2.P) ∧
    (∀ p, Bit5 p ↔ flagSet p flagR) ∧
    ((∀ (m : σ) (a : Int), ∃ r, CPUMemory.Read m a = some r) →
      (∀ (m : σ) (a w : Int), ∃ r, CPUMemory.Write m a w = some r) →
      (∃ r, Init cpu = some r) ∧
      ((∀ v m, CPUMemory.Read cpu.memory cpu.PC = some (v, m) → 0 ≤ v ∧ v ≤ 255) →
        ∃ r, ExecuteOp cpu = some r)) := by
  refine ⟨Init_bit5 cpu, fun h r hr => ExecuteOp_keepsBit5 cpu r hr h, ?_, bit5_iff_flagR, ?_⟩
  · intro op hopc hint hread r hr
    exact ExecuteOp_pull_bit5 cpu op hopc r hr hint hread
  · intro hR hW
    have hT : MemoryTotal σ := ⟨hR, hW⟩
    refine ⟨?_, ExecuteOp_returns hT cpu⟩
    show Returns (Init cpu)
    unfold Init
    dsimp only
    repeat' (first
      | exact Returns_some _
      | with_reducible apply Returns_bind
      | exact Returns_readMemory hT _ _
      | intro _)

end

/-- Witness of C14: PLP executed with every bit of P clear and 0x00 on the stack, over the NES
memory without devices: ExecuteOp returns and bit 5 of P is 1 afterwards, and it stays 1 over
the next ExecuteOp. -/
theorem bit5_invariant_witness :
    ∃ r, ExecuteOp plpExample = some r ∧ Bit5 r.2.P ∧ ¬ Bit5 plpExample.P ∧
      ∀ r1, ExecuteOp r.2 = some r1 → Bit5 r1.2.P := by
  obtain ⟨_, _, hpull, _, htot⟩ := bit5_invariant plpExample
  have hT := NESCPUMemory.total neverPanics_empty
  obtain ⟨r, hr⟩ := (htot hT.1 hT.2).2 (fun v m h => by
    have : v = 0x28 := by
      have h2 : (some (0x28, plpExample.memory) : Option (Int × NESCPUMemory Empty Empty))
          = some (v, m) := h
      simp only [Option.some.injEq, Prod.mk.injEq] at h2
      exact h2.1.symm
    rw [this]
    decide)
  have hb : Bit5 r.2.P := hpull 0x28 (Or.inl rfl) rfl (fun v m h => by
    have h2 : (some (0x28, plpExample.memory) : Option (Int × NESCPUMemory Empty Empty))
        = some (v, m) := h
    simp only [Option.some.injEq, Prod.mk.injEq] at h2
    exact h2.1.symm) r hr
  exact ⟨r, hr, hb, by unfold Bit5; decide, (bit5_invariant r.2).2.1 hb⟩

section
variable {κ π : Type} [PrgDevice κ] [RegisterDevice π]

/-- C17. Over the NES memory, for a store instruction (STA, STX, STY or the unofficial AAX, in
any of its addressing modes) whose opcode fetch and address calculation return: when the
effective address is 0x4014, ExecuteOp returns the base cycle count plus 513, whatever value is
written, provided the cartridge and the PPU behind the memory satisfy conditions K and R under
which their calls return and which their calls keep (the cartridges and the PPUs of the valid
shape do, `devicesClosed_valid`); when the effective address is in 0x0000..0x1FFF or in
0x4000..0x4013, ExecuteOp returns exactly the base count, whatever the devices are.  The base
count of STA absolute (0x8D) is 4. -/
theorem store_cycles (cpu : CPU (NESCPUMemory κ π)) (op c ea : Int) (mode : AddrMode)
    (m0 : NESCPUMemory κ π) (cpu2 : CPU (NESCPUMemory κ π))
    (hmem : (op, mode) ∈ storeOps)
    (hint : cpu.pendingInterrupt = 0)
    (hop : CPUMemory.Read cpu.memory cpu.PC = some (op, m0))
    (hc : opCyclesLengthAt op = some c)
    (hea : calculateMemoryAddress { cpu with memory := m0, PC := cpu.PC + 1, OpCycles := c } mode
      = some (ea, cpu2)) :
    (ea = 0x4014 →
      ∀ (K : κ → Prop) (R : π → Prop), DevicesClosed K R →
        NESCPUMemory.Within K R cpu.memory →
        ∃ cpu1, ExecuteOp cpu = some (c + 513, cpu1)) ∧
    ((0 ≤ ea ∧ ea ≤ 0x1FFF) ∨ (0x4000 ≤ ea ∧ ea ≤ 0x4013) →
      ∃ cpu1, ExecuteOp cpu = some (c, cpu1)) ∧
    opCyclesLengthAt 0x8D = some 4 := by
  refine ⟨?_, ?_, opCyclesLengthAt_0x8D⟩
  · intro h K R hD hW
    subst h
    have hW0 : NESCPUMemory.Within K R m0 := NESCPUMemory.Read_within hD _ _ _ _ hW hop
    have hW2 : NESCPUMemory.Within K R cpu2.memory :=
      calculateMemoryAddress_keeps (fun m a v m1 hm h => NESCPUMemory.Read_within hD m a v m1 hm h)
        _ mode hW0 _ hea
    exact store_cases cpu op c _ 513 mode hmem m0 cpu2 hint hop hc hea
      (NESCPUMemory.writeReports_oam hD cpu2.memory hW2)
  · intro h
    have := store_cases cpu op c ea 0 mode hmem m0 cpu2 hint hop hc hea
      (NESCPUMemory.writeReports_plain cpu2.memory ea h)
    simpa using this

end

/-- Witness of C17, over the NES memory with the cartridge of `onePrgRom` and the example PPU:
`STA $4014` returns 4 + 513 = 517 cycles and `STA $4013` returns 4. -/
theorem store_cycles_witness :
    (∃ cpu1, ExecuteOp staOamExample = some (517, cpu1)) ∧
      (∃ cpu1, ExecuteOp staSoundExample = some (4, cpu1)) :=
  ⟨(store_cycles staOamExample 0x8D 4 0x4014 ABS _ _ (by decide) rfl rfl
      opCyclesLengthAt_0x8D rfl).1 rfl _ _ devicesClosed_valid
      (nesExample_within _ ppuExample.statusReg),
   (store_cycles staSoundExample 0x8D 4 0x4013 ABS _ _ (by decide) rfl rfl
      opCyclesLengthAt_0x8D rfl).2.1 (by decide)⟩

section
open cartridge

/-- C21, the code on the failing inputs.  For every ROM image whose header announces an odd
number p >= 3 of PRG units, the PRG ROM holds n = 16 * p banks of 1 KiB, and the initial
prgROMMap[i] is i AND (n - 1), which is i mod 16 for every slot i in 0..31: the slot 16 is
mapped to the bank 0, whereas 16 mod n = 16.  The initial chrMemMap[j] is j, which is j mod m
for the m >= 8 CHR banks, on every ROM image. -/
theorem prgROMMap_mask (rom : List (Fin 256)) (p : Int)
    (hp : headerAt (readBuffer rom 16).1 4 = p) (h3 : 3 ≤ p) (hodd : p % 2 = 1) :
    ((cartridge.New rom).memory.prgROM.length : Int) = 16 * p ∧
    (∀ b ∈ (cartridge.New rom).memory.prgROM, b.length = 1024) ∧
    (∀ i, 0 ≤ i ∧ i ≤ 31 → index? (cartridge.New rom).prgROMMap i = some (i % 16)) ∧
    index? (cartridge.New rom).prgROMMap 16 = some 0 ∧
    (16 : Int) % (16 * p) = 16 ∧
    (∀ j, 0 ≤ j ∧ j ≤ 7 → index? (cartridge.New rom).chrMemMap j = some j ∧
      j % ((cartridge.New rom).memory.chrMem.length : Int) = j) := by
  have hmask : ∀ i : Int, 0 ≤ i ∧ i ≤ 31 → i &&& (16 * p - 1) = i % 16 := by
    intro i hi
    apply eq_of_testBit_eq
    intro t
    rw [testBit_and, ← and_0x0F_left, testBit_and]
    by_cases ht : t < 4
    · have h1 : (16 * p - 1).testBit t = true := by
        rw [testBit_eq_decide]
        interval_cases t <;> simp <;> omega
      have h2 : (0x0F : Int).testBit t = true := by
        interval_cases t <;> decide
      rw [h1, h2]
    · have h2 : (0x0F : Int).testBit t = false := by
        rw [testBit_eq_decide]
        have h16 : (16 : Int) ≤ 2 ^ t :=
          calc (16 : Int) = 2 ^ 4 := by norm_num
            _ ≤ 2 ^ t := pow_le_pow_right₀ (by norm_num) (by omega)
        have : (0x0F : Int) / 2 ^ t = 0 := Int.ediv_eq_zero_of_lt (by norm_num) (by omega)
        simp [this]
      rw [h2, Bool.and_false]
      by_cases h4 : t = 4
      · subst h4
        have : (16 * p - 1).testBit 4 = false := by
          rw [testBit_eq_decide]
          simp
          omega
        rw [this, Bool.and_false]
      · have : i.testBit t = false := by
          rw [testBit_eq_decide]
          have h32 : (32 : Int) ≤ 2 ^ t :=
            calc (32 : Int) = 2 ^ 5 := by norm_num
              _ ≤ 2 ^ t := pow_le_pow_right₀ (by norm_num) (by omega)
          have : i / 2 ^ t = 0 := Int.ediv_eq_zero_of_lt hi.1 (by omega)
          simp [this]
        rw [this, Bool.false_and]
  refine ⟨?_, ?_, ?_, ?_, ?_, ?_⟩
  · rw [(New_prgROMMap rom 0 (by decide)).2.1, hp]
  · exact (New_prgROMMap rom 0 (by decide)).2.2
  · intro i hi
    rw [(New_prgROMMap rom i hi).1, hp, hmask i hi]
  · rw [(New_prgROMMap rom 16 (by decide)).1, hp, hmask 16 (by decide)]
    rfl
  · exact Int.emod_eq_of_lt (by norm_num) (by omega)
  · intro j hj
    obtain ⟨h1, h2, _, _⟩ := New_chrMemMap rom j hj
    exact ⟨h1, Int.emod_eq_of_lt hj.1 (by omega)⟩

/-- Witness of C21: the header that announces three PRG units gives 48 banks, and the slot 16
is mapped to the bank 0. -/
theorem prgROMMap_mask_witness :
    ((cartridge.New threeUnitRom).memory.prgROM.length : Int) = 16 * 3 ∧
      index? (cartridge.New threeUnitRom).prgROMMap 16 = some 0 ∧ (16 : Int) % (16 * 3) = 16 :=
  have h := prgROMMap_mask threeUnitRom 3 (by decide) (by decide) (by decide)
  ⟨h.1, h.2.2.2.1, h.2.2.2.2.1⟩

/-- C22, the code on every header.  With a PRG count of 0 the claim fails: the PRG bank list is
empty, every entry of prgROMMap is its slot number, so none is a valid index, and ReadPrgMemory
panics for every CPU address of 0x8000..0xFFFF.  With a PRG count of at least 1 (and any number
of CHR units) the claim holds: every entry of prgROMMap and of chrMemMap is a valid index into
the bank list it maps, ReadPrgMemory returns a value for every CPU address (so for those of
0x4020..0xFFFF), ReadChrMemory returns a value for every PPU address, and it returns 0 for the
addresses above 0x1FFF. -/
theorem cartridge_reads (rom : List (Fin 256)) :
    (headerAt (readBuffer rom 16).1 4 = 0 →
      (cartridge.New rom).memory.prgROM = [] ∧
      (∀ i, 0 ≤ i ∧ i ≤ 31 → index? (cartridge.New rom).prgROMMap i = some i) ∧
      ∀ a, 0x8000 ≤ a ∧ a ≤ 0xFFFF → (cartridge.New rom).ReadPrgMemory a = none) ∧
    (1 ≤ headerAt (readBuffer rom 16).1 4 →
      (∀ i, 0 ≤ i ∧ i ≤ 31 → ∃ e, index? (cartridge.New rom).prgROMMap i = some e ∧
        0 ≤ e ∧ e < (cartridge.New rom).memory.prgROM.length) ∧
      (∀ j, 0 ≤ j ∧ j ≤ 7 → ∃ e, index? (cartridge.New rom).chrMemMap j = some e ∧
        0 ≤ e ∧ e < (cartridge.New rom).memory.chrMem.length) ∧
      (cartridge.New rom).prgROMMap.length = 32 ∧ (cartridge.New rom).chrMemMap.length = 8 ∧
      (∀ a, ∃ v, (cartridge.New rom).ReadPrgMemory a = some v) ∧
      (∀ a, ∃ v, (cartridge.New rom).ReadChrMemory a = some v) ∧
      (∀ a, 0x1FFF < a → (cartridge.New rom).ReadChrMemory a = some 0)) := by
  refine ⟨New_noPrg rom, fun hp => ?_⟩
  refine ⟨?_, ?_, ?_, ?_, ReadPrgMemory_returns rom hp, ReadChrMemory_returns rom, ?_⟩
  · intro i hi
    obtain ⟨hmap, hlen, _⟩ := New_prgROMMap rom i hi
    have hb := headerAt_byte (readBuffer rom 16).1 4
    have hv := and_nonneg_le i (16 * headerAt (readBuffer rom 16).1 4 - 1) hi.1 (by omega)
    exact ⟨_, hmap, hv.1, by rw [hlen]; omega⟩
  · intro j hj
    obtain ⟨hmap, hlen, _, _⟩ := New_chrMemMap rom j hj
    exact ⟨_, hmap, hj.1, by omega⟩
  · show ((List.range 32).map _).length = 32
    rw [List.length_map, List.length_range]
  · show ((List.range 8).map _).length = 8
    rw [List.length_map, List.length_range]
  · intro a ha
    have h : ¬ (0x0000 ≤ a ∧ a ≤ 0x1FFF) := by omega
    simp only [Cartridge.ReadChrMemory, h, if_false]

/-- Witness of C22: with a header that announces no PRG ROM the entry of slot 31 is 31, the bank
list is empty and the read of the reset vector at 0xFFFC panics; with one PRG unit and no CHR
ROM the reads return. -/
theorem cartridge_reads_witness :
    ((cartridge.New noPrgRom).memory.prgROM = [] ∧
      index? (cartridge.New noPrgRom).prgROMMap 31 = some 31 ∧
      (cartridge.New noPrgRom).ReadPrgMemory 0xFFFC = none) ∧
    (∃ v, (cartridge.New onePrgRom).ReadPrgMemory 0xFFFC = some v) ∧
      (∃ v, (cartridge.New onePrgRom).ReadChrMemory 0x1FFF = some v) ∧
      (cartridge.New onePrgRom).ReadChrMemory 0x2000 = some 0 :=
  have h0 := (cartridge_reads noPrgRom).1 (by decide)
  have h := (cartridge_reads onePrgRom).2 (by decide)
  ⟨⟨h0.1, h0.2.1 31 (by decide), h0.2.2 0xFFFC (by decide)⟩,
    h.2.2.2.2.1 0xFFFC, h.2.2.2.2.2.1 0x1FFF, h.2.2.2.2.2.2 0x2000 (by decide)⟩

end

section
open ppu

/-- C23. For every PPU memory, every address a of 0x3F10, 0x3F14, 0x3F18, 0x3F1C and every
value v: read(a) returns what read(a - 0x10) returns, which is a cell of the background palette;
write(a, v) returns and afterwards read(a - 0x10) and read(a) return v; write(a - 0x10, v)
returns and afterwards read(a) and read(a - 0x10) return v. -/
theorem palette_mirroring (m : vramMemory) (a v : Int)
    (ha : a = 0x3F10 ∨ a = 0x3F14 ∨ a = 0x3F18 ∨ a = 0x3F1C) :
    m.read a = m.read (a - 0x10) ∧
    m.read a = some (m.backgroundPaletteRAM ((a - 0x10) &&& 0x000F)) ∧
    (∃ m1, m.write a v = some m1 ∧ m1.read (a - 0x10) = some v ∧ m1.read a = some v) ∧
    (∃ m2, m.write (a - 0x10) v = some m2 ∧ m2.read a = some v ∧
      m2.read (a - 0x10) = some v) := by
  obtain ⟨d1, d2, hr⟩ := decodePPUAddress_mirror a ha
  have r1 : ∀ n : vramMemory, n.read a = some (n.backgroundPaletteRAM ((a - 0x10) &&& 0x000F)) :=
    fun n => by rw [vramMemory.read_backgroundPalette n a (by rw [d1]; exact hr), d1]
  have r2 : ∀ n : vramMemory,
      n.read (a - 0x10) = some (n.backgroundPaletteRAM ((a - 0x10) &&& 0x000F)) :=
    fun n => by rw [vramMemory.read_backgroundPalette n (a - 0x10) (by rw [d2]; exact hr), d2]
  refine ⟨by rw [r1, r2], r1 m, ⟨_, vramMemory.write_backgroundPalette m a v (by rw [d1]; exact hr),
    ?_, ?_⟩, ⟨_, vramMemory.write_backgroundPalette m (a - 0x10) v (by rw [d2]; exact hr), ?_, ?_⟩⟩
  · rw [r2, d1]; simp only [if_true]
  · rw [r1, d1]; simp only [if_true]
  · rw [r1, d2]; simp only [if_true]
  · rw [r2, d2]; simp only [if_true]

/-- Witness of C23: on the memory of the example PPU, writing 0xAB to 0x3F10 makes 0x3F00 read
0xAB, and writing 0xCD to 0x3F04 makes 0x3F14 read 0xCD. -/
theorem palette_mirroring_witness :
    (∃ m1, ppuExample.vramMemory.write 0x3F10 0xAB = some m1 ∧ m1.read 0x3F00 = some 0xAB) ∧
      (∃ m2, ppuExample.vramMemory.write 0x3F04 0xCD = some m2 ∧ m2.read 0x3F14 = some 0xCD) := by
  obtain ⟨_, _, ⟨m1, h1, h2, _⟩, _⟩ :=
    palette_mirroring ppuExample.vramMemory 0x3F10 0xAB (Or.inl rfl)
  obtain ⟨_, _, _, ⟨m2, h3, h4, _⟩⟩ :=
    palette_mirroring ppuExample.vramMemory 0x3F14 0xCD (Or.inr (Or.inl rfl))
  exact ⟨⟨m1, h1, h2⟩, ⟨m2, h3, h4⟩⟩

end

section
open ppu
variable {ρ ν : Type}

/-- C24. For every PPU state, ReadRegister(2) returns the Status value held before the read;
in the state it leaves, bit 7 (VBL) of Status is 0 and every other bit of Status, so the
sprite-0 bit 6 and the overflow bit 5, is as before, the write toggle is false, and v, t, fine-X
and the read buffer are as before; a second ReadRegister(2) made in that state returns a value
whose bit 7 is 0. -/
theorem status_read (ppu : PPU ρ ν) :
    ∃ ppu1, ppu.ReadRegister 2 = some (ppu.statusReg.value, ppu1) ∧
      ppu1.statusReg.value.testBit 7 = false ∧
      ppu1.statusReg.isInVblank = false ∧
      (∀ k, k ≠ 7 → ppu1.statusReg.value.testBit k = ppu.statusReg.value.testBit k) ∧
      ppu1.vramAddressScrollReg.toggle = false ∧
      ppu1.vramAddressScrollReg.address = ppu.vramAddressScrollReg.address ∧
      ppu1.vramAddressScrollReg.tempAddress = ppu.vramAddressScrollReg.tempAddress ∧
      ppu1.vramAddressScrollReg.bgFineX = ppu.vramAddressScrollReg.bgFineX ∧
      ppu1.vramAddressScrollReg.lastValue = ppu.vramAddressScrollReg.lastValue ∧
      ∃ status ppu2, ppu1.ReadRegister 2 = some (status, ppu2) ∧ status.testBit 7 = false := by
  have hbit : (andNot ppu.statusReg.value statusVblankOccurrence).testBit 7 = false := by
    simp [statusVblankOccurrence]
  have hvbl : (statusRegister.setInVblank ppu.statusReg false).isInVblank = false := by
    simp only [statusRegister.setInVblank, statusRegister.isInVblank, Bool.false_eq_true,
      if_false, decide_eq_false_iff_not, not_not]
    exact (and_bit_eq_zero _ _ 7 (by simp [statusVblankOccurrence])).2 hbit
  have hkeep : ∀ k, k ≠ 7 →
      (andNot ppu.statusReg.value statusVblankOccurrence).testBit k
        = ppu.statusReg.value.testBit k := by
    intro k hk
    simp [statusVblankOccurrence, hk]
  have hread : ∀ q : PPU ρ ν, ∃ q1, q.ReadRegister 2 = some (q.statusReg.value, q1) ∧
      q1.statusReg = q.statusReg.setInVblank false ∧
      q1.vramAddressScrollReg = { q.vramAddressScrollReg with toggle := false } := by
    intro q
    have hid : (2 : Int) = StatusRegID := rfl
    simp only [PPU.ReadRegister, hid, if_true]
    split_ifs <;> exact ⟨_, rfl, rfl, rfl⟩
  obtain ⟨ppu1, h1, hs, hv⟩ := hread ppu
  obtain ⟨ppu2, h2, _, _⟩ := hread ppu1
  have hs1 : ppu1.statusReg.value = andNot ppu.statusReg.value statusVblankOccurrence := by
    rw [hs]; simp [statusRegister.setInVblank]
  refine ⟨ppu1, h1, by rw [hs1]; exact hbit, by rw [hs]; exact hvbl,
    fun k hk => by rw [hs1]; exact hkeep k hk, by rw [hv], by rw [hv], by rw [hv], by rw [hv],
    by rw [hv], _, ppu2, h2, by rw [hs1]; exact hbit⟩

/-- C26. Let a be v AND 0x3FFF.  When a < 0x3F00 and the PPU memory holds x at a,
ReadRegister(7) returns the old read buffer and leaves x in the buffer; when a >= 0x3F00 and
the PPU memory holds x at a and y at a - 0x1000, it returns x and leaves y in the buffer.  In
both cases v becomes (v + inc) AND 0x7FFF, with inc = 32 when bit 2 of Ctrl is set and 1
otherwise, and nothing else changes. -/
theorem vram_data_read (ppu : PPU ρ ν) (x y : Int) :
    (ppu.vramAddressScrollReg.address &&& 0x3FFF < 0x3F00 →
      ppu.vramMemory.read (ppu.vramAddressScrollReg.address &&& 0x3FFF) = some x →
      ppu.ReadRegister 7 = some (ppu.vramAddressScrollReg.lastValue,
        { ppu with vramAddressScrollReg := { ppu.vramAddressScrollReg with
            lastValue := x
            address := (ppu.vramAddressScrollReg.address + ppu.getVramAddressInc) &&& 0x7FFF } })) ∧
    (0x3F00 ≤ ppu.vramAddressScrollReg.address &&& 0x3FFF →
      ppu.vramMemory.read (ppu.vramAddressScrollReg.address &&& 0x3FFF) = some x →
      ppu.vramMemory.read ((ppu.vramAddressScrollReg.address &&& 0x3FFF) - 0x1000) = some y →
      ppu.ReadRegister 7 = some (x,
        { ppu with vramAddressScrollReg := { ppu.vramAddressScrollReg with
            lastValue := y
            address := (ppu.vramAddressScrollReg.address + ppu.getVramAddressInc) &&& 0x7FFF } })) ∧
    ppu.getVramAddressInc = (if ppu.ctrlReg.value.testBit 2 then 32 else 1) ∧
    (∀ w : Int, w &&& 0x7FFF = w % 32768) := by
  have hid : ¬ (7 : Int) = StatusRegID ∧ ¬ (7 : Int) = SpriteRAMIORegID ∧
      (7 : Int) = VRAMIORegID := by decide
  have h0 : 0 ≤ ppu.vramAddressScrollReg.address &&& 0x3FFF := by
    rw [and_0x3FFF]; omega
  refine ⟨?_, ?_, ?_, and_0x7FFF⟩
  · intro ha hx
    simp only [PPU.ReadRegister, hid.1, hid.2.1, ← hid.2.2, if_false, if_true, h0, ha, and_self,
      hx, Option.map_some']
  · intro ha hx hy
    have hn : ¬ (ppu.vramAddressScrollReg.address &&& 0x3FFF < 0x3F00) := by omega
    simp only [PPU.ReadRegister, hid.1, hid.2.1, ← hid.2.2, if_false, if_true, hn, and_false,
      hx, hy, Option.map_some', Option.some_bind]
  · unfold PPU.getVramAddressInc
    have := and_bit_ne_zero ppu.ctrlReg.value ctrlAddrInc 2 (by simp [ctrlAddrInc])
    by_cases hb : ppu.ctrlReg.value.testBit 2 = true
    · rw [if_pos (this.2 hb), if_pos hb]
    · rw [if_neg (fun h => hb (this.1 h)), if_neg hb]

set_option maxRecDepth 100000 in
/-- Witness of C26: with v = 0x2005, the read returns the buffer 0x77 and loads the buffer
with the nametable cell; with v = 0x3F01, the read returns the palette entry 0x2C and loads the
buffer with the nametable cell 0x2F01. -/
theorem vram_data_read_witness :
    (vramReadExample.ReadRegister 7).map (fun r =>
        (r.1, r.2.vramAddressScrollReg.lastValue, r.2.vramAddressScrollReg.address))
      = some (0x77, 0x5A, 0x2025) ∧
    (paletteReadExample.ReadRegister 7).map (fun r =>
        (r.1, r.2.vramAddressScrollReg.lastValue, r.2.vramAddressScrollReg.address))
      = some (0x2C, 0, 0x3F02) := by
  constructor
  · rw [(vram_data_read vramReadExample 0x5A 0).1 (by decide) (by decide)]
    decide
  · rw [(vram_data_read paletteReadExample 0x2C 0).2.1 (by decide) (by decide) (by decide)]
    decide

variable [VBLReceiver ρ]

/-- C25. For every PPU state whose write toggle is false and all bytes hi and lo:
WriteRegister(6, hi) returns a state with v unchanged, the low 8 bits of t unchanged and the
toggle true; WriteRegister(6, lo) in that state returns a state with
t = v = (hi AND 0x3F) * 256 + lo and the toggle false. -/
theorem vram_address_writes (ppu : PPU ρ ν) (hi lo : Int)
    (htoggle : ppu.vramAddressScrollReg.toggle = false) (hhi : IsByte hi) (hlo : IsByte lo) :
    ∃ ppu1 ppu2, ppu.WriteRegister 6 hi = some ppu1 ∧ ppu1.WriteRegister 6 lo = some ppu2 ∧
      ppu1.vramAddressScrollReg.address = ppu.vramAddressScrollReg.address ∧
      ppu1.vramAddressScrollReg.tempAddress &&& 0xFF
        = ppu.vramAddressScrollReg.tempAddress &&& 0xFF ∧
      ppu1.vramAddressScrollReg.toggle = true ∧
      ppu2.vramAddressScrollReg.tempAddress = (hi &&& 0x3F) * 256 + lo ∧
      ppu2.vramAddressScrollReg.address = (hi &&& 0x3F) * 256 + lo ∧
      ppu2.vramAddressScrollReg.toggle = false := by
  have hid : ¬ (6 : Int) = CtrlRegID ∧ ¬ (6 : Int) = MaskRegID ∧
      ¬ (6 : Int) = SpriteRAMAddressRegID ∧ ¬ (6 : Int) = SpriteRAMIORegID ∧
      ¬ (6 : Int) = ScrollRegID ∧ (6 : Int) = VRAMAddressRegID := by decide
  obtain ⟨e1, e2⟩ := address_writes ppu.vramAddressScrollReg.tempAddress hi lo hhi hlo
  have w1 : ppu.WriteRegister 6 hi = some { ppu with
      vramAddressScrollReg := { ppu.vramAddressScrollReg with
        tempAddress := (ppu.vramAddressScrollReg.tempAddress &&& 0x00FF) ||| (shl hi 8 &&& 0x3F00)
        toggle := true } } := by
    simp only [PPU.WriteRegister, hid.1, hid.2.1, hid.2.2.1, hid.2.2.2.1, hid.2.2.2.2.1,
      ← hid.2.2.2.2.2, if_false, if_true, htoggle, Bool.not_false]
  have w2 : ∀ q : PPU ρ ν, q.vramAddressScrollReg.toggle = true →
      q.WriteRegister 6 lo = some { q with
        vramAddressScrollReg := { q.vramAddressScrollReg with
          tempAddress := (q.vramAddressScrollReg.tempAddress &&& 0x7F00) ||| (lo &&& 0x00FF)
          address := (q.vramAddressScrollReg.tempAddress &&& 0x7F00) ||| (lo &&& 0x00FF)
          toggle := false } } := by
    intro q hq
    simp only [PPU.WriteRegister, hid.1, hid.2.1, hid.2.2.1, hid.2.2.2.1, hid.2.2.2.2.1,
      ← hid.2.2.2.2.2, if_false, if_true, hq, Bool.not_true, Bool.false_eq_true]
  exact ⟨_, _, w1, w2 _ rfl, rfl, e1, rfl, e2, e2, rfl⟩

/-- Witness of C25: the writes 0xE1 and 0x23 to the register 6 of the example PPU leave
t = v = 0x2123. -/
theorem vram_address_writes_witness :
    ∃ ppu1 ppu2, ppuExample.WriteRegister 6 0xE1 = some ppu1 ∧
      ppu1.WriteRegister 6 0x23 = some ppu2 ∧
      ppu2.vramAddressScrollReg.tempAddress = 0x2123 ∧
      ppu2.vramAddressScrollReg.address = 0x2123 ∧
      ppu2.vramAddressScrollReg.toggle = false := by
  obtain ⟨ppu1, ppu2, h1, h2, _, _, _, h3, h4, h5⟩ :=
    vram_address_writes ppuExample 0xE1 0x23 rfl (by decide) (by decide)
  exact ⟨ppu1, ppu2, h1, h2, h3.trans (by decide), h4.trans (by decide), h5⟩

end

section
open ppu
variable {ρ ν : Type}

/-- C29. For every PPU state whose secondary OAM holds 0xFF in its 32 cells (any primary OAM,
either sprite size, any scanline s), with k the number of sprites in range among the 64:
evaluateSprites(s) returns; the slot j < min(k, 8) of the secondary OAM holds the four bytes of
the sprite at the position j of the list of the sprites in range, taken in increasing OAM order;
every cell from 4 * min(k, 8) on is still 0xFF; Status is Status OR 0x20 when k >= 9 and is
unchanged otherwise; the primary OAM is unchanged.  A sprite with the Y position y is in range
when 0 <= s - 21 - y <= 7, or <= 15 when bit 5 of Ctrl selects the sprites of 16 rows. -/
theorem evaluateSprites_spec (ppu : PPU ρ ν) (s : Int)
    (hclear : ∀ a, 0 ≤ a → a < 32 → ppu.sprMemory.tempMemory a = 0xFF) :
    ∃ ppu1, evaluateSprites ppu s = some ppu1 ∧
      (∀ (j : Nat) (i b : Int), ((spritesInRange ppu s).take 8)[j]? = some i → 0 ≤ b → b < 4 →
        ppu1.sprMemory.tempMemory ((j : Int) * 4 + b) = ppu.sprMemory.ram (i * 4 + b)) ∧
      ((spritesInRange ppu s).take 8).length = min (spritesInRange ppu s).length 8 ∧
      (∀ a : Int, ((min (spritesInRange ppu s).length 8 : Nat) : Int) * 4 ≤ a → a < 32 →
        ppu1.sprMemory.tempMemory a = 0xFF) ∧
      ppu1.statusReg.value
        = (if 9 ≤ (spritesInRange ppu s).length then ppu.statusReg.value ||| 0x20
           else ppu.statusReg.value) ∧
      ppu1.sprMemory.ram = ppu.sprMemory.ram ∧
      (∀ i, i ∈ spritesInRange ppu s ↔ (0 ≤ i ∧ i < 64) ∧
        0 ≤ s - 21 - ppu.sprMemory.ram (i * 4) ∧
        s - 21 - ppu.sprMemory.ram (i * 4) ≤ if ppu.ctrlReg.value.testBit 5 then 15 else 7) ∧
      (spritesInRange ppu s).Sorted (· < ·) := by
  obtain ⟨ppu1, e, hram, _, htemp, hstat⟩ :=
    evaluateSpritesFrom_spec s (indices 64) 0 ppu (fun i hi => by
      have := (mem_indices 64 i).1 hi
      omega) (le_refl 0) (by norm_num)
  have h8 : ((8 : Int) - 0).toNat = 8 := rfl
  rw [h8] at htemp
  refine ⟨ppu1, e, ?_, ?_, ?_, ?_, hram, ?_, ?_⟩
  · intro j i b hj hb0 hb4
    have := copySprites_slot ppu.sprMemory.ram ((spritesInRange ppu s).take 8) 0
      ppu.sprMemory.tempMemory j i b hj hb0 hb4
    rw [zero_add] at this
    rw [htemp]
    exact this
  · rw [List.length_take, Nat.min_comm]
  · intro a ha h32
    rw [htemp, copySprites_outside _ _ _ _ _ (Or.inr ?_)]
    · refine hclear a ?_ h32
      have : (0 : Int) ≤ ((min (spritesInRange ppu s).length 8 : Nat) : Int) * 4 := by
        positivity
      omega
    · rw [zero_add]
      have : ((List.filter (fun i =>
          isSpriteInRangeForNextScanline ppu (ppu.sprMemory.ram (i * 4)) s)
            (indices 64)).take 8).length = min (spritesInRange ppu s).length 8 := by
        rw [List.length_take, Nat.min_comm]; rfl
      rw [this]
      exact ha
  · rw [hstat]
    have hk : (8 < (0 : Int) + ((List.filter (fun i =>
        isSpriteInRangeForNextScanline ppu (ppu.sprMemory.ram (i * 4)) s)
          (indices 64)).length : Int)) ↔ 9 ≤ (spritesInRange ppu s).length := by
      unfold spritesInRange
      omega
    by_cases h9 : 9 ≤ (spritesInRange ppu s).length
    · rw [if_pos (hk.2 h9), if_pos h9]; rfl
    · rw [if_neg (fun h => h9 (hk.1 h)), if_neg h9]
  · intro i
    unfold spritesInRange
    rw [List.mem_filter, mem_indices, isSpriteInRangeForNextScanline_eq, decide_eq_true_iff]
    norm_num
  · unfold spritesInRange indices
    apply List.Sorted.filter
    rw [List.Sorted, List.pairwise_map]
    exact (List.pairwise_lt_range 64).imp (fun h => by exact_mod_cast h)

set_option maxRecDepth 100000 in
/-- Witness of C29: on the scanline 30 with the sprites 3, 5, 6, .., 12 and 40 in range, the
secondary OAM receives the sprites 3, 5, .., 11 and the overflow bit is set. -/
theorem evaluateSprites_spec_witness :
    ∃ ppu1, evaluateSprites spriteExample 30 = some ppu1 ∧
      ppu1.sprMemory.tempMemory 1 = 3 ∧ ppu1.sprMemory.tempMemory 5 = 5 ∧
      ppu1.sprMemory.tempMemory 29 = 11 ∧ ppu1.statusReg.value = 0x20 := by
  obtain ⟨ppu1, e, hslot, _, _, hstat, _, _, _⟩ :=
    evaluateSprites_spec spriteExample 30 (fun _ _ _ => rfl)
  have hsel : spritesInRange spriteExample 30 = [3, 5, 6, 7, 8, 9, 10, 11, 12, 40] := by decide
  rw [hsel] at hslot hstat
  exact ⟨ppu1, e, (hslot 0 3 1 rfl (by decide) (by decide)).trans (by decide),
    (hslot 1 5 1 rfl (by decide) (by decide)).trans (by decide),
    (hslot 7 11 1 rfl (by decide) (by decide)).trans (by decide),
    hstat.trans (by decide)⟩

end

section
open ppu
variable {ρ ν : Type} [VBLReceiver ρ] [VideoReceiver ν]

/-- C27. Take a PPU after `Init`, write a value
with bit 7 set to the control register and run `k` dots, `k` at most `341 * 262`, without
reading Status in between.  The write calls no receiver; the run returns; for `1 ≤ k` the PPU
is on the scanline `(k - 1) / 341` and the dot `(k - 1) % 341`, so the dot 0 of the scanline 0
is the first dot and the dot 2 is the third; the VBL flag is clear before the first dot and set
from the first dot to the last dot of the scanline 19; the VBL receiver has not been called
before the third dot and has been called once from the third dot to the end of the frame. -/
theorem vbl_once_per_frame (paletteRGB : Int → Int) (ppu : PPU ρ ν) (v : Int) (k : Nat)
    (hv : v.testBit 7 = true) (hk : k ≤ 341 * 262) :
    ∃ p0 p, ppu.Init.WriteRegister CtrlRegID v = some p0 ∧
      p0.vblReceiver = ppu.vblReceiver ∧
      p0.ExecuteCycles paletteRGB k = some p ∧
      (1 ≤ k → p.currentScanline = ((k : Int) - 1) / 341 ∧
        p.currentCycle = ((k : Int) - 1) % 341) ∧
      p.statusReg.isInVblank = decide (1 ≤ k ∧ k ≤ 20 * 341) ∧
      p.vblReceiver
        = (if 3 ≤ k then VBLReceiver.ReceiveVBL ppu.vblReceiver else ppu.vblReceiver) := by
  have hw : ∃ p0, ppu.Init.WriteRegister CtrlRegID v = some p0 ∧
      p0.vblReceiver = ppu.vblReceiver ∧ p0.maskReg.value = 0x06 ∧ p0.ctrlReg.value = v ∧
      p0.currentCycle = -1 ∧ p0.currentScanline = 0 ∧ p0.currentScanlineCyclesCount = 341 ∧
      p0.canSetVblForFrame = true ∧ p0.statusReg.value = 0 :=
    ⟨_, rfl, rfl, rfl, rfl, rfl, rfl, rfl, rfl, rfl⟩
  obtain ⟨p0, e0, w1, w2, w3, w4, w5, w6, w7, w8⟩ := hw
  obtain ⟨p, e, _, _, _, i4, i5, _, i7, i8, _, i10, i11⟩ :=
    executeCyclesLoop_first_frame paletteRGB p0 (by rw [w2]; rfl) (by rw [w2]; rfl)
      (by rw [w3]; exact hv) w4 w5 w6 w7 (by rw [w8]; rfl) k hk
  refine ⟨p0, p, e0, w1, ?_, ?_, ?_, ?_⟩
  · show executeCyclesLoop paletteRGB ((k : Int)).toNat p0 = some p
    rw [Int.toNat_ofNat]
    exact e
  · intro h1
    have := i8 h1
    constructor <;> omega
  · rw [isInVblank_eq, i10]
  · rw [i11, w1]

/-- Witness of C27: a whole frame of the example PPU, after which the counting receiver has
counted one call. -/
theorem vbl_once_per_frame_witness :
    (0x80 : Int).testBit 7 = true ∧ 341 * 262 ≤ 341 * 262 ∧
    ∃ p0 p, ppuExample.Init.WriteRegister ppu.CtrlRegID 0x80 = some p0 ∧
      p0.vblReceiver.count = 0 ∧
      p0.ExecuteCycles (fun _ => 0) ((341 * 262 : Nat) : Int) = some p ∧
      p.currentScanline = 261 ∧ p.currentCycle = 340 ∧
      p.statusReg.isInVblank = false ∧ p.vblReceiver.count = 1 := by
  refine ⟨by decide, le_refl _, ?_⟩
  obtain ⟨p0, p, e0, w, e, hp, hf, hr⟩ :=
    vbl_once_per_frame (fun _ => 0) ppuExample 0x80 (341 * 262) (by decide) (le_refl _)
  have hp1 := hp (by norm_num)
  refine ⟨p0, p, e0, ?_, e, ?_, ?_, ?_, ?_⟩
  · rw [w]; rfl
  · rw [hp1.1]; norm_num
  · rw [hp1.2]; norm_num
  · rw [hf]; decide
  · rw [hr]; rfl

/-- C28. Let `q` be a PPU on the last dot of the
scanline 261 and read Status: for every `k` from 1 to 341 the run of `k` dots returns on the dot
`k - 1` of the scanline 0 with the VBL flag clear and the VBL receiver as it was, whatever bit 7
of the control register was.  Let `w` be a PPU on the dot 0 or 1 of the scanline 0 and read
Status: every run of `j` dots that stays on the scanline returns on the dot `j` further with the
VBL receiver as it was, the dot 2 included. -/
theorem status_read_suppresses_vbl (paletteRGB : Int → Int) (q w : PPU ρ ν) (k j : Nat)
    (hqs : q.currentScanline = 261)
    (hqc : q.currentCycle = q.currentScanlineCyclesCount - 1)
    (hk : 1 ≤ k ∧ k ≤ 341)
    (hws : w.currentScanline = 0) (hwc : w.currentCycle = 0 ∨ w.currentCycle = 1)
    (hwn : w.currentScanlineCyclesCount = 341) (hj : w.currentCycle + j ≤ 340) :
    (∃ q0 q1, q.ReadRegister StatusRegID = some (q.statusReg.value, q0) ∧
      q0.ExecuteCycles paletteRGB k = some q1 ∧
      q1.currentScanline = 0 ∧ q1.currentCycle = (k : Int) - 1 ∧
      q1.statusReg.isInVblank = false ∧ q1.vblReceiver = q.vblReceiver) ∧
    (∃ w0 w1, w.ReadRegister StatusRegID = some (w.statusReg.value, w0) ∧
      w0.ExecuteCycles paletteRGB j = some w1 ∧
      w1.currentScanline = 0 ∧ w1.currentCycle = w.currentCycle + j ∧
      w1.vblReceiver = w.vblReceiver) := by
  constructor
  · obtain ⟨q0, e0, r1, r2, r3, r4, r5, r6, r7⟩ := ReadRegister_status_before_vbl q hqs hqc
    have hwrap : q0.currentCycle + 1 = q0.currentScanlineCyclesCount := by
      rw [r2, r3, hqc]; ring
    have h262 : q0.currentScanline + 1 = 262 := by rw [r1, hqs]; rfl
    obtain ⟨d1, d2, d3, d4⟩ := determineScanlineAndFrame_counters q0
    -- the dot 0 of the scanline 0
    obtain ⟨q1, e1, _, b2, _, b4, b5, _, b7, b8, _, b10⟩ :=
      executeCycle_step paletteRGB q0 (fun h _ => by
        rw [d2, if_pos hwrap, if_pos h262] at h
        omega)
    rw [if_pos hwrap] at b4 b5
    rw [if_pos h262] at b5
    have nA : ¬ (q1.currentScanline = 20 ∧ q1.currentCycle = 0 ∧ q1.isOddFrame = true ∧
        q0.maskReg.value.testBit 3 = true) := fun h => by omega
    have nB : ¬ (q1.currentScanline = 0 ∧ q1.currentCycle = 2 ∧
        q0.ctrlReg.value.testBit 7 = true) := fun h => by omega
    rw [if_neg nA, if_pos hwrap] at b7
    rw [if_neg nB] at b8
    rw [if_pos ⟨b5, b4⟩, r4, r6] at b10
    -- the other dots of the scanline 0
    obtain ⟨q2, e2, c1, c2, _, _, c5, c6⟩ :=
      executeCyclesLoop_vbl_scanline paletteRGB q1 b5 (by omega) b7 (by rw [b2]; exact r5)
        (k - 1) (by rw [b4]; omega)
    refine ⟨q0, q2, e0, ?_, c1, ?_, ?_, ?_⟩
    · show executeCyclesLoop paletteRGB ((k : Int)).toNat q0 = some q2
      have hk1 : k = 1 + (k - 1) := by omega
      rw [Int.toNat_ofNat, hk1, executeCyclesLoop_add]
      have h1 : executeCyclesLoop paletteRGB 1 q0 = some q1 := by
        simp [executeCyclesLoop, e1]
      rw [h1]
      exact e2
    · rw [c2, b4]; omega
    · rw [isInVblank_eq, c6, b10]; rfl
    · rw [c5, b8, r7]
  · obtain ⟨w0, e0, r1, r2, r3, r5, _, r7⟩ :=
      ReadRegister_status_at_vbl w hws (by omega)
    obtain ⟨w1, e1, c1, c2, _, _, c5, _⟩ :=
      executeCyclesLoop_vbl_scanline paletteRGB w0 (r1.trans hws) (by omega) (r3.trans hwn) r5
        j (by omega)
    refine ⟨w0, w1, e0, ?_, c1, by rw [c2, r2], c5.trans r7⟩
    show executeCyclesLoop paletteRGB ((j : Int)).toNat w0 = some w1
    rw [Int.toNat_ofNat]
    exact e1

/-- Witness of C28: the two example states, over the whole scanline 0 and over the dot 2; the
counting receiver has counted no call. -/
theorem status_read_suppresses_vbl_witness :
    beforeVblExample.currentScanline = 261 ∧
    beforeVblExample.currentCycle = beforeVblExample.currentScanlineCyclesCount - 1 ∧
    beforeVblExample.ctrlReg.execNMIOnVblEnabled = true ∧
    vblStartExample.currentScanline = 0 ∧ vblStartExample.currentCycle = 1 ∧
    vblStartExample.ctrlReg.execNMIOnVblEnabled = true ∧
    (∃ q0 q1, beforeVblExample.ReadRegister ppu.StatusRegID = some (0, q0) ∧
      q0.ExecuteCycles (fun _ => 0) 341 = some q1 ∧
      q1.currentScanline = 0 ∧ q1.currentCycle = 340 ∧
      q1.statusReg.isInVblank = false ∧ q1.vblReceiver.count = 0) ∧
    (∃ w0 w1, vblStartExample.ReadRegister ppu.StatusRegID = some (0x80, w0) ∧
      w0.ExecuteCycles (fun _ => 0) 1 = some w1 ∧
      w1.currentScanline = 0 ∧ w1.currentCycle = 2 ∧ w1.vblReceiver.count = 0) := by
  obtain ⟨⟨q0, q1, a1, a2, a3, a4, a5, a6⟩, ⟨w0, w1, c1, c2, c3, c4, c5⟩⟩ :=
    status_read_suppresses_vbl (fun _ => 0) beforeVblExample vblStartExample 341 1
      rfl rfl (by decide) rfl (Or.inr rfl) rfl (by decide)
  refine ⟨rfl, rfl, by decide, rfl, rfl, by decide, ⟨q0, q1, a1, a2, a3, ?_, a5, ?_⟩,
    ⟨w0, w1, c1, c2, c3, ?_, ?_⟩⟩
  · rw [a4]; rfl
  · rw [a6]; rfl
  · rw [c4]; rfl
  · rw [c5]; rfl

end

section
open ppu
variable {ρ ν : Type} [VBLReceiver ρ] [VideoReceiver ν]

/-- C30. Take a PPU after `Init`, write `m` to
the mask register (writing 0x06 leaves the state of `Init`) and run `n` dots, `1 ≤ n`, where
the reads of the PPU memory return if `m` enables the rendering.  The run returns with the
scanline counter in 0..261 and the dot counter in 0..340 and below the length of the scanline.
With bit 3 of `m` clear, `currentScanline * 341 + currentCycle` is `(n - 1) % (341 * 262)`.
With bit 3 of `m` set, let `r` be `(n - 1) % (2 * (341 * 262) - 1)`: for `r < 341 * 262 - 1` the
frame is odd, the scanline 20 has 340 dots and every other one 341, and `r` is the number of
dots of this frame before the current one; for `341 * 262 - 1 ≤ r` the frame is even, every
scanline has 341 dots and `r - (341 * 262 - 1)` is the number of dots of this frame before the
current one.  So the odd frames last `341 * 262 - 1` dots and the even frames `341 * 262`. -/
theorem counters_after_cycles (paletteRGB : Int → Int) (ppu : PPU ρ ν) (m : Int) (n : Nat)
    (hn : 1 ≤ n)
    (hR : m.testBit 3 = true ∨ m.testBit 4 = true → ReadsReturn ppu.vramMemory) :
    ppu.Init.WriteRegister MaskRegID 0x06 = some ppu.Init ∧
    ∃ p0 p, ppu.Init.WriteRegister MaskRegID m = some p0 ∧
      p0.ExecuteCycles paletteRGB n = some p ∧
      0 ≤ p.currentScanline ∧ p.currentScanline ≤ 261 ∧
      0 ≤ p.currentCycle ∧ p.currentCycle ≤ 340 ∧
      p.currentCycle < p.currentScanlineCyclesCount ∧
      (m.testBit 3 = false →
        p.currentScanline * 341 + p.currentCycle = ((n : Int) - 1) % (341 * 262)) ∧
      (m.testBit 3 = true →
        (((n : Int) - 1) % (2 * (341 * 262) - 1) < 341 * 262 - 1 →
          p.isOddFrame = true ∧
          p.currentScanlineCyclesCount = (if p.currentScanline = 20 then 340 else 341) ∧
          p.currentScanline * 341 + p.currentCycle - (if 20 < p.currentScanline then 1 else 0)
            = ((n : Int) - 1) % (2 * (341 * 262) - 1)) ∧
        (341 * 262 - 1 ≤ ((n : Int) - 1) % (2 * (341 * 262) - 1) →
          p.isOddFrame = false ∧ p.currentScanlineCyclesCount = 341 ∧
          p.currentScanline * 341 + p.currentCycle
            = ((n : Int) - 1) % (2 * (341 * 262) - 1) - (341 * 262 - 1))) := by
  refine ⟨rfl, ?_⟩
  have hw : ∃ p0, ppu.Init.WriteRegister MaskRegID m = some p0 ∧
      p0.maskReg.value = m ∧ p0.vramMemory = ppu.vramMemory ∧
      p0.currentCycle = -1 ∧ p0.currentScanline = 0 ∧ p0.currentScanlineCyclesCount = 341 ∧
      p0.isOddFrame = true :=
    ⟨_, rfl, rfl, rfl, rfl, rfl, rfl, rfl⟩
  obtain ⟨p0, e0, w1, w2, w3, w4, w5, w6⟩ := hw
  obtain ⟨p, e, _, _, i3, i4, _, i6, i7, i8, _, i10, i11⟩ :=
    executeCyclesLoop_counters paletteRGB p0 w3 w4 w5 w6 (fun he => by
      rw [w2]
      rw [isRenderingEnabled_eq, w1] at he
      refine hR ?_
      cases h3 : m.testBit 3
      · rw [h3] at he
        exact Or.inr he
      · exact Or.inl rfl) n
  rw [w1] at i10 i11
  have h0 := i8 hn
  refine ⟨p0, p, e0, ?_, i3, i4, h0, by omega, i6, fun hb => ?_, fun hb => ⟨fun hr => ?_,
    fun hr => ?_⟩⟩
  · show executeCyclesLoop paletteRGB ((n : Int)).toNat p0 = some p
    rw [Int.toNat_ofNat]
    exact e
  · obtain ⟨_, j, hj, k⟩ := i10 hb
    have e1 : (341 * 262 : Int) = 89342 := by norm_num
    rw [e1]
    exact (emod_of_decomp ((n : Int) - 1) j (p.currentScanline * 341 + p.currentCycle) 89342
      (by rw [k]; ring) (by omega) (by omega)).symm
  · have e1 : (2 * (341 * 262) - 1 : Int) = 178683 := by norm_num
    have e2 : (341 * 262 - 1 : Int) = 89341 := by norm_num
    rw [e1, e2] at hr
    rw [e1]
    obtain ⟨j, hj, ⟨f1, f2, f3⟩ | ⟨f1, f2, f3⟩⟩ := i11 hb
    · have f4 : (n : Int) - 1 = j * 178683 + (p.currentScanline * 341 + p.currentCycle
          - (if 20 < p.currentScanline then 1 else 0)) := by rw [f3]; ring
      have ht := emod_of_decomp ((n : Int) - 1) j _ 178683 f4
        (by split_ifs at f2 ⊢ <;> omega) (by split_ifs at f2 ⊢ <;> omega)
      exact ⟨f1, f2, ht.symm⟩
    · have ht := emod_of_decomp ((n : Int) - 1) j
        (89341 + p.currentScanline * 341 + p.currentCycle) 178683
        (by rw [f3]; ring) (by omega) (by omega)
      rw [ht] at hr
      omega
  · have e1 : (2 * (341 * 262) - 1 : Int) = 178683 := by norm_num
    have e2 : (341 * 262 - 1 : Int) = 89341 := by norm_num
    rw [e1, e2] at hr
    rw [e1, e2]
    obtain ⟨j, hj, ⟨f1, f2, f3⟩ | ⟨f1, f2, f3⟩⟩ := i11 hb
    · have f4 : (n : Int) - 1 = j * 178683 + (p.currentScanline * 341 + p.currentCycle
          - (if 20 < p.currentScanline then 1 else 0)) := by rw [f3]; ring
      have ht := emod_of_decomp ((n : Int) - 1) j _ 178683 f4
        (by split_ifs at f2 ⊢ <;> omega) (by split_ifs at f2 ⊢ <;> omega)
      rw [ht] at hr
      split_ifs at f2 hr <;> omega
    · have ht := emod_of_decomp ((n : Int) - 1) j
        (89341 + p.currentScanline * 341 + p.currentCycle) 178683
        (by rw [f3]; ring) (by omega) (by omega)
      rw [ht]
      exact ⟨f1, f2, by ring⟩

/-- Witness of C30: the example PPU with the background enabled; the dot `341 * 262` is the
first dot of the second frame, which is even, and the dot `2 * (341 * 262)`
is the first dot of the third frame, which is odd. -/
theorem counters_after_cycles_witness :
    (1 ≤ 341 * 262 ∧ 1 ≤ 2 * (341 * 262)) ∧ ReadsReturn ppuExample.vramMemory ∧
    (∃ p0 p, ppuExample.Init.WriteRegister ppu.MaskRegID 0x08 = some p0 ∧
      p0.ExecuteCycles (fun _ => 0) ((341 * 262 : Nat) : Int) = some p ∧
      p.isOddFrame = false ∧ p.currentScanline = 0 ∧ p.currentCycle = 0) ∧
    (∃ p0 p, ppuExample.Init.WriteRegister ppu.MaskRegID 0x08 = some p0 ∧
      p0.ExecuteCycles (fun _ => 0) ((2 * (341 * 262) : Nat) : Int) = some p ∧
      p.isOddFrame = true ∧ p.currentScanline = 0 ∧ p.currentCycle = 0) := by
  have hR : ReadsReturn ppuExample.vramMemory := newVRAMMemory_reads onePrgRom
  refine ⟨by decide, hR, ?_, ?_⟩
  · obtain ⟨_, p0, p, e0, e, a1, _, a3, _, _, _, a7⟩ :=
      counters_after_cycles (fun _ => 0) ppuExample 0x08 (341 * 262) (by decide) (fun _ => hR)
    obtain ⟨o, _, h⟩ := (a7 (by decide)).2 (by norm_num)
    norm_num at h
    exact ⟨p0, p, e0, e, o, by omega, by omega⟩
  · obtain ⟨_, p0, p, e0, e, a1, _, a3, _, _, _, a7⟩ :=
      counters_after_cycles (fun _ => 0) ppuExample 0x08 (2 * (341 * 262)) (by decide)
        (fun _ => hR)
    obtain ⟨o, _, h⟩ := (a7 (by decide)).1 (by norm_num)
    norm_num at h
    have h20 : ¬ 20 < p.currentScanline := fun h2 => by
      rw [if_pos h2] at h
      omega
    rw [if_neg h20] at h
    exact ⟨p0, p, e0, e, o, by omega, by omega⟩

end

/-- C31. For a VRAM address `v` of 15 bits `incrementBackgroundFineY` returns, changing only the
address, to a 15-bit `v1` with the same coarse-X (`v % 32`) and the same bit 10. With fine-Y
(`v / 4096`) below 7, `v1 = v + 4096`: only fine-Y is incremented. With fine-Y 7 the new fine-Y
is 0 and: for a coarse-Y (`v / 32 % 32`) below 29 the coarse-Y is incremented; for 29 the
coarse-Y becomes 0 and bit 11 is toggled; for 30 and 31 the coarse-Y becomes 0 and nothing else
changes. The fields are the ones the accessors of the register read. -/
theorem incrementBackgroundFineY_spec {ρ ν : Type} (p : ppu.PPU ρ ν) (v : Int)
    (hp : p.vramAddressScrollReg.address = v) (hv : 0 ≤ v ∧ v < 0x8000) :
    ∃ v1, ppu.incrementBackgroundFineY p
        = some { p with vramAddressScrollReg := { p.vramAddressScrollReg with address := v1 } } ∧
      (0 ≤ v1 ∧ v1 < 0x8000) ∧ v1 % 32 = v % 32 ∧ v1 / 1024 % 2 = v / 1024 % 2 ∧
      (v / 4096 < 7 → v1 = v + 4096) ∧
      (v / 4096 = 7 →
        (v / 32 % 32 < 29 → v1 = v - 7 * 4096 + 32) ∧
        (v / 32 % 32 = 29 →
          v1 = v - 7 * 4096 - 29 * 32 + (if v / 2048 % 2 = 0 then 2048 else -2048)) ∧
        (30 ≤ v / 32 % 32 → v1 = v - 7 * 4096 - 32 * (v / 32 % 32))) ∧
      (p.vramAddressScrollReg.backgroundFineY = v / 4096 ∧
        p.vramAddressScrollReg.backgroundTileY = v / 32 % 32 ∧
        p.vramAddressScrollReg.backgroundTileX = v % 32 ∧
        p.vramAddressScrollReg.nameTableIndex = 2 * (v / 2048 % 2) + v / 1024 % 2) := by
  obtain ⟨f1, f2, f3, f4⟩ := vram_fields p.vramAddressScrollReg
  rw [hp] at f1 f2 f3 f4
  have hacc : v / 4096 % 8 = v / 4096 ∧ True ∧
      p.vramAddressScrollReg.backgroundTileX = v % 32 ∧
      v / 1024 % 4 = 2 * (v / 2048 % 2) + v / 1024 % 2 :=
    ⟨by omega, trivial, f4, by omega⟩
  unfold ppu.incrementBackgroundFineY
  simp only [f1, f2, f3, set_chain, hp]
  by_cases h7 : v / 4096 % 8 + 1 > 7
  · rw [if_pos h7]
    by_cases h31 : v / 32 % 32 + 1 = 31
    · rw [if_pos h31]
      simp only [Option.map_some']
      rw [set_fields v 0 0 _ hv (by omega) (by omega) (by omega)]
      exact ⟨_, rfl, by omega, by omega, by omega, by omega, by omega, hacc⟩
    · rw [if_neg h31]
      by_cases h30 : v / 32 % 32 + 1 = 30
      · rw [if_pos h30, vertical_index _ (by omega)]
        simp only [Option.map_some']
        rw [set_fields v 0 0 _ hv (by omega) (by omega) (by omega)]
        refine ⟨_, rfl, by omega, by omega, by omega, by omega, fun h => ⟨by omega, ?_, by omega⟩,
          hacc⟩
        intro _
        split_ifs <;> omega
      · rw [if_neg h30]
        simp only [Option.map_some']
        by_cases h32 : v / 32 % 32 = 31
        · rw [h32]
          have e : (31 : Int) + 1 = 32 := by norm_num
          rw [e, setBackgroundTileY_32,
            set_fields v 0 0 _ hv (by omega) (by omega) (by omega)]
          exact ⟨_, rfl, by omega, by omega, by omega, by omega, by omega, hacc⟩
        · rw [set_fields v 0 _ _ hv (by omega) (by omega) (by omega)]
          exact ⟨_, rfl, by omega, by omega, by omega, by omega, by omega, hacc⟩
  · rw [if_neg h7]
    simp only [Option.map_some']
    rw [set_fields v _ _ _ hv (by omega) (by omega) (by omega)]
    exact ⟨_, rfl, by omega, by omega, by omega, by omega, by omega, hacc⟩

/-- Witness of C31: the address 0x73A5 (fine-Y 7, coarse-Y 29, nametable 0, coarse-X 5) becomes
0x0805 (fine-Y 0, coarse-Y 0, nametable 2, coarse-X 5). -/
theorem incrementBackgroundFineY_spec_witness :
    ppu.incrementBackgroundFineY fineYExample
      = some { fineYExample with
          vramAddressScrollReg := { fineYExample.vramAddressScrollReg with address := 0x0805 } } := by
  obtain ⟨v1, h, -, -, -, -, h7, -⟩ :=
    incrementBackgroundFineY_spec fineYExample 0x73A5 rfl (by decide)
  have e := (h7 (by decide)).2.1 (by decide)
  rw [h, e]
  rfl

/-- Counterexample to C32: with the clip-BG bit of Mask set (Mask = 0x0A), the background
renderer writes the palette index 1 at the dot 0, whose entry was 0. -/
theorem bg_clip_counterexample :
    (clipExample.maskReg.value &&& ppu.maskBackgroundClipping) ≠ 0 ∧
    clipExample.scanlineOffscreenBuffer 0 = 0 ∧
    ∃ q, ppu.renderTileData clipExample 0 true = some q ∧ q.scanlineOffscreenBuffer 0 = 1 :=
  ⟨by decide, rfl, _, rfl, rfl⟩

/-- C32, amended. At a dot `c` of 0..255, `renderTileData` with `drawPixel` returns. When `c` is
one of the dots 0..7 and the clip-BG bit of Mask (0x02) is clear, it writes no pixel: the
scanline buffer is unchanged. When `c` is above 7, or the clip-BG bit is set, the scanline buffer
receives at `c`, and only there, the palette index (a value of 0..15) that
`renderBackgroundPixel` writes. -/
theorem bg_clip {ρ ν : Type} (p : ppu.PPU ρ ν) (c : Int) (hc : 0 ≤ c ∧ c ≤ 255) :
    (c ≤ 7 ∧ (p.maskReg.value &&& ppu.maskBackgroundClipping) = 0 →
      ∃ q, ppu.renderTileData p c true = some q ∧
        q.scanlineOffscreenBuffer = p.scanlineOffscreenBuffer) ∧
    (7 < c ∨ (p.maskReg.value &&& ppu.maskBackgroundClipping) ≠ 0 →
      ∃ x q, (0 ≤ x ∧ x ≤ 15) ∧
        ppu.renderBackgroundPixel p c
          = some { p with
              scanlineOffscreenBuffer :=
                fun j => if j = c then x else p.scanlineOffscreenBuffer j } ∧
        ppu.renderTileData p c true = some q ∧
        q.scanlineOffscreenBuffer
          = fun j => if j = c then x else p.scanlineOffscreenBuffer j) := by
  constructor
  · rintro ⟨h7, hm⟩
    have h1 : ¬ c > 7 := by omega
    simp only [ppu.renderTileData, ppu.maskRegister.isBackgroundClippingEnabled, hm, h1,
      if_true, decide_True, Bool.not_true, Bool.false_eq_true, or_self, if_false,
      Option.some_bind]
    exact ⟨_, rfl, rfl⟩
  · intro h
    obtain ⟨x, hx, e⟩ := renderBackgroundPixel_writes p c hc
    have hcond : c > 7 ∨ (!p.maskReg.isBackgroundClippingEnabled) = true := by
      rcases h with h | h
      · exact Or.inl h
      · right
        simp only [ppu.maskRegister.isBackgroundClippingEnabled, h, decide_False, Bool.not_false]
    have hq : ∃ q, ppu.renderTileData p c true = some q ∧
        q.scanlineOffscreenBuffer
          = fun j => if j = c then x else p.scanlineOffscreenBuffer j := by
      simp only [ppu.renderTileData, if_true, if_pos hcond, e, Option.some_bind]
      exact ⟨_, rfl, rfl⟩
    obtain ⟨q, hq1, hq2⟩ := hq
    exact ⟨x, q, hx, e, hq1, hq2⟩

/-- Witness of C32: with Mask = 0x08 the dot 3 leaves the scanline buffer as it is, with
Mask = 0x0A it receives a palette index. -/
theorem bg_clip_witness :
    (∃ q, ppu.renderTileData { clipExample with maskReg := { value := 0x08 } } 3 true = some q ∧
      q.scanlineOffscreenBuffer = clipExample.scanlineOffscreenBuffer) ∧
    (∃ x q, ppu.renderTileData clipExample 3 true = some q ∧
      q.scanlineOffscreenBuffer
        = fun j => if j = 3 then x else clipExample.scanlineOffscreenBuffer j) := by
  obtain ⟨q, h1, h2⟩ :=
    (bg_clip { clipExample with maskReg := { value := 0x08 } } 3 (by decide)).1
      ⟨by decide, by decide⟩
  obtain ⟨x, q1, -, -, h3, h4⟩ := (bg_clip clipExample 3 (by decide)).2 (Or.inr (by decide))
  exact ⟨⟨q, h1, h2⟩, x, q1, h3, h4⟩

/-- Counterexample to C33: with the rendering disabled (Mask = 0x06), `v = 0x2001` and
`t = 0x2000`, the dot 303 of the scanline 20 leaves `v` as it is. -/
theorem dot303_counterexample :
    ∃ q, ppu.PPU.ExecuteCycles (fun _ => 0) dot302Example 1 = some q ∧
      q.currentScanline = 20 ∧ q.currentCycle = 303 ∧
      q.vramAddressScrollReg.address = 0x2001 ∧ q.vramAddressScrollReg.tempAddress = 0x2000 := by
  rw [ExecuteCycles_one, executeCycle_dot303 (fun _ => 0) dot302Example rfl rfl (by decide)]
  exact ⟨_, rfl, rfl, rfl, rfl, rfl⟩

/-- C33, amended. From a state before the dot 303 of the scanline 20, one cycle of
`ExecuteCycles` returns at the dot 303; when the rendering is enabled (bit 3 or bit 4 of Mask
set) `v` equals `t` afterwards, and when it is disabled `v` is unchanged. Nothing but the dot
counter and `v` changes. -/
theorem dot303_reload {ρ ν : Type} [ppu.VBLReceiver ρ] [ppu.VideoReceiver ν]
    (paletteRGB : Int → Int) (p : ppu.PPU ρ ν)
    (hs : p.currentScanline = 20) (hc : p.currentCycle = 302)
    (hn : p.currentScanlineCyclesCount ≠ 303) :
    ∃ v1, ppu.PPU.ExecuteCycles paletteRGB p 1
        = some { p with
            currentCycle := 303
            vramAddressScrollReg := { p.vramAddressScrollReg with address := v1 } } ∧
      ((p.maskReg.value &&& 0x08) ≠ 0 ∨ (p.maskReg.value &&& 0x10) ≠ 0 →
        v1 = p.vramAddressScrollReg.tempAddress) ∧
      ((p.maskReg.value &&& 0x08) = 0 ∧ (p.maskReg.value &&& 0x10) = 0 →
        v1 = p.vramAddressScrollReg.address) := by
  rw [ExecuteCycles_one, executeCycle_dot303 paletteRGB p hs hc hn]
  refine ⟨_, rfl, ?_, ?_⟩
  · intro hm
    have hr : p.isRenderingEnabled = true := by
      simp only [ppu.PPU.isRenderingEnabled, ppu.maskRegister.isBackgroundVisibilityEnabled,
        ppu.maskRegister.isSpriteVisibilityEnabled, ppu.maskBackgroundVisibility,
        ppu.maskSpriteVisibility, Bool.or_eq_true, decide_eq_true_eq]
      exact hm
    rw [if_pos hr]
  · intro hm
    have hr : ¬ p.isRenderingEnabled = true := by
      simp only [ppu.PPU.isRenderingEnabled, ppu.maskRegister.isBackgroundVisibilityEnabled,
        ppu.maskRegister.isSpriteVisibilityEnabled, ppu.maskBackgroundVisibility,
        ppu.maskSpriteVisibility, Bool.or_eq_true, decide_eq_true_eq]
      intro h
      rcases h with h | h
      · exact h hm.1
      · exact h hm.2
    rw [if_neg hr]

/-- Witness of C33: the example before the dot 303 with Mask = 0x08; `v` becomes `t = 0x2000`. -/
theorem dot303_reload_witness :
    ppu.PPU.ExecuteCycles (fun _ => 0) { dot302Example with maskReg := { value := 0x08 } } 1
      = some { dot302Example with
          maskReg := { value := 0x08 }
          currentCycle := 303
          vramAddressScrollReg := { dot302Example.vramAddressScrollReg with
            address := 0x2000 } } := by
  obtain ⟨v1, h1, h2, -⟩ :=
    dot303_reload (fun _ => 0) { dot302Example with maskReg := { value := 0x08 } } rfl rfl
      (by decide)
  rw [h1, h2 (Or.inl (by decide))]
  rfl

/-- C34. With every read of the VRAM returning, `evaluateSprites(s)` followed by
`fetchSpriteTileData(s)` returns. The flag `isSpriteZeroInRange` afterwards is the flag before
or the range test of the sprite 0 on `s`: the evaluation sets it and never clears it. No entry
other than the entry 0 is marked as sprite zero, and the entry 0 is marked only when the flag was
set before or the sprite 0 is in range on `s`. But when the flag was set before, on an earlier
scanline of the frame, the entry 0 is marked whichever sprite the slot 0 of the secondary OAM
holds (its X position not being 0xFF), also when the sprite 0 is not in range on `s`. -/
theorem sprite_zero_mark {ρ ν : Type} (p : ppu.PPU ρ ν) (s : Int)
    (hR : ReadsReturn p.vramMemory) :
    ∃ p1 p2, ppu.evaluateSprites p s = some p1 ∧ ppu.fetchSpriteTileData p1 s = some p2 ∧
      p1.spriteRenderer.isSpriteZeroInRange
        = (p.spriteRenderer.isSpriteZeroInRange
            || ppu.isSpriteInRangeForNextScanline p (p.sprMemory.ram 0) s) ∧
      (∀ j, 1 ≤ j ∧ j ≤ 7 → (p2.spriteRenderer.pipelineMemory j).isSpriteZero = false) ∧
      ((p2.spriteRenderer.pipelineMemory 0).isSpriteZero = true →
        p.spriteRenderer.isSpriteZeroInRange = true ∨
          ppu.isSpriteInRangeForNextScanline p (p.sprMemory.ram 0) s = true) ∧
      (p.spriteRenderer.isSpriteZeroInRange = true → p1.sprMemory.tempMemory 3 ≠ 0xFF →
        (p2.spriteRenderer.pipelineMemory 0).isSpriteZero = true ∧
        (p2.spriteRenderer.pipelineMemory 0).xPosition = p1.sprMemory.tempMemory 3) := by
  obtain ⟨p1, h1, u1⟩ := evaluateSprites_keeps p.unrendered p rfl s
  have hR1 : ReadsReturn p.unrendered.vramMemory := hR
  obtain ⟨p2, h2, -⟩ := fetchSpriteTileData_keeps p.unrendered hR1 p1 u1 s
  have hf := evaluateSprites_flag p p1 s h1
  obtain ⟨a1, a2, a3⟩ := fetchSpriteTileData_entry0 p1 p2 s h2
  refine ⟨p1, p2, h1, h2, hf, a3, ?_, ?_⟩
  · intro hz
    have := a1 hz
    rw [hf, Bool.or_eq_true] at this
    exact this
  · intro hp hne
    exact a2 (by rw [hf, hp, Bool.true_or]) hne

set_option maxRecDepth 100000 in
/-- Witness of C34: on the scanline 29 the sprite 0 is not in range, the slot 0 of the secondary
OAM receives the sprite 1 (X position 0x40), and the entry 0 of the pipeline is marked as sprite
zero, because the flag is still set from the scanline 28. -/
theorem sprite_zero_mark_witness :
    spriteZeroExample.spriteRenderer.isSpriteZeroInRange = false ∧
    spriteZeroStale.spriteRenderer.isSpriteZeroInRange = true ∧
    ppu.isSpriteInRangeForNextScanline spriteZeroStale (spriteZeroStale.sprMemory.ram 0) 29
      = false ∧
    ∃ p1 p2, ppu.evaluateSprites spriteZeroStale 29 = some p1 ∧
      ppu.fetchSpriteTileData p1 29 = some p2 ∧
      p1.sprMemory.tempMemory 3 = spriteZeroStale.sprMemory.ram 7 ∧
      (p2.spriteRenderer.pipelineMemory 0).isSpriteZero = true ∧
      (p2.spriteRenderer.pipelineMemory 0).xPosition = 0x40 := by
  have hv : spriteZeroStale.vramMemory
      = ppu.newVRAMMemory (some (cartridge.New onePrgRom)) := rfl
  obtain ⟨p1, p2, h1, h2, -, -, -, h3⟩ :=
    sprite_zero_mark spriteZeroStale 29 (by rw [hv]; exact newVRAMMemory_reads onePrgRom)
  have e : (ppu.evaluateSprites spriteZeroStale 29).map (fun p => p.sprMemory.tempMemory 3)
      = some 0x40 := rfl
  rw [h1] at e
  have e3 : p1.sprMemory.tempMemory 3 = 0x40 := Option.some.inj e
  have h4 := h3 rfl (by rw [e3]; decide)
  rw [e3] at h4
  exact ⟨rfl, rfl, rfl, p1, p2, h1, h2, e3.trans rfl, h4.1, h4.2⟩

/-- C35. With the sprite-enable bit of Mask (0x10) clear, at a dot `c` of 0..255:
`renderSpritePixel` returns and leaves Status, so the sprite-0 hit flag, as it is; with the
background-enable bit (0x08) clear as well the renderers are not run at all. But with the
background enabled the sprite renderer runs, and `renderSpritePixel` does not test the
sprite-enable bit before it draws: a pixel that is not transparent of the entry 0 of the
pipeline, over a background pixel that is transparent, is stored with bit 0x10 set. -/
theorem sprite_disabled {ρ ν : Type} (p : ppu.PPU ρ ν) (c : Int) (hc : 0 ≤ c ∧ c ≤ 255)
    (hm : (p.maskReg.value &&& 0x10) = 0) :
    (∃ q, ppu.renderSpritePixel p c = some q ∧ q.statusReg = p.statusReg) ∧
    ((p.maskReg.value &&& 0x08) = 0 → ∀ shouldRender, ppu.render p shouldRender = some p) ∧
    (∀ e : ppu.spriteRenderPipeline, p.spriteRenderer.pipelineMemory 0 = e →
      0 ≤ c - e.xPosition ∧ c - e.xPosition ≤ 7 →
      (e.tileDataLow &&& shl 1 (7 - (c - e.xPosition)).toNat) ≠ 0 →
      (p.scanlineOffscreenBuffer c &&& 0x3) = 0 →
      ∃ q idx, ppu.renderSpritePixel p c = some q ∧
        q.scanlineOffscreenBuffer c = 0x10 ||| idx ∧
        (q.scanlineOffscreenBuffer c).testBit 4 = true) := by
  have hs : p.maskReg.isSpriteVisibilityEnabled = false := by
    simp only [ppu.maskRegister.isSpriteVisibilityEnabled, ppu.maskSpriteVisibility, hm, ne_eq,
      not_true_eq_false, decide_False]
  refine ⟨renderSpritePixelFrom_status c hc _ p hs, ?_, ?_⟩
  · intro hb sr
    have hbv : p.maskReg.isBackgroundVisibilityEnabled = false := by
      simp only [ppu.maskRegister.isBackgroundVisibilityEnabled, ppu.maskBackgroundVisibility,
        hb, ne_eq, not_true_eq_false, decide_False]
    simp only [ppu.render, ppu.PPU.isRenderingEnabled, hs, hbv, Bool.or_self,
      Bool.false_eq_true, if_false]
  · intro e he hx hlow hbg
    obtain ⟨q, idx, h1, h2⟩ := renderSpritePixel_entry0 p c hc e he hx hlow hbg
    refine ⟨q, idx, h1, h2, ?_⟩
    rw [h2, testBit_or]
    simp

set_option maxRecDepth 100000 in
/-- Witness of C35: with Mask = 0x0E the dot 32 of the scanline 30 stores the sprite palette
index 0x11 in the scanline buffer, and Status stays 0. -/
theorem sprite_disabled_witness :
    (spriteOffExample.maskReg.value &&& 0x10) = 0 ∧
    ((ppu.PPU.ExecuteCycles (fun _ => 0) spriteOffExample 1).map fun q =>
      (q.currentScanline, q.currentCycle, q.scanlineOffscreenBuffer 32, q.statusReg.value))
      = some (30, 32, 0x11, 0) ∧
    ∃ q idx, ppu.renderSpritePixel spriteOffExample 32 = some q ∧
      q.scanlineOffscreenBuffer 32 = 0x10 ||| idx ∧
      (q.scanlineOffscreenBuffer 32).testBit 4 = true ∧ q.statusReg = spriteOffExample.statusReg := by
  obtain ⟨⟨q0, g1, g2⟩, -, h⟩ := sprite_disabled spriteOffExample 32 (by decide) (by decide)
  obtain ⟨q, idx, h1, h2, h3⟩ := h _ rfl (by decide) (by decide) (by decide)
  rw [h1] at g1
  have hq : q = q0 := Option.some.inj g1
  rw [← hq] at g2
  exact ⟨by decide, rfl, q, idx, h1, h2, h3, g2⟩

/-- C39. Over the plain read/write memory, let JSR (opcode 0x20) stand at p = PC with
p <= 0xFFFC and the operand bytes lo and hi, let the target t = 256 * hi + lo hold RTS (opcode
0x60) and be neither of the two stack slots 0x0100 + S and 0x0100 + (S - 1) mod 256, and let no
interrupt be pending.  ExecuteOp takes 6 cycles, pushes the high byte of p + 2 at 0x0100 + S
and the low byte of p + 2 at 0x0100 + (S - 1) mod 256, and sets PC to t; the next ExecuteOp
takes 6 cycles and leaves PC = p + 3, S as it was before the JSR, and A, X, Y, P and the memory
left by the JSR unchanged. -/
theorem jsr_rts (cpu : CPU TestCPUMemory) (lo hi : Int)
    (hint : cpu.pendingInterrupt = 0) (hPC : 0 ≤ cpu.PC ∧ cpu.PC ≤ 0xFFFC)
    (hS : 0 ≤ cpu.S ∧ cpu.S ≤ 255)
    (hop : cpu.memory.mem cpu.PC = 0x20)
    (hlo : cpu.memory.mem (cpu.PC + 1) = lo) (hhi : cpu.memory.mem (cpu.PC + 2) = hi)
    (hbl : IsByte lo) (hbh : IsByte hi)
    (hrts : cpu.memory.mem (256 * hi + lo) = 0x60)
    (hs1 : 256 * hi + lo ≠ 0x0100 + cpu.S)
    (hs2 : 256 * hi + lo ≠ 0x0100 + (cpu.S - 1) % 256) :
    ∃ cpu1 cpu2, ExecuteOp cpu = some (6, cpu1) ∧ ExecuteOp cpu1 = some (6, cpu2) ∧
      cpu1.PC = 256 * hi + lo ∧ cpu1.S = (cpu.S - 2) % 256 ∧
      cpu1.memory.mem (0x0100 + cpu.S) = (cpu.PC + 2) / 256 ∧
      cpu1.memory.mem (0x0100 + (cpu.S - 1) % 256) = (cpu.PC + 2) % 256 ∧
      (∀ a, a ≠ 0x0100 + cpu.S → a ≠ 0x0100 + (cpu.S - 1) % 256 →
        cpu1.memory.mem a = cpu.memory.mem a) ∧
      cpu2.PC = cpu.PC + 3 ∧ cpu2.S = cpu.S ∧ cpu2.A = cpu.A ∧ cpu2.X = cpu.X ∧
      cpu2.Y = cpu.Y ∧ cpu2.P = cpu.P ∧ cpu2.memory = cpu1.memory := by
  unfold IsByte at hbl hbh
  have hword : 0xFFFF &&& (shl hi 8 ||| lo) = 256 * hi + lo := by
    rw [word_of_bytes _ _ hbh hbl]; ring
  -- the JSR
  have e1 : ExecuteOp cpu = some (6, { cpu with
      PC := 256 * hi + lo, OpCycles := 6, S := (cpu.S - 2) % 256
      memory := ⟨fun a => if a = 0x0100 + (cpu.S - 1) % 256 then (cpu.PC + 2) % 256
        else if a = 0x0100 + cpu.S then (cpu.PC + 2) / 256 else cpu.memory.mem a⟩ }) := by
    have hfetch : readsAs cpu.memory cpu.PC 0x20 := by
      have hr : 0 ≤ cpu.PC ∧ cpu.PC < 64 * 1024 := by omega
      simp only [readsAs, CPUMemory.Read, TestCPUMemory.Read, hr, and_self, if_true, hop]
    rw [ExecuteOp_fetch cpu 0x20 6 hint hfetch opCyclesLengthAt_0x20, executeOp_0x20]
    have e2 : cpu.PC + 1 + 1 = cpu.PC + 2 := by ring
    have e3 : cpu.PC + 2 + 1 - 1 = cpu.PC + 2 := by ring
    have e4 : ((cpu.S - 1) % 256 - 1) % 256 = (cpu.S - 2) % 256 := by omega
    simp only [opJSR, calculateMemoryAddress, calculateMemoryAddressABS, Option.bind_eq_bind]
    rw [readMemory_plain _ _ (by omega)]
    simp only [Option.some_bind]
    rw [readMemory_plain _ _ (by omega)]
    simp only [Option.some_bind]
    rw [push_plain _ _ (by first | omega | (dsimp only; omega))]
    simp only [Option.some_bind]
    rw [push_plain _ _ (by first | omega | (dsimp only; omega))]
    simp only [hlo, e2, hhi, hword, e3, e4, shr_eq_div, and_0xFF, Option.some_bind]
    norm_num
  have k : ∃ cpu1 : CPU TestCPUMemory, ExecuteOp cpu = some (6, cpu1) ∧
      cpu1.PC = 256 * hi + lo ∧ cpu1.S = (cpu.S - 2) % 256 ∧
      cpu1.memory.mem = (fun a => if a = 0x0100 + (cpu.S - 1) % 256 then (cpu.PC + 2) % 256
        else if a = 0x0100 + cpu.S then (cpu.PC + 2) / 256 else cpu.memory.mem a) ∧
      cpu1.A = cpu.A ∧ cpu1.X = cpu.X ∧ cpu1.Y = cpu.Y ∧ cpu1.P = cpu.P ∧
      cpu1.pendingInterrupt = 0 :=
    ⟨_, e1, rfl, rfl, rfl, rfl, rfl, rfl, rfl, hint⟩
  obtain ⟨cpu1, e1, f1, f2, f3, f4, f5, f6, f7, f8⟩ := k
  have nS : ¬ (0x0100 + cpu.S = 0x0100 + (cpu.S - 1) % 256) := by omega
  -- the RTS
  have e2 : ExecuteOp cpu1
      = some (6, { cpu1 with PC := cpu.PC + 3, S := cpu.S, OpCycles := 6 }) := by
    have hfetch : readsAs cpu1.memory cpu1.PC 0x60 := by
      have hr : 0 ≤ cpu1.PC ∧ cpu1.PC < 64 * 1024 := by rw [f1]; omega
      simp only [readsAs, CPUMemory.Read, TestCPUMemory.Read, hr, and_self, if_true]
      rw [f3, f1]
      simp only [if_neg hs2, if_neg hs1, hrts]
    rw [ExecuteOp_fetch cpu1 0x60 6 f8 hfetch opCyclesLengthAt_0x60, executeOp_0x60]
    have hl : (cpu1.S + 1) % 256 = (cpu.S - 1) % 256 := by rw [f2]; omega
    have hh : ((cpu.S - 1) % 256 + 1) % 256 = cpu.S := by omega
    have hw : shl ((cpu.PC + 2) / 256) 8 ||| (cpu.PC + 2) % 256 = cpu.PC + 2 := by
      rw [shl_eq_mul, or_disjoint _ _ 8 (by omega) (by omega) (by norm_num; omega)]
      norm_num
      omega
    simp only [opRTS, Option.bind_eq_bind]
    rw [pop_plain _ (by dsimp only; rw [f2]; omega)]
    simp only [Option.some_bind]
    rw [pop_plain _ (by dsimp only; omega)]
    simp only [Option.some_bind, hl, hh, f3, if_true, if_neg nS, hw]
    norm_num
    ring
  refine ⟨cpu1, _, e1, e2, f1, f2, ?_, ?_, ?_, rfl, rfl, f4, f5, f6, f7, rfl⟩
  · rw [f3]
    simp only [if_neg nS, if_true]
  · rw [f3]
    simp only [if_true]
  · intro a h1 h2
    rw [f3]
    simp only [if_neg h2, if_neg h1]

/-- Witness of C39: `JSR $9000` at 0x80FE with `S = 0x00`; the return address 0x8100 is pushed
at 0x0100 and 0x01FF, and the RTS returns to 0x8101 with `S = 0x00` again. -/
theorem jsr_rts_witness :
    ∃ cpu1 cpu2, ExecuteOp jsrExample = some (6, cpu1) ∧ ExecuteOp cpu1 = some (6, cpu2) ∧
      cpu1.PC = 0x9000 ∧ cpu1.S = 0xFE ∧ cpu1.memory.mem 0x0100 = 0x81 ∧
      cpu1.memory.mem 0x01FF = 0x00 ∧
      cpu2.PC = 0x8101 ∧ cpu2.S = 0x00 ∧ cpu2.A = 0x11 ∧ cpu2.X = 0x22 ∧ cpu2.Y = 0x33 ∧
      cpu2.P = flagR ||| flagC := by
  obtain ⟨cpu1, cpu2, e1, e2, a1, a2, a3, a4, _, a6, a7, a8, a9, a10, a11, _⟩ :=
    jsr_rts jsrExample 0x00 0x90 rfl (by decide) (by decide) rfl rfl rfl (by decide)
      (by decide) rfl (by decide) (by decide)
  exact ⟨cpu1, cpu2, e1, e2, a1, a2, a3, a4, a6, a7, a8, a9, a10, a11⟩

/-- C37. Over the plain memory, with a byte in A and the effective address `a` inside the
64 KiB, whatever the cell `a` holds and whatever the flags, each unofficial read-modify-write
handler returns, and the state it returns (A, P, the memory and
every other field) is the one its two official halves produce when run in sequence at `a`:
DCP = DEC then CMP, ISC = INC then SBC, SLO = ASL then ORA, RLA = ROL then AND and
RRA = ROR then ADC. The last part says what the halves are: each official handler is the
address calculation followed by its part `..At` (the shifts in a mode other than ACC, ADC and
SBC in binary mode, the only one the NES uses). -/
theorem unofficial_rmw (cpu c : CPU TestCPUMemory) (mode : AddrMode) (a : Int)
    (hcalc : calculateMemoryAddress cpu mode = some (a, c))
    (ha : 0 ≤ a ∧ a < 64 * 1024) (hA : IsByte cpu.A) :
    (Returns (opDCP cpu mode) ∧ opDCP cpu mode = (decAt c a).bind (fun c1 => cmpAt c1 a)) ∧
    (Returns (opISC cpu mode) ∧ opISC cpu mode = (incAt c a).bind (fun c1 => sbcAt c1 a)) ∧
    (Returns (opSLO cpu mode) ∧ opSLO cpu mode = (aslAt c a).bind (fun c1 => oraAt c1 a)) ∧
    (Returns (opRLA cpu mode) ∧ opRLA cpu mode = (rolAt c a).bind (fun c1 => andAt c1 a)) ∧
    (Returns (opRRA cpu mode) ∧ opRRA cpu mode = (rorAt c a).bind (fun c1 => adcAt c1 a)) ∧
    (∀ (c0 c1 : CPU TestCPUMemory) (m : AddrMode),
      calculateMemoryAddress c0 m = some (a, c1) →
        opDEC c0 m = decAt c1 a ∧ opINC c0 m = incAt c1 a ∧ opCMP c0 m = cmpAt c1 a ∧
        opORA c0 m = oraAt c1 a ∧ opAND c0 m = andAt c1 a ∧
        (m ≠ ACC → opASL c0 m = aslAt c1 a ∧ opROL c0 m = rolAt c1 a ∧
          opROR c0 m = rorAt c1 a) ∧
        (c0.decimalModeSupported = false →
          opADC c0 m = adcAt c1 a ∧ opSBC c0 m = sbcAt c1 a)) := by
  have hA1 : IsByte c.A := by rw [calculateMemoryAddress_A cpu c mode a hcalc]; exact hA
  obtain ⟨-, -, -, -, -, -, d1, d2, d3, d4, -, d6, -⟩ := handlers_at cpu mode
  rw [d1, d2, d3, d4, d6, hcalc]
  simp only [Option.some_bind]
  refine ⟨?_, ?_, ?_, ?_, ?_, ?_⟩
  · exact dcpAt_eq c a ha hA1
  · exact iscAt_eq c a ha
  · exact sloAt_eq c a ha
  · exact rlaAt_eq c a ha
  · exact rraAt_eq c a ha
  · intro c0 c1 m h
    obtain ⟨e1, e2, e3, e4, -, e6, -, -, -, -, -, -, e13⟩ := handlers_at c0 m
    rw [e1, e2, e3, e4, e6, h]
    refine ⟨rfl, rfl, rfl, rfl, rfl, fun hm => ?_, fun hd => ?_⟩
    · obtain ⟨f1, -, f3, f4⟩ := e13 hm
      rw [f1, f3, f4, h]
      exact ⟨rfl, rfl, rfl⟩
    · obtain ⟨g1, g2⟩ := arith_handlers_at c0 m hd
      rw [g1, g2, h]
      exact ⟨rfl, rfl⟩

/-- Witness of C37: the five handlers in zero-page mode on the cell 0x10 holding 0x7F, with
`A = 0x80` and the carry set. -/
theorem unofficial_rmw_witness :
    calculateMemoryAddress rmwExample ZP
      = some (0x10, { rmwExample with PC := 0x8002 }) ∧
    opDCP rmwExample ZP = (decAt { rmwExample with PC := 0x8002 } 0x10).bind
      (fun c1 => cmpAt c1 0x10) ∧
    opISC rmwExample ZP = (incAt { rmwExample with PC := 0x8002 } 0x10).bind
      (fun c1 => sbcAt c1 0x10) ∧
    opSLO rmwExample ZP = (aslAt { rmwExample with PC := 0x8002 } 0x10).bind
      (fun c1 => oraAt c1 0x10) ∧
    opRLA rmwExample ZP = (rolAt { rmwExample with PC := 0x8002 } 0x10).bind
      (fun c1 => andAt c1 0x10) ∧
    opRRA rmwExample ZP = (rorAt { rmwExample with PC := 0x8002 } 0x10).bind
      (fun c1 => adcAt c1 0x10) := by
  have h := unofficial_rmw rmwExample { rmwExample with PC := 0x8002 } ZP 0x10 rfl
    (by decide) (by decide)
  exact ⟨rfl, h.1.2, h.2.1.2, h.2.2.1.2, h.2.2.2.1.2, h.2.2.2.2.1.2⟩

/-- C36. Over the plain memory, with a byte `M` at the effective address `a`, SRE and the
sequence LSR then EOR at `a` both return; they leave the same A (`A xor (M >> 1)`), the same
memory (the cell `a` holds `M >> 1`) and the same bits of P apart from bit 1, the zero flag:
C is bit 0 of `M` and N is bit 7 of the new A. The zero flag differs: the sequence sets it when
the new A is 0, SRE sets it when `M >> 1` is 0. -/
theorem sre_lsr_eor (cpu : CPU TestCPUMemory) (a : Int) (ha : 0 ≤ a ∧ a < 64 * 1024)
    (hM : IsByte (cpu.memory.mem a)) :
    ∃ r q, sreAt cpu a = some r ∧ (lsrAt cpu a).bind (fun c => eorAt c a) = some q ∧
      r.A = cpu.A ^^^ (cpu.memory.mem a / 2) ∧ q.A = r.A ∧
      r.memory.mem a = cpu.memory.mem a / 2 ∧ q.memory = r.memory ∧
      (∀ k, k ≠ 1 → q.P.testBit k = r.P.testBit k) ∧
      (flagSet r.P flagC ↔ cpu.memory.mem a % 2 = 1) ∧
      (flagSet r.P flagN ↔ r.A.testBit 7 = true) ∧
      (flagSet q.P flagZ ↔ q.A = 0) ∧
      (flagSet r.P flagZ ↔ cpu.memory.mem a / 2 = 0) := by
  have e1 : Returns (sreAt cpu a) := by
    simp only [sreAt, Option.bind_eq_bind, readMemory_plain _ a ha, Option.some_bind,
      writeMemory_plain _ a _ ha]
    exact Returns_some _
  have e2 : Returns ((lsrAt cpu a).bind (fun c => eorAt c a)) := by
    simp only [lsrAt, eorAt, opLSRInt, opEORInt, Option.bind_eq_bind, readMemory_plain _ a ha,
      Option.some_bind, writeMemory_plain _ a _ ha]
    exact Returns_some _
  obtain ⟨r, hr⟩ := e1
  obtain ⟨q, hq⟩ := e2
  refine ⟨r, q, hr, hq, ?_⟩
  simp only [sreAt, Option.bind_eq_bind, readMemory_plain _ a ha, Option.some_bind,
    writeMemory_plain _ a _ ha, lsr_byte _ hM] at hr
  simp only [lsrAt, eorAt, opLSRInt, opEORInt, Option.bind_eq_bind, readMemory_plain _ a ha,
    Option.some_bind, writeMemory_plain _ a _ ha, lsr_byte _ hM, if_true] at hq
  cases hr
  cases hq
  refine ⟨rfl, rfl, if_pos rfl, rfl, ?_, ?_, ?_, ?_, ?_⟩
  · intro k hk
    simp only [ite_or_flag, testBit_or, testBit_andNot, testBit_ite_zero, flagN_testBit,
      flagZ_testBit, flagC_testBit]
    by_cases h7 : k = 7 <;> by_cases h0 : k = 0 <;> simp [h7, h0, hk]
  · unfold flagSet
    rw [and_bit_ne_zero _ _ 0 flagC_testBit]
    simp only [ite_or_flag, testBit_or, testBit_andNot, testBit_ite_zero, flagN_testBit,
      flagZ_testBit, flagC_testBit, ← and_0x01_ne]
    simp
  · unfold flagSet
    rw [and_bit_ne_zero _ _ 7 flagN_testBit]
    simp only [ite_or_flag, testBit_or, testBit_andNot, testBit_ite_zero, flagN_testBit,
      flagZ_testBit, flagC_testBit, and_bit_ne_zero _ _ 7 testBit_128]
    simp
  · unfold flagSet
    rw [and_bit_ne_zero _ _ 1 flagZ_testBit]
    simp only [ite_or_flag, testBit_or, testBit_andNot, testBit_ite_zero, flagN_testBit,
      flagZ_testBit, flagC_testBit]
    simp
  · unfold flagSet
    rw [and_bit_ne_zero _ _ 1 flagZ_testBit]
    simp only [ite_or_flag, testBit_or, testBit_andNot, testBit_ite_zero, flagN_testBit,
      flagZ_testBit, flagC_testBit]
    simp

set_option maxRecDepth 100000 in
/-- Witness of C36: `SRE $10` with `A = 0x01` and the cell 0x10 holding 0x00 takes 5 cycles,
leaves `A = 0x01` and sets the zero flag, which LSR then EOR leaves clear. -/
theorem sre_lsr_eor_witness :
    ∃ r q, ExecuteOp sreExample = some (5, r) ∧
      (lsrAt { sreExample with PC := 0x8002 } 0x10).bind (fun c => eorAt c 0x10) = some q ∧
      r.A = 0x01 ∧ q.A = 0x01 ∧ flagSet r.P flagZ ∧ ¬ flagSet q.P flagZ := by
  obtain ⟨r, q, h1, h2, h3, h4, -, -, -, -, -, h5, h6⟩ :=
    sre_lsr_eor { sreExample with PC := 0x8002 } 0x10 (by decide) (by decide)
  have e : ExecuteOp sreExample = (sreAt { sreExample with PC := 0x8002 } 0x10).bind
      (fun c => some (5, { c with OpCycles := 5 })) := rfl
  rw [h1] at e
  have hA : r.A = 0x01 := by rw [h3]; decide
  refine ⟨_, q, e, h2, hA, by rw [h4, hA], h6.2 (by decide), ?_⟩
  intro hz
  have := h5.1 hz
  rw [h4, hA] at this
  exact absurd this (by decide)

/-- C38. With a PPU attached whose OAM address `a0` is a byte, the write of a page value `p` in
0x00..0x1F to 0x4014 returns (with 513 cycles). Afterwards `OAM[(a0 + i) mod 256]` is the byte
that a CPU read at `256 * p + i` returns before the write, which is the RAM cell
`(256 * p + i) mod 2048`, for every `i` in 0..255; the OAM address is `a0` again; and the RAM
(as the cartridge pointer) is as before. -/
theorem oam_dma {κ ρ ν : Type} [PrgDevice κ] [ppu.VBLReceiver ρ] [ppu.VideoReceiver ν]
    (memory : NESCPUMemory κ (ppu.PPU ρ ν)) (p0 : ppu.PPU ρ ν) (p : Int)
    (hppu : memory.ppu = some p0) (hp : 0 ≤ p ∧ p ≤ 0x1F)
    (ha0 : 0 ≤ p0.sprRAMAddressReg.value ∧ p0.sprRAMAddressReg.value ≤ 255) :
    ∃ m1 p1, CPUMemory.Write memory 0x4014 p = some (513, m1) ∧ m1.ppu = some p1 ∧
      (∀ i : Int, 0 ≤ i ∧ i ≤ 255 →
        CPUMemory.Read memory (256 * p + i)
          = some (memory.ram ((256 * p + i) % 2048), memory) ∧
        p1.sprMemory.ram ((p0.sprRAMAddressReg.value + i) % 256)
          = memory.ram ((256 * p + i) % 2048)) ∧
      p1.sprRAMAddressReg.value = p0.sprRAMAddressReg.value ∧
      m1.ram = memory.ram ∧ m1.cartridge = memory.cartridge := by
  obtain ⟨m1, p1, e, hp1, hram, hcart, hadr, hcells, -⟩ :=
    dmaLoop_oam 256 (le_refl _) memory p0 (256 * p) hppu ha0 (by push_cast; omega)
  have hpage : ((0x4014 : Int) &&& 0xF000) = 0x4000 := by decide
  have hw : CPUMemory.Write memory 0x4014 p = some (513, m1) := by
    show NESCPUMemory.Write memory 0x4014 p = _
    have hs : shl p 8 = 256 * p := by rw [shl_eq_mul]; ring
    simp [NESCPUMemory.Write, hpage, hppu, hs, e]
  refine ⟨m1, p1, hw, hp1, ?_, ?_, hram, hcart⟩
  · intro i hi
    exact ⟨NESCPUMemory.Read_ram memory _ (by omega), hcells i (by push_cast; omega)⟩
  · rw [hadr]; push_cast; omega

/-- Witness of C38: the page 0x02 copied with the OAM address 0xF0; the first byte, from the
RAM cell 0x200, lands in OAM[0xF0] and the byte of the cell 0x210 in OAM[0x00]. -/
theorem oam_dma_witness :
    ∃ m1 p1, CPUMemory.Write dmaExample 0x4014 0x02 = some (513, m1) ∧ m1.ppu = some p1 ∧
      p1.sprMemory.ram 0xF0 = 0x200 % 251 ∧ p1.sprMemory.ram 0x00 = 0x210 % 251 ∧
      p1.sprRAMAddressReg.value = 0xF0 ∧ m1.ram = dmaExample.ram := by
  obtain ⟨m1, p1, h1, h2, h3, h4, h5, -⟩ :=
    oam_dma dmaExample _ 0x02 rfl (by decide) (by decide)
  exact ⟨m1, p1, h1, h2, (h3 0 (by decide)).2, (h3 0x10 (by decide)).2, h4, h5⟩

section
variable {σ : Type} [CPUMemory σ]

/-- C40. With an IRQ pending and the I flag set, ExecuteOp returns 0 cycles and the state it
was given, with the pending interrupt none: no opcode is fetched, A, X, Y, S, P, PC and the
memory are unchanged and the request is gone.  In every other case (no interrupt pending, a
RESET, an NMI, or an IRQ with the I flag clear), on every memory, whatever ExecuteOp returns is
at least 2 cycles, and ExecuteOp does return, with at least 2 cycles, in each of two situations.
First, on every memory that satisfies a condition I under which every access returns and which
every access keeps, as the NES memory with a cartridge and a PPU of the valid shape does, when
the opcode fetched is a byte.  Second, on every memory that satisfies a condition I under which
the accesses at 0..0xFFFF return and which they keep, as the plain memory of 64 KiB also does,
when the stack pointer is a byte and, without a pending interrupt, the program counter is at
most 0xFFFD and the opcode and the byte after it are bytes. -/
theorem masked_irq (cpu : CPU σ) :
    (cpu.pendingInterrupt = IRQ ∧ flagSet cpu.P flagI →
      ExecuteOp cpu = some (0, { cpu with OpCycles := 0, pendingInterrupt := 0 })) ∧
    ((cpu.pendingInterrupt = 0 ∨ cpu.pendingInterrupt = RESET ∨ cpu.pendingInterrupt = NMI ∨
        cpu.pendingInterrupt = IRQ) →
      ¬ (cpu.pendingInterrupt = IRQ ∧ flagSet cpu.P flagI) →
      (∀ c cpu1, ExecuteOp cpu = some (c, cpu1) → 2 ≤ c) ∧
      (∀ I : σ → Prop, MemoryServes I → I cpu.memory →
        (cpu.pendingInterrupt = 0 →
          ∀ op m0, CPUMemory.Read cpu.memory cpu.PC = some (op, m0) → 0 ≤ op ∧ op ≤ 255) →
        ∃ c cpu1, ExecuteOp cpu = some (c, cpu1) ∧ 2 ≤ c) ∧
      ∀ I : σ → Prop, MemoryClosed I → I cpu.memory → 0 ≤ cpu.S ∧ cpu.S ≤ 0xFF →
        (cpu.pendingInterrupt = 0 → (0 ≤ cpu.PC ∧ cpu.PC ≤ 0xFFFD) ∧
          ∀ op m0, CPUMemory.Read cpu.memory cpu.PC = some (op, m0) →
            (0 ≤ op ∧ op ≤ 255) ∧
              ∀ v m, CPUMemory.Read m0 (cpu.PC + 1) = some (v, m) → 0 ≤ v ∧ v ≤ 255) →
        ∃ c cpu1, ExecuteOp cpu = some (c, cpu1) ∧ 2 ≤ c) := by
  constructor
  · rintro ⟨hp, hI⟩
    have h0 : IRQ ≠ 0 := by decide
    have hR : ¬ (IRQ = RESET) := by decide
    have hN : ¬ (IRQ = NMI) := by decide
    have hm : ¬ ((cpu.P &&& flagI) = 0) := hI
    simp only [ExecuteOp, executePendingInterruptOp, hp, h0, hR, hN, hm, if_true, if_false,
      true_and, Option.bind_eq_bind, Option.some_bind]
    exact if_pos h0
  · intro hp hn
    have hcase : cpu.pendingInterrupt = 0 ∨ cpu.pendingInterrupt = RESET ∨
        cpu.pendingInterrupt = NMI ∨ (cpu.pendingInterrupt = IRQ ∧ (cpu.P &&& flagI) = 0) := by
      rcases hp with h | h | h | h
      · exact Or.inl h
      · exact Or.inr (Or.inl h)
      · exact Or.inr (Or.inr (Or.inl h))
      · refine Or.inr (Or.inr (Or.inr ⟨h, ?_⟩))
        by_contra hI
        exact hn ⟨h, hI⟩
    have hlow : ∀ c cpu1, ExecuteOp cpu = some (c, cpu1) → 2 ≤ c :=
      fun c cpu1 e => ExecuteOp_cycles cpu hcase (c, cpu1) e
    refine ⟨hlow, ?_, ?_⟩
    · intro I hS hI hop
      obtain ⟨⟨c, cpu1⟩, e⟩ := ExecuteOp_serves hS cpu hI hop
      exact ⟨c, cpu1, e, hlow c cpu1 e⟩
    · intro I hC hI hS hop
      obtain ⟨⟨c, cpu1⟩, e⟩ := ExecuteOp_sound hC cpu ⟨hI, hS⟩ hop
      exact ⟨c, cpu1, e, hlow c cpu1 e⟩

end

/-- Witness of C40.  Over the plain memory of one example: with the IRQ pending and I set
ExecuteOp returns 0 cycles; with I clear it returns at least 2; without the interrupt it
returns at least 2.  Over the NES memory with a cartridge and a PPU, `STA $4014` returns at
least 2. -/
theorem masked_irq_witness :
    (maskedIrqExample.pendingInterrupt = IRQ ∧ flagSet maskedIrqExample.P flagI) ∧
    ExecuteOp maskedIrqExample
      = some (0, { maskedIrqExample with OpCycles := 0, pendingInterrupt := 0 }) ∧
    (∃ c cpu1, ExecuteOp { maskedIrqExample with P := flagR } = some (c, cpu1) ∧ 2 ≤ c) ∧
    (∃ c cpu1, ExecuteOp unmaskedExample = some (c, cpu1) ∧ 2 ≤ c) ∧
    ∃ c cpu1, ExecuteOp staOamExample = some (c, cpu1) ∧ 2 ≤ c :=
  ⟨⟨rfl, by decide⟩, (masked_irq maskedIrqExample).1 ⟨rfl, by decide⟩,
    ((masked_irq { maskedIrqExample with P := flagR }).2 (Or.inr (Or.inr (Or.inr rfl)))
      (by decide)).2.2 _ testMemory_closed trivial (by decide)
      (fun h => absurd h (by decide)),
    ((masked_irq unmaskedExample).2 (Or.inl rfl) (by decide)).2.2 _ testMemory_closed
      trivial (by decide)
      (fun _ => ⟨by decide, fun op m0 h => by
        have e : CPUMemory.Read unmaskedExample.memory unmaskedExample.PC
            = some (0xEA, unmaskedExample.memory) := rfl
        rw [e] at h
        cases h
        refine ⟨by decide, fun v m h2 => ?_⟩
        have e2 : CPUMemory.Read unmaskedExample.memory (unmaskedExample.PC + 1)
            = some (0xEA, unmaskedExample.memory) := rfl
        rw [e2] at h2
        cases h2
        decide⟩),
    ((masked_irq staOamExample).2 (Or.inl rfl) (by decide)).2.1 _
      (nesMemory_serves devicesClosed_valid) (nesExample_within _ ppuExample.statusReg)
      (fun _ op m0 h => by
        have e : CPUMemory.Read staOamExample.memory staOamExample.PC
            = some (0x8D, staOamExample.memory) := rfl
        rw [e] at h
        cases h
        decide)⟩

end Nesrs
